import Mathlib

/-!
# VC4C: operation codes, constant evaluation and ALU instructions

A shallow embedding of `src/asm/OpCodes.cpp` and `src/asm/ALUInstruction.cpp`.
Machine integers are natural numbers reduced modulo `2 ^ 32` where the C++ code
wraps; functions that can throw return `Except Error _`; the evaluator's
"cannot fold" result `NO_VALUE` is `none`.
-/

set_option autoImplicit false

namespace vc4c

/-! ## Errors -/

/-- The ways in which an embedded function ends without a result: the exceptions it can
raise, and `noReturn` for a call that does not come back. -/
inductive Error
  /-- CompilationError "Opcode specified for wrong ALU" -/
  | wrongALU
  /-- CompilationError "No machine code operation for this op-code" -/
  | noMachineCode
  /-- CompilationError "Unhandled op-code" -/
  | unhandledOpCode
  /-- The exception of `std::array::at` and `std::vector::at` for an index out of range -/
  | outOfRange
  /-- Reading the value of an empty `Optional` -/
  | emptyOptional
  /-- CompilationError "Unsupported condition" and "Unsupported conditions" -/
  | unsupportedCondition
  /-- CompilationError "Invalid condition for branch" -/
  | invalidBranchCondition
  /-- CompilationError "Unsupported unpack-mode" -/
  | unsupportedUnpackMode
  /-- CompilationError "Unsupported pack-mode" -/
  | unsupportedPackMode
  /-- CompilationError "32-bit saturation is not implemented" -/
  | saturationNotImplemented
  /-- No exception: a loop whose `unsigned char` counter wraps to 0 after 255 and so never
  reaches its bound; the call does not return -/
  | noReturn
deriving DecidableEq, Repr

deriving instance DecidableEq for Except

/-! ## Operation codes -/

/-- The fields of `OpCode`: mnemonic, encoding on the add ALU, encoding on the mul ALU,
operand count and the two float flags. -/
structure OpCode where
  name : String
  opAdd : Nat
  opMul : Nat
  numOperands : Nat
  acceptsFloat : Bool
  returnsFloat : Bool
deriving DecidableEq, Repr

namespace OpCode

/-- Embeds `OpCode::operator==`. -/
def eq (l r : OpCode) : Bool :=
  if l.opAdd > 0 ∧ l.opAdd = r.opAdd then true
  else if l.opMul > 0 ∧ l.opMul = r.opMul then true
  else if l.opAdd = 0 ∧ l.opMul = 0 ∧ r.opAdd = 0 ∧ r.opMul = 0 then true
  else false

/-- Embeds `OpCode::operator!=`. -/
def ne (l r : OpCode) : Bool := !(eq l r)

/-- Embeds `OpCode::operator<`. -/
def lt (l r : OpCode) : Bool := decide (l.opAdd < r.opAdd ∨ l.opMul < r.opMul)

/-- Modelled from the spec: `OpCode::runsOnAddALU` is declared in OpCodes.h, which is not
among the sources. An operation is eligible for the add pipeline when it has an encoding
there ("a real operation always has a non-zero encoding on at most the pipelines it can
run on"). -/
def runsOnAddALU (op : OpCode) : Bool := op.opAdd != 0

/-- Modelled from the spec: `OpCode::runsOnMulALU`, declared in OpCodes.h like
`runsOnAddALU`: the operation has a non-zero encoding on the mul pipeline. -/
def runsOnMulALU (op : OpCode) : Bool := op.opMul != 0

end OpCode

/-! ### The operation constants

Modelled from the spec: the `OP_*` constants are declared in OpCodes.h, which is not among
the sources. Each has its mnemonic as name, and its encodings are the indices at which
`addCodes` and `mulCodes` list it ("a fixed lookup table indexed exactly by the hardware
encoding", and the note on the tables: "the indices MUST correspond to the op-codes");
`OP_FMAX`, which `addCodes` does not list, has the hardware's encoding 4 on the add ALU,
between `fmin` (3) and `fminabs` (5). -/

/-- Modelled from the spec: no-op, encoding 0 on both pipelines, no operands. -/
def OP_NOP : OpCode := ⟨"nop", 0, 0, 0, false, false⟩
/-- Modelled from the spec: float addition, add encoding 1. -/
def OP_FADD : OpCode := ⟨"fadd", 1, 0, 2, true, true⟩
/-- Modelled from the spec: float subtraction, add encoding 2. -/
def OP_FSUB : OpCode := ⟨"fsub", 2, 0, 2, true, true⟩
/-- Modelled from the spec: float minimum, add encoding 3. -/
def OP_FMIN : OpCode := ⟨"fmin", 3, 0, 2, true, true⟩
/-- Modelled from the spec: float maximum, add encoding 4. -/
def OP_FMAX : OpCode := ⟨"fmax", 4, 0, 2, true, true⟩
/-- Modelled from the spec: float minimum of absolute values, add encoding 5. -/
def OP_FMINABS : OpCode := ⟨"fminabs", 5, 0, 2, true, true⟩
/-- Modelled from the spec: float maximum of absolute values, add encoding 6. -/
def OP_FMAXABS : OpCode := ⟨"fmaxabs", 6, 0, 2, true, true⟩
/-- Modelled from the spec: float to integer conversion, add encoding 7. -/
def OP_FTOI : OpCode := ⟨"ftoi", 7, 0, 1, true, false⟩
/-- Modelled from the spec: integer to float conversion, add encoding 8. -/
def OP_ITOF : OpCode := ⟨"itof", 8, 0, 1, false, true⟩
/-- Modelled from the spec: integer addition, add encoding 12. -/
def OP_ADD : OpCode := ⟨"add", 12, 0, 2, false, false⟩
/-- Modelled from the spec: integer subtraction, add encoding 13. -/
def OP_SUB : OpCode := ⟨"sub", 13, 0, 2, false, false⟩
/-- Modelled from the spec: logical shift right, add encoding 14. -/
def OP_SHR : OpCode := ⟨"shr", 14, 0, 2, false, false⟩
/-- Modelled from the spec: arithmetic shift right, add encoding 15. -/
def OP_ASR : OpCode := ⟨"asr", 15, 0, 2, false, false⟩
/-- Modelled from the spec: rotate right, add encoding 16. -/
def OP_ROR : OpCode := ⟨"ror", 16, 0, 2, false, false⟩
/-- Modelled from the spec: shift left, add encoding 17. -/
def OP_SHL : OpCode := ⟨"shl", 17, 0, 2, false, false⟩
/-- Modelled from the spec: integer minimum, add encoding 18. -/
def OP_MIN : OpCode := ⟨"min", 18, 0, 2, false, false⟩
/-- Modelled from the spec: integer maximum, add encoding 19. -/
def OP_MAX : OpCode := ⟨"max", 19, 0, 2, false, false⟩
/-- Modelled from the spec: bitwise and, add encoding 20. -/
def OP_AND : OpCode := ⟨"and", 20, 0, 2, false, false⟩
/-- Modelled from the spec: bitwise or, add encoding 21. -/
def OP_OR : OpCode := ⟨"or", 21, 0, 2, false, false⟩
/-- Modelled from the spec: bitwise exclusive or, add encoding 22. -/
def OP_XOR : OpCode := ⟨"xor", 22, 0, 2, false, false⟩
/-- Modelled from the spec: bitwise not, add encoding 23, one operand. -/
def OP_NOT : OpCode := ⟨"not", 23, 0, 1, false, false⟩
/-- Modelled from the spec: count leading zeros, add encoding 24, one operand. -/
def OP_CLZ : OpCode := ⟨"clz", 24, 0, 1, false, false⟩
/-- Modelled from the spec: packed-byte saturating add, add encoding 30, mul encoding 6. -/
def OP_V8ADDS : OpCode := ⟨"v8adds", 30, 6, 2, false, false⟩
/-- Modelled from the spec: packed-byte saturating subtract, add encoding 31, mul
encoding 7. -/
def OP_V8SUBS : OpCode := ⟨"v8subs", 31, 7, 2, false, false⟩
/-- Modelled from the spec: float multiplication, mul encoding 1. -/
def OP_FMUL : OpCode := ⟨"fmul", 0, 1, 2, true, true⟩
/-- Modelled from the spec: 24-bit integer multiplication, mul encoding 2. -/
def OP_MUL24 : OpCode := ⟨"mul24", 0, 2, 2, false, false⟩
/-- Modelled from the spec: packed-byte rounded multiply, mul encoding 3. -/
def OP_V8MULD : OpCode := ⟨"v8muld", 0, 3, 2, false, false⟩
/-- Modelled from the spec: packed-byte minimum, mul encoding 4. -/
def OP_V8MIN : OpCode := ⟨"v8min", 0, 4, 2, false, false⟩
/-- Modelled from the spec: packed-byte maximum, mul encoding 5. -/
def OP_V8MAX : OpCode := ⟨"v8max", 0, 5, 2, false, false⟩

/-! ### Registry and decode tables -/

/-- The static multimap `opCodes`, as its initialiser list. No two entries share a key
(`opCodes_keys_nodup`), so the order of the entries makes no difference to `find`. -/
def opCodes : List (String × OpCode) :=
  [(OP_ADD.name, OP_ADD), (OP_AND.name, OP_AND), (OP_ASR.name, OP_ASR), (OP_CLZ.name, OP_CLZ),
   (OP_FADD.name, OP_FADD), (OP_FMAX.name, OP_FMAX), (OP_FMAXABS.name, OP_FMAXABS),
   (OP_FMIN.name, OP_FMIN), (OP_FMINABS.name, OP_FMINABS), (OP_FMUL.name, OP_FMUL),
   (OP_FSUB.name, OP_FSUB), (OP_FTOI.name, OP_FTOI), (OP_ITOF.name, OP_ITOF),
   (OP_MAX.name, OP_MAX), (OP_MIN.name, OP_MIN), (OP_MUL24.name, OP_MUL24),
   (OP_NOP.name, OP_NOP), (OP_NOT.name, OP_NOT), (OP_OR.name, OP_OR), (OP_ROR.name, OP_ROR),
   (OP_SHL.name, OP_SHL), (OP_SHR.name, OP_SHR), (OP_SUB.name, OP_SUB),
   (OP_V8ADDS.name, OP_V8ADDS), (OP_V8MAX.name, OP_V8MAX), (OP_V8MIN.name, OP_V8MIN),
   (OP_V8MULD.name, OP_V8MULD), (OP_V8SUBS.name, OP_V8SUBS), (OP_XOR.name, OP_XOR)]

/-- The static array `addCodes`. -/
def addCodes : List OpCode :=
  [OP_NOP, OP_FADD, OP_FSUB, OP_FMIN, OP_MAX, OP_FMINABS, OP_FMAXABS,
   OP_FTOI, OP_ITOF, OP_NOP, OP_NOP, OP_NOP, OP_ADD, OP_SUB, OP_SHR, OP_ASR, OP_ROR, OP_SHL,
   OP_MIN, OP_MAX, OP_AND, OP_OR, OP_XOR, OP_NOT, OP_CLZ, OP_NOP, OP_NOP, OP_NOP, OP_NOP,
   OP_NOP, OP_V8ADDS, OP_V8SUBS]

/-- The static array `mulCodes`. -/
def mulCodes : List OpCode :=
  [OP_NOP, OP_FMUL, OP_MUL24, OP_V8MULD, OP_V8MIN, OP_V8MAX, OP_V8ADDS, OP_V8SUBS]

/-- The checked element access `at` of `std::array` and `std::vector`. -/
def at? {α : Type} (xs : List α) (i : Nat) : Except Error α :=
  match xs.get? i with
  | some x => .ok x
  | none => .error .outOfRange

namespace OpCode

/-- Embeds `OpCode::toOpCode(unsigned char, bool)`. The `throw` that follows the
`if`/`else` in the source cannot be reached, since both branches return. -/
def toOpCode (opCode : Nat) (isMulALU : Bool) : Except Error OpCode :=
  if opCode = 0 then .ok OP_NOP
  else if isMulALU then at? mulCodes opCode
  else at? addCodes opCode

/-- Embeds `OpCode::findOpCode`: `multimap::find` gives an entry with the key, or
`end()` when there is none. -/
def findOpCode (name : String) : OpCode :=
  match opCodes.find? (fun e => e.1 = name) with
  | some e => e.2
  | none => OP_NOP

/-- Embeds `OpCode::toOpCode(const std::string&)`. -/
def toOpCodeByName (name : String) : Except Error OpCode :=
  let code := findOpCode name
  if eq code OP_NOP ∧ name ≠ "nop" then .error .noMachineCode else .ok code

end OpCode

/-! ## Data types, literals and values

Types.h and Values.h are not among the sources; the definitions of this section give the
parts of them that the embedded functions use. -/

/-- Modelled from the spec: the kinds of `DataType`: the unknown type, integer and
floating scalars or vectors, and the complex types ("anything wider than the machine's
simple scalar/vector types, including pointer-shaped types"). -/
inductive TypeKind
  | unknown
  | integer
  | floating
  | complex
deriving DecidableEq, Repr

/-- Modelled from the spec: `DataType`, "reporting scalar bit width and vector width". -/
structure DataType where
  kind : TypeKind
  scalarBitCount : Nat
  vectorWidth : Nat
deriving DecidableEq, Repr

namespace DataType

/-- Modelled from the spec: `DataType::getVectorWidth`. -/
def getVectorWidth (t : DataType) : Nat := t.vectorWidth

/-- Modelled from the spec: `DataType::isFloatingType`. -/
def isFloatingType (t : DataType) : Bool := t.kind = TypeKind.floating

/-- Modelled from the spec: `DataType::isSimpleType`: a scalar or a vector of scalars. -/
def isSimpleType (t : DataType) : Bool := t.kind ≠ TypeKind.complex

/-- Modelled from the spec: `DataType::toVectorType`: the same scalar type with the given
number of lanes. -/
def toVectorType (t : DataType) (width : Nat) : DataType := { t with vectorWidth := width }

/-- Modelled from the spec: `DataType::containsType`, the containment predicate: a type
contains itself, and a simple type contains the simple types of its kind that have at
most its scalar width and at most its lanes. -/
def containsType (t other : DataType) : Bool :=
  t = other ∨ (t.kind = other.kind ∧ (t.kind = TypeKind.integer ∨ t.kind = TypeKind.floating) ∧
    other.scalarBitCount ≤ t.scalarBitCount ∧ other.vectorWidth ≤ t.vectorWidth)

end DataType

/-- Modelled from the spec: the type of `UNDEFINED_VALUE`. -/
def TYPE_UNKNOWN : DataType := ⟨.unknown, 0, 1⟩
/-- Modelled from the spec: the 8-bit integer type. -/
def TYPE_INT8 : DataType := ⟨.integer, 8, 1⟩
/-- Modelled from the spec: the 32-bit integer type. -/
def TYPE_INT32 : DataType := ⟨.integer, 32, 1⟩
/-- Modelled from the spec: the 32-bit floating type. -/
def TYPE_FLOAT : DataType := ⟨.floating, 32, 1⟩

/-- Modelled from the spec: `Literal`, a 32-bit word that is read as a signed integer, an
unsigned integer or a float; `u` is the word as an unsigned number. -/
structure Literal where
  u : Nat
deriving DecidableEq, Repr

namespace Literal

/-- Modelled from the spec: `Literal(uint32_t)`. -/
def ofUInt (n : Nat) : Literal := ⟨n % 2 ^ 32⟩

/-- Modelled from the spec: `Literal(int32_t)`, in two's complement. Signed arithmetic
that overflows is taken to wrap. -/
def ofInt (i : Int) : Literal := ⟨(i % 2 ^ 32).toNat⟩

/-- Modelled from the spec: `Literal(float)`, from the binary32 encoding of the float. -/
def ofReal (bits : Nat) : Literal := ⟨bits % 2 ^ 32⟩

/-- Modelled from the spec: `Literal::unsignedInt`. -/
def unsignedInt (l : Literal) : Nat := l.u

/-- Modelled from the spec: `Literal::signedInt`. -/
def signedInt (l : Literal) : Int := if l.u < 2 ^ 31 then (l.u : Int) else (l.u : Int) - 2 ^ 32

/-- Modelled from the spec: `Literal::real`, as the binary32 encoding of the float. -/
def real (l : Literal) : Nat := l.u

end Literal

/-- Modelled from the spec: `SmallImmediate`, the 6-bit encoding of a small constant or of
a vector rotation. -/
structure SmallImmediate where
  value : Nat
deriving DecidableEq, Repr

namespace SmallImmediate

/-- Modelled from the spec: `SmallImmediate::isVectorRotation`: the encodings 48 to 63
("an immediate encoding that denotes a vector-rotation request"). -/
def isVectorRotation (s : SmallImmediate) : Bool := 48 ≤ s.value ∧ s.value ≤ 63

/-- Modelled from the spec: the constant a small immediate stands for: the integers 0 to
15 and -16 to -1, the floats 1.0 to 128.0 and 1/256 to 1/2; none for a rotation. -/
def toLiteral (s : SmallImmediate) : Option Literal :=
  if s.value ≤ 15 then some (Literal.ofInt s.value)
  else if s.value ≤ 31 then some (Literal.ofInt ((s.value : Int) - 32))
  else if s.value ≤ 39 then some (Literal.ofReal ((95 + s.value) * 2 ^ 23))
  else if s.value ≤ 47 then some (Literal.ofReal ((79 + s.value) * 2 ^ 23))
  else none

end SmallImmediate

/-- Modelled from the spec: what a value that is no container holds: a literal, a small
immediate, the undefined marker, or something that is no compile-time constant (a
register or a local, told apart by a number). -/
inductive ScalarData
  | literal (l : Literal)
  | immediate (i : SmallImmediate)
  | undefined
  | nonConstant (id : Nat)
deriving DecidableEq, Repr

/-- Modelled from the spec: one lane of a container: a value that is no container. -/
structure Scalar where
  data : ScalarData
  type : DataType
deriving DecidableEq, Repr

/-- Modelled from the spec: the contents of a `Value`: those of a scalar, or the lanes
of a container ("a fixed-size ordered sequence of per-lane literals"; the code reads the
lanes as values, which need not be literals). -/
inductive ValueData
  | scalar (d : ScalarData)
  | container (elements : List Scalar)
deriving DecidableEq, Repr

/-- Modelled from the spec: `Value`, a typed compile-time datum. -/
structure Value where
  data : ValueData
  type : DataType
deriving DecidableEq, Repr

namespace Scalar

/-- A lane as a value. -/
def toValue (s : Scalar) : Value := ⟨.scalar s.data, s.type⟩

/-- Modelled from the spec: `Value::isUndefined` on a lane. -/
def isUndefined (s : Scalar) : Bool := s.data = ScalarData.undefined

/-- Modelled from the spec: `Value::getLiteralValue` on a lane. -/
def getLiteralValue (s : Scalar) : Option Literal :=
  match s.data with
  | .literal l => some l
  | .immediate i => i.toLiteral
  | _ => none

end Scalar

namespace Value

/-- Modelled from the spec: `Value(const DataType&)`: a value of the type with no known
bits. -/
def ofType (t : DataType) : Value := ⟨.scalar .undefined, t⟩

/-- Modelled from the spec: `Value(const Literal&, const DataType&)`. -/
def ofLiteral (l : Literal) (t : DataType) : Value := ⟨.scalar (.literal l), t⟩

/-- Modelled from the spec: `Value(const ContainerValue&, const DataType&)`. -/
def ofContainer (elements : List Scalar) (t : DataType) : Value := ⟨.container elements, t⟩

/-- Modelled from the spec: `Value::hasContainer`. -/
def hasContainer (v : Value) : Bool :=
  match v.data with
  | .container _ => true
  | _ => false

/-- Modelled from the spec: `Value::container().elements`. -/
def elements (v : Value) : List Scalar :=
  match v.data with
  | .container es => es
  | _ => []

/-- Modelled from the spec: `Value::hasImmediate`. -/
def hasImmediate (v : Value) : Bool :=
  match v.data with
  | .scalar (.immediate _) => true
  | _ => false

/-- Modelled from the spec: `Value::immediate().isVectorRotation()`. -/
def isVectorRotation (v : Value) : Bool :=
  match v.data with
  | .scalar (.immediate i) => i.isVectorRotation
  | _ => false

/-- Modelled from the spec: `Value::getLiteralValue`: the literal of a literal value, the
constant of a small immediate that stands for one; none for every other value. -/
def getLiteralValue (v : Value) : Option Literal :=
  match v.data with
  | .scalar (.literal l) => some l
  | .scalar (.immediate i) => i.toLiteral
  | _ => none

/-- Modelled from the spec: `Value::isUndefined`: the undefined marker, or a container
all of whose lanes are undefined (the evaluator asks this of operands that have a literal
or are a container). -/
def isUndefined (v : Value) : Bool :=
  match v.data with
  | .scalar .undefined => true
  | .container es => es.all Scalar.isUndefined
  | _ => false

/-- Modelled from the spec: `ContainerValue::isAllSame`: all lanes are identical, that is
every lane has the literal of the first lane. -/
def isAllSame (v : Value) : Bool :=
  match v.elements with
  | [] => true
  | e :: es => es.all (fun x => x.getLiteralValue = e.getLiteralValue)

end Value

/-- Modelled from the spec: the shared undefined value, of unknown type. -/
def UNDEFINED_VALUE : Value := Value.ofType TYPE_UNKNOWN
/-- Modelled from the spec: the integer zero. -/
def INT_ZERO : Value := Value.ofLiteral (Literal.ofInt 0) TYPE_INT8
/-- Modelled from the spec: the integer one. -/
def INT_ONE : Value := Value.ofLiteral (Literal.ofInt 1) TYPE_INT8
/-- Modelled from the spec: the float 0.0. -/
def FLOAT_ZERO : Value := Value.ofLiteral (Literal.ofReal 0) TYPE_FLOAT
/-- Modelled from the spec: the float 1.0. -/
def FLOAT_ONE : Value := Value.ofLiteral (Literal.ofReal 0x3F800000) TYPE_FLOAT
/-- Modelled from the spec: the word with all 32 bits set. -/
def VALUE_ALL_BITS_SET : Value := Value.ofLiteral (Literal.ofUInt 0xFFFFFFFF) TYPE_INT32

/-! ## Float arithmetic

The evaluator computes on host floats. Floats are carried as their binary32 encodings.
Comparison and absolute value are fixed by the encoding. The rounding operations are a
parameter of the evaluator (`FloatOps`); `FloatOps.ieee` gives them as IEEE 754
arithmetic with rounding to nearest, ties to even. -/

namespace F32

/-- The sign bit of an encoding. -/
def sign (b : Nat) : Bool := b / 2 ^ 31 % 2 = 1

/-- The exponent field of an encoding. -/
def expo (b : Nat) : Nat := b / 2 ^ 23 % 256

/-- The fraction field of an encoding. -/
def frac (b : Nat) : Nat := b % 2 ^ 23

/-- The encoding without its sign bit. -/
def mag (b : Nat) : Nat := b % 2 ^ 31

/-- Not-a-number encodings. -/
def isNaN (b : Nat) : Bool := expo b = 255 ∧ frac b ≠ 0

/-- The two infinities. -/
def isInf (b : Nat) : Bool := expo b = 255 ∧ frac b = 0

/-- The order key of a float that is no NaN: both zeros have key 0. -/
def key (b : Nat) : Int := if sign b then -(mag b : Int) else (mag b : Int)

/-- The comparison `a < b` of two floats: false when either is a NaN. -/
def lt (a b : Nat) : Bool := !isNaN a && !isNaN b && decide (key a < key b)

/-- What `std::max(a, b)` returns on floats: `(a < b) ? b : a`. -/
def max (a b : Nat) : Nat := if lt a b then b else a

/-- What `std::min(a, b)` returns on floats: `(b < a) ? b : a`. -/
def min (a b : Nat) : Nat := if lt b a then b else a

/-- What `std::fabs` returns: the sign bit cleared. -/
def fabs (a : Nat) : Nat := mag a

/-- The quiet NaN that stands for every NaN result. -/
def qNaN : Nat := 0x7FC00000

/-- The encoding of a magnitude with a sign. -/
def withSign (s : Bool) (m : Nat) : Nat := if s then m + 2 ^ 31 else m

/-- The significand of a finite float, with the hidden bit of a normal one. -/
def sig (b : Nat) : Nat := if expo b = 0 then frac b else frac b + 2 ^ 23

/-- The scale of a finite float: its magnitude is `sig b * 2 ^ scale b` units of
`2 ^ (-149)`. -/
def scale (b : Nat) : Nat := if expo b = 0 then 0 else expo b - 1

/-- The magnitude of a finite float in units of `2 ^ (-149)`. -/
def units (b : Nat) : Nat := sig b * 2 ^ scale b

/-- The number of binary digits of `n`, for `n < 2 ^ fuel`. -/
def bitLen : Nat → Nat → Nat
  | 0, _ => 0
  | fuel + 1, n => if n = 0 then 0 else bitLen fuel (n / 2) + 1

/-- The magnitude nearest to `n / 2 ^ s` units of `2 ^ (-149)`, ties to even; infinity on
overflow. -/
def roundMag (n s : Nat) : Nat :=
  let e := bitLen 1024 n - 24 - s
  let sh := s + e
  let q := n / 2 ^ sh
  let r := n % 2 ^ sh
  let half := 2 ^ sh / 2
  let m := if sh = 0 then n else if r > half ∨ (r = half ∧ q % 2 = 1) then q + 1 else q
  let bits := e * 2 ^ 23 + m
  if bits ≥ 255 * 2 ^ 23 then 255 * 2 ^ 23 else bits

/-- The float nearest to the integer `i` times `2 ^ (-149) / 2 ^ s`; an exact zero gets
the sign `zeroSign`. -/
def ofScaled (i : Int) (s : Nat) (zeroSign : Bool) : Nat :=
  if i = 0 then withSign zeroSign 0 else withSign (decide (i < 0)) (roundMag i.natAbs s)

/-- The magnitude of a finite float as a signed number of units. -/
def signedUnits (b : Nat) : Int := if sign b then -(units b : Int) else (units b : Int)

/-- IEEE 754 addition. -/
def add (a b : Nat) : Nat :=
  if isNaN a ∨ isNaN b then qNaN
  else if isInf a then (if isInf b ∧ sign a ≠ sign b then qNaN else a)
  else if isInf b then b
  else ofScaled (signedUnits a + signedUnits b) 0 (sign a && sign b)

/-- The float with the opposite sign. -/
def neg (a : Nat) : Nat := withSign (!sign a) (mag a)

/-- IEEE 754 subtraction. -/
def sub (a b : Nat) : Nat := if isNaN b then qNaN else add a (neg b)

/-- IEEE 754 multiplication. -/
def mul (a b : Nat) : Nat :=
  if isNaN a ∨ isNaN b then qNaN
  else if isInf a ∨ isInf b then
    (if mag a = 0 ∨ mag b = 0 then qNaN else withSign (sign a != sign b) (255 * 2 ^ 23))
  else withSign (sign a != sign b) (roundMag (units a * units b) 149)

/-- IEEE 754 division. -/
def div (a b : Nat) : Nat :=
  if isNaN a ∨ isNaN b then qNaN
  else if isInf a then (if isInf b then qNaN else withSign (sign a != sign b) (255 * 2 ^ 23))
  else if isInf b then withSign (sign a != sign b) 0
  else if mag b = 0 then
    (if mag a = 0 then qNaN else withSign (sign a != sign b) (255 * 2 ^ 23))
  else
    let q := units a * 2 ^ 512 / units b
    let sticky := if units a * 2 ^ 512 % units b = 0 then 0 else 1
    withSign (sign a != sign b) (roundMag ((2 * q + sticky) * 2 ^ 149) 513)

/-- The float nearest to a 32-bit signed integer, given in two's complement. -/
def ofInt32 (w : Nat) : Nat :=
  if w < 2 ^ 31 then roundMag (w * 2 ^ 149) 0 else withSign true (roundMag ((2 ^ 32 - w) * 2 ^ 149) 0)

/-- The integer part of the magnitude of a finite float. -/
def truncMag (a : Nat) : Nat := units a / 2 ^ 149

/-- The conversion `static_cast<int32_t>` of a float, in two's complement: the integer
part; the word `0x80000000` where the result does not fit. -/
def toInt32 (a : Nat) : Nat :=
  if isNaN a ∨ isInf a then 2 ^ 31
  else if sign a then (if truncMag a ≤ 2 ^ 31 then (2 ^ 32 - truncMag a) % 2 ^ 32 else 2 ^ 31)
  else (if truncMag a < 2 ^ 31 then truncMag a else 2 ^ 31)

/-- The conversion `static_cast<uint32_t>` of a float: the integer part, reduced modulo
`2 ^ 32`; zero where the float is negative or no number. -/
def toUInt32 (a : Nat) : Nat :=
  if isNaN a ∨ isInf a ∨ sign a then 0 else truncMag a % 2 ^ 32

end F32

/-- The host's float operations that round, on binary32 encodings. -/
structure FloatOps where
  /-- The sum `a + b` -/
  add : Nat → Nat → Nat
  /-- The difference `a - b` -/
  sub : Nat → Nat → Nat
  /-- The product `a * b` -/
  mul : Nat → Nat → Nat
  /-- The quotient `a / b` -/
  div : Nat → Nat → Nat
  /-- The conversion `static_cast<int32_t>(a)`, in two's complement -/
  toInt32 : Nat → Nat
  /-- The conversion `static_cast<uint32_t>(a)` -/
  toUInt32 : Nat → Nat
  /-- The conversion `static_cast<float>(i)` of a 32-bit signed integer in two's complement -/
  ofInt32 : Nat → Nat

/-- IEEE 754 binary32 arithmetic with rounding to nearest, ties to even. Every NaN result
is the quiet NaN `F32.qNaN`, and a conversion to an integer that does not fit gives the
fixed words of `F32.toInt32` and `F32.toUInt32`. -/
def FloatOps.ieee : FloatOps :=
  ⟨F32.add, F32.sub, F32.mul, F32.div, F32.toInt32, F32.toUInt32, F32.ofInt32⟩

/-! ## The constant evaluator -/

/-- Embeds the static function `rotate_right`. -/
def rotate_right (value : Nat) (shift : Int) : Nat :=
  let s := (shift % 32).toNat
  if s = 0 then value else (value >>> s ||| value <<< (32 - s)) % 2 ^ 32

namespace intermediate

/-- Modelled from the spec: `intermediate::asr` of intrinsics/Operators.h, which is not
among the sources: the arithmetic shift right of the 32-bit word, the shift count taken
modulo 32. -/
def asr (_type : DataType) (left right : Literal) : Literal :=
  Literal.ofInt (Int.fdiv left.signedInt (2 ^ (right.signedInt % 32).toNat))

/-- Modelled from the spec: `intermediate::clz` of intrinsics/Operators.h: the number of
leading zero bits of the 32-bit word. -/
def clz (_type : DataType) (val : Literal) : Literal :=
  Literal.ofInt ((32 - F32.bitLen 32 (val.unsignedInt % 2 ^ 32) : Nat) : Int)

end intermediate

namespace OpCode

/-- The lambda of the packed-byte branch of `OpCode::operator()`, on `uint32_t`. -/
def v8Lane (op : OpCode) (a b : Nat) : Except Error Nat :=
  if eq op OP_V8ADDS then .ok (min ((a + b) % 2 ^ 32) 255)
  else if eq op OP_V8SUBS then .ok (max (min ((a + 2 ^ 32 - b) % 2 ^ 32) 255) 0)
  else if eq op OP_V8MAX then .ok (max a b)
  else if eq op OP_V8MIN then .ok (min a b)
  else if eq op OP_V8MULD then .ok ((a * b + 127) % 2 ^ 32 / 255)
  else .error .unhandledOpCode

/-- The packed-byte branch of `OpCode::operator()`: the four bytes of both words, the
lambda on each pair, and the word of the four results. -/
def v8Word (op : OpCode) (a b : Nat) : Except Error Nat :=
  match v8Lane op (a &&& 0xFF) (b &&& 0xFF), v8Lane op (a >>> 8 &&& 0xFF) (b >>> 8 &&& 0xFF),
    v8Lane op (a >>> 16 &&& 0xFF) (b >>> 16 &&& 0xFF),
    v8Lane op (a >>> 24 &&& 0xFF) (b >>> 24 &&& 0xFF) with
  | .ok o0, .ok o1, .ok o2, .ok o3 =>
    .ok (((o3 &&& 0xFF) <<< 24) ||| ((o2 &&& 0xFF) <<< 16) ||| ((o1 &&& 0xFF) <<< 8) ||| (o0 &&& 0xFF))
  | .error e, _, _, _ => .error e
  | _, .error e, _, _ => .error e
  | _, _, .error e, _ => .error e
  | _, _, _, .error e => .error e

/-- The chain of comparisons that ends `OpCode::operator()`: the operation on the two
representative literals. Shift counts are taken modulo 32. -/
def evalLiterals (F : FloatOps) (op : OpCode) (firstLit secondLit : Literal)
    (resultType firstType : DataType) : Except Error (Option Value) :=
  if eq op OP_ADD then
    .ok (some (Value.ofLiteral (Literal.ofInt (firstLit.signedInt + secondLit.signedInt)) resultType))
  else if eq op OP_AND then
    .ok (some (Value.ofLiteral (Literal.ofUInt (firstLit.unsignedInt &&& secondLit.unsignedInt)) resultType))
  else if eq op OP_ASR then
    .ok (some (Value.ofLiteral (intermediate.asr resultType firstLit secondLit) resultType))
  else if eq op OP_CLZ then
    .ok (some (Value.ofLiteral (intermediate.clz resultType firstLit) resultType))
  else if eq op OP_FADD then
    .ok (some (Value.ofLiteral (Literal.ofReal (F.add firstLit.real secondLit.real)) resultType))
  else if eq op OP_FMAX then
    .ok (some (Value.ofLiteral (Literal.ofReal (F32.max firstLit.real secondLit.real)) resultType))
  else if eq op OP_FMAXABS then
    .ok (some (Value.ofLiteral
      (Literal.ofReal (F32.max (F32.fabs firstLit.real) (F32.fabs secondLit.real))) resultType))
  else if eq op OP_FMIN then
    .ok (some (Value.ofLiteral (Literal.ofReal (F32.min firstLit.real secondLit.real)) resultType))
  else if eq op OP_FMINABS then
    .ok (some (Value.ofLiteral
      (Literal.ofReal (F32.min (F32.fabs firstLit.real) (F32.fabs secondLit.real))) resultType))
  else if eq op OP_FMUL then
    .ok (some (Value.ofLiteral (Literal.ofReal (F.mul firstLit.real secondLit.real)) resultType))
  else if eq op OP_FSUB then
    .ok (some (Value.ofLiteral (Literal.ofReal (F.sub firstLit.real secondLit.real)) resultType))
  else if eq op OP_FTOI then
    .ok (some (Value.ofLiteral (Literal.ofUInt (F.toInt32 firstLit.real))
      (TYPE_INT32.toVectorType firstType.getVectorWidth)))
  else if eq op OP_ITOF then
    .ok (some (Value.ofLiteral (Literal.ofReal (F.ofInt32 firstLit.unsignedInt))
      (TYPE_FLOAT.toVectorType firstType.getVectorWidth)))
  else if eq op OP_MAX then
    .ok (some (Value.ofLiteral (Literal.ofInt (max firstLit.signedInt secondLit.signedInt)) resultType))
  else if eq op OP_MIN then
    .ok (some (Value.ofLiteral (Literal.ofInt (min firstLit.signedInt secondLit.signedInt)) resultType))
  else if eq op OP_MUL24 then
    .ok (some (Value.ofLiteral (Literal.ofUInt
      ((firstLit.unsignedInt &&& 0xFFFFFF) * (secondLit.unsignedInt &&& 0xFFFFFF))) resultType))
  else if eq op OP_NOT then
    .ok (some (Value.ofLiteral (Literal.ofUInt (2 ^ 32 - 1 - firstLit.unsignedInt % 2 ^ 32)) resultType))
  else if eq op OP_OR then
    .ok (some (Value.ofLiteral (Literal.ofUInt (firstLit.unsignedInt ||| secondLit.unsignedInt)) resultType))
  else if eq op OP_ROR then
    .ok (some (Value.ofLiteral
      (Literal.ofUInt (rotate_right firstLit.unsignedInt secondLit.signedInt)) resultType))
  else if eq op OP_SHL then
    .ok (some (Value.ofLiteral
      (Literal.ofUInt (firstLit.unsignedInt <<< (secondLit.signedInt % 32).toNat)) resultType))
  else if eq op OP_SHR then
    .ok (some (Value.ofLiteral
      (Literal.ofUInt (firstLit.unsignedInt >>> (secondLit.signedInt % 32).toNat)) resultType))
  else if eq op OP_SUB then
    .ok (some (Value.ofLiteral (Literal.ofInt (firstLit.signedInt - secondLit.signedInt)) resultType))
  else if eq op OP_XOR then
    .ok (some (Value.ofLiteral (Literal.ofUInt (firstLit.unsignedInt ^^^ secondLit.unsignedInt)) resultType))
  else if eq op OP_V8ADDS ∨ eq op OP_V8SUBS ∨ eq op OP_V8MAX ∨ eq op OP_V8MIN ∨ eq op OP_V8MULD then
    match v8Word op firstLit.unsignedInt secondLit.unsignedInt with
    | .ok result => .ok (some (Value.ofLiteral (Literal.ofUInt result) resultType))
    | .error e => .error e
  else .ok none

/-- The representative literal of an operand that has a literal or is a container: its
literal, or else that of lane 0 (`container().elements.at(0).getLiteralValue().value()`). -/
def representative (v : Value) : Except Error Literal :=
  match v.getLiteralValue with
  | some l => .ok l
  | none =>
    match at? v.elements 0 with
    | .error e => .error e
    | .ok lane =>
      match lane.getLiteralValue with
      | some l => .ok l
      | none => .error .emptyOptional

/-- The operand of lane `i`: lane `i` of a container (`elements.at(i)`), and a value
that is no container itself. -/
def laneOperand (v : Value) (i : Nat) : Except Error Value :=
  if v.hasContainer then
    match at? v.elements i with
    | .ok lane => .ok lane.toValue
    | .error e => .error e
  else .ok v

/-- The loop of the per-component branch over the lane indices `is`: the result of each
lane is appended to `acc`; the first lane that cannot be folded ends the loop with
`NO_VALUE`, and an exception leaves it. A lane's result is no container
(`applyWith_scalar_result`), so the last case is not reached. -/
def lanesLoop (lane : Nat → Except Error (Option Value)) :
    List Nat → List Scalar → Except Error (Option (List Scalar))
  | [], acc => .ok (some acc)
  | i :: is, acc =>
    match lane i with
    | .error e => .error e
    | .ok none => .ok none
    | .ok (some tmp) =>
      match tmp.data with
      | .scalar d => lanesLoop lane is (acc ++ [⟨d, tmp.type⟩])
      | .container _ => .ok none

/-- The loop `for(unsigned char i = 0; i < numElements; ++i)` of the per-component branch.
The counter is compared with a `size_t` and wraps to 0 after 255: below 256 lanes the loop
visits the lanes 0 to `numElements - 1` and ends. From 256 lanes on the counter never
reaches the bound: the loop visits the lanes 0 to 255 again and again and is left only by
the first of them that cannot be folded or raises; when all 256 give a value the call
does not return. -/
def lanesCounted (lane : Nat → Except Error (Option Value)) (numElements : Nat) :
    Except Error (Option (List Scalar)) :=
  if numElements < 256 then lanesLoop lane (List.range numElements) []
  else
    match lanesLoop lane (List.range 256) [] with
    | .error e => .error e
    | .ok none => .ok none
    | .ok (some _) => .error .noReturn

/-- The body of `OpCode::operator()`, with `self` for the call of `operator()` on the
operands of one lane. -/
def applyWith (F : FloatOps) (self : Value → Option Value → Except Error (Option Value))
    (op : OpCode) (firstOperand secondOperand : Option Value) : Except Error (Option Value) :=
  match firstOperand with
  | none => .ok none
  | some first =>
  if op.numOperands > 1 ∧ secondOperand = none then .ok none
  else if op.numOperands = 1 ∧ first.isUndefined then
    .ok (some (if op.acceptsFloat = op.returnsFloat then Value.ofType first.type else UNDEFINED_VALUE))
  else
  if op.numOperands = 2 ∧ (secondOperand.any fun v => v.isUndefined) then
    .ok (some (if op.acceptsFloat = op.returnsFloat ∧ (secondOperand.any fun v => first.type = v.type)
      then Value.ofType first.type else UNDEFINED_VALUE))
  else applyDefined first secondOperand
where
  /-- The part of the body after the checks for undefined operands. -/
  applyDefined (first : Value) (secondOperand : Option Value) : Except Error (Option Value) :=
    let firstVal : Option Value :=
      if first.getLiteralValue.isSome ∨ first.hasContainer then some first else none
    let secondVal : Option Value :=
      match secondOperand with
      | none => none
      | some second => if second.getLiteralValue.isSome ∨ second.hasContainer then some second else none
    match firstVal with
    | none => .ok none
    | some firstVal => applyConstants firstVal secondVal
  /-- The part of the body after the operands without a literal have been set aside:
  `firstVal` is the first operand, `secondVal` the second or `NO_VALUE`. -/
  applyConstants (firstVal : Value) (secondVal : Option Value) : Except Error (Option Value) :=
    if op.numOperands > 1 ∧ secondVal = none then .ok none
    else if firstVal.hasImmediate ∧ firstVal.isVectorRotation then .ok none
    else if op.numOperands > 1 ∧ (secondVal.any fun v => v.hasImmediate ∧ v.isVectorRotation) then
      .ok none
    else
    let calcPerComponent : Bool :=
      (firstVal.hasContainer ∧ firstVal.elements.length > 1 ∧ ¬ firstVal.isAllSame) ∨
      (op.numOperands > 1 ∧
        (secondVal.any fun v => v.hasContainer ∧ v.elements.length > 1 ∧ ¬ v.isAllSame))
    let resultType : DataType :=
      match secondVal with
      | some v =>
        if op.numOperands > 1 ∧ (v.type.getVectorWidth > firstVal.type.getVectorWidth ∨
          v.type.containsType firstVal.type) then v.type else firstVal.type
      | none => firstVal.type
    if calcPerComponent then
      let numElements := max (if firstVal.hasContainer then firstVal.elements.length else 1)
        (match secondVal with
          | some v => if v.hasContainer then v.elements.length else 1
          | none => 0)
      let lane (i : Nat) : Except Error (Option Value) :=
        match laneOperand firstVal i with
        | .error e => .error e
        | .ok a =>
          if op.numOperands = 1 then self a none
          else
            match secondVal with
            | none => .error .emptyOptional
            | some v =>
              match laneOperand v i with
              | .error e => .error e
              | .ok b => self a (some b)
      match lanesCounted lane numElements with
      | .error e => .error e
      | .ok none => .ok none
      | .ok (some res) => .ok (some (Value.ofContainer res resultType))
    else if firstVal.isUndefined ∨ (op.numOperands > 1 ∧ (secondVal.any fun v => v.isUndefined)) then
      .ok (some UNDEFINED_VALUE)
    else
    match representative firstVal with
    | .error e => .error e
    | .ok firstLit =>
    let second : Except Error Literal :=
      match secondVal with
      | none => .ok (Literal.ofInt 0)
      | some v => if op.numOperands = 1 then .ok (Literal.ofInt 0) else representative v
    match second with
    | .error e => .error e
    | .ok secondLit => evalLiterals F op firstLit secondLit resultType firstVal.type

/-- Embeds `OpCode::operator()` on the operands of one lane, which are no containers:
the call for a lane is not reached from here. -/
def applyLane (F : FloatOps) (op : OpCode) (firstOperand secondOperand : Option Value) :
    Except Error (Option Value) :=
  applyWith F (fun _ _ => .ok none) op firstOperand secondOperand

/-- Embeds `OpCode::operator()`, the constant evaluator. -/
def apply (F : FloatOps) (op : OpCode) (firstOperand secondOperand : Option Value) :
    Except Error (Option Value) :=
  applyWith F (fun a b => applyLane F op (some a) b) op firstOperand secondOperand

end OpCode

namespace OpCode

/-- Embeds `OpCode::getLeftIdentity`. -/
def getLeftIdentity (code : OpCode) : Option Value :=
  if eq code OP_ADD then some INT_ZERO
  else if eq code OP_AND then some VALUE_ALL_BITS_SET
  else if eq code OP_FADD then some FLOAT_ZERO
  else if eq code OP_FMUL then some FLOAT_ONE
  else if eq code OP_MUL24 then some INT_ONE
  else if eq code OP_OR then some INT_ZERO
  else if eq code OP_XOR then some INT_ZERO
  else none

/-- Embeds `OpCode::getRightIdentity`. -/
def getRightIdentity (code : OpCode) : Option Value :=
  if eq code OP_ADD then some INT_ZERO
  else if eq code OP_AND then some VALUE_ALL_BITS_SET
  else if eq code OP_ASR then some INT_ZERO
  else if eq code OP_FADD then some FLOAT_ZERO
  else if eq code OP_FMUL then some FLOAT_ONE
  else if eq code OP_FSUB then some FLOAT_ZERO
  else if eq code OP_MUL24 then some INT_ONE
  else if eq code OP_OR then some INT_ZERO
  else if eq code OP_ROR then some INT_ZERO
  else if eq code OP_SHL then some INT_ZERO
  else if eq code OP_SHR then some INT_ZERO
  else if eq code OP_SUB then some INT_ZERO
  else if eq code OP_XOR then some INT_ZERO
  else none

/-- The value `Value(Literal(std::numeric_limits<float>::infinity()), TYPE_FLOAT)`. -/
def floatInfinity : Value := Value.ofLiteral (Literal.ofReal 0x7F800000) TYPE_FLOAT

/-- Embeds `OpCode::getLeftAbsorbingElement`. -/
def getLeftAbsorbingElement (code : OpCode) : Option Value :=
  if eq code OP_AND then some INT_ZERO
  else if eq code OP_ASR then some INT_ZERO
  else if eq code OP_FMAX then some floatInfinity
  else if eq code OP_FMAXABS then some floatInfinity
  else if eq code OP_FMINABS then some FLOAT_ZERO
  else if eq code OP_FMUL then some FLOAT_ZERO
  else if eq code OP_MUL24 then some INT_ZERO
  else if eq code OP_OR then some VALUE_ALL_BITS_SET
  else if eq code OP_ROR then some INT_ZERO
  else if eq code OP_SHL then some INT_ZERO
  else if eq code OP_SHR then some INT_ZERO
  else if eq code OP_V8MIN then some INT_ZERO
  else if eq code OP_V8MAX then some VALUE_ALL_BITS_SET
  else if eq code OP_V8MULD then some INT_ZERO
  else none

/-- Embeds `OpCode::getRightAbsorbingElement`. -/
def getRightAbsorbingElement (code : OpCode) : Option Value :=
  if eq code OP_AND then some INT_ZERO
  else if eq code OP_FMAX then some floatInfinity
  else if eq code OP_FMAXABS then some floatInfinity
  else if eq code OP_FMINABS then some FLOAT_ZERO
  else if eq code OP_FMUL then some FLOAT_ZERO
  else if eq code OP_MUL24 then some INT_ZERO
  else if eq code OP_OR then some VALUE_ALL_BITS_SET
  else if eq code OP_V8MIN then some INT_ZERO
  else if eq code OP_V8MAX then some VALUE_ALL_BITS_SET
  else if eq code OP_V8MULD then some INT_ZERO
  else none

/-- Embeds `OpCode::isIdempotent`. -/
def isIdempotent (op : OpCode) : Bool :=
  if eq op OP_AND ∨ eq op OP_FMAX ∨ eq op OP_FMIN ∨ eq op OP_MAX ∨ eq op OP_MIN ∨ eq op OP_OR ∨
    eq op OP_V8MAX ∨ eq op OP_V8MIN then true
  else false

/-- Embeds `OpCode::isAssociative`. -/
def isAssociative (op : OpCode) : Bool :=
  eq op OP_ADD || eq op OP_AND || eq op OP_FADD || eq op OP_FMAX || eq op OP_FMAXABS ||
  eq op OP_FMIN || eq op OP_FMINABS || eq op OP_FMUL || eq op OP_MAX || eq op OP_MIN ||
  eq op OP_MUL24 || eq op OP_OR || eq op OP_V8MAX || eq op OP_V8MIN || eq op OP_XOR

/-- Embeds `OpCode::isCommutative`. -/
def isCommutative (op : OpCode) : Bool :=
  eq op OP_ADD || eq op OP_AND || eq op OP_FADD || eq op OP_FMAX || eq op OP_FMAXABS ||
  eq op OP_FMIN || eq op OP_FMINABS || eq op OP_FMUL || eq op OP_MAX || eq op OP_MIN ||
  eq op OP_MUL24 || eq op OP_OR || eq op OP_V8ADDS || eq op OP_V8MAX || eq op OP_V8MIN ||
  eq op OP_V8MULD || eq op OP_XOR

end OpCode

/-! ## ALU instructions

ALUInstruction.h and the bit-field helpers are not among the sources. An instruction is
kept as the record of the fields its constructors set. -/

/-- Modelled from the spec: a signal code, an instruction part with its encoding. -/
structure Signaling where
  value : Nat
deriving DecidableEq, Repr

/-- Modelled from the spec: an unpack mode, an instruction part with its encoding. -/
structure Unpack where
  value : Nat
deriving DecidableEq, Repr

/-- Modelled from the spec: a pack mode, an instruction part with its encoding. -/
structure Pack where
  value : Nat
deriving DecidableEq, Repr

/-- Modelled from the spec: a condition code, an instruction part with its encoding. -/
structure ConditionCode where
  value : Nat
deriving DecidableEq, Repr

/-- Modelled from the spec: the set-flags flag. -/
inductive SetFlag
  | DONT_SET
  | SET_FLAGS
deriving DecidableEq, Repr

/-- Modelled from the spec: the write-swap flag. -/
inductive WriteSwap
  | DONT_SWAP
  | SWAP
deriving DecidableEq, Repr

/-- Modelled from the spec: the multiplexer selectors "choosing among six input sources
(four accumulators, one special accumulator aliased to a peripheral-read register, one
more accumulator, or either register file address)". -/
inductive InputMultiplex
  | ACC0
  | ACC1
  | ACC2
  | ACC3
  | ACC4
  | ACC5
  | REGA
  | REGB
deriving DecidableEq, Repr

/-- Modelled from the spec: the signal "software breakpoint", the hardware's encoding 0. -/
def SIGNAL_SOFT_BREAK : Signaling := ⟨0⟩
/-- Modelled from the spec: the signal "none", the hardware's encoding 1. -/
def SIGNAL_NONE : Signaling := ⟨1⟩
/-- Modelled from the spec: the signal "thread switch", encoding 2. -/
def SIGNAL_SWITCH_THREAD : Signaling := ⟨2⟩
/-- Modelled from the spec: the signal "program end", encoding 3. -/
def SIGNAL_END_PROGRAM : Signaling := ⟨3⟩
/-- Modelled from the spec: the signal "wait for scoreboard", encoding 4. -/
def SIGNAL_WAIT_FOR_SCORE : Signaling := ⟨4⟩
/-- Modelled from the spec: the signal "unlock scoreboard", encoding 5. -/
def SIGNAL_UNLOCK_SCORE : Signaling := ⟨5⟩
/-- Modelled from the spec: the signal "last thread switch", encoding 6. -/
def SIGNAL_THREAD_SWITCH_LAST : Signaling := ⟨6⟩
/-- Modelled from the spec: the signal "load coverage", encoding 7. -/
def SIGNAL_LOAD_COVERAGE : Signaling := ⟨7⟩
/-- Modelled from the spec: the signal "load color", encoding 8. -/
def SIGNAL_LOAD_COLOR : Signaling := ⟨8⟩
/-- Modelled from the spec: the signal "load color and end program", encoding 9. -/
def SIGNAL_LOAD_COLOR_END : Signaling := ⟨9⟩
/-- Modelled from the spec: the signal "load from TMU0", encoding 10. -/
def SIGNAL_LOAD_TMU0 : Signaling := ⟨10⟩
/-- Modelled from the spec: the signal "load from TMU1", encoding 11. -/
def SIGNAL_LOAD_TMU1 : Signaling := ⟨11⟩
/-- Modelled from the spec: the signal "load alpha", encoding 12. -/
def SIGNAL_LOAD_ALPHA : Signaling := ⟨12⟩
/-- Modelled from the spec: the ALU-immediate signal, encoding 13. -/
def SIGNAL_ALU_IMMEDIATE : Signaling := ⟨13⟩
/-- Modelled from the spec: the signal "load immediate", encoding 14. -/
def SIGNAL_LOAD_IMMEDIATE : Signaling := ⟨14⟩
/-- Modelled from the spec: the signal "branch", encoding 15. -/
def SIGNAL_BRANCH : Signaling := ⟨15⟩

/-- The sixteen signal codes, those that `Signaling::to_string` names. -/
def signals : List Signaling :=
  [SIGNAL_LOAD_ALPHA, SIGNAL_ALU_IMMEDIATE, SIGNAL_BRANCH, SIGNAL_LOAD_COLOR,
   SIGNAL_LOAD_COLOR_END, SIGNAL_LOAD_COVERAGE, SIGNAL_THREAD_SWITCH_LAST,
   SIGNAL_LOAD_IMMEDIATE, SIGNAL_LOAD_TMU0, SIGNAL_LOAD_TMU1, SIGNAL_NONE, SIGNAL_END_PROGRAM,
   SIGNAL_UNLOCK_SCORE, SIGNAL_SOFT_BREAK, SIGNAL_SWITCH_THREAD, SIGNAL_WAIT_FOR_SCORE]

namespace Signaling

/-- Embeds `Signaling::hasSideEffects`. -/
def hasSideEffects (s : Signaling) : Bool :=
  s != SIGNAL_NONE && s != SIGNAL_ALU_IMMEDIATE && s != SIGNAL_LOAD_IMMEDIATE

/-- Embeds `Signaling::triggersReadOfR4`. -/
def triggersReadOfR4 (s : Signaling) : Bool :=
  s == SIGNAL_LOAD_ALPHA || s == SIGNAL_LOAD_COLOR || s == SIGNAL_LOAD_COLOR_END ||
    s == SIGNAL_LOAD_COVERAGE || s == SIGNAL_LOAD_TMU0 || s == SIGNAL_LOAD_TMU1

end Signaling

namespace qpu_asm

/-- Modelled from the spec: the fields of an encoded ALU instruction: "a signal code,
independent unpack and pack descriptors, independent condition codes for the add and mul
operation slots, a set/clear-flags flag, a write-swap flag [...], two output register
addresses, the add and mul operation encodings, two shared input register addresses (A
and B files), and four 3-bit multiplexer selectors". -/
structure ALUInstruction where
  sig : Signaling
  unpack : Unpack
  pack : Pack
  addCondition : ConditionCode
  mulCondition : ConditionCode
  setFlag : SetFlag
  writeSwap : WriteSwap
  addOut : Nat
  mulOut : Nat
  multiplication : Nat
  addition : Nat
  inputA : Nat
  inputB : Nat
  addMultiplexA : InputMultiplex
  addMultiplexB : InputMultiplex
  mulMultiplexA : InputMultiplex
  mulMultiplexB : InputMultiplex
deriving DecidableEq, Repr

namespace ALUInstruction

/-- The check that ends both constructors: an operation was given for the wrong ALU. -/
def wrongALU (mul add : OpCode) : Bool :=
  (OpCode.ne mul OP_NOP && !mul.runsOnMulALU) || (OpCode.ne add OP_NOP && !add.runsOnAddALU)

/-- Embeds the constructor `ALUInstruction::ALUInstruction` that takes the signal and the
address of input B: the fields are set, then the operations are checked. -/
def create (sig : Signaling) (unpack : Unpack) (pack : Pack) (condAdd condMul : ConditionCode)
    (sf : SetFlag) (ws : WriteSwap) (addOut mulOut : Nat) (mul add : OpCode) (addInA addInB : Nat)
    (muxAddA muxAddB muxMulA muxMulB : InputMultiplex) : Except Error ALUInstruction :=
  let this : ALUInstruction :=
    ⟨sig, unpack, pack, condAdd, condMul, sf, ws, addOut, mulOut, mul.opMul, add.opAdd, addInA,
      addInB, muxAddA, muxAddB, muxMulA, muxMulB⟩
  if wrongALU mul add then .error .wrongALU else .ok this

/-- Embeds the constructor `ALUInstruction::ALUInstruction` that takes a small immediate
for input B: the signal is `SIGNAL_ALU_IMMEDIATE`. The text of the error, which the
source renders with `toASMString`, is not part of the result: whichever exception leaves
the constructor, no instruction exists. -/
def createImmediate (unpack : Unpack) (pack : Pack) (condAdd condMul : ConditionCode)
    (sf : SetFlag) (ws : WriteSwap) (addOut mulOut : Nat) (mul add : OpCode) (addInA : Nat)
    (addInB : SmallImmediate) (muxAddA muxAddB muxMulA muxMulB : InputMultiplex) :
    Except Error ALUInstruction :=
  let this : ALUInstruction :=
    ⟨SIGNAL_ALU_IMMEDIATE, unpack, pack, condAdd, condMul, sf, ws, addOut, mulOut, mul.opMul,
      add.opAdd, addInA, addInB.value, muxAddA, muxAddB, muxMulA, muxMulB⟩
  if wrongALU mul add then .error .wrongALU else .ok this

end ALUInstruction

end qpu_asm

/-! ## Condition codes

The constants `COND_*` and the enumeration `BranchCond` are declared in OpCodes.h, which
is not among the sources. -/

/-- Modelled from the spec: the condition "never", the hardware's encoding 0. -/
def COND_NEVER : ConditionCode := ⟨0⟩
/-- Modelled from the spec: the condition "always", encoding 1. -/
def COND_ALWAYS : ConditionCode := ⟨1⟩
/-- Modelled from the spec: the condition "zero flag set", encoding 2. -/
def COND_ZERO_SET : ConditionCode := ⟨2⟩
/-- Modelled from the spec: the condition "zero flag clear", encoding 3. -/
def COND_ZERO_CLEAR : ConditionCode := ⟨3⟩
/-- Modelled from the spec: the condition "negative flag set", encoding 4. -/
def COND_NEGATIVE_SET : ConditionCode := ⟨4⟩
/-- Modelled from the spec: the condition "negative flag clear", encoding 5. -/
def COND_NEGATIVE_CLEAR : ConditionCode := ⟨5⟩
/-- Modelled from the spec: the condition "carry flag set", encoding 6. -/
def COND_CARRY_SET : ConditionCode := ⟨6⟩
/-- Modelled from the spec: the condition "carry flag clear", encoding 7. -/
def COND_CARRY_CLEAR : ConditionCode := ⟨7⟩

/-- The eight condition codes. -/
def conditionCodes : List ConditionCode :=
  [COND_NEVER, COND_ALWAYS, COND_ZERO_SET, COND_ZERO_CLEAR, COND_NEGATIVE_SET,
   COND_NEGATIVE_CLEAR, COND_CARRY_SET, COND_CARRY_CLEAR]

/-- Modelled from the spec: the branch conditions, the enumerators that `toString` of
`BranchCond` names. -/
inductive BranchCond
  | ALL_C_CLEAR
  | ALL_C_SET
  | ALL_N_CLEAR
  | ALL_N_SET
  | ALL_Z_CLEAR
  | ALL_Z_SET
  | ALWAYS
  | ANY_C_CLEAR
  | ANY_C_SET
  | ANY_N_CLEAR
  | ANY_N_SET
  | ANY_Z_CLEAR
  | ANY_Z_SET
deriving DecidableEq, Repr

namespace ConditionCode

/-- Embeds `ConditionCode::to_string`. -/
def to_string (c : ConditionCode) : Except Error String :=
  if c = COND_ALWAYS then .ok ""
  else if c = COND_CARRY_CLEAR then .ok "ifcc"
  else if c = COND_CARRY_SET then .ok "ifc"
  else if c = COND_NEGATIVE_CLEAR then .ok "ifnc"
  else if c = COND_NEGATIVE_SET then .ok "ifn"
  else if c = COND_NEVER then .ok "never"
  else if c = COND_ZERO_CLEAR then .ok "ifzc"
  else if c = COND_ZERO_SET then .ok "ifz"
  else .error .unsupportedCondition

/-- Embeds `ConditionCode::invert`. The text of the exception is `to_string()`, which
raises itself on a value that is none of the eight codes. -/
def invert (c : ConditionCode) : Except Error ConditionCode :=
  if c = COND_ALWAYS then .ok COND_NEVER
  else if c = COND_CARRY_CLEAR then .ok COND_CARRY_SET
  else if c = COND_CARRY_SET then .ok COND_CARRY_CLEAR
  else if c = COND_NEGATIVE_CLEAR then .ok COND_NEGATIVE_SET
  else if c = COND_NEGATIVE_SET then .ok COND_NEGATIVE_CLEAR
  else if c = COND_NEVER then .ok COND_ALWAYS
  else if c = COND_ZERO_CLEAR then .ok COND_ZERO_SET
  else if c = COND_ZERO_SET then .ok COND_ZERO_CLEAR
  else
    match c.to_string with
    | .error e => .error e
    | .ok _ => .error .unsupportedCondition

/-- Embeds `ConditionCode::isInversionOf`: `other == invert()`. -/
def isInversionOf (c other : ConditionCode) : Except Error Bool :=
  match c.invert with
  | .error e => .error e
  | .ok inverted => .ok (decide (other = inverted))

/-- Embeds `ConditionCode::toBranchCondition`. -/
def toBranchCondition (c : ConditionCode) : Except Error BranchCond :=
  if c.value = COND_ALWAYS.value then .ok BranchCond.ALWAYS
  else if c.value = COND_CARRY_CLEAR.value then .ok BranchCond.ALL_C_CLEAR
  else if c.value = COND_CARRY_SET.value then .ok BranchCond.ANY_C_SET
  else if c.value = COND_NEGATIVE_CLEAR.value then .ok BranchCond.ALL_N_CLEAR
  else if c.value = COND_NEGATIVE_SET.value then .ok BranchCond.ANY_N_SET
  else if c.value = COND_ZERO_CLEAR.value then .ok BranchCond.ALL_Z_CLEAR
  else if c.value = COND_ZERO_SET.value then .ok BranchCond.ANY_Z_SET
  else
    match c.to_string with
    | .error e => .error e
    | .ok _ => .error .invalidBranchCondition

end ConditionCode

/-! ## Pack and unpack modes

The constants `UNPACK_*` and `PACK_*` are declared in OpCodes.h, which is not among the
sources. Each has the hardware's encoding: an unpack mode is twice the 3-bit mode plus the
pm bit (`isPMBitSet` reads bit 0), a pack mode is the 4-bit mode plus 16 times the pm bit
(`isPMBitSet` reads bit 4); `hasEffect` fixes the two no-op encodings of each. -/

/-- Modelled from the spec: no unpacking, encoding 0. -/
def UNPACK_NOP : Unpack := ⟨0⟩
/-- Modelled from the spec: no unpacking, with the pm bit set, encoding 1. -/
def UNPACK_NOP_PM : Unpack := ⟨1⟩
/-- Modelled from the spec: low half to 32 bits, encoding 2. -/
def UNPACK_16A_32 : Unpack := ⟨2⟩
/-- Modelled from the spec: low half of r4 to float, encoding 3. -/
def UNPACK_R4_16A_32 : Unpack := ⟨3⟩
/-- Modelled from the spec: high half to 32 bits, encoding 4. -/
def UNPACK_16B_32 : Unpack := ⟨4⟩
/-- Modelled from the spec: high half of r4 to float, encoding 5. -/
def UNPACK_R4_16B_32 : Unpack := ⟨5⟩
/-- Modelled from the spec: one byte into all four bytes, encoding 6. -/
def UNPACK_8888_32 : Unpack := ⟨6⟩
/-- Modelled from the spec: the alpha byte of r4 into all four bytes, encoding 7. -/
def UNPACK_R4_ALPHA_REPLICATE : Unpack := ⟨7⟩
/-- Modelled from the spec: byte 0 to 32 bits, encoding 8. -/
def UNPACK_8A_32 : Unpack := ⟨8⟩
/-- Modelled from the spec: byte 0 of r4 to a float in [0, 1], encoding 9. -/
def UNPACK_R4_COLOR0 : Unpack := ⟨9⟩
/-- Modelled from the spec: byte 1 to 32 bits, encoding 10. -/
def UNPACK_8B_32 : Unpack := ⟨10⟩
/-- Modelled from the spec: byte 1 of r4 to a float in [0, 1], encoding 11. -/
def UNPACK_R4_COLOR1 : Unpack := ⟨11⟩
/-- Modelled from the spec: byte 2 to 32 bits, encoding 12. -/
def UNPACK_8C_32 : Unpack := ⟨12⟩
/-- Modelled from the spec: byte 2 of r4 to a float in [0, 1], encoding 13. -/
def UNPACK_R4_COLOR2 : Unpack := ⟨13⟩
/-- Modelled from the spec: byte 3 to 32 bits, encoding 14. -/
def UNPACK_8D_32 : Unpack := ⟨14⟩
/-- Modelled from the spec: byte 3 of r4 to a float in [0, 1], encoding 15. -/
def UNPACK_R4_COLOR3 : Unpack := ⟨15⟩

/-- Modelled from the spec: no packing, encoding 0. -/
def PACK_NOP : Pack := ⟨0⟩
/-- Modelled from the spec: truncation to the low half, encoding 1. -/
def PACK_32_16A : Pack := ⟨1⟩
/-- Modelled from the spec: truncation to the high half, encoding 2. -/
def PACK_32_16B : Pack := ⟨2⟩
/-- Modelled from the spec: the low byte into all four bytes, encoding 3. -/
def PACK_32_8888 : Pack := ⟨3⟩
/-- Modelled from the spec: the low byte to byte 0, encoding 4. -/
def PACK_32_8A : Pack := ⟨4⟩
/-- Modelled from the spec: the low byte to byte 1, encoding 5. -/
def PACK_32_8B : Pack := ⟨5⟩
/-- Modelled from the spec: the low byte to byte 2, encoding 6. -/
def PACK_32_8C : Pack := ⟨6⟩
/-- Modelled from the spec: the low byte to byte 3, encoding 7. -/
def PACK_32_8D : Pack := ⟨7⟩
/-- Modelled from the spec: 32-bit saturation, encoding 8. -/
def PACK_32_32 : Pack := ⟨8⟩
/-- Modelled from the spec: signed saturation to the low half, encoding 9. -/
def PACK_32_16A_S : Pack := ⟨9⟩
/-- Modelled from the spec: signed saturation to the high half, encoding 10. -/
def PACK_32_16B_S : Pack := ⟨10⟩
/-- Modelled from the spec: the saturated byte into all four bytes, encoding 11. -/
def PACK_32_8888_S : Pack := ⟨11⟩
/-- Modelled from the spec: unsigned saturation to byte 0, encoding 12. -/
def PACK_32_8A_S : Pack := ⟨12⟩
/-- Modelled from the spec: unsigned saturation to byte 1, encoding 13. -/
def PACK_32_8B_S : Pack := ⟨13⟩
/-- Modelled from the spec: unsigned saturation to byte 2, encoding 14. -/
def PACK_32_8C_S : Pack := ⟨14⟩
/-- Modelled from the spec: unsigned saturation to byte 3, encoding 15. -/
def PACK_32_8D_S : Pack := ⟨15⟩
/-- Modelled from the spec: no packing, with the pm bit set, encoding 0x10. -/
def PACK_NOP_PM : Pack := ⟨0x10⟩
/-- Modelled from the spec: a float in [0, 1] to a byte in all four bytes, encoding 0x13. -/
def PACK_MUL_GRAY_REPLICATE : Pack := ⟨0x13⟩
/-- Modelled from the spec: a float in [0, 1] to byte 0, encoding 0x14. -/
def PACK_MUL_COLOR0 : Pack := ⟨0x14⟩
/-- Modelled from the spec: a float in [0, 1] to byte 1, encoding 0x15. -/
def PACK_MUL_COLOR1 : Pack := ⟨0x15⟩
/-- Modelled from the spec: a float in [0, 1] to byte 2, encoding 0x16. -/
def PACK_MUL_COLOR2 : Pack := ⟨0x16⟩
/-- Modelled from the spec: a float in [0, 1] to byte 3, encoding 0x17. -/
def PACK_MUL_COLOR3 : Pack := ⟨0x17⟩

/-- The binary32 encoding of the constant `255.0f`. -/
def F32.c255 : Nat := 0x437F0000

/-- Modelled from the spec: the template `saturate` of the helper header, which is not
among the sources: the value clamped to the range from `minVal` to `maxVal` of the target
type ("signed saturation", "unsigned saturation"). -/
def saturate (minVal maxVal val : Int) : Int := max (min val maxVal) minVal

/-- The loop of `Unpack::operator()` and `Pack::operator()` over the lanes of a container:
the result of each lane is appended to `acc`; the first lane without a result ends the
loop with `NO_VALUE`, and an exception leaves it. The result of a lane is no container, so
the last case is not reached. -/
def convertLanes (f : Value → Except Error (Option Value)) :
    List Scalar → List Scalar → Except Error (Option (List Scalar))
  | [], acc => .ok (some acc)
  | elem :: rest, acc =>
    match f elem.toValue with
    | .error e => .error e
    | .ok none => .ok none
    | .ok (some tmp) =>
      match tmp.data with
      | .scalar d => convertLanes f rest (acc ++ [⟨d, tmp.type⟩])
      | .container _ => .ok none

namespace Unpack

/-- Embeds `Unpack::isPMBitSet`. -/
def isPMBitSet (u : Unpack) : Bool := u.value &&& 0x1 != 0

/-- Embeds `Unpack::hasEffect`. -/
def hasEffect (u : Unpack) : Bool := u.value != 0 && u.value != 1

/-- The body of `Unpack::operator()`, with `self` for the calls of `operator()`: that of
the same mode on a lane of a container, and that of an `UNPACK_R4_COLOR` mode on the
value itself. -/
def applyWith (F : FloatOps) (self : Unpack → Value → Except Error (Option Value))
    (u : Unpack) (val : Value) : Except Error (Option Value) :=
  if ¬ u.hasEffect then .ok (some val)
  else if ¬ val.type.isSimpleType then .ok none
  else if val.hasContainer then
    match convertLanes (self u) val.elements [] with
    | .error e => .error e
    | .ok none => .ok none
    | .ok (some res) => .ok (some (Value.ofContainer res val.type))
  else
  match val.getLiteralValue with
  | none => .ok none
  | some lit =>
  if u = UNPACK_NOP then .ok (some val)
  else if u = UNPACK_16A_32 then
    if val.type.isFloatingType then .ok none
    else
      let lowWord : Nat := lit.unsignedInt % 2 ^ 16
      let lowWordSigned : Int := if lowWord < 2 ^ 15 then lowWord else (lowWord : Int) - 2 ^ 16
      .ok (some (Value.ofLiteral (Literal.ofInt lowWordSigned) val.type))
  else if u = UNPACK_16B_32 then
    if val.type.isFloatingType then .ok none
    else
      let highWord : Nat := (lit.unsignedInt >>> 16) % 2 ^ 16
      let highWordSigned : Int := if highWord < 2 ^ 15 then highWord else (highWord : Int) - 2 ^ 16
      .ok (some (Value.ofLiteral (Literal.ofInt highWordSigned) val.type))
  else if u = UNPACK_R4_ALPHA_REPLICATE ∨ u = UNPACK_8888_32 then
    let lsb : Nat := lit.unsignedInt % 2 ^ 8
    .ok (some (Value.ofLiteral
      (Literal.ofUInt ((lsb <<< 24) ||| (lsb <<< 16) ||| (lsb <<< 8) ||| lsb)) val.type))
  else if u = UNPACK_8A_32 then
    if val.type.isFloatingType then self UNPACK_R4_COLOR0 val
    else
      let byte0 : Nat := lit.unsignedInt % 2 ^ 8
      .ok (some (Value.ofLiteral (Literal.ofUInt byte0) val.type))
  else if u = UNPACK_8B_32 then
    if val.type.isFloatingType then self UNPACK_R4_COLOR1 val
    else
      let byte1 : Nat := (lit.unsignedInt >>> 8) % 2 ^ 8
      .ok (some (Value.ofLiteral (Literal.ofUInt byte1) val.type))
  else if u = UNPACK_8C_32 then
    if val.type.isFloatingType then self UNPACK_R4_COLOR2 val
    else
      let byte2 : Nat := (lit.unsignedInt >>> 16) % 2 ^ 8
      .ok (some (Value.ofLiteral (Literal.ofUInt byte2) val.type))
  else if u = UNPACK_8D_32 then
    if val.type.isFloatingType then self UNPACK_R4_COLOR3 val
    else
      let byte3 : Nat := (lit.unsignedInt >>> 24) % 2 ^ 8
      .ok (some (Value.ofLiteral (Literal.ofUInt byte3) val.type))
  else if u = UNPACK_R4_COLOR0 then
    let byte0 : Nat := lit.unsignedInt % 2 ^ 8
    .ok (some (Value.ofLiteral (Literal.ofReal (F.div (F.ofInt32 byte0) F32.c255)) val.type))
  else if u = UNPACK_R4_COLOR1 then
    let byte1 : Nat := (lit.unsignedInt >>> 8) % 2 ^ 8
    .ok (some (Value.ofLiteral (Literal.ofReal (F.div (F.ofInt32 byte1) F32.c255)) val.type))
  else if u = UNPACK_R4_COLOR2 then
    let byte2 : Nat := (lit.unsignedInt >>> 16) % 2 ^ 8
    .ok (some (Value.ofLiteral (Literal.ofReal (F.div (F.ofInt32 byte2) F32.c255)) val.type))
  else if u = UNPACK_R4_COLOR3 then
    let byte3 : Nat := (lit.unsignedInt >>> 24) % 2 ^ 8
    .ok (some (Value.ofLiteral (Literal.ofReal (F.div (F.ofInt32 byte3) F32.c255)) val.type))
  else .error .unsupportedUnpackMode

/-- Embeds `Unpack::operator()` of an `UNPACK_R4_COLOR` mode on a value that is no
container, as the byte modes call it: no further call is reached from there. -/
def applyColor (F : FloatOps) (u : Unpack) (val : Value) : Except Error (Option Value) :=
  applyWith F (fun _ _ => .ok none) u val

/-- Embeds `Unpack::operator()` on a lane, which is no container. -/
def applyLane (F : FloatOps) (u : Unpack) (val : Value) : Except Error (Option Value) :=
  applyWith F (applyColor F) u val

/-- Embeds `Unpack::operator()`. -/
def apply (F : FloatOps) (u : Unpack) (val : Value) : Except Error (Option Value) :=
  applyWith F (applyLane F) u val

end Unpack

namespace Pack

/-- Embeds `Pack::isPMBitSet`. -/
def isPMBitSet (p : Pack) : Bool := p.value &&& 0x10 != 0

/-- Embeds `Pack::hasEffect`. -/
def hasEffect (p : Pack) : Bool := p.value != 0 && p.value != 0x10

/-- The value `saturate<int16_t>(val.getLiteralValue()->signedInt())`. -/
def sat16 (lit : Literal) : Int := saturate (-32768) 32767 lit.signedInt

/-- The value `saturate<uint8_t>(val.getLiteralValue()->unsignedInt())`. -/
def sat8 (lit : Literal) : Nat := (saturate 0 255 lit.unsignedInt).toNat

/-- The body of `Pack::operator()`, with `self` for the call of `operator()` on a lane of
a container. The conjunction of a two's complement number with `0xFFFF` is its remainder
modulo `2 ^ 16`; a shift to the left keeps the low 32 bits. -/
def applyWith (F : FloatOps) (self : Value → Except Error (Option Value))
    (p : Pack) (val : Value) : Except Error (Option Value) :=
  if ¬ p.hasEffect then .ok (some val)
  else if ¬ val.type.isSimpleType then .ok none
  else if val.hasContainer then
    match convertLanes self val.elements [] with
    | .error e => .error e
    | .ok none => .ok none
    | .ok (some res) => .ok (some (Value.ofContainer res val.type))
  else
  match val.getLiteralValue with
  | none => .ok none
  | some lit =>
  if p = PACK_NOP then .ok (some val)
  else if p = PACK_32_16A then
    if val.type.isFloatingType then .ok none
    else .ok (some (Value.ofLiteral (Literal.ofUInt (lit.unsignedInt &&& 0xFFFF)) val.type))
  else if p = PACK_32_16A_S then
    if val.type.isFloatingType then .ok none
    else .ok (some (Value.ofLiteral (Literal.ofInt (sat16 lit % 2 ^ 16)) val.type))
  else if p = PACK_32_16B then
    if val.type.isFloatingType then .ok none
    else .ok (some (Value.ofLiteral (Literal.ofUInt ((lit.unsignedInt &&& 0xFFFF) <<< 16)) val.type))
  else if p = PACK_32_16B_S then
    if val.type.isFloatingType then .ok none
    else .ok (some (Value.ofLiteral (Literal.ofInt (sat16 lit * 2 ^ 16)) val.type))
  else if p = PACK_32_32 then .error .saturationNotImplemented
  else if p = PACK_32_8888 then
    .ok (some (Value.ofLiteral (Literal.ofUInt
      (((lit.unsignedInt &&& 0xFF) <<< 24) ||| ((lit.unsignedInt &&& 0xFF) <<< 16) |||
        ((lit.unsignedInt &&& 0xFF) <<< 8) ||| (lit.unsignedInt &&& 0xFF))) val.type))
  else if p = PACK_32_8888_S then
    .ok (some (Value.ofLiteral (Literal.ofUInt
      ((sat8 lit <<< 24) ||| (sat8 lit <<< 16) ||| (sat8 lit <<< 8) ||| sat8 lit)) val.type))
  else if p = PACK_32_8A then
    .ok (some (Value.ofLiteral (Literal.ofUInt (lit.unsignedInt &&& 0xFF)) val.type))
  else if p = PACK_32_8A_S then
    .ok (some (Value.ofLiteral (Literal.ofUInt (sat8 lit)) val.type))
  else if p = PACK_32_8B then
    .ok (some (Value.ofLiteral (Literal.ofUInt ((lit.unsignedInt &&& 0xFF) <<< 8)) val.type))
  else if p = PACK_32_8B_S then
    .ok (some (Value.ofLiteral (Literal.ofUInt (sat8 lit <<< 8)) val.type))
  else if p = PACK_32_8C then
    .ok (some (Value.ofLiteral (Literal.ofUInt ((lit.unsignedInt &&& 0xFF) <<< 16)) val.type))
  else if p = PACK_32_8C_S then
    .ok (some (Value.ofLiteral (Literal.ofUInt (sat8 lit <<< 16)) val.type))
  else if p = PACK_32_8D then
    .ok (some (Value.ofLiteral (Literal.ofUInt ((lit.unsignedInt &&& 0xFF) <<< 24)) val.type))
  else if p = PACK_32_8D_S then
    .ok (some (Value.ofLiteral (Literal.ofUInt (sat8 lit <<< 24)) val.type))
  else if p = PACK_MUL_GRAY_REPLICATE then
    let tmp : Nat := F.toUInt32 (F.div lit.real F32.c255) &&& 0xFF
    .ok (some (Value.ofLiteral
      (Literal.ofUInt ((tmp <<< 24) ||| (tmp <<< 16) ||| (tmp <<< 8) ||| tmp)) val.type))
  else if p = PACK_MUL_COLOR0 then
    let tmp : Nat := F.toUInt32 (F.mul lit.real F32.c255) &&& 0xFF
    .ok (some (Value.ofLiteral (Literal.ofUInt tmp) val.type))
  else if p = PACK_MUL_COLOR1 then
    let tmp : Nat := F.toUInt32 (F.mul lit.real F32.c255) &&& 0xFF
    .ok (some (Value.ofLiteral (Literal.ofUInt (tmp <<< 8)) val.type))
  else if p = PACK_MUL_COLOR2 then
    let tmp : Nat := F.toUInt32 (F.mul lit.real F32.c255) &&& 0xFF
    .ok (some (Value.ofLiteral (Literal.ofUInt (tmp <<< 16)) val.type))
  else if p = PACK_MUL_COLOR3 then
    let tmp : Nat := F.toUInt32 (F.mul lit.real F32.c255) &&& 0xFF
    .ok (some (Value.ofLiteral (Literal.ofUInt (tmp <<< 24)) val.type))
  else .error .unsupportedPackMode

/-- Embeds `Pack::operator()` on a lane, which is no container: the call for a lane is
not reached from there. -/
def applyLane (F : FloatOps) (p : Pack) (val : Value) : Except Error (Option Value) :=
  applyWith F (fun _ => .ok none) p val

/-- Embeds `Pack::operator()`. -/
def apply (F : FloatOps) (p : Pack) (val : Value) : Except Error (Option Value) :=
  applyWith F (applyLane F p) p val

end Pack

/-! ## Registers and operand resolution

The type `Register` and the constants `REG_*` are declared in headers that are not among
the sources. -/

/-- Modelled from the spec: the register files: "which physical accumulator or register
file (A or B)". -/
inductive RegisterFile
  | NONE
  | PHYSICAL_A
  | PHYSICAL_B
  | PHYSICAL_ANY
  | ACCUMULATOR
  | ANY
deriving DecidableEq, Repr

/-- Modelled from the spec: a register reference: the file and the number in it. -/
structure Register where
  file : RegisterFile
  num : Nat
deriving DecidableEq, Repr

/-- Modelled from the spec: accumulator 0. -/
def REG_ACC0 : Register := ⟨.ACCUMULATOR, 32⟩
/-- Modelled from the spec: accumulator 1. -/
def REG_ACC1 : Register := ⟨.ACCUMULATOR, 33⟩
/-- Modelled from the spec: accumulator 2. -/
def REG_ACC2 : Register := ⟨.ACCUMULATOR, 34⟩
/-- Modelled from the spec: accumulator 3. -/
def REG_ACC3 : Register := ⟨.ACCUMULATOR, 35⟩
/-- Modelled from the spec: accumulator 4 (r4), the "special accumulator aliased to a
peripheral-read register". -/
def REG_TMU_OUT : Register := ⟨.ACCUMULATOR, 36⟩
/-- Modelled from the spec: accumulator 5. -/
def REG_ACC5 : Register := ⟨.ACCUMULATOR, 37⟩
/-- Modelled from the spec: the reserved "no register" sentinel. -/
def REG_NOP : Register := ⟨.PHYSICAL_ANY, 39⟩

namespace qpu_asm

/-- Embeds the static function `getInputRegister`. The eight enumerators are all the
values of the 3-bit multiplexer field, so the `throw` after the `switch` is not
reached. -/
def getInputRegister (mux : InputMultiplex) (regA regB : Nat) : Register :=
  match mux with
  | .ACC0 => REG_ACC0
  | .ACC1 => REG_ACC1
  | .ACC2 => REG_ACC2
  | .ACC3 => REG_ACC3
  | .ACC4 => REG_TMU_OUT
  | .ACC5 => REG_ACC5
  | .REGA => ⟨RegisterFile.PHYSICAL_A, regA⟩
  | .REGB => ⟨RegisterFile.PHYSICAL_B, regB⟩

namespace ALUInstruction

/-- Embeds `ALUInstruction::getAddFirstOperand`. -/
def getAddFirstOperand (i : ALUInstruction) : Register :=
  if i.sig = SIGNAL_ALU_IMMEDIATE ∧ i.addMultiplexA = InputMultiplex.REGB then REG_NOP
  else if i.addition = OP_NOP.opAdd then REG_NOP
  else getInputRegister i.addMultiplexA i.inputA i.inputB

/-- Embeds `ALUInstruction::getAddSecondOperand`. -/
def getAddSecondOperand (i : ALUInstruction) : Register :=
  if i.sig = SIGNAL_ALU_IMMEDIATE ∧ i.addMultiplexB = InputMultiplex.REGB then REG_NOP
  else if i.addition = OP_NOP.opAdd then REG_NOP
  else getInputRegister i.addMultiplexB i.inputA i.inputB

/-- Embeds `ALUInstruction::getMulFirstOperand`. -/
def getMulFirstOperand (i : ALUInstruction) : Register :=
  if i.sig = SIGNAL_ALU_IMMEDIATE ∧ i.mulMultiplexA = InputMultiplex.REGB then REG_NOP
  else if i.multiplication = OP_NOP.opMul then REG_NOP
  else getInputRegister i.mulMultiplexA i.inputA i.inputB

/-- Embeds `ALUInstruction::getMulSecondOperand`. -/
def getMulSecondOperand (i : ALUInstruction) : Register :=
  if i.sig = SIGNAL_ALU_IMMEDIATE ∧ i.mulMultiplexB = InputMultiplex.REGB then REG_NOP
  else if i.multiplication = OP_NOP.opMul then REG_NOP
  else getInputRegister i.mulMultiplexB i.inputA i.inputB

end ALUInstruction

/-! ### Disassembly -/

/-- The functions that render the parts of an instruction: `toInputRegister`,
`toExtrasString` and `toOutputRegister` of the instructions' base class, and
`SmallImmediate::to_string`. They are not among the sources and are parameters of
`toASMString`. -/
structure Renderer where
  /-- The text of an input: multiplexer, the addresses of input A and B, and whether
  input B holds a small immediate -/
  toInputRegister : InputMultiplex → Nat → Nat → Bool → String
  /-- The text of signal, condition, set-flags, unpack and pack; the two flags say whether
  the slot writes to register file A and whether its inputs can be unpacked -/
  toExtrasString : Signaling → ConditionCode → SetFlag → Unpack → Pack → Bool → Bool → String
  /-- The text of an output: whether it is on register file A, and the address -/
  toOutputRegister : Bool → Nat → String
  /-- The text of a small immediate -/
  immediateToString : SmallImmediate → String

namespace ALUInstruction

/-- The variable `hasImmediate` of `toASMString`. -/
def hasImmediate (i : ALUInstruction) : Bool := i.sig = SIGNAL_ALU_IMMEDIATE

/-- The variable `addArgs` of `toASMString`. -/
def addArgs (R : Renderer) (i : ALUInstruction) (opAdd : OpCode) : String :=
  (if opAdd.numOperands > 0 then
    ", " ++ R.toInputRegister i.addMultiplexA i.inputA i.inputB i.hasImmediate else "") ++
  (if opAdd.numOperands > 1 then
    ", " ++ R.toInputRegister i.addMultiplexB i.inputA i.inputB i.hasImmediate else "")

/-- The variable `mulArgs` of `toASMString`. -/
def mulArgs (R : Renderer) (i : ALUInstruction) (opMul : OpCode) : String :=
  (if opMul.numOperands > 0 then
    ", " ++ R.toInputRegister i.mulMultiplexA i.inputA i.inputB i.hasImmediate else "") ++
  (if opMul.numOperands > 1 then
    ", " ++ R.toInputRegister i.mulMultiplexB i.inputA i.inputB i.hasImmediate else "")

/-- The variable `addCanUnpack` of `toASMString`. -/
def addCanUnpack (i : ALUInstruction) (opAdd : OpCode) : Bool :=
  (decide (opAdd.numOperands > 0) &&
    (decide (i.addMultiplexA = InputMultiplex.REGA) || decide (i.addMultiplexA = InputMultiplex.ACC4))) ||
  (decide (opAdd.numOperands > 1) &&
    (decide (i.addMultiplexB = InputMultiplex.REGA) || decide (i.addMultiplexB = InputMultiplex.ACC4)))

/-- The variable `mulCanUnpack` of `toASMString`. -/
def mulCanUnpack (i : ALUInstruction) (opMul : OpCode) : Bool :=
  (decide (opMul.numOperands > 0) &&
    (decide (i.mulMultiplexA = InputMultiplex.REGA) || decide (i.mulMultiplexA = InputMultiplex.ACC4))) ||
  (decide (opMul.numOperands > 1) &&
    (decide (i.mulMultiplexB = InputMultiplex.REGA) || decide (i.mulMultiplexB = InputMultiplex.ACC4)))

/-- The variable `addPart` of `toASMString`. -/
def addPart (R : Renderer) (i : ALUInstruction) (opAdd : OpCode) : String :=
  opAdd.name ++
    (R.toExtrasString i.sig i.addCondition i.setFlag i.unpack i.pack
      (decide (i.writeSwap = WriteSwap.DONT_SWAP)) (addCanUnpack i opAdd) ++ " ") ++
    (if OpCode.ne opAdd OP_NOP then
      R.toOutputRegister (decide (i.writeSwap = WriteSwap.DONT_SWAP)) i.addOut else "") ++
    addArgs R i opAdd

/-- The variable `mulPart` of `toASMString`, as it is first assigned. -/
def mulClause (R : Renderer) (i : ALUInstruction) (opMul : OpCode) : String :=
  opMul.name ++
    (R.toExtrasString i.sig i.mulCondition i.setFlag i.unpack i.pack
      (decide (i.writeSwap = WriteSwap.SWAP)) (mulCanUnpack i opMul) ++ " ") ++
    (if OpCode.ne opMul OP_NOP then
      R.toOutputRegister (decide (i.writeSwap = WriteSwap.SWAP)) i.mulOut else "") ++
    mulArgs R i opMul

/-- The condition of `toASMString` under which input B is rendered as a vector
rotation. -/
def rendersRotation (i : ALUInstruction) (opAdd : OpCode) : Bool :=
  decide (i.mulMultiplexA ≠ InputMultiplex.REGA) && decide (i.mulMultiplexA ≠ InputMultiplex.REGB) &&
  decide (i.mulMultiplexB ≠ InputMultiplex.REGA) && decide (i.mulMultiplexB ≠ InputMultiplex.REGB) &&
  decide (i.sig = SIGNAL_ALU_IMMEDIATE) &&
  (OpCode.eq opAdd OP_NOP ||
    (decide (i.addMultiplexA ≠ InputMultiplex.REGB) && decide (i.addMultiplexB ≠ InputMultiplex.REGB)))

/-- The variable `mulPart` of `toASMString`, after the rotation has been appended. -/
def mulPart (R : Renderer) (i : ALUInstruction) (opAdd opMul : OpCode) : String :=
  if rendersRotation i opAdd then
    mulClause R i opMul ++ " " ++ R.immediateToString ⟨i.inputB⟩
  else mulClause R i opMul

/-- Embeds `ALUInstruction::toASMString`. -/
def toASMString (R : Renderer) (i : ALUInstruction) : Except Error String :=
  match OpCode.toOpCode i.addition false with
  | .error e => .error e
  | .ok opAdd =>
  match OpCode.toOpCode i.multiplication true with
  | .error e => .error e
  | .ok opMul =>
  if OpCode.ne opAdd OP_NOP then
    if OpCode.ne opMul OP_NOP then .ok ((addPart R i opAdd ++ "; ") ++ mulPart R i opAdd opMul)
    else .ok (addPart R i opAdd)
  else if OpCode.ne opMul OP_NOP then .ok (mulPart R i opAdd opMul)
  else .ok (addPart R i opAdd)

end ALUInstruction

end qpu_asm

/-! ## Operands and results named by the theorems -/

/-- A literal scalar of type `TYPE_INT32`. -/
def int32Literal (n : Nat) : Value := Value.ofLiteral (Literal.ofUInt n) TYPE_INT32

/-- A register of type `TYPE_INT32`, which is no compile-time constant. -/
def int32Register : Value := ⟨.scalar (.nonConstant 0), TYPE_INT32⟩

/-- A container of literal lanes of type `TYPE_INT32`. -/
def int32Container (lanes : List Nat) : Value :=
  Value.ofContainer (lanes.map fun n => ⟨.literal (Literal.ofUInt n), TYPE_INT32⟩) TYPE_INT32

/-- A result of the evaluator that is `NO_VALUE` or a value that is no container. -/
def IsScalarResult (r : Except Error (Option Value)) : Prop :=
  r = .ok none ∨ ∃ d T, r = .ok (some ⟨.scalar d, T⟩)

/-- The condition of `calcPerComponent` on one operand: a container of more than one lane
whose lanes are not all the same. -/
def Value.isPerLane (v : Value) : Bool :=
  v.hasContainer && decide (v.elements.length > 1) && !v.isAllSame

/-- Lane `i` of an operand: lane `i` of a container, and a value that is no container
itself, for every lane. -/
def Value.lane (v : Value) (i : Nat) : Value :=
  match v.data with
  | .container es => (es.getD i ⟨.undefined, v.type⟩).toValue
  | .scalar _ => v

/-- The type `resultType` that `operator()` gives the result of two operands. -/
def OpCode.resultType (a b : Value) : DataType :=
  if b.type.getVectorWidth > a.type.getVectorWidth ∨ b.type.containsType a.type then b.type
  else a.type

/-- The uniform container of `n + 1` lanes, each the literal `x` of type `t`. -/
def uniformContainer (n : Nat) (x : Literal) (t : DataType) : Value :=
  Value.ofContainer (List.replicate (n + 1) ⟨.literal x, t⟩) t

/-- What a value holds, without the type of the value and the types of its lanes. -/
def Value.content (v : Value) : ScalarData ⊕ List ScalarData :=
  match v.data with
  | .scalar d => .inl d
  | .container es => .inr (es.map Scalar.data)

/-- A result of the evaluator without the types that its value and the lanes carry. -/
def resultContent (r : Except Error (Option Value)) :
    Except Error (Option (ScalarData ⊕ List ScalarData)) :=
  match r with
  | .error e => .error e
  | .ok none => .ok none
  | .ok (some v) => .ok (some v.content)

/-- The literal that the contents of a lane stand for. -/
def ScalarData.literal? (d : ScalarData) : Option Literal :=
  match d with
  | .literal l => some l
  | .immediate i => i.toLiteral
  | _ => none

/-- The lanes that the loop of the per-component branch returns, without their types. -/
def lanesContent (r : Except Error (Option (List Scalar))) :
    Except Error (Option (List ScalarData)) :=
  match r with
  | .error e => .error e
  | .ok none => .ok none
  | .ok (some res) => .ok (some (res.map Scalar.data))

/-- Operand resolution as the specification words it: the "no register" sentinel when the
slot's operation is the no-op or when the instruction uses an ALU immediate and the
multiplexer selects register file B, and else the register that the multiplexer
selects. -/
def resolvedOperand (slotIsNop usesImmediate : Bool) (mux : InputMultiplex)
    (inputA inputB : Nat) : Register :=
  if slotIsNop ∨ (usesImmediate ∧ mux = InputMultiplex.REGB) then REG_NOP
  else
    match mux with
    | .ACC0 => REG_ACC0
    | .ACC1 => REG_ACC1
    | .ACC2 => REG_ACC2
    | .ACC3 => REG_ACC3
    | .ACC4 => REG_TMU_OUT
    | .ACC5 => REG_ACC5
    | .REGA => ⟨RegisterFile.PHYSICAL_A, inputA⟩
    | .REGB => ⟨RegisterFile.PHYSICAL_B, inputB⟩

/-- A renderer for the examples: it names accumulators and register files without
addresses, gives no extras, and names every small immediate `imm`. -/
def qpu_asm.Renderer.sample : qpu_asm.Renderer where
  toInputRegister mux _ _ hasImmediate :=
    match mux with
    | .ACC0 => "r0"
    | .ACC1 => "r1"
    | .ACC2 => "r2"
    | .ACC3 => "r3"
    | .ACC4 => "r4"
    | .ACC5 => "r5"
    | .REGA => "ra"
    | .REGB => if hasImmediate then "imm" else "rb"
  toExtrasString _ _ _ _ _ _ _ := ""
  toOutputRegister regFileA _ := if regFileA then "ra" else "rb"
  immediateToString _ := "imm"

/-- An ALU instruction with the given signal, operation encodings, input B and
multiplexers, the conditions "always", no pack and unpack mode, and the other addresses
0. -/
def sampleInstruction (sig : Signaling) (addition multiplication inputB : Nat)
    (muxAddA muxAddB muxMulA muxMulB : InputMultiplex) : qpu_asm.ALUInstruction :=
  ⟨sig, UNPACK_NOP, PACK_NOP, COND_ALWAYS, COND_ALWAYS, SetFlag.DONT_SET, WriteSwap.DONT_SWAP,
    0, 0, multiplication, addition, 0, inputB, muxAddA, muxAddB, muxMulA, muxMulB⟩

/-- The evaluation `op(op(a, b), c)`: the result of the first two operands is the first
operand of the second evaluation. -/
def OpCode.applyLeftFirst (F : FloatOps) (op : OpCode) (a b c : Value) :
    Except Error (Option Value) :=
  match OpCode.apply F op (some a) (some b) with
  | .error e => .error e
  | .ok ab => OpCode.apply F op ab (some c)

/-- The evaluation `op(a, op(b, c))`: the result of the last two operands is the second
operand of the second evaluation. -/
def OpCode.applyRightFirst (F : FloatOps) (op : OpCode) (a b c : Value) :
    Except Error (Option Value) :=
  match OpCode.apply F op (some b) (some c) with
  | .error e => .error e
  | .ok bc => OpCode.apply F op (some a) bc

/-- Byte `k` of a word. -/
def byteOf (w k : Nat) : Nat := (w >>> (8 * k)) &&& 0xFF

/-- The literal of a result of the evaluator or of a conversion unit that is a value which
is no container. -/
def resultLiteral (r : Except Error (Option Value)) : Option Literal :=
  match r with
  | .ok (some v) => v.getLiteralValue
  | _ => none

/-- The 32-bit word that is the sign extension of a 16-bit half. -/
def signExtend16 (half : Nat) : Nat := if half < 2 ^ 15 then half else half + (2 ^ 32 - 2 ^ 16)

/-- The sixteen unpack modes that `Unpack::to_string` names. -/
def namedUnpackModes : List Unpack :=
  [UNPACK_NOP, UNPACK_NOP_PM, UNPACK_16A_32, UNPACK_16B_32, UNPACK_8888_32, UNPACK_8A_32,
   UNPACK_8B_32, UNPACK_8C_32, UNPACK_8D_32, UNPACK_R4_16A_32, UNPACK_R4_16B_32,
   UNPACK_R4_ALPHA_REPLICATE, UNPACK_R4_COLOR0, UNPACK_R4_COLOR1, UNPACK_R4_COLOR2,
   UNPACK_R4_COLOR3]

/-- The operand after a pack mode and then an unpack mode: the unpack mode is applied to
the value the pack mode returns; without one, or with an exception, there is none. -/
def packThenUnpack (F : FloatOps) (p : Pack) (u : Unpack) (val : Value) :
    Except Error (Option Value) :=
  match Pack.apply F p val with
  | .error e => .error e
  | .ok none => .ok none
  | .ok (some packed) => Unpack.apply F u packed

/-- The number `x`, read as a two's complement word, clamped to the range of a signed
16-bit number and written as a word again. -/
def clamp16 (x : Nat) : Literal :=
  Literal.ofInt (max (-32768) (min 32767 (Literal.signedInt ⟨x⟩)))

/-! ## Units

The structs `Byte` and `Word` of Units.h hold a `uint64_t`. -/

/-- The struct `Byte`: a number of bytes. -/
structure Byte where
  value : Nat
deriving DecidableEq, Repr

/-- The struct `Word`: a number of 64-bit words. -/
structure Word where
  value : Nat
deriving DecidableEq, Repr

namespace Byte

/-- Embeds the constructor `Byte(uint64_t)`. -/
def ofUInt64 (val : Nat) : Byte := ⟨val % 2 ^ 64⟩

/-- Embeds `Byte::getValue`. -/
def getValue (b : Byte) : Nat := b.value

/-- Embeds `Byte::getPaddingTo`. The remainder by zero has no defined result. -/
def getPaddingTo (b : Byte) (numBytes : Nat) : Option Nat :=
  if numBytes = 0 then none
  else if b.value % numBytes = 0 then some 0
  else some ((numBytes + 2 ^ 64 - b.value % numBytes) % 2 ^ 64)

end Byte

namespace Word

/-- Embeds the constructor `Word(uint64_t)`. -/
def ofUInt64 (val : Nat) : Word := ⟨val % 2 ^ 64⟩

/-- Embeds the constructor `Word(Byte)`; `sizeof(uint64_t)` is 8. -/
def ofBytes (bytes : Byte) : Word := ⟨bytes.value / 8⟩

/-- Embeds `Word::getValue`. -/
def getValue (w : Word) : Nat := w.value

/-- Embeds `Word::toBytes`: the product is taken in `uint64_t`. -/
def toBytes (w : Word) : Byte := ⟨w.value * 8 % 2 ^ 64⟩

end Word

/-! ## Texture setup

The class `ExtendedTextureSetup` of periphery/TMU.h is a `Bitfield<uint32_t>`, whose
entries are declared with `BITFIELD_ENTRY(name, type, position, length)`. -/

namespace Bitfield

/-- Modelled from the spec: the mask of the field length `Bit` of Bitfield.h, which is not
among the sources: one bit. -/
def MASK_Bit : Nat := 0x1

/-- Modelled from the spec: the mask of the field length `Tuple` of Bitfield.h: two bits,
which hold the four values of `ParameterType`. -/
def MASK_Tuple : Nat := 0x3

/-- Modelled from the spec: the mask of the field length `Int` of Bitfield.h: all bits of
a 32-bit word. `BasicTextureSetup` declares the texture base pointer, the field of bits 12
to 31, with this length. -/
def MASK_Int : Nat := 0xFFFFFFFF

/-- Modelled from the spec: the getter that `BITFIELD_ENTRY` of Bitfield.h declares, for
an accessor over "a fixed-width integer with documented bit ranges": the word shifted to
the right by the position of the field, under the mask of its length. -/
def getEntry (value pos mask : Nat) : Nat := mask &&& (value >>> pos)

/-- Modelled from the spec: the setter that `BITFIELD_ENTRY` of Bitfield.h declares: the
bits of the mask, shifted to the position of the field, are cleared in the 32-bit word and
the new value under the mask is written there. -/
def setEntry (value pos mask newValue : Nat) : Nat :=
  (value &&& (0xFFFFFFFF ^^^ ((mask <<< pos) % 2 ^ 32))) |||
    (((newValue &&& mask) <<< pos) % 2 ^ 32)

end Bitfield

namespace periphery

/-- The enumeration `ParameterType`, by its values. -/
structure ParameterType where
  value : Nat
deriving DecidableEq, Repr

/-- The enumerator `ParameterType::NONE`. -/
def ParameterType.NONE : ParameterType := ⟨0⟩
/-- The enumerator `ParameterType::CUBE_MAP`. -/
def ParameterType.CUBE_MAP : ParameterType := ⟨1⟩
/-- The enumerator `ParameterType::CHILD_DIMENSIONS`. -/
def ParameterType.CHILD_DIMENSIONS : ParameterType := ⟨2⟩
/-- The enumerator `ParameterType::CHILD_OFFSETS`. -/
def ParameterType.CHILD_OFFSETS : ParameterType := ⟨3⟩

/-- The class `ExtendedTextureSetup`: the 32-bit word of the bit field. -/
structure ExtendedTextureSetup where
  value : Nat
deriving DecidableEq, Repr

namespace ExtendedTextureSetup

/-- The getter of `BITFIELD_ENTRY(ParameterType, ParameterType, 30, Tuple)`. -/
def getParameterType (s : ExtendedTextureSetup) : ParameterType :=
  ⟨Bitfield.getEntry s.value 30 Bitfield.MASK_Tuple⟩

/-- The setter of `BITFIELD_ENTRY(ParameterType, ParameterType, 30, Tuple)`. -/
def setParameterType (s : ExtendedTextureSetup) (val : ParameterType) : ExtendedTextureSetup :=
  ⟨Bitfield.setEntry s.value 30 Bitfield.MASK_Tuple val.value⟩

/-- The getter of `BITFIELD_ENTRY(CubeMapStride, uint32_t, 12, Int)`, with `lenInt` for
the mask of the length `Int`. -/
def getCubeMapStride (lenInt : Nat) (s : ExtendedTextureSetup) : Nat :=
  Bitfield.getEntry s.value 12 lenInt

/-- The setter of `BITFIELD_ENTRY(CubeMapStride, uint32_t, 12, Int)`, with `lenInt` for
the mask of the length `Int`. -/
def setCubeMapStride (lenInt : Nat) (s : ExtendedTextureSetup) (val : Nat) :
    ExtendedTextureSetup :=
  ⟨Bitfield.setEntry s.value 12 lenInt val⟩

/-- The getter of `BITFIELD_ENTRY(DisableAutomaticLOD, bool, 0, Bit)`. -/
def getDisableAutomaticLOD (s : ExtendedTextureSetup) : Bool :=
  Bitfield.getEntry s.value 0 Bitfield.MASK_Bit != 0

/-- The setter of `BITFIELD_ENTRY(DisableAutomaticLOD, bool, 0, Bit)`. -/
def setDisableAutomaticLOD (s : ExtendedTextureSetup) (val : Bool) : ExtendedTextureSetup :=
  ⟨Bitfield.setEntry s.value 0 Bitfield.MASK_Bit (if val then 1 else 0)⟩

/-- Embeds the constructor `ExtendedTextureSetup(uint32_t cubeMapStride, bool
disableAutomaticLOD)`, with `lenInt` for the mask of the length `Int`: the word starts as
0, then the parameter type, the stride and the flag are set in this order. -/
def ofCubeMapStride (lenInt : Nat) (cubeMapStride : Nat) (disableAutomaticLOD : Bool) :
    ExtendedTextureSetup :=
  setDisableAutomaticLOD
    (setCubeMapStride lenInt (setParameterType ⟨0⟩ ParameterType.CUBE_MAP) cubeMapStride)
    disableAutomaticLOD

end ExtendedTextureSetup

end periphery

/-! ## Theorems -/

theorem at?_of_length_le {α : Type} (xs : List α) (i : Nat) (h : xs.length ≤ i) :
    at? xs i = .error .outOfRange := by
  unfold at?
  rw [List.get?_eq_none.mpr h]

theorem opCodes_keys_nodup : (opCodes.map Prod.fst).Nodup := by decide

/-- C1: both constructors of `ALUInstruction` raise exactly when the mul operation is not
nop and does not run on the mul ALU, or the add operation is not nop and does not run on
the add ALU; otherwise they give the instruction with the fields set. An error carries no
instruction. `fmul` in the add slot fails, `fmul` in the mul slot with add `nop`
succeeds. -/
theorem ALUInstruction_construction_legality (sig : Signaling) (unpack : Unpack) (pack : Pack)
    (condAdd condMul : ConditionCode) (sf : SetFlag) (ws : WriteSwap) (addOut mulOut : Nat)
    (mul add : OpCode) (addInA addInB : Nat) (imm : SmallImmediate)
    (muxAddA muxAddB muxMulA muxMulB : InputMultiplex) :
    let r := qpu_asm.ALUInstruction.create sig unpack pack condAdd condMul sf ws addOut mulOut
      mul add addInA addInB muxAddA muxAddB muxMulA muxMulB
    let ri := qpu_asm.ALUInstruction.createImmediate unpack pack condAdd condMul sf ws addOut
      mulOut mul add addInA imm muxAddA muxAddB muxMulA muxMulB
    let illegal := (OpCode.ne mul OP_NOP = true ∧ mul.runsOnMulALU = false) ∨
      (OpCode.ne add OP_NOP = true ∧ add.runsOnAddALU = false)
    ((∃ e, r = .error e) ↔ illegal) ∧ ((∃ e, ri = .error e) ↔ illegal) ∧
    ((∃ i, r = .ok i) ↔ ¬ illegal) ∧ ((∃ i, ri = .ok i) ↔ ¬ illegal) ∧
    (¬ illegal → r = .ok ⟨sig, unpack, pack, condAdd, condMul, sf, ws, addOut, mulOut, mul.opMul,
      add.opAdd, addInA, addInB, muxAddA, muxAddB, muxMulA, muxMulB⟩ ∧
      ri = .ok ⟨SIGNAL_ALU_IMMEDIATE, unpack, pack, condAdd, condMul, sf, ws, addOut, mulOut,
        mul.opMul, add.opAdd, addInA, imm.value, muxAddA, muxAddB, muxMulA, muxMulB⟩) ∧
    (illegal ↔ (mul.opMul = 0 ∧ mul.opAdd ≠ 0) ∨ (add.opAdd = 0 ∧ add.opMul ≠ 0)) ∧
    qpu_asm.ALUInstruction.create sig unpack pack condAdd condMul sf ws addOut mulOut
      mul OP_FMUL addInA addInB muxAddA muxAddB muxMulA muxMulB = .error .wrongALU ∧
    qpu_asm.ALUInstruction.createImmediate unpack pack condAdd condMul sf ws addOut mulOut
      mul OP_FMUL addInA imm muxAddA muxAddB muxMulA muxMulB = .error .wrongALU ∧
    (∃ i, qpu_asm.ALUInstruction.create sig unpack pack condAdd condMul sf ws addOut mulOut
      OP_FMUL OP_NOP addInA addInB muxAddA muxAddB muxMulA muxMulB = .ok i) ∧
    (∃ i, qpu_asm.ALUInstruction.createImmediate unpack pack condAdd condMul sf ws addOut mulOut
      OP_FMUL OP_NOP addInA imm muxAddA muxAddB muxMulA muxMulB = .ok i) := by
  have hw : qpu_asm.ALUInstruction.wrongALU mul add = true ↔
      ((OpCode.ne mul OP_NOP = true ∧ mul.runsOnMulALU = false) ∨
        (OpCode.ne add OP_NOP = true ∧ add.runsOnAddALU = false)) := by
    simp [qpu_asm.ALUInstruction.wrongALU]
  have hf : ∀ m : OpCode, qpu_asm.ALUInstruction.wrongALU m OP_FMUL = true := by
    intro m
    simp [qpu_asm.ALUInstruction.wrongALU, OpCode.ne, OpCode.eq, OpCode.runsOnAddALU, OP_FMUL, OP_NOP]
  have hn : qpu_asm.ALUInstruction.wrongALU OP_FMUL OP_NOP = false := by decide
  intro r ri illegal
  have hw' : qpu_asm.ALUInstruction.wrongALU mul add = true ↔ illegal := hw
  refine ⟨?_, ?_, ?_, ?_, ?_, ?_, ?_, ?_, ?_, ?_⟩
  · rw [← hw']
    simp only [r, qpu_asm.ALUInstruction.create]
    cases qpu_asm.ALUInstruction.wrongALU mul add <;> simp
  · rw [← hw']
    simp only [ri, qpu_asm.ALUInstruction.createImmediate]
    cases qpu_asm.ALUInstruction.wrongALU mul add <;> simp
  · rw [← hw']
    simp only [r, qpu_asm.ALUInstruction.create]
    cases qpu_asm.ALUInstruction.wrongALU mul add <;> simp
  · rw [← hw']
    simp only [ri, qpu_asm.ALUInstruction.createImmediate]
    cases qpu_asm.ALUInstruction.wrongALU mul add <;> simp
  · intro h
    have h' : qpu_asm.ALUInstruction.wrongALU mul add = false := by
      cases hc : qpu_asm.ALUInstruction.wrongALU mul add
      · rfl
      · exact absurd (hw'.mp hc) h
    simp [r, ri, qpu_asm.ALUInstruction.create, qpu_asm.ALUInstruction.createImmediate, h']
  · simp only [illegal, OpCode.ne, OpCode.eq, OpCode.runsOnMulALU, OpCode.runsOnAddALU, OP_NOP]
    have h1 := Nat.eq_zero_or_pos mul.opAdd
    have h2 := Nat.eq_zero_or_pos mul.opMul
    have h3 := Nat.eq_zero_or_pos add.opAdd
    have h4 := Nat.eq_zero_or_pos add.opMul
    rcases h1 with h1 | h1 <;> rcases h2 with h2 | h2 <;> rcases h3 with h3 | h3 <;>
      rcases h4 with h4 | h4 <;> simp [h1, h2, h3, h4, Nat.pos_iff_ne_zero.mp]
  · simp [qpu_asm.ALUInstruction.create, hf]
  · simp [qpu_asm.ALUInstruction.createImmediate, hf]
  · simp [qpu_asm.ALUInstruction.create, hn]
  · simp [qpu_asm.ALUInstruction.createImmediate, hn]

/-- C2: at the add encoding 4 of `fmax` the decode table holds `max`: `toOpCode(4, false)`
returns `max`, which `operator==` tells apart from `fmax`; no index of `addCodes` decodes
to `fmax`, and `max` is returned for the two indices 4 and 19. -/
theorem toOpCode_fmax_returns_max :
    OP_FMAX.opAdd = 4 ∧ OP_FMAX.runsOnAddALU = true ∧ OP_FMAX ∈ opCodes.map Prod.snd ∧
    OpCode.toOpCode OP_FMAX.opAdd false = .ok OP_MAX ∧ OpCode.eq OP_MAX OP_FMAX = false ∧
    (∀ i r, OpCode.toOpCode i false = .ok r → OpCode.eq r OP_FMAX = false) ∧
    (∀ i r, OpCode.toOpCode i true = .ok r → OpCode.eq r OP_FMAX = false) ∧
    OpCode.toOpCode 4 false = OpCode.toOpCode 19 false ∧ OpCode.ne OP_MAX OP_NOP = true := by
  refine ⟨rfl, by decide, by decide, by decide, by decide, ?_, ?_, by decide, by decide⟩
  · intro i r h
    by_cases hi : i < 32
    · have hall : ∀ j < 32, (match OpCode.toOpCode j false with
          | .ok r => OpCode.eq r OP_FMAX
          | .error _ => false) = false := by
        decide
      have := hall i hi
      rw [h] at this
      exact this
    · have : OpCode.toOpCode i false = .error .outOfRange := by
        have h0 : i ≠ 0 := by omega
        simp only [OpCode.toOpCode, h0, if_false, Bool.false_eq_true]
        exact at?_of_length_le _ _ (by simp [addCodes]; omega)
      rw [this] at h
      cases h
  · intro i r h
    by_cases hi : i < 8
    · have hall : ∀ j < 8, (match OpCode.toOpCode j true with
          | .ok r => OpCode.eq r OP_FMAX
          | .error _ => false) = false := by
        decide
      have := hall i hi
      rw [h] at this
      exact this
    · have : OpCode.toOpCode i true = .error .outOfRange := by
        have h0 : i ≠ 0 := by omega
        simp only [OpCode.toOpCode, h0, if_false, if_true]
        exact at?_of_length_le _ _ (by simp [mulCodes]; omega)
      rw [this] at h
      cases h

/-- C3: `toOpCode` returns `nop` for the encoding 0 on both pipelines and raises for every
index out of the table's range, but for the unassigned add encodings 9, 10, 11 and 25 to
29 it returns `nop` and does not raise. -/
theorem toOpCode_unassigned_returns_nop (i : Nat) :
    OpCode.toOpCode 0 false = .ok OP_NOP ∧ OpCode.toOpCode 0 true = .ok OP_NOP ∧
    (32 ≤ i → OpCode.toOpCode i false = .error .outOfRange) ∧
    (8 ≤ i → OpCode.toOpCode i true = .error .outOfRange) ∧
    (i ∈ [9, 10, 11, 25, 26, 27, 28, 29] → OpCode.toOpCode i false = .ok OP_NOP) := by
  refine ⟨rfl, rfl, ?_, ?_, ?_⟩
  · intro hi
    have h0 : i ≠ 0 := by omega
    simp only [OpCode.toOpCode, h0, if_false, Bool.false_eq_true]
    exact at?_of_length_le _ _ (by simp [addCodes]; omega)
  · intro hi
    have h0 : i ≠ 0 := by omega
    simp only [OpCode.toOpCode, h0, if_false, if_true]
    exact at?_of_length_le _ _ (by simp [mulCodes]; omega)
  · intro hi
    have hall : ∀ j ∈ [9, 10, 11, 25, 26, 27, 28, 29], OpCode.toOpCode j false = .ok OP_NOP := by
      decide
    exact hall i hi

theorem findOpCode_of_not_mem (name : String) (h : name ∉ opCodes.map Prod.fst) :
    OpCode.findOpCode name = OP_NOP := by
  have hnone : opCodes.find? (fun e => decide (e.1 = name)) = none := by
    rw [List.find?_eq_none]
    intro e he
    have : e.1 ∈ opCodes.map Prod.fst := List.mem_map_of_mem _ he
    simp only [decide_eq_true_eq]
    intro heq
    exact h (heq ▸ this)
  simp only [OpCode.findOpCode, hnone]

/-- C4: for every entry of the registry, its key is the operation's name and
`toOpCode(name)` returns that operation; no two entries share a name; for a string that
is no registered mnemonic `toOpCode` raises and `findOpCode` returns `nop`; and
`toOpCode("nop")` returns `nop`. -/
theorem toOpCode_by_name (name : String) (h : name ∉ opCodes.map Prod.fst) :
    (∀ e ∈ opCodes, e.1 = e.2.name ∧ OpCode.findOpCode e.2.name = e.2 ∧
      OpCode.toOpCodeByName e.2.name = .ok e.2) ∧
    (opCodes.map Prod.fst).Nodup ∧
    OpCode.toOpCodeByName name = .error .noMachineCode ∧
    OpCode.findOpCode name = OP_NOP ∧
    OpCode.toOpCodeByName "nop" = .ok OP_NOP := by
  refine ⟨by decide, opCodes_keys_nodup, ?_, findOpCode_of_not_mem name h, by decide⟩
  have hn : name ≠ "nop" := by
    intro hn
    apply h
    rw [hn]
    decide
  simp [OpCode.toOpCodeByName, findOpCode_of_not_mem name h, hn, OpCode.eq, OP_NOP]

/-- C4 at the string "foo", which is no mnemonic. -/
theorem toOpCode_by_name_witness :
    OpCode.toOpCodeByName "foo" = .error .noMachineCode ∧ OpCode.findOpCode "foo" = OP_NOP :=
  have h := toOpCode_by_name "foo" (by decide)
  ⟨h.2.2.1, h.2.2.2.1⟩

/-- C5: for an operation with two operands, an undefined first operand and a second
operand that is not undefined, the evaluator returns `NO_VALUE` and no undefined value. -/
theorem apply_undefined_first_operand (F : FloatOps) (op : OpCode) (t : DataType) (second : Value)
    (hop : op.numOperands = 2) (hs : second.isUndefined = false) :
    OpCode.apply F op (some (Value.ofType t)) (some second) = .ok none := by
  simp [OpCode.apply, OpCode.applyWith, OpCode.applyWith.applyDefined, OpCode.applyWith.applyConstants, hop, hs, Value.ofType,
    Value.getLiteralValue, Value.hasContainer]

/-- C5 at `add` with the shared undefined value and the literal 1. -/
theorem apply_undefined_first_operand_witness :
    OpCode.apply FloatOps.ieee OP_ADD (some UNDEFINED_VALUE) (some (int32Literal 1)) = .ok none :=
  apply_undefined_first_operand FloatOps.ieee OP_ADD TYPE_UNKNOWN (int32Literal 1) rfl (by decide)

/-- C6, as the claim states it, fails: `add` on the literal 1 and the shared undefined
value has agreeing flags and differing operand types, and returns the shared undefined
value, not the placeholder of the first operand's type; `not` on an undefined value of
type `TYPE_INT32` has agreeing flags and returns the placeholder of that type, not the
shared undefined value; `ftoi`, whose flags disagree, returns the shared undefined value
on an undefined float. -/
theorem undefined_result_counterexample :
    OpCode.apply FloatOps.ieee OP_ADD (some (int32Literal 1)) (some UNDEFINED_VALUE)
      = .ok (some UNDEFINED_VALUE) ∧
    Value.ofType (int32Literal 1).type ≠ UNDEFINED_VALUE ∧
    OpCode.apply FloatOps.ieee OP_NOT (some (Value.ofType TYPE_INT32)) none
      = .ok (some (Value.ofType TYPE_INT32)) ∧
    Value.ofType TYPE_INT32 ≠ UNDEFINED_VALUE ∧
    OpCode.apply FloatOps.ieee OP_FTOI (some (Value.ofType TYPE_FLOAT)) none
      = .ok (some UNDEFINED_VALUE) ∧
    Value.ofType TYPE_FLOAT ≠ UNDEFINED_VALUE := by
  decide

/-- C6, amended: when the triggering operand is undefined (the first operand of a
one-operand operation, the second of a two-operand operation), the evaluator returns the
placeholder of the first operand's type when the two float flags agree and, for two
operands, the operand types are equal, and the shared undefined value otherwise. -/
theorem undefined_result (F : FloatOps) (op : OpCode) (first second : Value)
    (other : Option Value) :
    (op.numOperands = 1 → first.isUndefined = true →
      OpCode.apply F op (some first) other = .ok (some
        (if op.acceptsFloat = op.returnsFloat then Value.ofType first.type else UNDEFINED_VALUE))) ∧
    (op.numOperands = 2 → second.isUndefined = true →
      OpCode.apply F op (some first) (some second) = .ok (some
        (if op.acceptsFloat = op.returnsFloat ∧ first.type = second.type
          then Value.ofType first.type else UNDEFINED_VALUE))) := by
  constructor
  · intro hop hu
    simp [OpCode.apply, OpCode.applyWith, hop, hu]
  · intro hop hu
    simp [OpCode.apply, OpCode.applyWith, hop, hu]

/-- C6, amended, at `clz` on an undefined value of type `TYPE_INT32` and at `fadd` on a
float literal and an undefined float. -/
theorem undefined_result_witness :
    OpCode.apply FloatOps.ieee OP_CLZ (some (Value.ofType TYPE_INT32)) none
      = .ok (some (Value.ofType TYPE_INT32)) ∧
    OpCode.apply FloatOps.ieee OP_FADD (some FLOAT_ONE) (some (Value.ofType TYPE_FLOAT))
      = .ok (some (Value.ofType TYPE_FLOAT)) :=
  ⟨(undefined_result FloatOps.ieee OP_CLZ (Value.ofType TYPE_INT32) UNDEFINED_VALUE none).1 rfl rfl,
   (undefined_result FloatOps.ieee OP_FADD FLOAT_ONE (Value.ofType TYPE_FLOAT) none).2 rfl rfl⟩

/-- C7, as the claim states it, fails: `add` on a register and the undefined value returns
an undefined value, not `NO_VALUE`; and `not`, which takes one operand, returns a
container on the lanes 1, 2 alone but raises when a container of three lanes is supplied
as second operand. -/
theorem cannot_fold_counterexample :
    OpCode.apply FloatOps.ieee OP_ADD (some int32Register) (some UNDEFINED_VALUE)
      = .ok (some UNDEFINED_VALUE) ∧
    OpCode.apply FloatOps.ieee OP_NOT (some (int32Container [1, 2])) none
      = .ok (some (int32Container [4294967294, 4294967293])) ∧
    OpCode.apply FloatOps.ieee OP_NOT (some (int32Container [1, 2])) (some (int32Container [0, 0, 0]))
      = .error .outOfRange := by
  decide

/-- C7, amended: the evaluator returns `NO_VALUE` when the first operand is absent; when
the operation takes more than one operand and the second is absent; when the first
operand is defined and neither has a literal nor is a container, unless the operation
takes two operands and the second operand is undefined; and when the operation takes more
than one operand and the second is defined and neither has a literal nor is a container.
A second operand given to a one-operand operation does not change the result when the
first operand is not evaluated per lane or the second has no more lanes than the first. -/
theorem cannot_fold_cases (F : FloatOps) (op : OpCode) (a s : Value) (b : Option Value) :
    OpCode.apply F op none b = .ok none ∧
    (op.numOperands > 1 → OpCode.apply F op (some a) none = .ok none) ∧
    (a.isUndefined = false → a.getLiteralValue = none → a.hasContainer = false →
      ¬ (op.numOperands = 2 ∧ (b.any fun v => v.isUndefined) = true) →
      OpCode.apply F op (some a) b = .ok none) ∧
    (op.numOperands > 1 → s.isUndefined = false → s.getLiteralValue = none →
      s.hasContainer = false → OpCode.apply F op (some a) (some s) = .ok none) ∧
    (op.numOperands = 1 →
      ¬ (a.hasContainer = true ∧ a.elements.length > 1 ∧ a.isAllSame = false) ∨
        s.elements.length ≤ a.elements.length →
      OpCode.apply F op (some a) (some s) = OpCode.apply F op (some a) none) := by
  refine ⟨rfl, ?_, ?_, ?_, ?_⟩
  · intro hop
    simp [OpCode.apply, OpCode.applyWith, hop]
  · intro hu hl hc hb
    by_cases h1 : op.numOperands > 1 ∧ b = none
    · simp [OpCode.apply, OpCode.applyWith, h1]
    · have h2 : ¬ (op.numOperands = 1 ∧ a.isUndefined = true) := by simp [hu]
      simp only [OpCode.apply, OpCode.applyWith, h1, h2, hb, if_false]
      simp [OpCode.applyWith.applyDefined, OpCode.applyWith.applyConstants, hl, hc]
  · intro hop hu hl hc
    have h1 : op.numOperands ≠ 1 := by omega
    simp [OpCode.apply, OpCode.applyWith, OpCode.applyWith.applyDefined, OpCode.applyWith.applyConstants, hop, hu, hl, hc, h1]
    split <;> rfl
  · intro hop h
    by_cases hu : a.isUndefined = true
    · simp [OpCode.apply, OpCode.applyWith, hop, hu]
    · simp only [OpCode.apply, OpCode.applyWith, hop, hu]
      simp only [OpCode.applyWith.applyDefined, OpCode.applyWith.applyConstants, hop]
      have hsv : ∀ v, (if s.getLiteralValue.isSome = true ∨ s.hasContainer = true then some s
          else none) = some v → v = s := by
        intro v hv
        split at hv
        · exact (Option.some.inj hv).symm
        · cases hv
      generalize (if s.getLiteralValue.isSome = true ∨ s.hasContainer = true then some s
          else none) = sv at hsv
      by_cases hfc : a.getLiteralValue.isSome = true ∨ a.hasContainer = true
      · by_cases hpc : a.hasContainer = true ∧ a.elements.length > 1 ∧ a.isAllSame = false
        · have hlen : s.elements.length ≤ a.elements.length := by
            rcases h with h | h
            · exact absurd hpc h
            · exact h
          cases sv with
          | none => simp [hfc, hpc]
          | some v =>
            have hv := hsv v rfl
            subst hv
            have hmax : max a.elements.length (if v.hasContainer = true then v.elements.length else 1)
                = a.elements.length := by
              apply Nat.max_eq_left
              split
              · exact hlen
              · omega
            simp [hfc, hpc, hmax]
        · have hpc' : ¬ (a.hasContainer = true ∧ 1 < a.elements.length ∧ a.isAllSame = false) := hpc
          cases sv <;> simp [hfc, hpc']
      · simp [hfc]

/-- C7, amended, at `add` on a register and a literal, and at `not` with a scalar second
operand. -/
theorem cannot_fold_cases_witness :
    OpCode.apply FloatOps.ieee OP_ADD (some int32Register) (some (int32Literal 1)) = .ok none ∧
    OpCode.apply FloatOps.ieee OP_NOT (some (int32Container [1, 2])) (some (int32Literal 7))
      = OpCode.apply FloatOps.ieee OP_NOT (some (int32Container [1, 2])) none :=
  ⟨(cannot_fold_cases FloatOps.ieee OP_ADD int32Register (int32Literal 1)
      (some (int32Literal 1))).2.2.1 rfl rfl rfl (by decide),
   (cannot_fold_cases FloatOps.ieee OP_NOT (int32Container [1, 2]) (int32Literal 7)
      none).2.2.2.2 rfl (Or.inr (by decide))⟩

/-! ### The evaluation of one lane -/

theorem v8Lane_ok (op : OpCode) (a b : Nat)
    (h : OpCode.eq op OP_V8ADDS = true ∨ OpCode.eq op OP_V8SUBS = true ∨ OpCode.eq op OP_V8MAX = true ∨
      OpCode.eq op OP_V8MIN = true ∨ OpCode.eq op OP_V8MULD = true) :
    ∃ r, OpCode.v8Lane op a b = .ok r := by
  unfold OpCode.v8Lane
  split
  · exact ⟨_, rfl⟩
  split
  · exact ⟨_, rfl⟩
  split
  · exact ⟨_, rfl⟩
  split
  · exact ⟨_, rfl⟩
  split
  · exact ⟨_, rfl⟩
  simp_all

theorem v8Word_ok (op : OpCode) (a b : Nat)
    (h : OpCode.eq op OP_V8ADDS = true ∨ OpCode.eq op OP_V8SUBS = true ∨ OpCode.eq op OP_V8MAX = true ∨
      OpCode.eq op OP_V8MIN = true ∨ OpCode.eq op OP_V8MULD = true) :
    ∃ r, OpCode.v8Word op a b = .ok r := by
  unfold OpCode.v8Word
  obtain ⟨r0, h0⟩ := v8Lane_ok op (a &&& 0xFF) (b &&& 0xFF) h
  obtain ⟨r1, h1⟩ := v8Lane_ok op (a >>> 8 &&& 0xFF) (b >>> 8 &&& 0xFF) h
  obtain ⟨r2, h2⟩ := v8Lane_ok op (a >>> 16 &&& 0xFF) (b >>> 16 &&& 0xFF) h
  obtain ⟨r3, h3⟩ := v8Lane_ok op (a >>> 24 &&& 0xFF) (b >>> 24 &&& 0xFF) h
  rw [h0, h1, h2, h3]
  exact ⟨_, rfl⟩

theorem isScalarResult_none : IsScalarResult (.ok none) := Or.inl rfl

theorem isScalarResult_scalar (d : ScalarData) (T : DataType) :
    IsScalarResult (.ok (some ⟨.scalar d, T⟩)) := Or.inr ⟨d, T, rfl⟩

theorem isScalarResult_ite (c : Prop) [Decidable c] (a b : Except Error (Option Value))
    (ha : c → IsScalarResult a) (hb : ¬ c → IsScalarResult b) :
    IsScalarResult (if c then a else b) := by
  split
  · exact ha ‹_›
  · exact hb ‹_›

/-- The chain of comparisons never raises, and what it returns is a literal value. -/
theorem evalLiterals_isScalarResult (F : FloatOps) (op : OpCode) (l1 l2 : Literal)
    (T1 T2 : DataType) : IsScalarResult (OpCode.evalLiterals F op l1 l2 T1 T2) := by
  unfold OpCode.evalLiterals
  repeat' (first
    | exact isScalarResult_none
    | exact isScalarResult_scalar _ _
    | exact fun _ => isScalarResult_none
    | exact fun _ => isScalarResult_scalar _ _
    | apply isScalarResult_ite
    | intro _)
  rename_i h
  obtain ⟨r, hr⟩ := v8Word_ok op l1.unsignedInt l2.unsignedInt (by simpa using h)
  rw [hr]
  exact isScalarResult_scalar _ _

theorem representative_of_literal (v : Value) (l : Literal) (h : v.getLiteralValue = some l) :
    OpCode.representative v = .ok l := by
  simp [OpCode.representative, h]

theorem applyDefined_scalar (F : FloatOps)
    (self : Value → Option Value → Except Error (Option Value)) (op : OpCode) (a : Value)
    (b : Option Value) (ha : a.hasContainer = false)
    (hb : ∀ v, b = some v → v.hasContainer = false) :
    OpCode.applyWith.applyDefined F self op a b
      = OpCode.applyWith.applyDefined F (fun _ _ => .ok none) op a b ∧
    IsScalarResult (OpCode.applyWith.applyDefined F (fun _ _ => .ok none) op a b) := by
  cases hl : a.getLiteralValue with
  | none => simp [OpCode.applyWith.applyDefined, OpCode.applyWith.applyConstants, hl, ha, isScalarResult_none]
  | some l =>
    have hr := representative_of_literal a l hl
    cases b with
    | none =>
      simp only [OpCode.applyWith.applyDefined, OpCode.applyWith.applyConstants, hl, ha, hr]
      simp only [ha, hr, Option.isSome_some, true_or, if_true, Bool.false_eq_true, false_and,
        Option.any_none, and_false, or_false, decide_False, if_false, and_true, true_and]
      repeat' (first
        | exact isScalarResult_none
        | exact isScalarResult_scalar _ _
        | exact evalLiterals_isScalarResult _ _ _ _ _ _
        | apply isScalarResult_ite
        | intro _)
    | some v =>
      have hv := hb v rfl
      cases hvl : v.getLiteralValue with
      | none =>
        simp only [OpCode.applyWith.applyDefined, OpCode.applyWith.applyConstants, hl, ha, hr, hv, hvl]
        simp only [ha, hr, hv, Option.isSome_some, Option.isSome_none, true_or, if_true,
          Bool.false_eq_true, false_and, or_self, Option.any_none, and_false, or_false,
          decide_False, if_false, and_true, true_and]
        repeat' (first
          | exact isScalarResult_none
          | exact isScalarResult_scalar _ _
          | exact evalLiterals_isScalarResult _ _ _ _ _ _
          | apply isScalarResult_ite
          | intro _)
      | some l2 =>
        have hr2 := representative_of_literal v l2 hvl
        simp only [OpCode.applyWith.applyDefined, OpCode.applyWith.applyConstants, hl, ha, hr, hv, hvl, hr2]
        simp only [ha, hr, hv, hr2, Option.isSome_some, true_or, if_true, Bool.false_eq_true,
          false_and, Option.any_some, and_false, or_false, decide_False, if_false, and_true,
          true_and]
        by_cases h1 : op.numOperands = 1 <;> simp only [h1, if_true, if_false]
        all_goals
        repeat' (first
          | exact isScalarResult_none
          | exact isScalarResult_scalar _ _
          | exact evalLiterals_isScalarResult _ _ _ _ _ _
          | apply isScalarResult_ite
          | intro _)

/-- On operands that are no containers the body of `operator()` does not call itself, and
it returns `NO_VALUE` or a value that is no container. -/
theorem applyWith_scalar_result (F : FloatOps)
    (self : Value → Option Value → Except Error (Option Value)) (op : OpCode) (a : Value)
    (b : Option Value) (ha : a.hasContainer = false)
    (hb : ∀ v, b = some v → v.hasContainer = false) :
    OpCode.applyWith F self op (some a) b = OpCode.applyLane F op (some a) b ∧
    IsScalarResult (OpCode.applyLane F op (some a) b) := by
  have h := applyDefined_scalar F self op a b ha hb
  unfold OpCode.applyLane
  simp only [OpCode.applyWith, h.1, true_and]
  repeat' (first
    | exact isScalarResult_none
    | exact isScalarResult_scalar _ _
    | exact h.2
    | apply isScalarResult_ite
    | intro _)
  all_goals (split <;> exact isScalarResult_scalar _ _)

/-- On operands that are no containers the evaluator is the evaluation of one lane. -/
theorem apply_eq_applyLane (F : FloatOps) (op : OpCode) (a : Value) (b : Option Value)
    (ha : a.hasContainer = false) (hb : ∀ v, b = some v → v.hasContainer = false) :
    OpCode.apply F op (some a) b = OpCode.applyLane F op (some a) b :=
  (applyWith_scalar_result F _ op a b ha hb).1

theorem lanesLoop_congr (lane lane' : Nat → Except Error (Option Value)) (is : List Nat)
    (acc : List Scalar) (h : ∀ i ∈ is, lane i = lane' i) :
    OpCode.lanesLoop lane is acc = OpCode.lanesLoop lane' is acc := by
  induction is generalizing acc with
  | nil => rfl
  | cons i is ih =>
    have hi := h i (List.mem_cons_self _ _)
    have ih' := fun acc => ih acc (fun j hj => h j (List.mem_cons_of_mem _ hj))
    simp only [OpCode.lanesLoop, hi, ih']

theorem lanesLoop_all_some (lane : Nat → Except Error (Option Value)) (f : Nat → Scalar)
    (is : List Nat) (acc : List Scalar) (h : ∀ i ∈ is, lane i = .ok (some (f i).toValue)) :
    OpCode.lanesLoop lane is acc = .ok (some (acc ++ is.map f)) := by
  induction is generalizing acc with
  | nil => simp [OpCode.lanesLoop]
  | cons i is ih =>
    have hi := h i (List.mem_cons_self _ _)
    have ih' := fun acc => ih acc (fun j hj => h j (List.mem_cons_of_mem _ hj))
    simp [OpCode.lanesLoop, hi, ih', Scalar.toValue]

theorem lanesCounted_congr (lane lane' : Nat → Except Error (Option Value)) (n : Nat)
    (h : ∀ i, i < n → lane i = lane' i) :
    OpCode.lanesCounted lane n = OpCode.lanesCounted lane' n := by
  unfold OpCode.lanesCounted
  by_cases hn : n < 256
  · rw [if_pos hn, if_pos hn]
    exact lanesLoop_congr _ _ _ _ (fun i hi => h i (List.mem_range.mp hi))
  · rw [if_neg hn, if_neg hn,
      lanesLoop_congr lane lane' (List.range 256) []
        (fun i hi => h i (by have := List.mem_range.mp hi; omega))]

/-- From 256 lanes on, when each of the lanes 0 to 255 evaluates to a value, the loop of
the per-component branch does not end. -/
theorem lanesCounted_noReturn (lane : Nat → Except Error (Option Value)) (f : Nat → Scalar)
    (n : Nat) (hn : 256 ≤ n) (h : ∀ i, i < 256 → lane i = .ok (some (f i).toValue)) :
    OpCode.lanesCounted lane n = .error .noReturn := by
  rw [OpCode.lanesCounted, if_neg (by omega),
    lanesLoop_all_some lane f (List.range 256) [] (fun i hi => h i (List.mem_range.mp hi))]

theorem laneOperand_eq_lane (v : Value) (i n : Nat) (hn : v.hasContainer = true → v.elements.length = n)
    (hi : i < n) : OpCode.laneOperand v i = .ok (v.lane i) := by
  unfold OpCode.laneOperand Value.lane
  cases hd : v.data with
  | scalar d => simp [Value.hasContainer, hd]
  | container es =>
    have hlen : es.length = n := by simpa [Value.hasContainer, Value.elements, hd] using hn
    have hget : es[i]? = some es[i] := List.getElem?_eq_getElem (by omega)
    simp [Value.hasContainer, Value.elements, hd, at?, hget, List.getD]

theorem lane_hasContainer (v : Value) (i : Nat) (h : v.hasContainer = true) :
    (v.lane i).hasContainer = false := by
  unfold Value.lane
  cases hd : v.data with
  | scalar d => simp [Value.hasContainer, hd] at h
  | container es => simp [Scalar.toValue, Value.hasContainer]

theorem lane_of_scalar (v : Value) (i : Nat) (h : v.hasContainer = false) : v.lane i = v := by
  unfold Value.lane
  cases hd : v.data with
  | scalar d => rfl
  | container es => simp [Value.hasContainer, hd] at h

theorem not_rotation_of_constant (v : Value)
    (h : v.getLiteralValue.isSome = true ∨ v.hasContainer = true) :
    ¬ (v.hasImmediate = true ∧ v.isVectorRotation = true) := by
  rcases v with ⟨d, t⟩
  cases d with
  | container es => simp [Value.hasImmediate]
  | scalar d =>
    cases d with
    | immediate i =>
      simp only [Value.getLiteralValue, Value.hasContainer, Value.hasImmediate,
        Value.isVectorRotation, SmallImmediate.isVectorRotation, SmallImmediate.toLiteral] at h ⊢
      intro hr
      simp only [decide_eq_true_eq, true_and] at hr
      have h1 : ¬ i.value ≤ 15 := by omega
      have h2 : ¬ i.value ≤ 31 := by omega
      have h3 : ¬ i.value ≤ 39 := by omega
      have h4 : ¬ i.value ≤ 47 := by omega
      simp [h1, h2, h3, h4] at h
    | literal l => simp [Value.hasImmediate]
    | undefined => simp [Value.hasImmediate]
    | nonConstant n => simp [Value.hasImmediate]

theorem lane_no_container (v : Value) (i : Nat) : (v.lane i).hasContainer = false := by
  cases h : v.hasContainer
  · rw [lane_of_scalar v i h]
    exact h
  · exact lane_hasContainer v i h

/-- For two operands that have a literal or are containers of `n` lanes, one of them with
lanes that differ, `operator()` is the counted loop over the lanes. -/
theorem apply_perLane_eq (F : FloatOps) (op : OpCode) (a b : Value) (n : Nat)
    (hop : op.numOperands = 2)
    (ha : a.getLiteralValue.isSome = true ∨ a.hasContainer = true)
    (hb : b.getLiteralValue.isSome = true ∨ b.hasContainer = true)
    (hbu : b.isUndefined = false)
    (hpc : a.isPerLane = true ∨ b.isPerLane = true)
    (hna : a.hasContainer = true → a.elements.length = n)
    (hnb : b.hasContainer = true → b.elements.length = n) :
    OpCode.apply F op (some a) (some b) =
      match OpCode.lanesCounted (fun i => OpCode.apply F op (some (a.lane i)) (some (b.lane i)))
        n with
      | .error e => .error e
      | .ok none => .ok none
      | .ok (some res) => .ok (some (Value.ofContainer res (OpCode.resultType a b))) := by
  have hn : 1 < n := by
    rcases hpc with h | h
    · simp only [Value.isPerLane, Bool.and_eq_true, decide_eq_true_eq] at h
      have := hna h.1.1
      omega
    · simp only [Value.isPerLane, Bool.and_eq_true, decide_eq_true_eq] at h
      have := hnb h.1.1
      omega
  have hmax : max (if a.hasContainer = true then a.elements.length else 1)
      (if b.hasContainer = true then b.elements.length else 1) = n := by
    rcases hpc with h | h
    · simp only [Value.isPerLane, Bool.and_eq_true, decide_eq_true_eq] at h
      rw [if_pos h.1.1, hna h.1.1]
      apply Nat.max_eq_left
      split
      · rw [hnb ‹_›]
      · omega
    · simp only [Value.isPerLane, Bool.and_eq_true, decide_eq_true_eq] at h
      rw [if_pos h.1.1, hnb h.1.1]
      apply Nat.max_eq_right
      split
      · rw [hna ‹_›]
      · omega
  have hcalc : ((a.hasContainer = true ∧ a.elements.length > 1 ∧ ¬ a.isAllSame = true) ∨
      (b.hasContainer = true ∧ b.elements.length > 1 ∧ ¬ b.isAllSame = true)) := by
    rcases hpc with h | h
    · left
      simpa [Value.isPerLane, and_assoc] using h
    · right
      simpa [Value.isPerLane, and_assoc] using h
  have hra := not_rotation_of_constant a ha
  have hrb := not_rotation_of_constant b hb
  have hlanes : ∀ i, i < n →
      (match OpCode.laneOperand a i with
        | .error e => .error e
        | .ok x =>
          if op.numOperands = 1 then OpCode.applyLane F op (some x) none
          else
            match OpCode.laneOperand b i with
            | .error e => .error e
            | .ok y => OpCode.applyLane F op (some x) (some y))
        = OpCode.apply F op (some (a.lane i)) (some (b.lane i)) := by
    intro i hi'
    rw [laneOperand_eq_lane a i n hna hi']
    simp only [hop, laneOperand_eq_lane b i n hnb hi']
    rw [apply_eq_applyLane F op (a.lane i) (some (b.lane i)) (lane_no_container a i)]
    · simp
    · intro v hv
      cases hv
      exact lane_no_container b i
  have hloop := lanesCounted_congr _ _ n hlanes
  have h1 : ¬ (op.numOperands > 1 ∧ (some b : Option Value) = none) := by simp
  have h2 : ¬ (op.numOperands = 1 ∧ a.isUndefined = true) := by simp [hop]
  have h3 : ¬ (op.numOperands = 2 ∧ ((some b : Option Value).any fun v => v.isUndefined) = true) := by
    simp [hbu]
  have hgt : op.numOperands > 1 := by omega
  rw [← hloop]
  simp only [OpCode.apply, OpCode.applyWith, h1, h2, h3, if_false]
  simp only [OpCode.applyWith.applyDefined, OpCode.applyWith.applyConstants, ha, hb, if_true]
  simp only [hgt, true_and, hra, hrb, Option.any_some, decide_False, decide_True,
    Bool.false_eq_true, if_false, decide_eq_true_eq, hcalc, if_true, hmax, reduceCtorEq,
    and_false, OpCode.resultType]

/-- With every container of `n` lanes, `n` at least 256, and each of the lanes 0 to 255
evaluating to a value, the evaluator does not return: the `unsigned char` counter of the
loop over the lanes wraps to 0 before it reaches `n`. -/
theorem apply_perLane_noReturn (F : FloatOps) (op : OpCode) (a b : Value) (n : Nat)
    (hop : op.numOperands = 2)
    (ha : a.getLiteralValue.isSome = true ∨ a.hasContainer = true)
    (hb : b.getLiteralValue.isSome = true ∨ b.hasContainer = true)
    (hbu : b.isUndefined = false)
    (hpc : a.isPerLane = true ∨ b.isPerLane = true)
    (hna : a.hasContainer = true → a.elements.length = n)
    (hnb : b.hasContainer = true → b.elements.length = n) (hn : 256 ≤ n)
    (f : Nat → Scalar)
    (hf : ∀ i, i < 256 →
      OpCode.apply F op (some (a.lane i)) (some (b.lane i)) = .ok (some (f i).toValue)) :
    OpCode.apply F op (some a) (some b) = .error .noReturn := by
  rw [apply_perLane_eq F op a b n hop ha hb hbu hpc hna hnb, lanesCounted_noReturn _ f n hn hf]

theorem uniformContainer_isAllSame (n : Nat) (x : Literal) (t : DataType) :
    (uniformContainer n x t).isAllSame = true := by
  simp [uniformContainer, Value.isAllSame, Value.ofContainer, Value.elements, List.replicate_succ,
    List.all_eq_true]

theorem uniformContainer_isUndefined (n : Nat) (x : Literal) (t : DataType) :
    (uniformContainer n x t).isUndefined = false := by
  simp [uniformContainer, Value.isUndefined, Value.ofContainer, List.replicate_succ,
    Scalar.isUndefined]

theorem uniformContainer_representative (n : Nat) (x : Literal) (t : DataType) :
    OpCode.representative (uniformContainer n x t) = .ok x := by
  simp [uniformContainer, OpCode.representative, Value.ofContainer, Value.getLiteralValue,
    Value.elements, List.replicate_succ, at?, Scalar.getLiteralValue]

theorem uniformContainer_laneOperand (n : Nat) (x : Literal) (t : DataType) (i : Nat)
    (hi : i < n + 1) :
    OpCode.laneOperand (uniformContainer n x t) i = .ok (Value.ofLiteral x t) := by
  have hget : (List.replicate (n + 1) (⟨.literal x, t⟩ : Scalar))[i]? = some ⟨.literal x, t⟩ := by
    rw [List.getElem?_replicate]
    simp [hi]
  simp [uniformContainer, OpCode.laneOperand, Value.ofContainer, Value.hasContainer,
    Value.elements, at?, hget, Scalar.toValue, Value.ofLiteral]

theorem applyDefined_uniform_first (F : FloatOps)
    (self : Value → Option Value → Except Error (Option Value)) (op : OpCode) (x : Literal)
    (t : DataType) (n : Nat) (sec : Option Value)
    (hsec : ∀ v, sec = some v → v.isPerLane = true → v.elements.length = n + 1) :
    OpCode.applyWith.applyDefined F self op (uniformContainer n x t) sec
      = OpCode.applyWith.applyDefined F self op (Value.ofLiteral x t) sec := by
  have hC1 : (uniformContainer n x t).hasContainer = true := rfl
  have hC2 := uniformContainer_isAllSame n x t
  have hC3 := uniformContainer_isUndefined n x t
  have hC4 := uniformContainer_representative n x t
  have hC5 : (uniformContainer n x t).hasImmediate = false := rfl
  have hC6 : (uniformContainer n x t).type = t := rfl
  have hC7 : (uniformContainer n x t).elements.length = n + 1 := by
    simp [uniformContainer, Value.ofContainer, Value.elements]
  have hX1 : (Value.ofLiteral x t).hasContainer = false := rfl
  have hX2 : (Value.ofLiteral x t).getLiteralValue = some x := rfl
  have hX3 : (Value.ofLiteral x t).isUndefined = false := rfl
  have hX4 : OpCode.representative (Value.ofLiteral x t) = .ok x := rfl
  have hX5 : (Value.ofLiteral x t).hasImmediate = false := rfl
  have hX6 : (Value.ofLiteral x t).type = t := rfl
  simp only [OpCode.applyWith.applyDefined, OpCode.applyWith.applyConstants, hC1, hX2, Option.isSome_some, or_true, true_or, if_true]
  simp only [hC1, hC2, hC3, hC4, hC5, hC6, hC7, hX1, hX3, hX4, hX5, hX6, Bool.false_eq_true,
    false_and, not_true_eq_false, and_false, false_or, if_false, if_true]
  have hsv : ∀ v, (match sec with
      | none => none
      | some second =>
        if second.getLiteralValue.isSome = true ∨ second.hasContainer = true then some second
        else none) = some v → v.isPerLane = true → v.elements.length = n + 1 := by
    intro v hv
    cases sec with
    | none => cases hv
    | some w =>
      simp only at hv
      split at hv
      · cases hv
        exact hsec _ rfl
      · cases hv
  generalize (match sec with
      | none => none
      | some second =>
        if second.getLiteralValue.isSome = true ∨ second.hasContainer = true then some second
        else none) = sv at hsv
  cases sv with
  | none => simp
  | some v =>
    by_cases hP : v.isPerLane = true
    · have hlen := hsv v rfl hP
      have hP' := hP
      simp only [Value.isPerLane, Bool.and_eq_true, decide_eq_true_eq, Bool.not_eq_true',
        and_assoc] at hP'
      have hmax1 : max (n + 1) (if v.hasContainer = true then v.elements.length else 1) = n + 1 := by
        simp [hP'.1, hlen]
      have hmax2 : max 1 (if v.hasContainer = true then v.elements.length else 1) = n + 1 := by
        simp [hP'.1, hlen]
      have hlanes := lanesCounted_congr
        (fun i =>
          match OpCode.laneOperand (uniformContainer n x t) i with
          | .error e => .error e
          | .ok a =>
            if op.numOperands = 1 then self a none
            else
              match OpCode.laneOperand v i with
              | .error e => .error e
              | .ok b => self a (some b))
        (fun i =>
          if op.numOperands = 1 then self (Value.ofLiteral x t) none
          else
            match OpCode.laneOperand v i with
            | .error e => .error e
            | .ok b => self (Value.ofLiteral x t) (some b))
        (n + 1)
        (fun i hi => by
          simp only [uniformContainer_laneOperand n x t i hi])
      simp only [Option.any_some, hmax1, hmax2, OpCode.laneOperand, hX1, Bool.false_eq_true,
        if_false] at hlanes ⊢
      simp only [hlanes]
    · have hP' : ¬ (v.hasContainer = true ∧ 1 < v.elements.length ∧ v.isAllSame = false) := by
        simpa [Value.isPerLane, and_assoc] using hP
      simp [hP']

theorem applyDefined_uniform_second (F : FloatOps)
    (self : Value → Option Value → Except Error (Option Value)) (op : OpCode) (x : Literal)
    (t : DataType) (n : Nat) (z : Value)
    (hz : z.isPerLane = true → z.elements.length = n + 1) :
    OpCode.applyWith.applyDefined F self op z (some (uniformContainer n x t))
      = OpCode.applyWith.applyDefined F self op z (some (Value.ofLiteral x t)) := by
  have hC1 : (uniformContainer n x t).hasContainer = true := rfl
  have hC2 := uniformContainer_isAllSame n x t
  have hC3 := uniformContainer_isUndefined n x t
  have hC4 := uniformContainer_representative n x t
  have hC5 : (uniformContainer n x t).hasImmediate = false := rfl
  have hC6 : (uniformContainer n x t).type = t := rfl
  have hC7 : (uniformContainer n x t).elements.length = n + 1 := by
    simp [uniformContainer, Value.ofContainer, Value.elements]
  have hX1 : (Value.ofLiteral x t).hasContainer = false := rfl
  have hX2 : (Value.ofLiteral x t).getLiteralValue = some x := rfl
  have hX3 : (Value.ofLiteral x t).isUndefined = false := rfl
  have hX4 : OpCode.representative (Value.ofLiteral x t) = .ok x := rfl
  have hX5 : (Value.ofLiteral x t).hasImmediate = false := rfl
  have hX6 : (Value.ofLiteral x t).type = t := rfl
  simp only [OpCode.applyWith.applyDefined, OpCode.applyWith.applyConstants, hC1, hX2, Option.isSome_some, or_true, true_or, if_true]
  simp only [hC1, hC2, hC3, hC4, hC5, hC6, hC7, hX1, hX3, hX4, hX5, hX6, Bool.false_eq_true,
    false_and, not_true_eq_false, and_false, false_or, or_false, if_false, if_true,
    Option.any_some, decide_False, reduceCtorEq]
  cases hzc : (if z.getLiteralValue.isSome = true ∨ z.hasContainer = true then some z else none) with
  | none => rfl
  | some w =>
    have hw : w = z := by
      split at hzc
      · exact (Option.some.inj hzc).symm
      · cases hzc
    subst hw
    simp only []
    by_cases hP : w.isPerLane = true
    · have hlen := hz hP
      have hP' := hP
      simp only [Value.isPerLane, Bool.and_eq_true, decide_eq_true_eq, Bool.not_eq_true',
        and_assoc] at hP'
      have hmax1 : max (if w.hasContainer = true then w.elements.length else 1) (n + 1) = n + 1 := by
        simp [hP'.1, hlen]
      have hmax2 : max (if w.hasContainer = true then w.elements.length else 1) 1 = n + 1 := by
        simp [hP'.1, hlen]
      have hlanes := lanesCounted_congr
        (fun i =>
          match OpCode.laneOperand w i with
          | .error e => .error e
          | .ok a =>
            if op.numOperands = 1 then self a none
            else
              match OpCode.laneOperand (uniformContainer n x t) i with
              | .error e => .error e
              | .ok b => self a (some b))
        (fun i =>
          match OpCode.laneOperand w i with
          | .error e => .error e
          | .ok a =>
            if op.numOperands = 1 then self a none
            else self a (some (Value.ofLiteral x t)))
        (n + 1)
        (fun i hi => by
          simp only [uniformContainer_laneOperand n x t i hi])
      have hX7 : ∀ i, OpCode.laneOperand (Value.ofLiteral x t) i = .ok (Value.ofLiteral x t) := by
        intro i
        simp [OpCode.laneOperand, hX1]
      simp only [hmax1, hmax2, hX7, hlanes]
    · have hP' : ¬ (w.hasContainer = true ∧ w.elements.length > 1 ∧ ¬ w.isAllSame = true) := by
        simpa [Value.isPerLane, and_assoc] using hP
      simp only [hP', decide_False, Bool.false_eq_true, if_false]

theorem Scalar.getLiteralValue_eq (s : Scalar) : s.getLiteralValue = s.data.literal? := by
  rcases s with ⟨d, t⟩
  cases d <;> rfl

theorem content_cases (a a' : Value) (h : a.content = a'.content) :
    (∃ d, a.data = .scalar d ∧ a'.data = .scalar d) ∨
    (∃ es es', a.data = .container es ∧ a'.data = .container es' ∧
      es.map Scalar.data = es'.map Scalar.data) := by
  rcases a with ⟨d, t⟩
  rcases a' with ⟨d', t'⟩
  cases d <;> cases d' <;> simp_all [Value.content]

theorem content_hasContainer (a a' : Value) (h : a.content = a'.content) :
    a'.hasContainer = a.hasContainer := by
  rcases content_cases a a' h with ⟨d, h1, h2⟩ | ⟨es, es', h1, h2, _⟩ <;>
    simp [Value.hasContainer, h1, h2]

theorem content_getLiteralValue (a a' : Value) (h : a.content = a'.content) :
    a'.getLiteralValue = a.getLiteralValue := by
  rcases content_cases a a' h with ⟨d, h1, h2⟩ | ⟨es, es', h1, h2, _⟩ <;>
    simp [Value.getLiteralValue, h1, h2]

theorem content_hasImmediate (a a' : Value) (h : a.content = a'.content) :
    a'.hasImmediate = a.hasImmediate := by
  rcases content_cases a a' h with ⟨d, h1, h2⟩ | ⟨es, es', h1, h2, _⟩ <;>
    simp [Value.hasImmediate, h1, h2]

theorem content_isVectorRotation (a a' : Value) (h : a.content = a'.content) :
    a'.isVectorRotation = a.isVectorRotation := by
  rcases content_cases a a' h with ⟨d, h1, h2⟩ | ⟨es, es', h1, h2, _⟩ <;>
    simp [Value.isVectorRotation, h1, h2]

theorem content_length (a a' : Value) (h : a.content = a'.content) :
    a'.elements.length = a.elements.length := by
  rcases content_cases a a' h with ⟨d, h1, h2⟩ | ⟨es, es', h1, h2, h3⟩
  · simp [Value.elements, h1, h2]
  · have := congrArg List.length h3
    simp only [List.length_map] at this
    simp [Value.elements, h1, h2, this]

theorem all_data_congr (p : ScalarData → Bool) (es es' : List Scalar)
    (h : es.map Scalar.data = es'.map Scalar.data) :
    es'.all (fun s => p s.data) = es.all (fun s => p s.data) := by
  have h1 : ∀ l : List Scalar, l.all (fun s => p s.data) = (l.map Scalar.data).all p := by
    intro l
    induction l with
    | nil => rfl
    | cons x xs ih => simp [List.all_cons, ih]
  rw [h1, h1, h]

theorem content_isUndefined (a a' : Value) (h : a.content = a'.content) :
    a'.isUndefined = a.isUndefined := by
  rcases content_cases a a' h with ⟨d, h1, h2⟩ | ⟨es, es', h1, h2, h3⟩
  · simp [Value.isUndefined, h1, h2]
  · simp only [Value.isUndefined, h1, h2]
    exact all_data_congr (fun d => decide (d = ScalarData.undefined)) es es' h3

theorem content_isAllSame (a a' : Value) (h : a.content = a'.content) :
    a'.isAllSame = a.isAllSame := by
  rcases content_cases a a' h with ⟨d, h1, h2⟩ | ⟨es, es', h1, h2, h3⟩
  · simp [Value.isAllSame, Value.elements, h1, h2]
  · simp only [Value.isAllSame, Value.elements, h1, h2]
    cases es with
    | nil =>
      cases es' with
      | nil => rfl
      | cons y ys => simp at h3
    | cons x xs =>
      cases es' with
      | nil => simp at h3
      | cons y ys =>
        simp only [List.map_cons, List.cons.injEq] at h3
        simp only [Scalar.getLiteralValue_eq, h3.1]
        exact all_data_congr (fun d => decide (d.literal? = y.data.literal?)) xs ys h3.2

theorem content_representative (a a' : Value) (h : a.content = a'.content) :
    OpCode.representative a' = OpCode.representative a := by
  rcases content_cases a a' h with ⟨d, h1, h2⟩ | ⟨es, es', h1, h2, h3⟩
  · simp [OpCode.representative, Value.getLiteralValue, Value.elements, h1, h2]
  · simp only [OpCode.representative, Value.getLiteralValue, Value.elements, h1, h2, at?]
    cases es with
    | nil =>
      cases es' with
      | nil => rfl
      | cons y ys => simp at h3
    | cons x xs =>
      cases es' with
      | nil => simp at h3
      | cons y ys =>
        simp only [List.map_cons, List.cons.injEq] at h3
        simp [Scalar.getLiteralValue_eq, h3.1]

theorem content_laneOperand (a a' : Value) (h : a.content = a'.content) (i : Nat) :
    (∃ e, OpCode.laneOperand a i = .error e ∧ OpCode.laneOperand a' i = .error e) ∨
    (∃ x x', OpCode.laneOperand a i = .ok x ∧ OpCode.laneOperand a' i = .ok x' ∧
      x.content = x'.content) := by
  rcases content_cases a a' h with ⟨d, h1, h2⟩ | ⟨es, es', h1, h2, h3⟩
  · right
    exact ⟨a, a', by simp [OpCode.laneOperand, Value.hasContainer, h1],
      by simp [OpCode.laneOperand, Value.hasContainer, h2], h⟩
  · have hlen : es'.length = es.length := by
      have := congrArg List.length h3
      simpa using this.symm
    by_cases hi : i < es.length
    · right
      have hi' : i < es'.length := by omega
      refine ⟨es[i].toValue, es'[i].toValue, ?_, ?_, ?_⟩
      · simp [OpCode.laneOperand, Value.hasContainer, Value.elements, h1, at?,
          List.getElem?_eq_getElem hi]
      · simp [OpCode.laneOperand, Value.hasContainer, Value.elements, h2, at?,
          List.getElem?_eq_getElem hi']
      · have h4 : (es.map Scalar.data)[i]? = (es'.map Scalar.data)[i]? := by rw [h3]
        simp only [List.getElem?_map, List.getElem?_eq_getElem hi, List.getElem?_eq_getElem hi',
          Option.map_some', Option.some.injEq] at h4
        simp [Value.content, Scalar.toValue, h4]
    · left
      have hn : es[i]? = none := List.getElem?_eq_none (by omega)
      have hn' : es'[i]? = none := List.getElem?_eq_none (by omega)
      exact ⟨.outOfRange, by simp [OpCode.laneOperand, Value.hasContainer, Value.elements, h1, at?, hn],
        by simp [OpCode.laneOperand, Value.hasContainer, Value.elements, h2, at?, hn']⟩

theorem resultContent_ite (c : Prop) [Decidable c] (a b a' b' : Except Error (Option Value))
    (ha : c → resultContent a = resultContent a') (hb : ¬ c → resultContent b = resultContent b') :
    resultContent (if c then a else b) = resultContent (if c then a' else b') := by
  split
  · exact ha ‹_›
  · exact hb ‹_›

/-- The literal that the chain of comparisons returns does not depend on the types. -/
theorem evalLiterals_content (F : FloatOps) (op : OpCode) (l1 l2 : Literal)
    (T1 T2 T1' T2' : DataType) :
    resultContent (OpCode.evalLiterals F op l1 l2 T1 T2)
      = resultContent (OpCode.evalLiterals F op l1 l2 T1' T2') := by
  unfold OpCode.evalLiterals
  repeat' (first
    | rfl
    | exact fun _ => rfl
    | apply resultContent_ite
    | intro _)
  cases OpCode.v8Word op l1.unsignedInt l2.unsignedInt <;> rfl

theorem lanesLoop_content (lane lane' : Nat → Except Error (Option Value)) (is : List Nat)
    (acc acc' : List Scalar)
    (h : ∀ i ∈ is, resultContent (lane i) = resultContent (lane' i))
    (hacc : acc.map Scalar.data = acc'.map Scalar.data) :
    lanesContent (OpCode.lanesLoop lane is acc) = lanesContent (OpCode.lanesLoop lane' is acc') := by
  induction is generalizing acc acc' with
  | nil => simp [OpCode.lanesLoop, lanesContent, hacc]
  | cons i is ih =>
    have hi := h i (List.mem_cons_self _ _)
    have ih' := fun acc acc' => ih acc acc' (fun j hj => h j (List.mem_cons_of_mem _ hj))
    simp only [OpCode.lanesLoop]
    cases h1 : lane i with
    | error e =>
      cases h2 : lane' i with
      | error e' =>
        rw [h1, h2] at hi
        simp only [resultContent, Except.error.injEq] at hi
        simp [lanesContent, hi]
      | ok r' =>
        rw [h1, h2] at hi
        cases r' <;> simp [resultContent] at hi
    | ok r =>
      cases h2 : lane' i with
      | error e' =>
        rw [h1, h2] at hi
        cases r <;> simp [resultContent] at hi
      | ok r' =>
        rw [h1, h2] at hi
        cases r with
        | none =>
          cases r' with
          | none => rfl
          | some v' => simp [resultContent] at hi
        | some v =>
          cases r' with
          | none => simp [resultContent] at hi
          | some v' =>
            simp only [resultContent, Except.ok.injEq, Option.some.injEq] at hi
            rcases content_cases v v' hi with ⟨d, hd, hd'⟩ | ⟨es, es', hd, hd', _⟩
            · simp only [hd, hd']
              apply ih'
              simp [hacc]
            · simp only [hd, hd']

theorem resultContent_undefined (c c' : Prop) [Decidable c] [Decidable c'] (t t' : DataType) :
    resultContent (.ok (some (if c then Value.ofType t else UNDEFINED_VALUE)))
      = resultContent (.ok (some (if c' then Value.ofType t' else UNDEFINED_VALUE))) := by
  split <;> split <;> rfl

theorem resultContent_lanes (L L' : Except Error (Option (List Scalar))) (T T' : DataType) :
    lanesContent L = lanesContent L' →
    resultContent (match L with
      | .error e => .error e
      | .ok none => .ok none
      | .ok (some res) => .ok (some (Value.ofContainer res T)))
    = resultContent (match L' with
      | .error e => .error e
      | .ok none => .ok none
      | .ok (some res) => .ok (some (Value.ofContainer res T'))) := by
  intro h
  rcases L with e | _ | res <;> rcases L' with e' | _ | res' <;>
    simp only [lanesContent, Except.error.injEq, Except.ok.injEq, Option.some.injEq,
      reduceCtorEq] at h <;>
    simp [resultContent, Value.content, Value.ofContainer, h]

theorem lanesCounted_content (lane lane' : Nat → Except Error (Option Value)) (n : Nat)
    (h : ∀ i, resultContent (lane i) = resultContent (lane' i)) :
    lanesContent (OpCode.lanesCounted lane n) = lanesContent (OpCode.lanesCounted lane' n) := by
  unfold OpCode.lanesCounted
  by_cases hn : n < 256
  · rw [if_pos hn, if_pos hn]
    exact lanesLoop_content _ _ _ _ _ (fun i _ => h i) rfl
  · rw [if_neg hn, if_neg hn]
    have hc := lanesLoop_content lane lane' (List.range 256) [] [] (fun i _ => h i) rfl
    cases h1 : OpCode.lanesLoop lane (List.range 256) [] with
    | error e =>
      cases h2 : OpCode.lanesLoop lane' (List.range 256) [] with
      | error e' =>
        rw [h1, h2] at hc
        exact hc
      | ok r' =>
        rw [h1, h2] at hc
        cases r' <;> simp [lanesContent] at hc
    | ok r =>
      cases h2 : OpCode.lanesLoop lane' (List.range 256) [] with
      | error e' =>
        rw [h1, h2] at hc
        cases r <;> simp [lanesContent] at hc
      | ok r' =>
        rw [h1, h2] at hc
        cases r <;> cases r' <;> simp [lanesContent] at hc ⊢

theorem applyConstants_content (F : FloatOps)
    (self self' : Value → Option Value → Except Error (Option Value)) (op : OpCode)
    (a a' : Value) (sv sv' : Option Value)
    (hself : ∀ x x' y y', x.content = x'.content →
      Option.map Value.content y = Option.map Value.content y' →
      resultContent (self x y) = resultContent (self' x' y'))
    (ha : a.content = a'.content)
    (hsv : Option.map Value.content sv = Option.map Value.content sv') :
    resultContent (OpCode.applyWith.applyConstants F self op a sv)
      = resultContent (OpCode.applyWith.applyConstants F self' op a' sv') := by
  have a1 := content_hasContainer a a' ha
  have a3 := content_hasImmediate a a' ha
  have a4 := content_isVectorRotation a a' ha
  have a5 := content_length a a' ha
  have a6 := content_isUndefined a a' ha
  have a7 := content_isAllSame a a' ha
  have a8 := content_representative a a' ha
  cases sv with
  | none =>
    cases sv' with
    | some v' => simp at hsv
    | none =>
      simp only [OpCode.applyWith.applyConstants, a1, a3, a4, a5, a6, a7, a8]
      repeat' (first
        | rfl
        | exact fun _ => rfl
        | apply resultContent_ite
        | intro _)
      · apply resultContent_lanes
        apply lanesCounted_content
        intro i
        rcases content_laneOperand a a' ha i with ⟨e, h1, h2⟩ | ⟨x, x', h1, h2, hx⟩
        · simp only [h1, h2]
        · simp only [h1, h2]
          split
          · exact hself x x' none none hx rfl
          · rfl
      · cases OpCode.representative a with
        | error e => rfl
        | ok l => exact evalLiterals_content F op l _ _ _ _ _
  | some v =>
    cases sv' with
    | none => simp at hsv
    | some v' =>
      have hv : v.content = v'.content := by simpa using hsv
      have v1 := content_hasContainer v v' hv
      have v3 := content_hasImmediate v v' hv
      have v4 := content_isVectorRotation v v' hv
      have v5 := content_length v v' hv
      have v6 := content_isUndefined v v' hv
      have v7 := content_isAllSame v v' hv
      have v8 := content_representative v v' hv
      simp only [OpCode.applyWith.applyConstants, a1, a3, a4, a5, a6, a7, a8, Option.any_some,
        v1, v3, v4, v5, v6, v7, v8, reduceCtorEq, and_false, if_false]
      repeat' (first
        | rfl
        | exact fun _ => rfl
        | apply resultContent_ite
        | intro _)
      · apply resultContent_lanes
        apply lanesCounted_content
        intro i
        rcases content_laneOperand a a' ha i with ⟨e, h1, h2⟩ | ⟨x, x', h1, h2, hx⟩
        · simp only [h1, h2]
        · simp only [h1, h2]
          split
          · exact hself x x' none none hx rfl
          · rcases content_laneOperand v v' hv i with ⟨e, h3, h4⟩ | ⟨y, y', h3, h4, hy⟩
            · simp only [h3, h4]
            · simp only [h3, h4]
              exact hself x x' (some y) (some y') hx (by simp [hy])
      · cases OpCode.representative a with
        | error e => rfl
        | ok l =>
          simp only []
          generalize (if op.numOperands = 1 then Except.ok (Literal.ofInt 0)
            else OpCode.representative v) = sl
          cases sl with
          | error e => rfl
          | ok l2 => exact evalLiterals_content F op l l2 _ _ _ _

theorem applyDefined_content (F : FloatOps)
    (self self' : Value → Option Value → Except Error (Option Value)) (op : OpCode)
    (a a' : Value) (b b' : Option Value)
    (hself : ∀ x x' y y', x.content = x'.content →
      Option.map Value.content y = Option.map Value.content y' →
      resultContent (self x y) = resultContent (self' x' y'))
    (ha : a.content = a'.content)
    (hb : Option.map Value.content b = Option.map Value.content b') :
    resultContent (OpCode.applyWith.applyDefined F self op a b)
      = resultContent (OpCode.applyWith.applyDefined F self' op a' b') := by
  have a1 := content_hasContainer a a' ha
  have a2 := content_getLiteralValue a a' ha
  by_cases hf : a.getLiteralValue.isSome = true ∨ a.hasContainer = true
  · cases b with
    | none =>
      cases b' with
      | some v' => simp at hb
      | none =>
        simp only [OpCode.applyWith.applyDefined, a1, a2, hf, if_true]
        exact applyConstants_content F self self' op a a' none none hself ha rfl
    | some v =>
      cases b' with
      | none => simp at hb
      | some v' =>
        have hv : v.content = v'.content := by simpa using hb
        have v1 := content_hasContainer v v' hv
        have v2 := content_getLiteralValue v v' hv
        by_cases hg : v.getLiteralValue.isSome = true ∨ v.hasContainer = true
        · simp only [OpCode.applyWith.applyDefined, a1, a2, v1, v2, hf, hg, if_true]
          exact applyConstants_content F self self' op a a' (some v) (some v') hself ha
            (by simp [hv])
        · simp only [OpCode.applyWith.applyDefined, a1, a2, v1, v2, hf, hg, if_true, if_false]
          exact applyConstants_content F self self' op a a' none none hself ha rfl
  · simp only [OpCode.applyWith.applyDefined, a1, a2, hf, if_false]

theorem applyWith_content (F : FloatOps)
    (self self' : Value → Option Value → Except Error (Option Value)) (op : OpCode)
    (a a' : Value) (b b' : Option Value)
    (hself : ∀ x x' y y', x.content = x'.content →
      Option.map Value.content y = Option.map Value.content y' →
      resultContent (self x y) = resultContent (self' x' y'))
    (ha : a.content = a'.content)
    (hb : Option.map Value.content b = Option.map Value.content b') :
    resultContent (OpCode.applyWith F self op (some a) b)
      = resultContent (OpCode.applyWith F self' op (some a') b') := by
  have a6 := content_isUndefined a a' ha
  have hd := applyDefined_content F self self' op a a' b b' hself ha hb
  cases b with
  | none =>
    cases b' with
    | some v' => simp at hb
    | none =>
      simp only [OpCode.applyWith, a6, Option.any_none]
      repeat' (first
        | rfl
        | exact fun _ => rfl
        | exact hd
        | exact fun _ => hd
        | exact resultContent_undefined _ _ _ _
        | exact fun _ => resultContent_undefined _ _ _ _
        | apply resultContent_ite
        | intro _)
  | some v =>
    cases b' with
    | none => simp at hb
    | some v' =>
      have hv : v.content = v'.content := by simpa using hb
      have v6 := content_isUndefined v v' hv
      simp only [OpCode.applyWith, a6, Option.any_some, v6, reduceCtorEq, and_false, if_false]
      repeat' (first
        | rfl
        | exact fun _ => rfl
        | exact hd
        | exact fun _ => hd
        | exact resultContent_undefined _ _ _ _
        | exact fun _ => resultContent_undefined _ _ _ _
        | apply resultContent_ite
        | intro _)

/-- The result of the evaluator, without the types, depends on the operands without the
types only. -/
theorem apply_content (F : FloatOps) (op : OpCode) (a a' : Value) (b b' : Option Value)
    (ha : a.content = a'.content)
    (hb : Option.map Value.content b = Option.map Value.content b') :
    resultContent (OpCode.apply F op (some a) b) = resultContent (OpCode.apply F op (some a') b') := by
  unfold OpCode.apply
  apply applyWith_content F _ _ op a a' b b' _ ha hb
  intro x x' y y' hx hy
  unfold OpCode.applyLane
  exact applyWith_content F _ _ op x x' y y' (fun _ _ _ _ _ _ => rfl) hx hy

/-- C9, as the claim states it, fails: with the lanes 1, 2 as other operand, integer
`add` raises on the uniform container of four lanes 5 and returns the lanes 6, 7 on the
scalar 5. -/
theorem uniform_container_counterexample :
    uniformContainer 3 (Literal.ofUInt 5) TYPE_INT32 = int32Container [5, 5, 5, 5] ∧
    OpCode.apply FloatOps.ieee OP_ADD (some (int32Container [5, 5, 5, 5]))
      (some (int32Container [1, 2])) = .error .outOfRange ∧
    OpCode.apply FloatOps.ieee OP_ADD (some (int32Literal 5)) (some (int32Container [1, 2]))
      = .ok (some (int32Container [6, 7])) := by
  decide

/-- The evaluator returns the same on the uniform container of `n + 1` lanes `x` of type
`t` as on the scalar `x` of type `t`, when the other operand is not evaluated per lane or
has `n + 1` lanes. -/
theorem uniformContainer_apply (F : FloatOps) (op : OpCode) (x : Literal) (t : DataType)
    (n : Nat) (y : Option Value) (z : Value)
    (hy : ∀ v, y = some v → v.isPerLane = true → v.elements.length = n + 1)
    (hz : z.isPerLane = true → z.elements.length = n + 1) :
    OpCode.apply F op (some (uniformContainer n x t)) y
      = OpCode.apply F op (some (Value.ofLiteral x t)) y ∧
    OpCode.apply F op (some z) (some (uniformContainer n x t))
      = OpCode.apply F op (some z) (some (Value.ofLiteral x t)) := by
  have hC3 := uniformContainer_isUndefined n x t
  have hC6 : (uniformContainer n x t).type = t := rfl
  have hX3 : (Value.ofLiteral x t).isUndefined = false := rfl
  have hX6 : (Value.ofLiteral x t).type = t := rfl
  constructor
  · simp only [OpCode.apply, OpCode.applyWith, hC3, hC6, hX3, hX6,
      applyDefined_uniform_first F _ op x t n y hy]
  · simp only [OpCode.apply, OpCode.applyWith, Option.any_some, hC3, hC6, hX3, hX6,
      applyDefined_uniform_second F _ op x t n z hz, reduceCtorEq, and_false]

/-- C9, amended: for every operation, every literal `x`, every container of at least one
lane whose lanes all hold `x`, and every other operand that is not a container of lanes
that differ with a lane count other than that of the uniform container, the evaluator
returns the same on the uniform container as on the scalar `x`, in the place of the first
operand and in that of the second: the same error, the same `NO_VALUE`, or values that
hold the same literals lane for lane, whatever types the operands carry; and the very
same result when the container and its lanes carry the type of the scalar. -/
theorem uniform_container_as_scalar (F : FloatOps) (op : OpCode) (x : Literal)
    (tx tc : DataType) (lanes : List Scalar) (y : Option Value) (z : Value)
    (hne : lanes ≠ []) (hl : ∀ s ∈ lanes, s.data = ScalarData.literal x)
    (hy : ∀ v, y = some v → v.isPerLane = true → v.elements.length = lanes.length)
    (hz : z.isPerLane = true → z.elements.length = lanes.length) :
    resultContent (OpCode.apply F op (some (Value.ofContainer lanes tc)) y)
      = resultContent (OpCode.apply F op (some (Value.ofLiteral x tx)) y) ∧
    resultContent (OpCode.apply F op (some z) (some (Value.ofContainer lanes tc)))
      = resultContent (OpCode.apply F op (some z) (some (Value.ofLiteral x tx))) ∧
    (tc = tx → (∀ s ∈ lanes, s.type = tx) →
      OpCode.apply F op (some (Value.ofContainer lanes tc)) y
        = OpCode.apply F op (some (Value.ofLiteral x tx)) y ∧
      OpCode.apply F op (some z) (some (Value.ofContainer lanes tc))
        = OpCode.apply F op (some z) (some (Value.ofLiteral x tx))) := by
  obtain ⟨n, hn⟩ : ∃ n, lanes.length = n + 1 := by
    cases lanes with
    | nil => exact absurd rfl hne
    | cons s ss => exact ⟨ss.length, rfl⟩
  have hdata : lanes.map Scalar.data = List.replicate (n + 1) (ScalarData.literal x) := by
    rw [List.eq_replicate_iff]
    constructor
    · simp [hn]
    · intro d hd
      obtain ⟨s, hs, rfl⟩ := List.mem_map.mp hd
      exact hl s hs
  have hcontent : (Value.ofContainer lanes tc).content = (uniformContainer n x tx).content := by
    simp [Value.content, Value.ofContainer, uniformContainer, hdata]
  have hU := uniformContainer_apply F op x tx n y z (by rw [← hn]; exact hy) (by rw [← hn]; exact hz)
  refine ⟨?_, ?_, ?_⟩
  · rw [apply_content F op _ _ y y hcontent rfl, hU.1]
  · rw [apply_content F op z z (some (Value.ofContainer lanes tc))
      (some (uniformContainer n x tx)) rfl (by simp [hcontent]), hU.2]
  · intro htc htypes
    have heq : Value.ofContainer lanes tc = uniformContainer n x tx := by
      have hlanes : lanes = List.replicate (n + 1) (⟨.literal x, tx⟩ : Scalar) := by
        rw [List.eq_replicate_iff]
        refine ⟨hn, ?_⟩
        intro s hs
        rcases s with ⟨d, t⟩
        have h1 := hl _ hs
        have h2 := htypes _ hs
        simp only at h1 h2
        rw [h1, h2]
      rw [hlanes, htc]
      rfl
    rw [heq]
    exact hU

/-- C9, amended, at the container of four lanes 5 and the scalar 5, with the literal 7 as
other operand of integer `add`. -/
theorem uniform_container_as_scalar_witness :
    OpCode.apply FloatOps.ieee OP_ADD (some (int32Container [5, 5, 5, 5])) (some (int32Literal 7))
      = OpCode.apply FloatOps.ieee OP_ADD (some (int32Literal 5)) (some (int32Literal 7)) ∧
    OpCode.apply FloatOps.ieee OP_ADD (some (int32Literal 5)) (some (int32Literal 7))
      = .ok (some (int32Literal 12)) :=
  ⟨((uniform_container_as_scalar FloatOps.ieee OP_ADD (Literal.ofUInt 5) TYPE_INT32 TYPE_INT32
      ([5, 5, 5, 5].map fun n => ⟨.literal (Literal.ofUInt n), TYPE_INT32⟩)
      (some (int32Literal 7)) (int32Literal 7) (by decide) (by decide)
      (by intro v hv hp; cases hv; cases hp) (by intro hp; cases hp)).2.2 rfl (by decide)).1,
    by decide⟩

theorem apply_literals (F : FloatOps) (op : OpCode) (l1 l2 : Literal) (t1 t2 : DataType)
    (hop : op.numOperands = 2) :
    OpCode.apply F op (some (Value.ofLiteral l1 t1)) (some (Value.ofLiteral l2 t2))
      = OpCode.evalLiterals F op l1 l2
        (OpCode.resultType (Value.ofLiteral l1 t1) (Value.ofLiteral l2 t2)) t1 := by
  simp [OpCode.apply, OpCode.applyWith, OpCode.applyWith.applyDefined, OpCode.applyWith.applyConstants, hop, Value.ofLiteral,
    Value.isUndefined, Value.getLiteralValue, Value.hasContainer, Value.hasImmediate,
    OpCode.representative, OpCode.resultType]

theorem and_allBits (x : Nat) (hx : x < 2 ^ 32) : (4294967295 &&& x) % 4294967296 = x := by
  have h : x &&& (2 ^ 32 - 1) = x % 2 ^ 32 := Nat.and_pow_two_sub_one_eq_mod x 32
  rw [Nat.and_comm]
  norm_num at h hx ⊢
  rw [h]
  omega

theorem and_low24 (x : Nat) : x &&& 16777215 = x % 2 ^ 24 := by
  have h : x &&& (2 ^ 24 - 1) = x % 2 ^ 24 := Nat.and_pow_two_sub_one_eq_mod x 24
  norm_num at h ⊢
  exact h

theorem ofInt_signedInt (x : Nat) (hx : x < 2 ^ 32) :
    Literal.ofInt ((Literal.ofInt 0).signedInt + (⟨x⟩ : Literal).signedInt) = ⟨x⟩ := by
  simp only [Literal.ofInt, Literal.signedInt]
  congr 1
  norm_num
  split <;> omega

theorem F32.bitLen_zero (fuel : Nat) : F32.bitLen fuel 0 = 0 := by
  cases fuel <;> simp [F32.bitLen]

theorem F32.bitLen_of_range (j : Nat) : ∀ fuel n, 2 ^ j ≤ n → n < 2 ^ (j + 1) → j < fuel →
    F32.bitLen fuel n = j + 1 := by
  induction j with
  | zero =>
    intro fuel n h1 h2 h3
    have hn : n = 1 := by omega
    subst hn
    cases fuel with
    | zero => omega
    | succ f => simp [F32.bitLen, F32.bitLen_zero]
  | succ k ih =>
    intro fuel n h1 h2 h3
    cases fuel with
    | zero => omega
    | succ f =>
      have hpos : 0 < 2 ^ (k + 1) := Nat.two_pow_pos _
      have hn0 : n ≠ 0 := by omega
      have h1' : 2 ^ k ≤ n / 2 := by
        rw [Nat.le_div_iff_mul_le (by norm_num)]
        rw [pow_succ] at h1
        exact h1
      have h2' : n / 2 < 2 ^ (k + 1) := by
        rw [Nat.div_lt_iff_lt_mul (by norm_num)]
        rw [pow_succ] at h2
        exact h2
      simp [F32.bitLen, hn0, ih f (n / 2) h1' h2' (by omega)]

theorem F32.bitLen_le (k : Nat) : ∀ fuel n, n < 2 ^ k → F32.bitLen fuel n ≤ k := by
  induction k with
  | zero =>
    intro fuel n h
    have hn : n = 0 := by simpa using h
    rw [hn, F32.bitLen_zero]
  | succ k ih =>
    intro fuel n h
    cases fuel with
    | zero => simp [F32.bitLen]
    | succ f =>
      by_cases hn0 : n = 0
      · simp [F32.bitLen, hn0]
      · have h2' : n / 2 < 2 ^ k := by
          rw [Nat.div_lt_iff_lt_mul (by norm_num)]
          rw [pow_succ] at h
          exact h
        have := ih f (n / 2) h2'
        simp [F32.bitLen, hn0]
        omega

/-- Rounding the magnitude of a finite float gives the float back. -/
theorem F32.roundMag_units (x s : Nat) (hx : F32.expo x ≠ 255) (hs : s ≤ 200) :
    F32.roundMag (F32.units x * 2 ^ s) s = F32.mag x := by
  have hmag : F32.mag x = F32.expo x * 2 ^ 23 + F32.frac x := by
    simp only [F32.mag, F32.expo, F32.frac]
    omega
  have hfrac : F32.frac x < 2 ^ 23 := Nat.mod_lt _ (by norm_num)
  have hexpo : F32.expo x < 256 := Nat.mod_lt _ (by norm_num)
  have hspos : 0 < 2 ^ s := Nat.two_pow_pos _
  obtain ⟨sig, scale, hu, hsig, hbits, hscale⟩ : ∃ sig scale, F32.units x = sig * 2 ^ scale ∧
      (scale = 0 ∧ sig < 2 ^ 23 ∨ 2 ^ 23 ≤ sig ∧ sig < 2 ^ 24) ∧
      scale * 2 ^ 23 + sig = F32.expo x * 2 ^ 23 + F32.frac x ∧ scale ≤ 253 := by
    by_cases he : F32.expo x = 0
    · exact ⟨F32.frac x, 0, by simp [F32.units, F32.sig, F32.scale, he],
        Or.inl ⟨rfl, hfrac⟩, by simp [he], by omega⟩
    · exact ⟨F32.frac x + 2 ^ 23, F32.expo x - 1, by simp [F32.units, F32.sig, F32.scale, he],
        Or.inr ⟨by omega, by omega⟩, by omega, by omega⟩
  have hpos : 0 < 2 ^ scale := Nat.two_pow_pos _
  have hpos2 : 0 < 2 ^ (s + scale) := Nat.two_pow_pos _
  have hn : F32.units x * 2 ^ s = sig * 2 ^ (s + scale) := by
    rw [hu, Nat.mul_assoc, ← pow_add, Nat.add_comm]
  have he24 : F32.bitLen 1024 (sig * 2 ^ (s + scale)) - 24 - s = scale := by
    rcases hsig with ⟨h0, hlt⟩ | ⟨hlo, hhi⟩
    · have hlt' : sig * 2 ^ (s + scale) < 2 ^ (23 + (s + scale)) := by
        rw [pow_add 2 23 (s + scale)]
        exact Nat.mul_lt_mul_of_pos_right hlt hpos2
      have := F32.bitLen_le (23 + (s + scale)) 1024 _ hlt'
      omega
    · have hlo' : 2 ^ (23 + (s + scale)) ≤ sig * 2 ^ (s + scale) := by
        rw [pow_add 2 23 (s + scale)]
        exact Nat.mul_le_mul_right _ hlo
      have hhi' : sig * 2 ^ (s + scale) < 2 ^ (23 + (s + scale) + 1) := by
        rw [show 23 + (s + scale) + 1 = 24 + (s + scale) by omega, pow_add 2 24 (s + scale)]
        exact Nat.mul_lt_mul_of_pos_right hhi hpos2
      have := F32.bitLen_of_range (23 + (s + scale)) 1024 _ hlo' hhi' (by omega)
      omega
  have hq : sig * 2 ^ (s + scale) / 2 ^ (s + scale) = sig := Nat.mul_div_cancel _ hpos2
  have hr : sig * 2 ^ (s + scale) % 2 ^ (s + scale) = 0 := Nat.mul_mod_left _ _
  have hm : (if s + scale = 0 then sig * 2 ^ (s + scale)
      else if 0 > 2 ^ (s + scale) / 2 ∨ 0 = 2 ^ (s + scale) / 2 ∧ sig % 2 = 1
        then sig + 1 else sig) = sig := by
    by_cases h0 : s + scale = 0
    · rw [if_pos h0, h0]
      simp
    · have h2 : 2 ≤ 2 ^ (s + scale) := by
        calc 2 = 2 ^ 1 := by norm_num
          _ ≤ 2 ^ (s + scale) := Nat.pow_le_pow_right (by norm_num) (by omega)
      have hno : ¬ (0 > 2 ^ (s + scale) / 2 ∨ 0 = 2 ^ (s + scale) / 2 ∧ sig % 2 = 1) := by
        omega
      rw [if_neg h0, if_neg hno]
  have hlt : ¬ (F32.expo x * 2 ^ 23 + F32.frac x ≥ 255 * 2 ^ 23) := by omega
  rw [hn]
  simp only [F32.roundMag, he24, hq, hr]
  rw [hm, hbits, if_neg hlt, hmag]

theorem F32.withSign_mag (x : Nat) (hx : x < 2 ^ 32) : F32.withSign (F32.sign x) (F32.mag x) = x := by
  simp only [F32.withSign, F32.sign, F32.mag, decide_eq_true_eq]
  split <;> omega

theorem F32.expo_of_finite (x : Nat) (h1 : F32.isNaN x = false) (h2 : F32.isInf x = false) :
    F32.expo x ≠ 255 := by
  intro h
  simp only [F32.isNaN, F32.isInf, h, true_and, decide_eq_false_iff_not, not_not,
    decide_not, Bool.not_eq_false', decide_eq_true_eq] at h1 h2
  exact h2 h1

/-- On IEEE arithmetic 0.0 is a left identity of the float addition for every float that is
no NaN and not the negative zero. -/
theorem F32.zero_add (x : Nat) (hx : x < 2 ^ 32) (hnan : F32.isNaN x = false) (hz : x ≠ 2 ^ 31) :
    F32.add 0 x = x := by
  have h0 : F32.isNaN 0 = false := by decide
  have h0' : F32.isInf 0 = false := by decide
  have hs0 : F32.signedUnits 0 = 0 := by decide
  have hsg0 : F32.sign 0 = false := by decide
  simp only [F32.add, h0, h0', hnan, Bool.false_eq_true, false_or, if_false, hs0, Int.zero_add,
    hsg0, Bool.false_and]
  by_cases hinf : F32.isInf x = true
  · rw [if_pos hinf]
  · rw [if_neg hinf]
    have hfin := F32.expo_of_finite x hnan (by simpa using hinf)
    have hround := F32.roundMag_units x 0 hfin (by omega)
    simp only [pow_zero, Nat.mul_one] at hround
    have hws := F32.withSign_mag x hx
    by_cases hu : F32.units x = 0
    · have hmag : F32.mag x = 0 := by
        rw [← hround, hu]
        decide
      have hx0 : x = 0 := by
        simp only [F32.mag] at hmag
        omega
      subst hx0
      decide
    · simp only [F32.ofScaled, F32.signedUnits]
      by_cases hsg : F32.sign x = true
      · have hneg : -(F32.units x : Int) ≠ 0 := by omega
        have hlt : -(F32.units x : Int) < 0 := by omega
        simp only [hsg, if_true, hneg, if_false, hlt, decide_True, Int.natAbs_neg,
          Int.natAbs_ofNat, hround]
        rw [← hsg]
        exact hws
      · have hsg' : F32.sign x = false := by simpa using hsg
        have hne : (F32.units x : Int) ≠ 0 := by omega
        have hlt : ¬ ((F32.units x : Int) < 0) := by omega
        simp only [hsg', Bool.false_eq_true, if_false, hne, hlt, decide_False,
          Int.natAbs_ofNat, hround]
        rw [← hsg']
        exact hws

/-- On IEEE arithmetic 1.0 is a left identity of the float multiplication for every float
that is no NaN. -/
theorem F32.one_mul (x : Nat) (hx : x < 2 ^ 32) (hnan : F32.isNaN x = false) :
    F32.mul 0x3F800000 x = x := by
  have h1 : F32.isNaN 0x3F800000 = false := by decide
  have h1' : F32.isInf 0x3F800000 = false := by decide
  have hm1 : F32.mag 0x3F800000 ≠ 0 := by decide
  have hsg1 : F32.sign 0x3F800000 = false := by decide
  have hu1 : F32.units 0x3F800000 = 2 ^ 149 := by decide
  have hws := F32.withSign_mag x hx
  simp only [F32.mul, h1, h1', hnan, Bool.false_eq_true, false_or, if_false, hsg1, hu1, hm1]
  have hbne : (false != F32.sign x) = F32.sign x := by cases F32.sign x <;> rfl
  rw [hbne]
  by_cases hinf : F32.isInf x = true
  · have hmag : F32.mag x = 255 * 2 ^ 23 := by
      simp only [F32.isInf, F32.expo, F32.frac, Bool.and_eq_true, decide_eq_true_eq] at hinf
      simp only [F32.mag]
      omega
    have hne : F32.mag x ≠ 0 := by omega
    rw [if_pos hinf, if_neg hne, ← hmag]
    exact hws
  · rw [if_neg hinf]
    have hfin := F32.expo_of_finite x hnan (by simpa using hinf)
    rw [Nat.mul_comm, F32.roundMag_units x 149 hfin (by omega)]
    exact hws

/-- C10, as the claim states it, fails: the left identity of `mul24` is 1, and on the
literal `0x01000000`, which has a bit set above bit 23, `mul24` gives 0. On IEEE
arithmetic `fadd` with its left identity 0.0 gives +0.0 on the literal -0.0. -/
theorem left_identity_counterexample :
    OpCode.getLeftIdentity OP_MUL24 = some INT_ONE ∧
    OpCode.apply FloatOps.ieee OP_MUL24 (some INT_ONE) (some (int32Literal 0x01000000))
      = .ok (some (int32Literal 0)) ∧
    int32Literal 0 ≠ int32Literal 0x01000000 ∧
    OpCode.getLeftIdentity OP_FADD = some FLOAT_ZERO ∧
    OpCode.apply FloatOps.ieee OP_FADD (some FLOAT_ZERO)
      (some (Value.ofLiteral (Literal.ofReal 0x80000000) TYPE_FLOAT))
      = .ok (some (Value.ofLiteral (Literal.ofReal 0) TYPE_FLOAT)) := by
  decide

/-- C10, amended: the registered operations with a left identity are `add`, `and`, `or`,
`xor`, `mul24`, `fadd` and `fmul`. With the left identity as first operand and a literal
`x` below `2 ^ 32` as second, `add`, `and`, `or` and `xor` return the literal `x`;
`mul24` returns the literal `x mod 2 ^ 24`, which is `x` when `x` is below `2 ^ 24`;
`fadd` returns the float sum `0.0 + x` and `fmul` the float product `1.0 * x`, which on
IEEE arithmetic are `x` for every `x` that is no NaN, but for `fadd` on the negative
zero. -/
theorem left_identity_eval (F : FloatOps) (op : OpCode) (e : Value) (x : Nat) (t : DataType)
    (hop : op ∈ opCodes.map Prod.snd) (he : OpCode.getLeftIdentity op = some e)
    (hx : x < 2 ^ 32) :
    (op = OP_ADD ∨ op = OP_AND ∨ op = OP_OR ∨ op = OP_XOR ∨ op = OP_MUL24 ∨ op = OP_FADD ∨
      op = OP_FMUL) ∧
    (op = OP_ADD ∨ op = OP_AND ∨ op = OP_OR ∨ op = OP_XOR →
      OpCode.apply F op (some e) (some (Value.ofLiteral ⟨x⟩ t))
        = .ok (some (Value.ofLiteral ⟨x⟩ (OpCode.resultType e (Value.ofLiteral ⟨x⟩ t))))) ∧
    (op = OP_MUL24 →
      OpCode.apply F op (some e) (some (Value.ofLiteral ⟨x⟩ t))
        = .ok (some (Value.ofLiteral ⟨x % 2 ^ 24⟩ (OpCode.resultType e (Value.ofLiteral ⟨x⟩ t))))) ∧
    (op = OP_MUL24 → x < 2 ^ 24 →
      OpCode.apply F op (some e) (some (Value.ofLiteral ⟨x⟩ t))
        = .ok (some (Value.ofLiteral ⟨x⟩ (OpCode.resultType e (Value.ofLiteral ⟨x⟩ t))))) ∧
    (op = OP_FADD →
      OpCode.apply F op (some e) (some (Value.ofLiteral ⟨x⟩ t))
        = .ok (some (Value.ofLiteral (Literal.ofReal (F.add 0 x))
            (OpCode.resultType e (Value.ofLiteral ⟨x⟩ t))))) ∧
    (op = OP_FMUL →
      OpCode.apply F op (some e) (some (Value.ofLiteral ⟨x⟩ t))
        = .ok (some (Value.ofLiteral (Literal.ofReal (F.mul 0x3F800000 x))
            (OpCode.resultType e (Value.ofLiteral ⟨x⟩ t))))) ∧
    (op = OP_FADD ∨ op = OP_FMUL → F32.isNaN x = false → ¬ (op = OP_FADD ∧ x = 2 ^ 31) →
      OpCode.apply FloatOps.ieee op (some e) (some (Value.ofLiteral ⟨x⟩ t))
        = .ok (some (Value.ofLiteral ⟨x⟩ (OpCode.resultType e (Value.ofLiteral ⟨x⟩ t))))) := by
  have hmem : ∀ o ∈ opCodes.map Prod.snd, (OpCode.getLeftIdentity o).isSome = true →
      (o = OP_ADD ∨ o = OP_AND ∨ o = OP_OR ∨ o = OP_XOR ∨ o = OP_MUL24 ∨ o = OP_FADD ∨
        o = OP_FMUL) := by decide
  have hcases := hmem op hop (by rw [he]; rfl)
  have hAdd : OpCode.getLeftIdentity OP_ADD = some INT_ZERO := by decide
  have hAnd : OpCode.getLeftIdentity OP_AND = some VALUE_ALL_BITS_SET := by decide
  have hOr : OpCode.getLeftIdentity OP_OR = some INT_ZERO := by decide
  have hXor : OpCode.getLeftIdentity OP_XOR = some INT_ZERO := by decide
  have hMul : OpCode.getLeftIdentity OP_MUL24 = some INT_ONE := by decide
  have hFadd : OpCode.getLeftIdentity OP_FADD = some FLOAT_ZERO := by decide
  have hFmul : OpCode.getLeftIdentity OP_FMUL = some FLOAT_ONE := by decide
  have hm24 : OpCode.apply F OP_MUL24 (some INT_ONE) (some (Value.ofLiteral ⟨x⟩ t))
      = .ok (some (Value.ofLiteral ⟨x % 2 ^ 24⟩
          (OpCode.resultType INT_ONE (Value.ofLiteral ⟨x⟩ t)))) := by
    rw [INT_ONE, apply_literals F OP_MUL24 _ _ _ _ rfl]
    have h1 : (Literal.ofInt 1).u % 16777216 = 1 := by decide
    have h2 : x % 16777216 % 4294967296 = x % 16777216 := by omega
    simp [OpCode.evalLiterals, OpCode.eq, OP_MUL24, OP_ADD, OP_AND, OP_ASR, OP_CLZ, OP_FADD,
      OP_FMAX, OP_FMAXABS, OP_FMIN, OP_FMINABS, OP_FMUL, OP_FSUB, OP_FTOI, OP_ITOF, OP_MAX,
      OP_MIN, h1, Literal.ofUInt, Literal.unsignedInt, and_low24, h2]
  have hfadd : ∀ G : FloatOps,
      OpCode.apply G OP_FADD (some FLOAT_ZERO) (some (Value.ofLiteral ⟨x⟩ t))
        = .ok (some (Value.ofLiteral (Literal.ofReal (G.add 0 x))
            (OpCode.resultType FLOAT_ZERO (Value.ofLiteral ⟨x⟩ t)))) := by
    intro G
    rw [FLOAT_ZERO, apply_literals G OP_FADD _ _ _ _ rfl]
    simp [OpCode.evalLiterals, OpCode.eq, OP_FADD, OP_ADD, OP_AND, OP_ASR, OP_CLZ, Literal.ofReal,
      Literal.real]
  have hfmul : ∀ G : FloatOps,
      OpCode.apply G OP_FMUL (some FLOAT_ONE) (some (Value.ofLiteral ⟨x⟩ t))
        = .ok (some (Value.ofLiteral (Literal.ofReal (G.mul 0x3F800000 x))
            (OpCode.resultType FLOAT_ONE (Value.ofLiteral ⟨x⟩ t)))) := by
    intro G
    rw [FLOAT_ONE, apply_literals G OP_FMUL _ _ _ _ rfl]
    simp [OpCode.evalLiterals, OpCode.eq, OP_FMUL, OP_FADD, OP_ADD, OP_AND, OP_ASR, OP_CLZ,
      OP_FMAX, OP_FMAXABS, OP_FMIN, OP_FMINABS, Literal.ofReal, Literal.real]
  refine ⟨hcases, ?_, ?_, ?_, ?_, ?_, ?_⟩
  · rintro (rfl | rfl | rfl | rfl)
    · rw [hAdd] at he
      cases he
      rw [INT_ZERO, apply_literals F OP_ADD _ _ _ _ rfl]
      simp [OpCode.evalLiterals, OpCode.eq, OP_ADD, ofInt_signedInt x hx]
    · rw [hAnd] at he
      cases he
      rw [VALUE_ALL_BITS_SET, apply_literals F OP_AND _ _ _ _ rfl]
      simp [OpCode.evalLiterals, OpCode.eq, OP_ADD, OP_AND, Literal.ofUInt, Literal.unsignedInt,
        and_allBits x hx]
    · rw [hOr] at he
      cases he
      rw [INT_ZERO, apply_literals F OP_OR _ _ _ _ rfl]
      have h0 : (Literal.ofInt 0).u = 0 := by decide
      have h2 : x % 4294967296 = x := Nat.mod_eq_of_lt hx
      simp [OpCode.evalLiterals, OpCode.eq, OP_OR, OP_ADD, OP_AND, OP_ASR, OP_CLZ, OP_FADD,
        OP_FMAX, OP_FMAXABS, OP_FMIN, OP_FMINABS, OP_FMUL, OP_FSUB, OP_FTOI, OP_ITOF, OP_MAX,
        OP_MIN, OP_MUL24, OP_NOT, h0, Literal.ofUInt, Literal.unsignedInt, h2]
    · rw [hXor] at he
      cases he
      rw [INT_ZERO, apply_literals F OP_XOR _ _ _ _ rfl]
      have h0 : (Literal.ofInt 0).u = 0 := by decide
      have h2 : x % 4294967296 = x := Nat.mod_eq_of_lt hx
      simp [OpCode.evalLiterals, OpCode.eq, OP_XOR, OP_OR, OP_ADD, OP_AND, OP_ASR, OP_CLZ,
        OP_FADD, OP_FMAX, OP_FMAXABS, OP_FMIN, OP_FMINABS, OP_FMUL, OP_FSUB, OP_FTOI, OP_ITOF,
        OP_MAX, OP_MIN, OP_MUL24, OP_NOT, OP_ROR, OP_SHL, OP_SHR, OP_SUB, h0, Literal.ofUInt,
        Literal.unsignedInt, h2]
  · rintro rfl
    rw [hMul] at he
    cases he
    exact hm24
  · rintro rfl hlt
    rw [hMul] at he
    cases he
    rw [hm24, Nat.mod_eq_of_lt hlt]
  · rintro rfl
    rw [hFadd] at he
    cases he
    exact hfadd F
  · rintro rfl
    rw [hFmul] at he
    cases he
    exact hfmul F
  · rintro (rfl | rfl) hnan hz
    · rw [hFadd] at he
      cases he
      have hz' : x ≠ 2 ^ 31 := fun h => hz ⟨rfl, h⟩
      have hadd : FloatOps.ieee.add 0 x = x := F32.zero_add x hx hnan hz'
      rw [hfadd FloatOps.ieee, hadd, Literal.ofReal, Nat.mod_eq_of_lt hx]
    · rw [hFmul] at he
      cases he
      have hmul : FloatOps.ieee.mul 0x3F800000 x = x := F32.one_mul x hx hnan
      rw [hfmul FloatOps.ieee, hmul, Literal.ofReal, Nat.mod_eq_of_lt hx]

/-- C10, amended, at `and` with its left identity and the literal `0x12345678`. -/
theorem left_identity_eval_witness :
    OpCode.apply FloatOps.ieee OP_AND (some VALUE_ALL_BITS_SET) (some (int32Literal 0x12345678))
      = .ok (some (int32Literal 0x12345678)) :=
  (left_identity_eval FloatOps.ieee OP_AND VALUE_ALL_BITS_SET 0x12345678 TYPE_INT32 (by decide)
    (by decide) (by decide)).2.1 (Or.inr (Or.inl rfl))

/-! ### Commutativity and idempotence -/

theorem testBit_255 (i : Nat) : Nat.testBit 255 i = decide (i < 8) :=
  Nat.testBit_two_pow_sub_one 8 i

theorem testBit_of_lt_word (x i : Nat) (hx : x < 2 ^ 32) (hi : 32 ≤ i) : x.testBit i = false :=
  Nat.testBit_lt_two_pow (lt_of_lt_of_le hx (Nat.pow_le_pow_right (by decide) hi))

/-- The four bytes of a 32-bit word make up the word. -/
theorem word_of_bytes (x : Nat) (hx : x < 2 ^ 32) :
    (((x >>> 24 &&& 255) &&& 255) <<< 24) ||| (((x >>> 16 &&& 255) &&& 255) <<< 16) |||
      (((x >>> 8 &&& 255) &&& 255) <<< 8) ||| ((x &&& 255) &&& 255) = x := by
  apply Nat.eq_of_testBit_eq
  intro i
  simp only [Nat.testBit_or, Nat.testBit_shiftLeft, Nat.testBit_and, Nat.testBit_shiftRight,
    testBit_255]
  by_cases h1 : i < 8
  · have e1 : ¬ i ≥ 24 := by omega
    have e2 : ¬ i ≥ 16 := by omega
    have e3 : ¬ i ≥ 8 := by omega
    simp [h1, e1, e2, e3]
  · by_cases h2 : i < 16
    · have e1 : ¬ i ≥ 24 := by omega
      have e2 : ¬ i ≥ 16 := by omega
      have e3 : i ≥ 8 := by omega
      have e4 : i - 8 < 8 := by omega
      have e5 : 8 + (i - 8) = i := by omega
      simp [h1, e1, e2, e3, e4, e5]
    · by_cases h3 : i < 24
      · have e1 : ¬ i ≥ 24 := by omega
        have e2 : i ≥ 16 := by omega
        have e3 : i ≥ 8 := by omega
        have e4 : i - 16 < 8 := by omega
        have e5 : 16 + (i - 16) = i := by omega
        have e6 : ¬ i - 8 < 8 := by omega
        simp [h1, e1, e2, e3, e4, e5, e6]
      · have e1 : i ≥ 24 := by omega
        have e2 : i ≥ 16 := by omega
        have e3 : i ≥ 8 := by omega
        have e5 : 24 + (i - 24) = i := by omega
        have e6 : ¬ i - 8 < 8 := by omega
        have e7 : ¬ i - 16 < 8 := by omega
        by_cases h4 : i < 32
        · have e4 : i - 24 < 8 := by omega
          simp [h1, e1, e2, e3, e4, e5, e6, e7]
        · have e4 : ¬ i - 24 < 8 := by omega
          have e8 := testBit_of_lt_word x i hx (by omega)
          simp [h1, e1, e2, e3, e4, e6, e7, e8]

theorem ofInt_signedInt_self (x : Nat) (hx : x < 2 ^ 32) :
    Literal.ofInt (⟨x⟩ : Literal).signedInt = ⟨x⟩ := by
  simp only [Literal.ofInt, Literal.signedInt]
  congr 1
  norm_num
  split <;> omega

theorem resultType_same (l1 l2 : Literal) (t : DataType) :
    OpCode.resultType (Value.ofLiteral l1 t) (Value.ofLiteral l2 t) = t := by
  simp [OpCode.resultType, Value.ofLiteral]

theorem apply_literals_same (F : FloatOps) (op : OpCode) (l1 l2 : Literal) (t : DataType)
    (hop : op.numOperands = 2) :
    OpCode.apply F op (some (Value.ofLiteral l1 t)) (some (Value.ofLiteral l2 t))
      = OpCode.evalLiterals F op l1 l2 t t := by
  rw [apply_literals F op l1 l2 t t hop, resultType_same]

theorem isIdempotent_cases : ∀ o ∈ opCodes.map Prod.snd, o.isIdempotent = true →
    (o = OP_AND ∨ o = OP_OR ∨ o = OP_MAX ∨ o = OP_MIN ∨ o = OP_FMAX ∨ o = OP_FMIN ∨
      o = OP_V8MAX ∨ o = OP_V8MIN) := by decide

theorem F32.eq_of_key_eq (a b : Nat) (ha : a < 2 ^ 32) (hb : b < 2 ^ 32)
    (hk : F32.key a = F32.key b) : (F32.mag a = 0 ∧ F32.mag b = 0) ∨ a = b := by
  simp only [F32.key, F32.sign, F32.mag, decide_eq_true_eq] at hk ⊢
  norm_num at ha hb hk ⊢
  split at hk <;> split at hk <;> omega

theorem F32.max_comm (a b : Nat) (ha : a < 2 ^ 32) (hb : b < 2 ^ 32)
    (hna : F32.isNaN a = false) (hnb : F32.isNaN b = false)
    (hz : F32.mag a = 0 → F32.mag b = 0 → a = b) : F32.max a b = F32.max b a := by
  simp only [F32.max, F32.lt, hna, hnb, Bool.not_false, Bool.true_and, decide_eq_true_eq]
  rcases lt_trichotomy (F32.key a) (F32.key b) with h | h | h
  · rw [if_pos h, if_neg (not_lt.mpr h.le)]
  · rw [if_neg (by rw [h]; exact lt_irrefl _), if_neg (by rw [h]; exact lt_irrefl _)]
    rcases F32.eq_of_key_eq a b ha hb h with ⟨h1, h2⟩ | h1
    · exact hz h1 h2
    · exact h1
  · rw [if_neg (not_lt.mpr h.le), if_pos h]

theorem F32.min_comm (a b : Nat) (ha : a < 2 ^ 32) (hb : b < 2 ^ 32)
    (hna : F32.isNaN a = false) (hnb : F32.isNaN b = false)
    (hz : F32.mag a = 0 → F32.mag b = 0 → a = b) : F32.min a b = F32.min b a := by
  simp only [F32.min, F32.lt, hna, hnb, Bool.not_false, Bool.true_and, decide_eq_true_eq]
  rcases lt_trichotomy (F32.key a) (F32.key b) with h | h | h
  · rw [if_neg (not_lt.mpr h.le), if_pos h]
  · rw [if_neg (by rw [h]; exact lt_irrefl _), if_neg (by rw [h]; exact lt_irrefl _)]
    rcases F32.eq_of_key_eq a b ha hb h with ⟨h1, h2⟩ | h1
    · exact hz h1 h2
    · exact h1
  · rw [if_pos h, if_neg (not_lt.mpr h.le)]

theorem F32.isNaN_fabs (a : Nat) : F32.isNaN (F32.fabs a) = F32.isNaN a := by
  have h1 : F32.expo (F32.fabs a) = F32.expo a := by
    simp only [F32.expo, F32.fabs, F32.mag]
    omega
  have h2 : F32.frac (F32.fabs a) = F32.frac a := by
    simp only [F32.frac, F32.fabs, F32.mag]
    omega
  simp only [F32.isNaN, h1, h2]

theorem F32.fabs_lt (a : Nat) : F32.fabs a < 2 ^ 32 := by
  simp only [F32.fabs, F32.mag]
  omega

theorem F32.mag_fabs (a : Nat) : F32.mag (F32.fabs a) = F32.fabs a := by
  simp only [F32.fabs, F32.mag]
  omega

theorem F32.eq_of_isInf (a b : Nat) (ha : a < 2 ^ 32) (hb : b < 2 ^ 32)
    (hia : F32.isInf a = true) (hib : F32.isInf b = true) (hs : F32.sign a = F32.sign b) :
    a = b := by
  simp only [F32.isInf, F32.expo, F32.frac, F32.sign, decide_eq_true_eq, Bool.decide_and,
    Bool.and_eq_true, decide_eq_decide] at hia hib hs
  norm_num at ha hb hia hib hs
  omega

theorem F32.add_comm (a b : Nat) (ha : a < 2 ^ 32) (hb : b < 2 ^ 32) :
    F32.add a b = F32.add b a := by
  unfold F32.add
  by_cases hn : F32.isNaN a = true ∨ F32.isNaN b = true
  · rw [if_pos hn, if_pos (Or.symm hn)]
  · rw [if_neg hn, if_neg (fun h => hn (Or.symm h))]
    by_cases hia : F32.isInf a = true
    · by_cases hib : F32.isInf b = true
      · rw [if_pos hia, if_pos hib]
        by_cases hs : F32.sign a = F32.sign b
        · rw [if_neg (fun h => h.2 hs), if_neg (fun h => h.2 hs.symm)]
          exact F32.eq_of_isInf a b ha hb hia hib hs
        · rw [if_pos ⟨hib, hs⟩, if_pos ⟨hia, fun h => hs h.symm⟩]
      · rw [if_pos hia, if_neg hib, if_pos hia, if_neg (fun h => hib h.1)]
    · by_cases hib : F32.isInf b = true
      · rw [if_neg hia, if_pos hib, if_pos hib, if_neg (fun h => hia h.1)]
      · rw [if_neg hia, if_neg hib, if_neg hib, if_neg hia, Int.add_comm, Bool.and_comm]

theorem F32.mul_comm (a b : Nat) : F32.mul a b = F32.mul b a := by
  unfold F32.mul
  have hs : (F32.sign a != F32.sign b) = (F32.sign b != F32.sign a) := by
    cases F32.sign a <;> cases F32.sign b <;> rfl
  by_cases hn : F32.isNaN a = true ∨ F32.isNaN b = true
  · rw [if_pos hn, if_pos (Or.symm hn)]
  · rw [if_neg hn, if_neg (fun h => hn (Or.symm h))]
    by_cases hi : F32.isInf a = true ∨ F32.isInf b = true
    · rw [if_pos hi, if_pos (Or.symm hi)]
      by_cases hz : F32.mag a = 0 ∨ F32.mag b = 0
      · rw [if_pos hz, if_pos (Or.symm hz)]
      · rw [if_neg hz, if_neg (fun h => hz (Or.symm h)), hs]
    · rw [if_neg hi, if_neg (fun h => hi (Or.symm h)), hs, Nat.mul_comm]

theorem isCommutative_cases : ∀ o ∈ opCodes.map Prod.snd, o.isCommutative = true →
    (o = OP_ADD ∨ o = OP_AND ∨ o = OP_MAX ∨ o = OP_MIN ∨ o = OP_MUL24 ∨ o = OP_OR ∨
      o = OP_V8ADDS ∨ o = OP_V8MAX ∨ o = OP_V8MIN ∨ o = OP_V8MULD ∨ o = OP_XOR) ∨
    (o = OP_FMAX ∨ o = OP_FMIN) ∨ (o = OP_FMAXABS ∨ o = OP_FMINABS) ∨ o = OP_FADD ∨
      o = OP_FMUL := by decide

theorem v8Word_comm (op : OpCode)
    (h : ∀ x y, OpCode.v8Lane op x y = OpCode.v8Lane op y x) (a b : Nat) :
    OpCode.v8Word op a b = OpCode.v8Word op b a := by
  unfold OpCode.v8Word
  rw [h (a &&& 255), h (a >>> 8 &&& 255), h (a >>> 16 &&& 255), h (a >>> 24 &&& 255)]

theorem evalLiterals_v8 (F : FloatOps) (op : OpCode) (l1 l2 : Literal) (t : DataType)
    (h : op = OP_V8ADDS ∨ op = OP_V8MAX ∨ op = OP_V8MIN ∨ op = OP_V8MULD ∨ op = OP_V8SUBS) :
    OpCode.evalLiterals F op l1 l2 t t
      = match OpCode.v8Word op l1.unsignedInt l2.unsignedInt with
        | .ok result => .ok (some (Value.ofLiteral (Literal.ofUInt result) t))
        | .error e => .error e := by
  rcases h with rfl | rfl | rfl | rfl | rfl <;> rfl

/-- C11, as the claim states it, fails: `fmax` is flagged commutative, and on the float
literals NaN and 1.0 it returns NaN in one order and 1.0 in the other; on the zeros +0.0
and -0.0 it returns the first operand in either order. -/
theorem commutative_counterexample :
    OP_FMAX.isCommutative = true ∧
    OpCode.apply FloatOps.ieee OP_FMAX (some (Value.ofLiteral ⟨0x7FC00000⟩ TYPE_FLOAT))
      (some (Value.ofLiteral ⟨0x3F800000⟩ TYPE_FLOAT))
      = .ok (some (Value.ofLiteral ⟨0x7FC00000⟩ TYPE_FLOAT)) ∧
    OpCode.apply FloatOps.ieee OP_FMAX (some (Value.ofLiteral ⟨0x3F800000⟩ TYPE_FLOAT))
      (some (Value.ofLiteral ⟨0x7FC00000⟩ TYPE_FLOAT))
      = .ok (some (Value.ofLiteral ⟨0x3F800000⟩ TYPE_FLOAT)) ∧
    OpCode.apply FloatOps.ieee OP_FMAX (some (Value.ofLiteral ⟨0⟩ TYPE_FLOAT))
      (some (Value.ofLiteral ⟨0x80000000⟩ TYPE_FLOAT))
      = .ok (some (Value.ofLiteral ⟨0⟩ TYPE_FLOAT)) ∧
    OpCode.apply FloatOps.ieee OP_FMAX (some (Value.ofLiteral ⟨0x80000000⟩ TYPE_FLOAT))
      (some (Value.ofLiteral ⟨0⟩ TYPE_FLOAT))
      = .ok (some (Value.ofLiteral ⟨0x80000000⟩ TYPE_FLOAT)) ∧
    OpCode.apply FloatOps.ieee OP_FMAX (some (Value.ofLiteral ⟨0x7FC00000⟩ TYPE_FLOAT))
      (some (Value.ofLiteral ⟨0x3F800000⟩ TYPE_FLOAT))
      ≠ OpCode.apply FloatOps.ieee OP_FMAX (some (Value.ofLiteral ⟨0x3F800000⟩ TYPE_FLOAT))
        (some (Value.ofLiteral ⟨0x7FC00000⟩ TYPE_FLOAT)) := by
  decide

/-- C11, amended: the registered operations that `isCommutative` flags are eleven integer
operations and six float operations. On scalar literals `a` and `b` (32-bit words) of one
type, every one of them returns a value in either order. The integer operations `add`,
`and`, `max`, `min`, `mul24`, `or`, `v8adds`, `v8max`, `v8min`, `v8muld` and `xor` return the
same value in both orders. `fmax` and `fmin` do so when neither operand is a NaN and the
operands are not the two zeros of opposite sign; `fmaxabs` and `fminabs` when neither
operand is a NaN; `fadd` and `fmul` when the host's sum and product do not depend on the
order of the operands, which holds on IEEE arithmetic for operands that are no NaN. -/
theorem commutative_eval (F : FloatOps) (op : OpCode) (a b : Nat) (t : DataType)
    (hop : op ∈ opCodes.map Prod.snd) (hc : op.isCommutative = true)
    (ha : a < 2 ^ 32) (hb : b < 2 ^ 32) :
    ((op = OP_ADD ∨ op = OP_AND ∨ op = OP_MAX ∨ op = OP_MIN ∨ op = OP_MUL24 ∨ op = OP_OR ∨
        op = OP_V8ADDS ∨ op = OP_V8MAX ∨ op = OP_V8MIN ∨ op = OP_V8MULD ∨ op = OP_XOR) ∨
      (op = OP_FMAX ∨ op = OP_FMIN) ∨ (op = OP_FMAXABS ∨ op = OP_FMINABS) ∨ op = OP_FADD ∨
        op = OP_FMUL) ∧
    (∃ v, OpCode.apply F op (some (Value.ofLiteral ⟨a⟩ t)) (some (Value.ofLiteral ⟨b⟩ t))
      = .ok (some v)) ∧
    (op = OP_ADD ∨ op = OP_AND ∨ op = OP_MAX ∨ op = OP_MIN ∨ op = OP_MUL24 ∨ op = OP_OR ∨
        op = OP_V8ADDS ∨ op = OP_V8MAX ∨ op = OP_V8MIN ∨ op = OP_V8MULD ∨ op = OP_XOR →
      OpCode.apply F op (some (Value.ofLiteral ⟨a⟩ t)) (some (Value.ofLiteral ⟨b⟩ t))
        = OpCode.apply F op (some (Value.ofLiteral ⟨b⟩ t)) (some (Value.ofLiteral ⟨a⟩ t))) ∧
    (op = OP_FMAX ∨ op = OP_FMIN → F32.isNaN a = false → F32.isNaN b = false →
      (F32.mag a = 0 → F32.mag b = 0 → a = b) →
      OpCode.apply F op (some (Value.ofLiteral ⟨a⟩ t)) (some (Value.ofLiteral ⟨b⟩ t))
        = OpCode.apply F op (some (Value.ofLiteral ⟨b⟩ t)) (some (Value.ofLiteral ⟨a⟩ t))) ∧
    (op = OP_FMAXABS ∨ op = OP_FMINABS → F32.isNaN a = false → F32.isNaN b = false →
      OpCode.apply F op (some (Value.ofLiteral ⟨a⟩ t)) (some (Value.ofLiteral ⟨b⟩ t))
        = OpCode.apply F op (some (Value.ofLiteral ⟨b⟩ t)) (some (Value.ofLiteral ⟨a⟩ t))) ∧
    (op = OP_FADD → F.add a b = F.add b a →
      OpCode.apply F op (some (Value.ofLiteral ⟨a⟩ t)) (some (Value.ofLiteral ⟨b⟩ t))
        = OpCode.apply F op (some (Value.ofLiteral ⟨b⟩ t)) (some (Value.ofLiteral ⟨a⟩ t))) ∧
    (op = OP_FMUL → F.mul a b = F.mul b a →
      OpCode.apply F op (some (Value.ofLiteral ⟨a⟩ t)) (some (Value.ofLiteral ⟨b⟩ t))
        = OpCode.apply F op (some (Value.ofLiteral ⟨b⟩ t)) (some (Value.ofLiteral ⟨a⟩ t))) ∧
    (op = OP_FADD ∨ op = OP_FMUL → F32.isNaN a = false → F32.isNaN b = false →
      OpCode.apply FloatOps.ieee op (some (Value.ofLiteral ⟨a⟩ t))
          (some (Value.ofLiteral ⟨b⟩ t))
        = OpCode.apply FloatOps.ieee op (some (Value.ofLiteral ⟨b⟩ t))
          (some (Value.ofLiteral ⟨a⟩ t))) := by
  have hcases := isCommutative_cases op hop hc
  have hfadd : ∀ G : FloatOps, G.add a b = G.add b a →
      OpCode.apply G OP_FADD (some (Value.ofLiteral ⟨a⟩ t)) (some (Value.ofLiteral ⟨b⟩ t))
        = OpCode.apply G OP_FADD (some (Value.ofLiteral ⟨b⟩ t))
          (some (Value.ofLiteral ⟨a⟩ t)) := by
    intro G h
    rw [apply_literals_same G _ _ _ _ rfl, apply_literals_same G _ _ _ _ rfl]
    show Except.ok (some (Value.ofLiteral (Literal.ofReal (G.add a b)) t))
      = Except.ok (some (Value.ofLiteral (Literal.ofReal (G.add b a)) t))
    rw [h]
  have hfmul : ∀ G : FloatOps, G.mul a b = G.mul b a →
      OpCode.apply G OP_FMUL (some (Value.ofLiteral ⟨a⟩ t)) (some (Value.ofLiteral ⟨b⟩ t))
        = OpCode.apply G OP_FMUL (some (Value.ofLiteral ⟨b⟩ t))
          (some (Value.ofLiteral ⟨a⟩ t)) := by
    intro G h
    rw [apply_literals_same G _ _ _ _ rfl, apply_literals_same G _ _ _ _ rfl]
    show Except.ok (some (Value.ofLiteral (Literal.ofReal (G.mul a b)) t))
      = Except.ok (some (Value.ofLiteral (Literal.ofReal (G.mul b a)) t))
    rw [h]
  refine ⟨hcases, ?_, ?_, ?_, ?_, ?_, ?_, ?_⟩
  · rcases hcases with (rfl | rfl | rfl | rfl | rfl | rfl | rfl | rfl | rfl | rfl | rfl) |
      (rfl | rfl) | (rfl | rfl) | rfl | rfl <;>
    · rw [apply_literals_same F _ _ _ _ rfl]
      exact ⟨_, rfl⟩
  · intro h
    have hv8 : ∀ o, (o = OP_V8ADDS ∨ o = OP_V8MAX ∨ o = OP_V8MIN ∨ o = OP_V8MULD ∨ o = OP_V8SUBS) →
        o.numOperands = 2 → (∀ x y, OpCode.v8Lane o x y = OpCode.v8Lane o y x) →
        OpCode.apply F o (some (Value.ofLiteral ⟨a⟩ t)) (some (Value.ofLiteral ⟨b⟩ t))
          = OpCode.apply F o (some (Value.ofLiteral ⟨b⟩ t)) (some (Value.ofLiteral ⟨a⟩ t)) := by
      intro o ho hn hl
      rw [apply_literals_same F _ _ _ _ hn, apply_literals_same F _ _ _ _ hn,
        evalLiterals_v8 F o _ _ t ho, evalLiterals_v8 F o _ _ t ho, v8Word_comm o hl]
    rcases h with rfl | rfl | rfl | rfl | rfl | rfl | rfl | rfl | rfl | rfl | rfl
    · rw [apply_literals_same F _ _ _ _ rfl, apply_literals_same F _ _ _ _ rfl]
      show Except.ok (some (Value.ofLiteral (Literal.ofInt
          ((⟨a⟩ : Literal).signedInt + (⟨b⟩ : Literal).signedInt)) t))
        = Except.ok (some (Value.ofLiteral (Literal.ofInt
          ((⟨b⟩ : Literal).signedInt + (⟨a⟩ : Literal).signedInt)) t))
      rw [Int.add_comm]
    · rw [apply_literals_same F _ _ _ _ rfl, apply_literals_same F _ _ _ _ rfl]
      show Except.ok (some (Value.ofLiteral (Literal.ofUInt (a &&& b)) t))
        = Except.ok (some (Value.ofLiteral (Literal.ofUInt (b &&& a)) t))
      rw [Nat.and_comm]
    · rw [apply_literals_same F _ _ _ _ rfl, apply_literals_same F _ _ _ _ rfl]
      show Except.ok (some (Value.ofLiteral (Literal.ofInt
          (max (⟨a⟩ : Literal).signedInt (⟨b⟩ : Literal).signedInt)) t))
        = Except.ok (some (Value.ofLiteral (Literal.ofInt
          (max (⟨b⟩ : Literal).signedInt (⟨a⟩ : Literal).signedInt)) t))
      rw [max_comm]
    · rw [apply_literals_same F _ _ _ _ rfl, apply_literals_same F _ _ _ _ rfl]
      show Except.ok (some (Value.ofLiteral (Literal.ofInt
          (min (⟨a⟩ : Literal).signedInt (⟨b⟩ : Literal).signedInt)) t))
        = Except.ok (some (Value.ofLiteral (Literal.ofInt
          (min (⟨b⟩ : Literal).signedInt (⟨a⟩ : Literal).signedInt)) t))
      rw [min_comm]
    · rw [apply_literals_same F _ _ _ _ rfl, apply_literals_same F _ _ _ _ rfl]
      show Except.ok (some (Value.ofLiteral (Literal.ofUInt
          ((a &&& 0xFFFFFF) * (b &&& 0xFFFFFF))) t))
        = Except.ok (some (Value.ofLiteral (Literal.ofUInt
          ((b &&& 0xFFFFFF) * (a &&& 0xFFFFFF))) t))
      rw [Nat.mul_comm]
    · rw [apply_literals_same F _ _ _ _ rfl, apply_literals_same F _ _ _ _ rfl]
      show Except.ok (some (Value.ofLiteral (Literal.ofUInt (a ||| b)) t))
        = Except.ok (some (Value.ofLiteral (Literal.ofUInt (b ||| a)) t))
      rw [Nat.or_comm]
    · refine hv8 _ (Or.inl rfl) rfl (fun x y => ?_)
      show Except.ok (min ((x + y) % 2 ^ 32) 255) = Except.ok (min ((y + x) % 2 ^ 32) 255)
      rw [Nat.add_comm]
    · refine hv8 _ (Or.inr (Or.inl rfl)) rfl (fun x y => ?_)
      show Except.ok (max x y) = Except.ok (max y x)
      rw [max_comm]
    · refine hv8 _ (Or.inr (Or.inr (Or.inl rfl))) rfl (fun x y => ?_)
      show Except.ok (min x y) = Except.ok (min y x)
      rw [min_comm]
    · refine hv8 _ (Or.inr (Or.inr (Or.inr (Or.inl rfl)))) rfl (fun x y => ?_)
      show Except.ok ((x * y + 127) % 2 ^ 32 / 255) = Except.ok ((y * x + 127) % 2 ^ 32 / 255)
      rw [Nat.mul_comm]
    · rw [apply_literals_same F _ _ _ _ rfl, apply_literals_same F _ _ _ _ rfl]
      show Except.ok (some (Value.ofLiteral (Literal.ofUInt (a ^^^ b)) t))
        = Except.ok (some (Value.ofLiteral (Literal.ofUInt (b ^^^ a)) t))
      rw [Nat.xor_comm]
  · rintro (rfl | rfl) hna hnb hz
    · rw [apply_literals_same F _ _ _ _ rfl, apply_literals_same F _ _ _ _ rfl]
      show Except.ok (some (Value.ofLiteral (Literal.ofReal (F32.max a b)) t))
        = Except.ok (some (Value.ofLiteral (Literal.ofReal (F32.max b a)) t))
      rw [F32.max_comm a b ha hb hna hnb hz]
    · rw [apply_literals_same F _ _ _ _ rfl, apply_literals_same F _ _ _ _ rfl]
      show Except.ok (some (Value.ofLiteral (Literal.ofReal (F32.min a b)) t))
        = Except.ok (some (Value.ofLiteral (Literal.ofReal (F32.min b a)) t))
      rw [F32.min_comm a b ha hb hna hnb hz]
  · rintro (rfl | rfl) hna hnb
    · rw [apply_literals_same F _ _ _ _ rfl, apply_literals_same F _ _ _ _ rfl]
      show Except.ok (some (Value.ofLiteral
          (Literal.ofReal (F32.max (F32.fabs a) (F32.fabs b))) t))
        = Except.ok (some (Value.ofLiteral
          (Literal.ofReal (F32.max (F32.fabs b) (F32.fabs a))) t))
      rw [F32.max_comm _ _ (F32.fabs_lt a) (F32.fabs_lt b) (by rw [F32.isNaN_fabs, hna])
        (by rw [F32.isNaN_fabs, hnb])
        (fun h1 h2 => by rw [F32.mag_fabs] at h1 h2; rw [h1, h2])]
    · rw [apply_literals_same F _ _ _ _ rfl, apply_literals_same F _ _ _ _ rfl]
      show Except.ok (some (Value.ofLiteral
          (Literal.ofReal (F32.min (F32.fabs a) (F32.fabs b))) t))
        = Except.ok (some (Value.ofLiteral
          (Literal.ofReal (F32.min (F32.fabs b) (F32.fabs a))) t))
      rw [F32.min_comm _ _ (F32.fabs_lt a) (F32.fabs_lt b) (by rw [F32.isNaN_fabs, hna])
        (by rw [F32.isNaN_fabs, hnb])
        (fun h1 h2 => by rw [F32.mag_fabs] at h1 h2; rw [h1, h2])]
  · rintro rfl h
    exact hfadd F h
  · rintro rfl h
    exact hfmul F h
  · rintro (rfl | rfl) _ _
    · exact hfadd FloatOps.ieee (F32.add_comm a b ha hb)
    · exact hfmul FloatOps.ieee (F32.mul_comm a b)

/-- C11, amended, at `v8adds` on the words `0x01FF7F80` and `0x02018101`. -/
theorem commutative_eval_witness :
    OpCode.apply FloatOps.ieee OP_V8ADDS (some (int32Literal 0x01FF7F80))
        (some (int32Literal 0x02018101))
      = OpCode.apply FloatOps.ieee OP_V8ADDS (some (int32Literal 0x02018101))
        (some (int32Literal 0x01FF7F80)) :=
  (commutative_eval FloatOps.ieee OP_V8ADDS 0x01FF7F80 0x02018101 TYPE_INT32 (by decide)
    (by decide) (by decide) (by decide)).2.2.1
    (Or.inr (Or.inr (Or.inr (Or.inr (Or.inr (Or.inr (Or.inl rfl)))))))

/-- C12: the registered operations that `isIdempotent` flags are `and`, `or`, `max`, `min`,
`fmax`, `fmin`, `v8max` and `v8min`, and each, evaluated on a scalar literal `x` (a 32-bit
word, of any type) as both operands, returns the value with the literal `x` and the type of
the operands. -/
theorem idempotent_eval (F : FloatOps) (op : OpCode) (x : Nat) (t : DataType)
    (hop : op ∈ opCodes.map Prod.snd) (hi : op.isIdempotent = true) (hx : x < 2 ^ 32) :
    (op = OP_AND ∨ op = OP_OR ∨ op = OP_MAX ∨ op = OP_MIN ∨ op = OP_FMAX ∨ op = OP_FMIN ∨
      op = OP_V8MAX ∨ op = OP_V8MIN) ∧
    OpCode.apply F op (some (Value.ofLiteral ⟨x⟩ t)) (some (Value.ofLiteral ⟨x⟩ t))
      = .ok (some (Value.ofLiteral ⟨x⟩ t)) := by
  have hcases := isIdempotent_cases op hop hi
  refine ⟨hcases, ?_⟩
  have hmod : x % 2 ^ 32 = x := Nat.mod_eq_of_lt hx
  have hU : Literal.ofUInt x = ⟨x⟩ := by rw [Literal.ofUInt, hmod]
  have hR : Literal.ofReal x = ⟨x⟩ := by rw [Literal.ofReal, hmod]
  have hI := ofInt_signedInt_self x hx
  rcases hcases with rfl | rfl | rfl | rfl | rfl | rfl | rfl | rfl
  · rw [apply_literals_same F _ _ _ _ rfl]
    show Except.ok (some (Value.ofLiteral (Literal.ofUInt (x &&& x)) t)) = _
    rw [Nat.and_self, hU]
  · rw [apply_literals_same F _ _ _ _ rfl]
    show Except.ok (some (Value.ofLiteral (Literal.ofUInt (x ||| x)) t)) = _
    rw [Nat.or_self, hU]
  · rw [apply_literals_same F _ _ _ _ rfl]
    show Except.ok (some (Value.ofLiteral
      (Literal.ofInt (max (⟨x⟩ : Literal).signedInt (⟨x⟩ : Literal).signedInt)) t)) = _
    rw [max_self, hI]
  · rw [apply_literals_same F _ _ _ _ rfl]
    show Except.ok (some (Value.ofLiteral
      (Literal.ofInt (min (⟨x⟩ : Literal).signedInt (⟨x⟩ : Literal).signedInt)) t)) = _
    rw [min_self, hI]
  · rw [apply_literals_same F _ _ _ _ rfl]
    show Except.ok (some (Value.ofLiteral (Literal.ofReal (F32.max x x)) t)) = _
    rw [F32.max, ite_self, hR]
  · rw [apply_literals_same F _ _ _ _ rfl]
    show Except.ok (some (Value.ofLiteral (Literal.ofReal (F32.min x x)) t)) = _
    rw [F32.min, ite_self, hR]
  · rw [apply_literals_same F _ _ _ _ rfl]
    show Except.ok (some (Value.ofLiteral (Literal.ofUInt
      ((((max (x >>> 24 &&& 255) (x >>> 24 &&& 255)) &&& 255) <<< 24) |||
        (((max (x >>> 16 &&& 255) (x >>> 16 &&& 255)) &&& 255) <<< 16) |||
        (((max (x >>> 8 &&& 255) (x >>> 8 &&& 255)) &&& 255) <<< 8) |||
        ((max (x &&& 255) (x &&& 255)) &&& 255))) t)) = _
    simp only [max_self]
    rw [word_of_bytes x hx, hU]
  · rw [apply_literals_same F _ _ _ _ rfl]
    show Except.ok (some (Value.ofLiteral (Literal.ofUInt
      ((((min (x >>> 24 &&& 255) (x >>> 24 &&& 255)) &&& 255) <<< 24) |||
        (((min (x >>> 16 &&& 255) (x >>> 16 &&& 255)) &&& 255) <<< 16) |||
        (((min (x >>> 8 &&& 255) (x >>> 8 &&& 255)) &&& 255) <<< 8) |||
        ((min (x &&& 255) (x &&& 255)) &&& 255))) t)) = _
    simp only [min_self]
    rw [word_of_bytes x hx, hU]

/-- C12 at `v8max` and the word `0x12345678`. -/
theorem idempotent_eval_witness :
    OpCode.apply FloatOps.ieee OP_V8MAX (some (int32Literal 0x12345678))
      (some (int32Literal 0x12345678)) = .ok (some (int32Literal 0x12345678)) :=
  (idempotent_eval FloatOps.ieee OP_V8MAX 0x12345678 TYPE_INT32 (by decide) (by decide)
    (by decide)).2

/-! ### Conversion modes without effect -/

theorem unpack_hasEffect_false_iff (u : Unpack) :
    u.hasEffect = false ↔ u = UNPACK_NOP ∨ u = UNPACK_NOP_PM := by
  cases u with
  | mk value =>
    simp only [Unpack.hasEffect, UNPACK_NOP, UNPACK_NOP_PM, Unpack.mk.injEq]
    by_cases h0 : value = 0
    · simp [h0]
    · by_cases h1 : value = 1
      · simp [h1]
      · simp [h0, h1]

theorem pack_hasEffect_false_iff (p : Pack) :
    p.hasEffect = false ↔ p = PACK_NOP ∨ p = PACK_NOP_PM := by
  cases p with
  | mk value =>
    simp only [Pack.hasEffect, PACK_NOP, PACK_NOP_PM, Pack.mk.injEq]
    by_cases h0 : value = 0
    · simp [h0]
    · by_cases h1 : value = 16
      · simp [h1]
      · simp [h0, h1]

theorem unpack_apply_of_no_effect (F : FloatOps) (u : Unpack) (v : Value)
    (h : u.hasEffect = false) : Unpack.apply F u v = .ok (some v) := by
  simp [Unpack.apply, Unpack.applyWith, h]

theorem pack_apply_of_no_effect (F : FloatOps) (p : Pack) (v : Value)
    (h : p.hasEffect = false) : Pack.apply F p v = .ok (some v) := by
  simp [Pack.apply, Pack.applyWith, h]

/-- C13: `hasEffect` is false for exactly the two no-op encodings of each unit, `UNPACK_NOP`
and `UNPACK_NOP_PM`, `PACK_NOP` and `PACK_NOP_PM`; a mode without effect applied to any
value (whatever it holds, whatever its type) returns that value, and so neither
`NO_VALUE` nor an error. -/
theorem noop_modes_are_identity (F : FloatOps) (v : Value) :
    (∀ u : Unpack, u.hasEffect = false ↔ u = UNPACK_NOP ∨ u = UNPACK_NOP_PM) ∧
    (∀ p : Pack, p.hasEffect = false ↔ p = PACK_NOP ∨ p = PACK_NOP_PM) ∧
    UNPACK_NOP ≠ UNPACK_NOP_PM ∧ PACK_NOP ≠ PACK_NOP_PM ∧
    (∀ u : Unpack, u.hasEffect = false → Unpack.apply F u v = .ok (some v)) ∧
    (∀ p : Pack, p.hasEffect = false → Pack.apply F p v = .ok (some v)) ∧
    Unpack.apply F UNPACK_NOP v = .ok (some v) ∧
    Unpack.apply F UNPACK_NOP_PM v = .ok (some v) ∧
    Pack.apply F PACK_NOP v = .ok (some v) ∧
    Pack.apply F PACK_NOP_PM v = .ok (some v) :=
  ⟨unpack_hasEffect_false_iff, pack_hasEffect_false_iff, by decide, by decide,
    fun u h => unpack_apply_of_no_effect F u v h, fun p h => pack_apply_of_no_effect F p v h,
    unpack_apply_of_no_effect F _ v rfl, unpack_apply_of_no_effect F _ v rfl,
    pack_apply_of_no_effect F _ v rfl, pack_apply_of_no_effect F _ v rfl⟩

/-! ### Condition codes -/

theorem mem_conditionCodes (c : ConditionCode) : c ∈ conditionCodes ↔ c.value < 8 := by
  cases c with
  | mk value =>
    simp only [conditionCodes, COND_NEVER, COND_ALWAYS, COND_ZERO_SET, COND_ZERO_CLEAR,
      COND_NEGATIVE_SET, COND_NEGATIVE_CLEAR, COND_CARRY_SET, COND_CARRY_CLEAR, List.mem_cons,
      ConditionCode.mk.injEq, List.mem_singleton, List.mem_nil_iff, or_false]
    omega

/-- C14: on each of the eight condition codes `invert` returns a code (it does not raise),
the code it returns is one of the eight and differs from the argument, and inverting it
gives the argument back. -/
theorem invert_is_involution (c : ConditionCode) (hc : c ∈ conditionCodes) :
    ∃ d, c.invert = .ok d ∧ d ∈ conditionCodes ∧ d.invert = .ok c ∧ d ≠ c := by
  simp only [conditionCodes, List.mem_cons, List.mem_singleton, List.mem_nil_iff, or_false] at hc
  rcases hc with rfl | rfl | rfl | rfl | rfl | rfl | rfl | rfl
  · exact ⟨COND_ALWAYS, rfl, by decide, rfl, by decide⟩
  · exact ⟨COND_NEVER, rfl, by decide, rfl, by decide⟩
  · exact ⟨COND_ZERO_CLEAR, rfl, by decide, rfl, by decide⟩
  · exact ⟨COND_ZERO_SET, rfl, by decide, rfl, by decide⟩
  · exact ⟨COND_NEGATIVE_CLEAR, rfl, by decide, rfl, by decide⟩
  · exact ⟨COND_NEGATIVE_SET, rfl, by decide, rfl, by decide⟩
  · exact ⟨COND_CARRY_CLEAR, rfl, by decide, rfl, by decide⟩
  · exact ⟨COND_CARRY_SET, rfl, by decide, rfl, by decide⟩

/-- C14 at the condition "always": its inversion is "never", and that of "never" is
"always". -/
theorem invert_is_involution_witness :
    ∃ d, COND_ALWAYS.invert = .ok d ∧ d ∈ conditionCodes ∧ d.invert = .ok COND_ALWAYS ∧
      d ≠ COND_ALWAYS :=
  invert_is_involution COND_ALWAYS (by decide)

/-- C15: for condition codes `a` and `b` among the eight, `a.isInversionOf(b)` and
`b.isInversionOf(a)` both return, and return the same truth value. -/
theorem isInversionOf_symmetric (a b : ConditionCode) (ha : a ∈ conditionCodes)
    (hb : b ∈ conditionCodes) :
    ∃ r : Bool, a.isInversionOf b = .ok r ∧ b.isInversionOf a = .ok r := by
  have h : ∀ x ∈ conditionCodes, ∀ y ∈ conditionCodes,
      (match x.isInversionOf y, y.isInversionOf x with
        | .ok r, .ok s => r == s
        | _, _ => false) = true := by decide
  have hab := h a ha b hb
  revert hab
  cases hx : a.isInversionOf b with
  | error e => simp
  | ok r =>
    cases hy : b.isInversionOf a with
    | error e => simp
    | ok s =>
      intro hrs
      exact ⟨r, rfl, by simpa using (by simpa using hrs : r = s).symm ▸ rfl⟩

/-- C15 at "zero set" and "zero clear": each is the inversion of the other. -/
theorem isInversionOf_symmetric_witness :
    ∃ r : Bool, COND_ZERO_SET.isInversionOf COND_ZERO_CLEAR = .ok r ∧
      COND_ZERO_CLEAR.isInversionOf COND_ZERO_SET = .ok r :=
  isInversionOf_symmetric COND_ZERO_SET COND_ZERO_CLEAR (by decide) (by decide)

/-- C16: `toBranchCondition` returns a branch condition on the seven codes other than
"never" and raises on "never"; on the seven codes it is injective; "always" maps to
`ALWAYS`, and of each pair of a flag's "set" code and its inversion, the "clear" code, the
first maps to the branch condition "any flag set" and the second to "all flags clear" of
that flag. -/
theorem toBranchCondition_cases :
    (∀ c ∈ conditionCodes, c ≠ COND_NEVER → ∃ b, c.toBranchCondition = .ok b) ∧
    (∀ c ∈ conditionCodes, (∃ e, c.toBranchCondition = .error e) ↔ c = COND_NEVER) ∧
    COND_NEVER.toBranchCondition = .error .invalidBranchCondition ∧
    (∀ c ∈ conditionCodes, ∀ d ∈ conditionCodes, ∀ b,
      c.toBranchCondition = .ok b → d.toBranchCondition = .ok b → c = d) ∧
    COND_ALWAYS.toBranchCondition = .ok BranchCond.ALWAYS ∧
    (COND_ZERO_SET.invert = .ok COND_ZERO_CLEAR ∧
      COND_ZERO_SET.toBranchCondition = .ok BranchCond.ANY_Z_SET ∧
      COND_ZERO_CLEAR.toBranchCondition = .ok BranchCond.ALL_Z_CLEAR) ∧
    (COND_NEGATIVE_SET.invert = .ok COND_NEGATIVE_CLEAR ∧
      COND_NEGATIVE_SET.toBranchCondition = .ok BranchCond.ANY_N_SET ∧
      COND_NEGATIVE_CLEAR.toBranchCondition = .ok BranchCond.ALL_N_CLEAR) ∧
    (COND_CARRY_SET.invert = .ok COND_CARRY_CLEAR ∧
      COND_CARRY_SET.toBranchCondition = .ok BranchCond.ANY_C_SET ∧
      COND_CARRY_CLEAR.toBranchCondition = .ok BranchCond.ALL_C_CLEAR) := by
  have hok : ∀ c ∈ conditionCodes, c ≠ COND_NEVER →
      (match c.toBranchCondition with | .ok _ => true | .error _ => false) = true := by decide
  have hinj : ∀ c ∈ conditionCodes, ∀ d ∈ conditionCodes,
      (match c.toBranchCondition, d.toBranchCondition with
        | .ok b, .ok b' => decide (b = b' → c = d)
        | _, _ => true) = true := by decide
  refine ⟨?_, ?_, rfl, ?_, rfl, ⟨rfl, rfl, rfl⟩, ⟨rfl, rfl, rfl⟩, ⟨rfl, rfl, rfl⟩⟩
  · intro c hc hne
    have := hok c hc hne
    revert this
    cases h : c.toBranchCondition with
    | ok b => exact fun _ => ⟨b, rfl⟩
    | error e => simp
  · intro c hc
    constructor
    · rintro ⟨e, he⟩
      by_contra hne
      have := hok c hc hne
      rw [he] at this
      simp at this
    · rintro rfl
      exact ⟨_, rfl⟩
  · intro c hc d hd b hcb hdb
    have := hinj c hc d hd
    rw [hcb, hdb] at this
    simpa using this

/-! ### Operand registers -/

theorem getInputRegister_ne_nop (mux : InputMultiplex) (a b : Nat) :
    qpu_asm.getInputRegister mux a b ≠ REG_NOP := by
  cases mux <;> simp [qpu_asm.getInputRegister, REG_NOP, REG_ACC0, REG_ACC1, REG_ACC2, REG_ACC3,
    REG_TMU_OUT, REG_ACC5]

theorem resolvedOperand_eq (nop imm : Bool) (mux : InputMultiplex) (a b : Nat) :
    resolvedOperand nop imm mux a b
      = if nop ∨ (imm ∧ mux = InputMultiplex.REGB) then REG_NOP else qpu_asm.getInputRegister mux a b := by
  unfold resolvedOperand
  split
  · rfl
  · cases mux <;> rfl

/-- C17: each of the four accessors returns the register that the specification names:
`REG_NOP` when the operation field of its slot is the no-op encoding or when the signal is
`SIGNAL_ALU_IMMEDIATE` and its multiplexer selects register file B, and else the register
selected by the multiplexer (`resolvedOperand`); it returns `REG_NOP` in no other case. The
accessors of the add slot do not read the operation and multiplexers of the mul slot, and
those of the mul slot do not read the operation and multiplexers of the add slot. -/
theorem operand_register_resolution (i : qpu_asm.ALUInstruction) :
    i.getAddFirstOperand = resolvedOperand (decide (i.addition = 0))
      (decide (i.sig = SIGNAL_ALU_IMMEDIATE)) i.addMultiplexA i.inputA i.inputB ∧
    i.getAddSecondOperand = resolvedOperand (decide (i.addition = 0))
      (decide (i.sig = SIGNAL_ALU_IMMEDIATE)) i.addMultiplexB i.inputA i.inputB ∧
    i.getMulFirstOperand = resolvedOperand (decide (i.multiplication = 0))
      (decide (i.sig = SIGNAL_ALU_IMMEDIATE)) i.mulMultiplexA i.inputA i.inputB ∧
    i.getMulSecondOperand = resolvedOperand (decide (i.multiplication = 0))
      (decide (i.sig = SIGNAL_ALU_IMMEDIATE)) i.mulMultiplexB i.inputA i.inputB ∧
    (i.getAddFirstOperand = REG_NOP ↔
      i.addition = 0 ∨ (i.sig = SIGNAL_ALU_IMMEDIATE ∧ i.addMultiplexA = InputMultiplex.REGB)) ∧
    (i.getAddSecondOperand = REG_NOP ↔
      i.addition = 0 ∨ (i.sig = SIGNAL_ALU_IMMEDIATE ∧ i.addMultiplexB = InputMultiplex.REGB)) ∧
    (i.getMulFirstOperand = REG_NOP ↔
      i.multiplication = 0 ∨ (i.sig = SIGNAL_ALU_IMMEDIATE ∧ i.mulMultiplexA = InputMultiplex.REGB)) ∧
    (i.getMulSecondOperand = REG_NOP ↔
      i.multiplication = 0 ∨ (i.sig = SIGNAL_ALU_IMMEDIATE ∧ i.mulMultiplexB = InputMultiplex.REGB)) ∧
    (∀ (m : Nat) (a b : InputMultiplex),
      ({ i with multiplication := m, mulMultiplexA := a, mulMultiplexB := b } :
        qpu_asm.ALUInstruction).getAddFirstOperand = i.getAddFirstOperand ∧
      ({ i with multiplication := m, mulMultiplexA := a, mulMultiplexB := b } :
        qpu_asm.ALUInstruction).getAddSecondOperand = i.getAddSecondOperand) ∧
    (∀ (m : Nat) (a b : InputMultiplex),
      ({ i with addition := m, addMultiplexA := a, addMultiplexB := b } :
        qpu_asm.ALUInstruction).getMulFirstOperand = i.getMulFirstOperand ∧
      ({ i with addition := m, addMultiplexA := a, addMultiplexB := b } :
        qpu_asm.ALUInstruction).getMulSecondOperand = i.getMulSecondOperand) := by
  have key : ∀ (op : Nat) (mux : InputMultiplex),
      (if i.sig = SIGNAL_ALU_IMMEDIATE ∧ mux = InputMultiplex.REGB then REG_NOP
        else if op = OP_NOP.opAdd then REG_NOP else qpu_asm.getInputRegister mux i.inputA i.inputB)
      = resolvedOperand (decide (op = 0)) (decide (i.sig = SIGNAL_ALU_IMMEDIATE)) mux
          i.inputA i.inputB := by
    intro op mux
    rw [resolvedOperand_eq]
    have h0 : OP_NOP.opAdd = 0 := rfl
    rw [h0]
    by_cases h1 : i.sig = SIGNAL_ALU_IMMEDIATE ∧ mux = InputMultiplex.REGB
    · rw [if_pos h1, if_pos]
      simp [h1.1, h1.2]
    · rw [if_neg h1]
      by_cases h2 : op = 0
      · simp [h2]
      · rw [if_neg h2, if_neg]
        simpa [h2] using h1
  have nop : ∀ (op : Nat) (mux : InputMultiplex),
      resolvedOperand (decide (op = 0)) (decide (i.sig = SIGNAL_ALU_IMMEDIATE)) mux
          i.inputA i.inputB = REG_NOP ↔
      op = 0 ∨ (i.sig = SIGNAL_ALU_IMMEDIATE ∧ mux = InputMultiplex.REGB) := by
    intro op mux
    rw [resolvedOperand_eq]
    by_cases h : op = 0 ∨ (i.sig = SIGNAL_ALU_IMMEDIATE ∧ mux = InputMultiplex.REGB)
    · rw [if_pos (by simpa using h)]
      simp [h]
    · rw [if_neg (by simpa using h)]
      simp [h, getInputRegister_ne_nop]
  have e1 : i.getAddFirstOperand = _ := key i.addition i.addMultiplexA
  have e2 : i.getAddSecondOperand = _ := key i.addition i.addMultiplexB
  have e3 : i.getMulFirstOperand = _ := key i.multiplication i.mulMultiplexA
  have e4 : i.getMulSecondOperand = _ := key i.multiplication i.mulMultiplexB
  refine ⟨e1, e2, e3, e4, ?_, ?_, ?_, ?_, ?_, ?_⟩
  · rw [e1]; exact nop _ _
  · rw [e2]; exact nop _ _
  · rw [e3]; exact nop _ _
  · rw [e4]; exact nop _ _
  · intro m a b
    exact ⟨rfl, rfl⟩
  · intro m a b
    exact ⟨rfl, rfl⟩

/-! ### Disassembly -/

theorem toOpCode_mul_field : ∀ m < 8,
    (match OpCode.toOpCode m true with
      | .ok op => decide (m = 0 ↔ OpCode.eq op OP_NOP = true)
      | .error _ => false) = true := by decide

theorem toOpCode_add_field : ∀ a < 32,
    (match OpCode.toOpCode a false with
      | .ok op => decide (OpCode.eq op OP_NOP = true → op = OP_NOP)
      | .error _ => false) = true := by decide

theorem toOpCode_mul_ok (m : Nat) (hm : m < 8) :
    ∃ op, OpCode.toOpCode m true = .ok op ∧ (m = 0 ↔ OpCode.eq op OP_NOP = true) := by
  have h := toOpCode_mul_field m hm
  revert h
  cases OpCode.toOpCode m true with
  | error e => simp
  | ok op => exact fun h => ⟨op, rfl, of_decide_eq_true h⟩

theorem toOpCode_add_ok (a : Nat) (ha : a < 32) :
    ∃ op, OpCode.toOpCode a false = .ok op ∧ (OpCode.eq op OP_NOP = true → op = OP_NOP) := by
  have h := toOpCode_add_field a ha
  revert h
  cases OpCode.toOpCode a false with
  | error e => simp
  | ok op => exact fun h => ⟨op, rfl, of_decide_eq_true h⟩

theorem addPart_nop (R : qpu_asm.Renderer) (i : qpu_asm.ALUInstruction) :
    i.addPart R OP_NOP
      = "nop" ++ (R.toExtrasString i.sig i.addCondition i.setFlag i.unpack i.pack
          (decide (i.writeSwap = WriteSwap.DONT_SWAP)) false ++ " ") := by
  simp [qpu_asm.ALUInstruction.addPart, qpu_asm.ALUInstruction.addArgs,
    qpu_asm.ALUInstruction.addCanUnpack, OP_NOP, OpCode.ne, OpCode.eq]

theorem data_suffix_of_append (p t : String) : t.data <:+ (p ++ t).data := by
  rw [String.data_append]
  exact List.suffix_append _ _

/-- C18, as the claim states it, fails: an instruction with the ALU-immediate signal, both
mul multiplexers on accumulator 0, add operation no-op and mul operation no-op, with the
rotation by one lane (small immediate 49) as input B, renders as the bare no-op clause,
which does not end with a space and the text of the small immediate. -/
theorem rotation_rendering_counterexample :
    (sampleInstruction SIGNAL_ALU_IMMEDIATE 0 0 49 .ACC0 .ACC0 .ACC0 .ACC0).toASMString
      qpu_asm.Renderer.sample = .ok "nop " ∧
    ¬ ((" " ++ qpu_asm.Renderer.sample.immediateToString ⟨49⟩).data <:+ "nop ".data) := by
  decide

/-- C18, amended: for every instruction with the ALU-immediate signal, both mul
multiplexers on accumulators (neither register file A nor B), the add operation no-op and
a mul operation that is not the no-op (a mul field from 1 to 7), `toASMString` returns the
mul clause followed by a space and the text of input B read as a small immediate; so the
string ends with that space and text. When the mul operation is the no-op too, it returns
the bare no-op clause, which ends with the space after the extras. -/
theorem rotation_rendering (R : qpu_asm.Renderer) (i : qpu_asm.ALUInstruction)
    (hsig : i.sig = SIGNAL_ALU_IMMEDIATE)
    (hA : i.mulMultiplexA ≠ InputMultiplex.REGA ∧ i.mulMultiplexA ≠ InputMultiplex.REGB)
    (hB : i.mulMultiplexB ≠ InputMultiplex.REGA ∧ i.mulMultiplexB ≠ InputMultiplex.REGB)
    (hadd : i.addition = 0) (hmul : i.multiplication < 8) :
    (i.multiplication ≠ 0 →
      ∃ opMul, OpCode.toOpCode i.multiplication true = .ok opMul ∧
        i.toASMString R
          = .ok (i.mulClause R opMul ++ " " ++ R.immediateToString ⟨i.inputB⟩) ∧
        ∃ s, i.toASMString R = .ok s ∧
          (" " ++ R.immediateToString ⟨i.inputB⟩).data <:+ s.data) ∧
    (i.multiplication = 0 →
      i.toASMString R
        = .ok ("nop" ++ (R.toExtrasString i.sig i.addCondition i.setFlag i.unpack i.pack
            (decide (i.writeSwap = WriteSwap.DONT_SWAP)) false ++ " "))) := by
  have hrot : i.rendersRotation OP_NOP = true := by
    simp [qpu_asm.ALUInstruction.rendersRotation, hsig, hA.1, hA.2, hB.1, hB.2, OpCode.eq, OP_NOP]
  have hA0 : OpCode.toOpCode i.addition false = .ok OP_NOP := by rw [hadd]; rfl
  have hne : OpCode.ne OP_NOP OP_NOP = false := by decide
  constructor
  · intro h0
    obtain ⟨opMul, hop, hiff⟩ := toOpCode_mul_ok i.multiplication hmul
    have hneMul : OpCode.ne opMul OP_NOP = true := by
      cases h : OpCode.eq opMul OP_NOP with
      | true => exact absurd (hiff.mpr h) h0
      | false => simp [OpCode.ne, h]
    have hs : i.toASMString R
        = .ok (i.mulClause R opMul ++ " " ++ R.immediateToString ⟨i.inputB⟩) := by
      simp [qpu_asm.ALUInstruction.toASMString, hA0, hop, hne, hneMul,
        qpu_asm.ALUInstruction.mulPart, hrot]
    refine ⟨opMul, hop, hs, _, hs, ?_⟩
    rw [String.append_assoc]
    exact data_suffix_of_append _ _
  · intro h0
    have hM0 : OpCode.toOpCode i.multiplication true = .ok OP_NOP := by rw [h0]; rfl
    simp [qpu_asm.ALUInstruction.toASMString, hA0, hM0, hne, addPart_nop]

/-- C18, amended, at a rotation by one lane of the product `fmul r0, r1`. -/
theorem rotation_rendering_witness :
    (sampleInstruction SIGNAL_ALU_IMMEDIATE 0 1 49 .ACC0 .ACC0 .ACC0 .ACC1).toASMString
      qpu_asm.Renderer.sample = .ok "fmul rb, r0, r1 imm" := by
  obtain ⟨opMul, hop, hs, -⟩ :=
    (rotation_rendering qpu_asm.Renderer.sample
      (sampleInstruction SIGNAL_ALU_IMMEDIATE 0 1 49 .ACC0 .ACC0 .ACC0 .ACC1) rfl
      (by decide) (by decide) rfl (by decide)).1 (by decide)
  rw [hs]
  cases hop
  decide

/-- C19: with `addPart` and `mulPart` the clauses of the two slots, for every instruction
whose operation fields are in range (the add field below 32, the mul field below 8)
`toASMString` returns `addPart + "; " + mulPart` when both operations are not the no-op,
`addPart` alone when the mul operation is the no-op, and `mulPart` alone when the add
operation is the no-op and the mul operation is not. When both are the no-op the result is
the bare no-op clause: the mnemonic `nop`, the extras and a space, with no output register
and no operands. An instruction with the add operation `add` (field 12) and the mul
operation no-op renders as the add clause alone: mnemonic, extras, a space, the output
register and the two operands, each after a comma. -/
theorem clause_composition (R : qpu_asm.Renderer) (i : qpu_asm.ALUInstruction)
    (hadd : i.addition < 32) (hmul : i.multiplication < 8) :
    ∃ opAdd opMul, OpCode.toOpCode i.addition false = .ok opAdd ∧
      OpCode.toOpCode i.multiplication true = .ok opMul ∧
      (OpCode.ne opAdd OP_NOP = true → OpCode.ne opMul OP_NOP = true →
        i.toASMString R = .ok ((i.addPart R opAdd ++ "; ") ++ i.mulPart R opAdd opMul)) ∧
      (OpCode.ne opMul OP_NOP = false → i.toASMString R = .ok (i.addPart R opAdd)) ∧
      (OpCode.ne opAdd OP_NOP = false → OpCode.ne opMul OP_NOP = true →
        i.toASMString R = .ok (i.mulPart R opAdd opMul)) ∧
      (OpCode.ne opAdd OP_NOP = false → OpCode.ne opMul OP_NOP = false →
        i.toASMString R
          = .ok ("nop" ++ (R.toExtrasString i.sig i.addCondition i.setFlag i.unpack i.pack
              (decide (i.writeSwap = WriteSwap.DONT_SWAP)) false ++ " "))) ∧
      (i.addition = 12 → i.multiplication = 0 →
        i.toASMString R
          = .ok ("add" ++ (R.toExtrasString i.sig i.addCondition i.setFlag i.unpack i.pack
              (decide (i.writeSwap = WriteSwap.DONT_SWAP)) (i.addCanUnpack OP_ADD) ++ " ") ++
            R.toOutputRegister (decide (i.writeSwap = WriteSwap.DONT_SWAP)) i.addOut ++
            (", " ++ R.toInputRegister i.addMultiplexA i.inputA i.inputB i.hasImmediate ++
              (", " ++ R.toInputRegister i.addMultiplexB i.inputA i.inputB i.hasImmediate)))) := by
  obtain ⟨opAdd, hA, hAnop⟩ := toOpCode_add_ok i.addition hadd
  obtain ⟨opMul, hM, -⟩ := toOpCode_mul_ok i.multiplication hmul
  refine ⟨opAdd, opMul, hA, hM, ?_, ?_, ?_, ?_, ?_⟩
  · intro h1 h2
    simp [qpu_asm.ALUInstruction.toASMString, hA, hM, h1, h2]
  · intro h2
    by_cases h1 : OpCode.ne opAdd OP_NOP = true
    · simp [qpu_asm.ALUInstruction.toASMString, hA, hM, h1, h2]
    · simp [qpu_asm.ALUInstruction.toASMString, hA, hM, h1, h2]
  · intro h1 h2
    simp [qpu_asm.ALUInstruction.toASMString, hA, hM, h1, h2]
  · intro h1 h2
    have hnop : opAdd = OP_NOP := hAnop (by simpa [OpCode.ne] using h1)
    subst hnop
    simp [qpu_asm.ALUInstruction.toASMString, hA, hM, h2, addPart_nop]
  · intro h12 h0
    rw [h12] at hA
    rw [h0] at hM
    have hA2 : OpCode.toOpCode 12 false = .ok OP_ADD := rfl
    have hM2 : OpCode.toOpCode 0 true = .ok OP_NOP := rfl
    have e1 : opAdd = OP_ADD := by rw [hA2] at hA; cases hA; rfl
    have e2 : opMul = OP_NOP := by rw [hM2] at hM; cases hM; rfl
    subst e1 e2
    have hne1 : OpCode.ne OP_ADD OP_NOP = true := by decide
    have hne2 : OpCode.ne OP_NOP OP_NOP = false := by decide
    have hname : OP_ADD.name = "add" := rfl
    have hn1 : OP_ADD.numOperands > 0 := by decide
    have hn2 : OP_ADD.numOperands > 1 := by decide
    simp only [qpu_asm.ALUInstruction.toASMString, h12, h0, hA2, hM2, hne1, hne2,
      qpu_asm.ALUInstruction.addPart, qpu_asm.ALUInstruction.addArgs, hname, if_pos hn1,
      if_pos hn2, if_true]
    simp

/-- C19 at the instruction of the specification's scenario: add operation `add`, mul
operation no-op, both add multiplexers on accumulator 0. -/
theorem clause_composition_witness :
    (sampleInstruction SIGNAL_NONE 12 0 0 .ACC0 .ACC0 .ACC0 .ACC0).toASMString
      qpu_asm.Renderer.sample = .ok "add ra, r0, r0" := by
  obtain ⟨opAdd, opMul, -, -, -, -, -, -, h⟩ :=
    clause_composition qpu_asm.Renderer.sample
      (sampleInstruction SIGNAL_NONE 12 0 0 .ACC0 .ACC0 .ACC0 .ACC0) (by decide) (by decide)
  rw [h rfl rfl]
  decide

/-! ### The 32-bit saturating pack mode -/

theorem Pack.applyLane_32_32 (F : FloatOps) (v : Value) (h : v.hasContainer = false) :
    Pack.applyLane F PACK_32_32 v
      = if v.type.isSimpleType = false then .ok none
        else if v.getLiteralValue = none then .ok none
        else .error .saturationNotImplemented := by
  have he : PACK_32_32.hasEffect = true := rfl
  unfold Pack.applyLane Pack.applyWith
  cases hl : v.getLiteralValue with
  | none => cases hs : v.type.isSimpleType <;> simp [he, h, hs]
  | some l =>
    cases hs : v.type.isSimpleType with
    | false => simp [he, hs]
    | true =>
      simp only [he, hs, h]
      rfl

theorem Scalar.toValue_hasContainer (e : Scalar) : e.toValue.hasContainer = false := rfl

theorem Scalar.toValue_getLiteralValue (e : Scalar) :
    e.toValue.getLiteralValue = e.getLiteralValue := by
  cases e with
  | mk d t => cases d <;> rfl

theorem Pack.apply_32_32_scalar (F : FloatOps) (v : Value) (h : v.hasContainer = false) :
    Pack.apply F PACK_32_32 v
      = if v.type.isSimpleType = false then .ok none
        else if v.getLiteralValue = none then .ok none
        else .error .saturationNotImplemented := by
  rw [← Pack.applyLane_32_32 F v h]
  have he : PACK_32_32.hasEffect = true := rfl
  simp [Pack.apply, Pack.applyLane, Pack.applyWith, he, h]

theorem Pack.apply_32_32_container (F : FloatOps) (es : List Scalar) (t : DataType) :
    Pack.apply F PACK_32_32 ⟨.container es, t⟩
      = if t.isSimpleType = false then .ok none
        else
          match es with
          | [] => .ok (some ⟨.container [], t⟩)
          | e :: _ =>
            if e.type.isSimpleType = false then .ok none
            else if e.getLiteralValue = none then .ok none
            else .error .saturationNotImplemented := by
  have he : PACK_32_32.hasEffect = true := rfl
  cases hs : t.isSimpleType with
  | false => simp [Pack.apply, Pack.applyWith, he, hs]
  | true =>
    cases es with
    | nil =>
      simp [Pack.apply, Pack.applyWith, he, hs, Value.hasContainer, Value.elements, convertLanes,
        Value.ofContainer]
    | cons e rest =>
      have hl := Pack.applyLane_32_32 F e.toValue rfl
      rw [Scalar.toValue_getLiteralValue] at hl
      have ht : e.toValue.type = e.type := rfl
      rw [ht] at hl
      simp only [Pack.apply, Pack.applyWith, he, hs, Value.hasContainer, Value.elements,
        convertLanes, hl]
      cases h1 : e.type.isSimpleType with
      | false => simp
      | true =>
        cases h2 : e.getLiteralValue with
        | none => simp
        | some l => simp

/-- C20: the pack mode `PACK_32_32` raises on every scalar that has a literal and a simple
type, and on every container of a simple type whose first lane has a literal and a simple
type: the literal lane is reached, since no lane before it can have a result. It returns
`NO_VALUE` only for a value whose type is not simple, for a scalar without a literal, and
for a container whose first lane has a type that is not simple or has no literal; the one
value it returns is the container without lanes. -/
theorem pack_32_32_is_hard_failure (F : FloatOps) (v : Value) :
    (∀ (l : Literal) (t : DataType), t.isSimpleType = true →
      Pack.apply F PACK_32_32 (Value.ofLiteral l t) = .error .saturationNotImplemented) ∧
    (v.hasContainer = false → v.type.isSimpleType = true → v.getLiteralValue ≠ none →
      Pack.apply F PACK_32_32 v = .error .saturationNotImplemented) ∧
    (∀ (e : Scalar) (rest : List Scalar), v.data = .container (e :: rest) →
      v.type.isSimpleType = true → e.type.isSimpleType = true → e.getLiteralValue ≠ none →
      Pack.apply F PACK_32_32 v = .error .saturationNotImplemented) ∧
    (Pack.apply F PACK_32_32 v = .ok none ↔
      v.type.isSimpleType = false ∨ (v.hasContainer = false ∧ v.getLiteralValue = none) ∨
      ∃ e rest, v.data = .container (e :: rest) ∧
        (e.type.isSimpleType = false ∨ e.getLiteralValue = none)) ∧
    (∀ r, Pack.apply F PACK_32_32 v = .ok (some r) →
      v.data = .container [] ∧ v.type.isSimpleType = true ∧ r = v) ∧
    (∀ err, Pack.apply F PACK_32_32 v = .error err → err = .saturationNotImplemented) := by
  refine ⟨?_, ?_, ?_, ?_, ?_, ?_⟩
  · intro l t ht
    rw [Pack.apply_32_32_scalar F (Value.ofLiteral l t) rfl]
    simp [Value.ofLiteral, ht, Value.getLiteralValue]
  · intro hc hs hl
    rw [Pack.apply_32_32_scalar F v hc]
    simp [hs, hl]
  · intro e rest hv hs h1 h2
    cases v with
    | mk d t =>
      simp only at hv hs
      subst hv
      rw [Pack.apply_32_32_container]
      simp [hs, h1, h2]
  · cases v with
    | mk d t =>
      cases d with
      | scalar d =>
        rw [Pack.apply_32_32_scalar F ⟨.scalar d, t⟩ rfl]
        cases hs : t.isSimpleType <;>
          cases hl : (⟨.scalar d, t⟩ : Value).getLiteralValue <;>
          simp [hs, hl, Value.hasContainer]
      | container es =>
        rw [Pack.apply_32_32_container]
        cases hs : t.isSimpleType with
        | false => simp
        | true =>
          cases es with
          | nil => simp [Value.hasContainer]
          | cons e rest =>
            cases h1 : e.type.isSimpleType <;> cases h2 : e.getLiteralValue <;>
              simp [h1, h2, Value.hasContainer]
  · intro r
    cases v with
    | mk d t =>
      cases d with
      | scalar d =>
        rw [Pack.apply_32_32_scalar F ⟨.scalar d, t⟩ rfl]
        cases hs : t.isSimpleType <;>
          cases hl : (⟨.scalar d, t⟩ : Value).getLiteralValue <;>
          simp [hs, hl]
      | container es =>
        rw [Pack.apply_32_32_container]
        cases hs : t.isSimpleType with
        | false => simp
        | true =>
          cases es with
          | nil =>
            simp only [Bool.true_eq_false, if_false, Except.ok.injEq, Option.some.injEq]
            intro h
            exact ⟨trivial, trivial, h.symm⟩
          | cons e rest =>
            cases h1 : e.type.isSimpleType <;> cases h2 : e.getLiteralValue <;> simp [h1, h2]
  · intro err
    cases v with
    | mk d t =>
      cases d with
      | scalar d =>
        rw [Pack.apply_32_32_scalar F ⟨.scalar d, t⟩ rfl]
        cases hs : t.isSimpleType <;>
          cases hl : (⟨.scalar d, t⟩ : Value).getLiteralValue <;>
          simp [hs, hl]
        exact fun h => h.symm
      | container es =>
        rw [Pack.apply_32_32_container]
        cases hs : t.isSimpleType with
        | false => simp
        | true =>
          cases es with
          | nil => simp
          | cons e rest =>
            cases h1 : e.type.isSimpleType <;> cases h2 : e.getLiteralValue <;> simp [h1, h2]
            exact fun h => h.symm

theorem pack_32_32_examples :
    Pack.apply FloatOps.ieee PACK_32_32 (int32Literal 5) = .error .saturationNotImplemented ∧
    Pack.apply FloatOps.ieee PACK_32_32 (int32Container [1, 2]) = .error .saturationNotImplemented ∧
    Pack.apply FloatOps.ieee PACK_32_32 int32Register = .ok none ∧
    Pack.apply FloatOps.ieee PACK_32_32
      (Value.ofContainer [⟨.nonConstant 0, TYPE_INT32⟩, ⟨.literal ⟨1⟩, TYPE_INT32⟩] TYPE_INT32)
      = .ok none ∧
    Pack.apply FloatOps.ieee PACK_32_32 (Value.ofLiteral ⟨5⟩ ⟨.complex, 32, 1⟩) = .ok none ∧
    Pack.apply FloatOps.ieee PACK_32_32 (int32Container []) = .ok (some (int32Container [])) := by
  decide

/-! ### Packed bytes -/

theorem and_255 (x : Nat) : x &&& 255 = x % 256 := by
  have h : x &&& (2 ^ 8 - 1) = x % 2 ^ 8 := Nat.and_pow_two_sub_one_eq_mod x 8
  norm_num at h ⊢
  exact h

theorem or_eq_add_bytes (b0 b1 b2 b3 : Nat) (h0 : b0 < 256) (h1 : b1 < 256) (h2 : b2 < 256) :
    (b3 <<< 24) ||| (b2 <<< 16) ||| (b1 <<< 8) ||| b0
      = b3 * 2 ^ 24 + b2 * 2 ^ 16 + b1 * 2 ^ 8 + b0 := by
  have e1 : 2 ^ 8 * b1 + b0 = 2 ^ 8 * b1 ||| b0 :=
    Nat.mul_add_lt_is_or (by norm_num; exact h0) b1
  have e2 : 2 ^ 16 * b2 + (2 ^ 8 * b1 + b0) = 2 ^ 16 * b2 ||| (2 ^ 8 * b1 + b0) :=
    Nat.mul_add_lt_is_or (by norm_num; omega) b2
  have e3 : 2 ^ 24 * b3 + (2 ^ 16 * b2 + (2 ^ 8 * b1 + b0))
      = 2 ^ 24 * b3 ||| (2 ^ 16 * b2 + (2 ^ 8 * b1 + b0)) :=
    Nat.mul_add_lt_is_or (by norm_num; omega) b3
  rw [Nat.shiftLeft_eq, Nat.shiftLeft_eq, Nat.shiftLeft_eq, Nat.or_assoc, Nat.or_assoc,
    Nat.mul_comm b1, Nat.mul_comm b2, Nat.mul_comm b3, ← e1, ← e2, ← e3]
  omega

/-- The word that the packed-byte branch puts together from the results of the four
lanes. -/
theorem word_of_lanes (o0 o1 o2 o3 : Nat) :
    ((o3 &&& 255) <<< 24) ||| ((o2 &&& 255) <<< 16) ||| ((o1 &&& 255) <<< 8) ||| (o0 &&& 255)
      = o3 % 256 * 2 ^ 24 + o2 % 256 * 2 ^ 16 + o1 % 256 * 2 ^ 8 + o0 % 256 := by
  rw [and_255, and_255, and_255, and_255]
  exact or_eq_add_bytes _ _ _ _ (Nat.mod_lt _ (by decide)) (Nat.mod_lt _ (by decide))
    (Nat.mod_lt _ (by decide))

theorem byteOf_eq (w k : Nat) : byteOf w k = w / 2 ^ (8 * k) % 256 := by
  rw [byteOf, Nat.shiftRight_eq_div_pow]
  exact and_255 _

theorem byteOf_sum (b0 b1 b2 b3 : Nat) (h0 : b0 < 256) (h1 : b1 < 256) (h2 : b2 < 256)
    (h3 : b3 < 256) :
    byteOf (b3 * 2 ^ 24 + b2 * 2 ^ 16 + b1 * 2 ^ 8 + b0) 0 = b0 ∧
    byteOf (b3 * 2 ^ 24 + b2 * 2 ^ 16 + b1 * 2 ^ 8 + b0) 1 = b1 ∧
    byteOf (b3 * 2 ^ 24 + b2 * 2 ^ 16 + b1 * 2 ^ 8 + b0) 2 = b2 ∧
    byteOf (b3 * 2 ^ 24 + b2 * 2 ^ 16 + b1 * 2 ^ 8 + b0) 3 = b3 ∧
    b3 * 2 ^ 24 + b2 * 2 ^ 16 + b1 * 2 ^ 8 + b0 < 2 ^ 32 := by
  simp only [byteOf_eq]
  norm_num
  omega

/-- The packed-byte branch on a function `f` of the lanes: the result is a 32-bit word
whose byte `k` is the low byte of `f` on byte `k` of the operands. -/
theorem v8Word_bytes (op : OpCode) (f : Nat → Nat → Nat)
    (h : ∀ x y, OpCode.v8Lane op x y = .ok (f x y)) (a b : Nat) :
    ∃ r, OpCode.v8Word op a b = .ok r ∧ r < 2 ^ 32 ∧
      ∀ k, k < 4 → byteOf r k = f (byteOf a k) (byteOf b k) % 256 := by
  refine ⟨f (byteOf a 3) (byteOf b 3) % 256 * 2 ^ 24 + f (byteOf a 2) (byteOf b 2) % 256 * 2 ^ 16
    + f (byteOf a 1) (byteOf b 1) % 256 * 2 ^ 8 + f (byteOf a 0) (byteOf b 0) % 256, ?_, ?_, ?_⟩
  · unfold OpCode.v8Word
    rw [h, h, h, h]
    simp only [word_of_lanes]
    rfl
  · exact (byteOf_sum _ _ _ _ (Nat.mod_lt _ (by decide)) (Nat.mod_lt _ (by decide))
      (Nat.mod_lt _ (by decide)) (Nat.mod_lt _ (by decide))).2.2.2.2
  · intro k hk
    have hs := byteOf_sum (f (byteOf a 0) (byteOf b 0) % 256) (f (byteOf a 1) (byteOf b 1) % 256)
      (f (byteOf a 2) (byteOf b 2) % 256) (f (byteOf a 3) (byteOf b 3) % 256)
      (Nat.mod_lt _ (by decide)) (Nat.mod_lt _ (by decide))
      (Nat.mod_lt _ (by decide)) (Nat.mod_lt _ (by decide))
    have hk' : k = 0 ∨ k = 1 ∨ k = 2 ∨ k = 3 := by omega
    rcases hk' with rfl | rfl | rfl | rfl
    · exact hs.1
    · exact hs.2.1
    · exact hs.2.2.1
    · exact hs.2.2.2.1

theorem byteOf_lt (w k : Nat) : byteOf w k < 256 := by
  rw [byteOf_eq]
  exact Nat.mod_lt _ (by decide)

theorem evalLiterals_v8_types (F : FloatOps) (op : OpCode) (l1 l2 : Literal) (T T1 : DataType)
    (h : op = OP_V8ADDS ∨ op = OP_V8MAX ∨ op = OP_V8MIN ∨ op = OP_V8MULD ∨ op = OP_V8SUBS) :
    OpCode.evalLiterals F op l1 l2 T T1
      = match OpCode.v8Word op l1.unsignedInt l2.unsignedInt with
        | .ok result => .ok (some (Value.ofLiteral (Literal.ofUInt result) T))
        | .error e => .error e := by
  rcases h with rfl | rfl | rfl | rfl | rfl <;> rfl

/-- The evaluator on two literals with a packed-byte operation whose lanes compute `f`. -/
theorem apply_v8_types (F : FloatOps) (op : OpCode) (f : Nat → Nat → Nat)
    (hop : op = OP_V8ADDS ∨ op = OP_V8MAX ∨ op = OP_V8MIN ∨ op = OP_V8MULD ∨ op = OP_V8SUBS)
    (h : ∀ x y, OpCode.v8Lane op x y = .ok (f x y)) (a b : Nat) (t1 t2 : DataType) :
    ∃ r, OpCode.apply F op (some (Value.ofLiteral ⟨a⟩ t1)) (some (Value.ofLiteral ⟨b⟩ t2))
        = .ok (some (Value.ofLiteral ⟨r⟩
            (OpCode.resultType (Value.ofLiteral ⟨a⟩ t1) (Value.ofLiteral ⟨b⟩ t2)))) ∧
      r < 2 ^ 32 ∧ ∀ k, k < 4 → byteOf r k = f (byteOf a k) (byteOf b k) % 256 := by
  obtain ⟨r, hr, hlt, hb⟩ := v8Word_bytes op f h a b
  refine ⟨r, ?_, hlt, hb⟩
  have hn : op.numOperands = 2 := by rcases hop with rfl | rfl | rfl | rfl | rfl <;> rfl
  rw [apply_literals F op _ _ t1 t2 hn, evalLiterals_v8_types F op _ _ _ _ hop]
  show (match OpCode.v8Word op a b with
    | .ok result => Except.ok (some (Value.ofLiteral (Literal.ofUInt result) _))
    | .error e => .error e) = _
  rw [hr]
  show Except.ok (some (Value.ofLiteral (Literal.ofUInt r) _)) = _
  rw [Literal.ofUInt, Nat.mod_eq_of_lt hlt]

/-- The evaluator on two literals of one type with a packed-byte operation whose lanes
compute `f`. -/
theorem apply_v8 (F : FloatOps) (op : OpCode) (f : Nat → Nat → Nat)
    (hop : op = OP_V8ADDS ∨ op = OP_V8MAX ∨ op = OP_V8MIN ∨ op = OP_V8MULD ∨ op = OP_V8SUBS)
    (h : ∀ x y, OpCode.v8Lane op x y = .ok (f x y)) (a b : Nat) (t : DataType) :
    ∃ r, OpCode.apply F op (some (Value.ofLiteral ⟨a⟩ t)) (some (Value.ofLiteral ⟨b⟩ t))
        = .ok (some (Value.ofLiteral ⟨r⟩ t)) ∧ r < 2 ^ 32 ∧
      ∀ k, k < 4 → byteOf r k = f (byteOf a k) (byteOf b k) % 256 := by
  obtain ⟨r, hr, hlt, hb⟩ := apply_v8_types F op f hop h a b t t
  rw [resultType_same] at hr
  exact ⟨r, hr, hlt, hb⟩

theorem eq_of_bytes (r s : Nat) (hr : r < 2 ^ 32) (hs : s < 2 ^ 32)
    (h : ∀ k, k < 4 → byteOf r k = byteOf s k) : r = s := by
  have h0 := h 0 (by decide)
  have h1 := h 1 (by decide)
  have h2 := h 2 (by decide)
  have h3 := h 3 (by decide)
  simp only [byteOf_eq] at h0 h1 h2 h3
  norm_num at h0 h1 h2 h3 hr hs
  omega

/-- C21, on the code: `v8subs` returns a 32-bit word whose byte `k` is the difference of
byte `k` of the operands when the first is at least the second, and 255, not 0, when the
first is below the second: the difference is taken on unsigned 32-bit numbers and wraps
before it is clamped. On the words 0 and 1 the result is `0x000000FF`. -/
theorem v8subs_bytes (F : FloatOps) (a b : Nat) (t : DataType) :
    (∃ r, OpCode.apply F OP_V8SUBS (some (Value.ofLiteral ⟨a⟩ t)) (some (Value.ofLiteral ⟨b⟩ t))
        = .ok (some (Value.ofLiteral ⟨r⟩ t)) ∧ r < 2 ^ 32 ∧
      ∀ k, k < 4 → byteOf r k
        = if byteOf a k < byteOf b k then 255 else byteOf a k - byteOf b k) ∧
    OpCode.apply F OP_V8SUBS (some (int32Literal 0)) (some (int32Literal 1))
      = .ok (some (int32Literal 0x000000FF)) := by
  constructor
  · obtain ⟨r, hr, hlt, hb⟩ := apply_v8 F OP_V8SUBS
      (fun x y => max (min ((x + 2 ^ 32 - y) % 2 ^ 32) 255) 0)
      (Or.inr (Or.inr (Or.inr (Or.inr rfl)))) (fun _ _ => rfl) a b t
    refine ⟨r, hr, hlt, fun k hk => ?_⟩
    rw [hb k hk]
    have ha := byteOf_lt a k
    have hb' := byteOf_lt b k
    generalize byteOf a k = x at ha ⊢
    generalize byteOf b k = y at hb' ⊢
    norm_num
    split <;> omega
  · rw [int32Literal, int32Literal, apply_literals_same F _ _ _ _ rfl]
    rfl

/-- C24: each of `v8adds`, `v8max`, `v8min` and `v8muld` on two literals returns a 32-bit
word whose byte `k`, for each of the four lanes, is computed from byte `k` of the operands
alone: their sum or 255 if that is smaller, the larger, the smaller, and the quotient of
the product plus 127 by 255. Each of these is at most 255. -/
theorem v8_lanes_independent (F : FloatOps) (a b : Nat) (t : DataType) :
    (∃ r, OpCode.apply F OP_V8ADDS (some (Value.ofLiteral ⟨a⟩ t)) (some (Value.ofLiteral ⟨b⟩ t))
        = .ok (some (Value.ofLiteral ⟨r⟩ t)) ∧ r < 2 ^ 32 ∧
      ∀ k, k < 4 → byteOf r k = min (byteOf a k + byteOf b k) 255) ∧
    (∃ r, OpCode.apply F OP_V8MAX (some (Value.ofLiteral ⟨a⟩ t)) (some (Value.ofLiteral ⟨b⟩ t))
        = .ok (some (Value.ofLiteral ⟨r⟩ t)) ∧ r < 2 ^ 32 ∧
      ∀ k, k < 4 → byteOf r k = max (byteOf a k) (byteOf b k)) ∧
    (∃ r, OpCode.apply F OP_V8MIN (some (Value.ofLiteral ⟨a⟩ t)) (some (Value.ofLiteral ⟨b⟩ t))
        = .ok (some (Value.ofLiteral ⟨r⟩ t)) ∧ r < 2 ^ 32 ∧
      ∀ k, k < 4 → byteOf r k = min (byteOf a k) (byteOf b k)) ∧
    (∃ r, OpCode.apply F OP_V8MULD (some (Value.ofLiteral ⟨a⟩ t)) (some (Value.ofLiteral ⟨b⟩ t))
        = .ok (some (Value.ofLiteral ⟨r⟩ t)) ∧ r < 2 ^ 32 ∧
      ∀ k, k < 4 → byteOf r k = (byteOf a k * byteOf b k + 127) / 255) ∧
    (∀ k, min (byteOf a k + byteOf b k) 255 ≤ 255 ∧ max (byteOf a k) (byteOf b k) ≤ 255 ∧
      min (byteOf a k) (byteOf b k) ≤ 255 ∧ (byteOf a k * byteOf b k + 127) / 255 ≤ 255) := by
  have hmul : ∀ x y : Nat, x < 256 → y < 256 → x * y + 127 < 255 * 256 := by
    intro x y hx hy
    have : x * y ≤ 255 * 255 := Nat.mul_le_mul (by omega) (by omega)
    omega
  refine ⟨?_, ?_, ?_, ?_, ?_⟩
  · obtain ⟨r, hr, hlt, hb⟩ := apply_v8 F OP_V8ADDS (fun x y => min ((x + y) % 2 ^ 32) 255)
      (Or.inl rfl) (fun _ _ => rfl) a b t
    refine ⟨r, hr, hlt, fun k hk => ?_⟩
    rw [hb k hk]
    have ha := byteOf_lt a k
    have hb' := byteOf_lt b k
    generalize byteOf a k = x at ha ⊢
    generalize byteOf b k = y at hb' ⊢
    norm_num
    omega
  · obtain ⟨r, hr, hlt, hb⟩ := apply_v8 F OP_V8MAX (fun x y => max x y)
      (Or.inr (Or.inl rfl)) (fun _ _ => rfl) a b t
    refine ⟨r, hr, hlt, fun k hk => ?_⟩
    rw [hb k hk]
    have ha := byteOf_lt a k
    have hb' := byteOf_lt b k
    generalize byteOf a k = x at ha ⊢
    generalize byteOf b k = y at hb' ⊢
    omega
  · obtain ⟨r, hr, hlt, hb⟩ := apply_v8 F OP_V8MIN (fun x y => min x y)
      (Or.inr (Or.inr (Or.inl rfl))) (fun _ _ => rfl) a b t
    refine ⟨r, hr, hlt, fun k hk => ?_⟩
    rw [hb k hk]
    have ha := byteOf_lt a k
    have hb' := byteOf_lt b k
    generalize byteOf a k = x at ha ⊢
    generalize byteOf b k = y at hb' ⊢
    omega
  · obtain ⟨r, hr, hlt, hb⟩ := apply_v8 F OP_V8MULD (fun x y => (x * y + 127) % 2 ^ 32 / 255)
      (Or.inr (Or.inr (Or.inr (Or.inl rfl)))) (fun _ _ => rfl) a b t
    refine ⟨r, hr, hlt, fun k hk => ?_⟩
    rw [hb k hk]
    have ha := byteOf_lt a k
    have hb' := byteOf_lt b k
    have hm := hmul _ _ ha hb'
    generalize byteOf a k * byteOf b k + 127 = p at hm ⊢
    norm_num
    omega
  · intro k
    have ha := byteOf_lt a k
    have hb' := byteOf_lt b k
    have hm := hmul _ _ ha hb'
    refine ⟨by omega, by omega, by omega, ?_⟩
    generalize byteOf a k * byteOf b k + 127 = p at hm ⊢
    omega

/-! ### Conversions of literals -/

theorem pack_apply_literal_mul (F : FloatOps) (l : Literal) (t : DataType)
    (ht : t.isSimpleType = true) :
    Pack.apply F PACK_MUL_GRAY_REPLICATE (Value.ofLiteral l t)
      = .ok (some (Value.ofLiteral (Literal.ofUInt
          (((F.toUInt32 (F.div l.real F32.c255) &&& 0xFF) <<< 24) |||
            ((F.toUInt32 (F.div l.real F32.c255) &&& 0xFF) <<< 16) |||
            ((F.toUInt32 (F.div l.real F32.c255) &&& 0xFF) <<< 8) |||
            (F.toUInt32 (F.div l.real F32.c255) &&& 0xFF))) t)) ∧
    Pack.apply F PACK_MUL_COLOR0 (Value.ofLiteral l t)
      = .ok (some (Value.ofLiteral
          (Literal.ofUInt (F.toUInt32 (F.mul l.real F32.c255) &&& 0xFF)) t)) ∧
    Pack.apply F PACK_MUL_COLOR1 (Value.ofLiteral l t)
      = .ok (some (Value.ofLiteral
          (Literal.ofUInt ((F.toUInt32 (F.mul l.real F32.c255) &&& 0xFF) <<< 8)) t)) ∧
    Pack.apply F PACK_MUL_COLOR2 (Value.ofLiteral l t)
      = .ok (some (Value.ofLiteral
          (Literal.ofUInt ((F.toUInt32 (F.mul l.real F32.c255) &&& 0xFF) <<< 16)) t)) ∧
    Pack.apply F PACK_MUL_COLOR3 (Value.ofLiteral l t)
      = .ok (some (Value.ofLiteral
          (Literal.ofUInt ((F.toUInt32 (F.mul l.real F32.c255) &&& 0xFF) <<< 24)) t)) := by
  obtain ⟨k, bits, w⟩ := t
  cases k
  · exact ⟨rfl, rfl, rfl, rfl, rfl⟩
  · exact ⟨rfl, rfl, rfl, rfl, rfl⟩
  · exact ⟨rfl, rfl, rfl, rfl, rfl⟩
  · simp [DataType.isSimpleType] at ht

set_option maxRecDepth 100000 in
set_option exponentiation.threshold 1024 in
/-- C22, on the code: the modes `PACK_MUL_COLOR0` to `PACK_MUL_COLOR3` convert the product
of the float and 255.0 to an unsigned integer and put its low byte into their lane;
`PACK_MUL_GRAY_REPLICATE` converts the quotient of the float by 255.0 instead. On the
float 1.0, with IEEE arithmetic, `PACK_MUL_COLOR0` gives `0x000000FF` and
`PACK_MUL_COLOR3` gives `0xFF000000`, and `PACK_MUL_GRAY_REPLICATE` gives 0, not
`0xFFFFFFFF`. -/
theorem pack_mul_gray_divides :
    (∀ (F : FloatOps) (l : Literal) (t : DataType), t.isSimpleType = true →
      Pack.apply F PACK_MUL_GRAY_REPLICATE (Value.ofLiteral l t)
        = .ok (some (Value.ofLiteral (Literal.ofUInt
            (((F.toUInt32 (F.div l.real F32.c255) &&& 0xFF) <<< 24) |||
              ((F.toUInt32 (F.div l.real F32.c255) &&& 0xFF) <<< 16) |||
              ((F.toUInt32 (F.div l.real F32.c255) &&& 0xFF) <<< 8) |||
              (F.toUInt32 (F.div l.real F32.c255) &&& 0xFF))) t)) ∧
      Pack.apply F PACK_MUL_COLOR0 (Value.ofLiteral l t)
        = .ok (some (Value.ofLiteral
            (Literal.ofUInt (F.toUInt32 (F.mul l.real F32.c255) &&& 0xFF)) t))) ∧
    Pack.apply FloatOps.ieee PACK_MUL_COLOR0 (Value.ofLiteral ⟨0x3F800000⟩ TYPE_FLOAT)
      = .ok (some (Value.ofLiteral ⟨0x000000FF⟩ TYPE_FLOAT)) ∧
    Pack.apply FloatOps.ieee PACK_MUL_COLOR3 (Value.ofLiteral ⟨0x3F800000⟩ TYPE_FLOAT)
      = .ok (some (Value.ofLiteral ⟨0xFF000000⟩ TYPE_FLOAT)) ∧
    Pack.apply FloatOps.ieee PACK_MUL_GRAY_REPLICATE (Value.ofLiteral ⟨0x3F800000⟩ TYPE_FLOAT)
      = .ok (some (Value.ofLiteral ⟨0⟩ TYPE_FLOAT)) := by
  refine ⟨fun F l t ht => ?_, by decide, by decide, by decide⟩
  exact ⟨(pack_apply_literal_mul F l t ht).1, (pack_apply_literal_mul F l t ht).2.1⟩

/-! ### Signals -/

/-- C23: the sixteen signal codes are pairwise distinct; among them `hasSideEffects` is
false exactly for `SIGNAL_NONE`, `SIGNAL_ALU_IMMEDIATE` and `SIGNAL_LOAD_IMMEDIATE`, and
`triggersReadOfR4` is true exactly for the alpha, color, color-end, coverage, TMU0 and TMU1
load signals; every signal that triggers a read of r4 has side effects. -/
theorem signal_predicates :
    signals.Nodup ∧ signals.length = 16 ∧
    (∀ s ∈ signals, s.hasSideEffects = false ↔
      s = SIGNAL_NONE ∨ s = SIGNAL_ALU_IMMEDIATE ∨ s = SIGNAL_LOAD_IMMEDIATE) ∧
    (∀ s ∈ signals, s.triggersReadOfR4 = true ↔
      s = SIGNAL_LOAD_ALPHA ∨ s = SIGNAL_LOAD_COLOR ∨ s = SIGNAL_LOAD_COLOR_END ∨
        s = SIGNAL_LOAD_COVERAGE ∨ s = SIGNAL_LOAD_TMU0 ∨ s = SIGNAL_LOAD_TMU1) ∧
    (∀ s : Signaling, s.triggersReadOfR4 = true → s.hasSideEffects = true) := by
  refine ⟨by decide, rfl, by decide, by decide, ?_⟩
  intro s h
  simp only [Signaling.triggersReadOfR4, Bool.or_eq_true, beq_iff_eq] at h
  rcases h with ((((rfl | rfl) | rfl) | rfl) | rfl) | rfl <;> decide

/-! ### Associativity -/

theorem nested_literals (F : FloatOps) (op : OpCode) (g : Literal → Literal → Literal)
    (hn : op.numOperands = 2)
    (hg : ∀ l1 l2 T, OpCode.evalLiterals F op l1 l2 T T = .ok (some (Value.ofLiteral (g l1 l2) T)))
    (a b c : Literal) (t : DataType) :
    OpCode.applyLeftFirst F op (Value.ofLiteral a t) (Value.ofLiteral b t) (Value.ofLiteral c t)
      = .ok (some (Value.ofLiteral (g (g a b) c) t)) ∧
    OpCode.applyRightFirst F op (Value.ofLiteral a t) (Value.ofLiteral b t) (Value.ofLiteral c t)
      = .ok (some (Value.ofLiteral (g a (g b c)) t)) := by
  constructor
  · rw [OpCode.applyLeftFirst, apply_literals_same F op a b t hn, hg]
    show OpCode.apply F op (some (Value.ofLiteral (g a b) t)) (some (Value.ofLiteral c t)) = _
    rw [apply_literals_same F op _ c t hn, hg]
  · rw [OpCode.applyRightFirst, apply_literals_same F op b c t hn, hg]
    show OpCode.apply F op (some (Value.ofLiteral a t)) (some (Value.ofLiteral (g b c) t)) = _
    rw [apply_literals_same F op a _ t hn, hg]

theorem ofInt_signedInt_add (i j : Int) :
    Literal.ofInt ((Literal.ofInt i).signedInt + j) = Literal.ofInt (i + j) := by
  simp only [Literal.ofInt, Literal.signedInt]
  congr 1
  norm_num
  split <;> omega

theorem signedInt_ofInt (i : Int) (h1 : -2 ^ 31 ≤ i) (h2 : i < 2 ^ 31) :
    (Literal.ofInt i).signedInt = i := by
  simp only [Literal.ofInt, Literal.signedInt]
  norm_num at h1 h2 ⊢
  split <;> omega

theorem signedInt_range (x : Nat) (hx : x < 2 ^ 32) :
    -2 ^ 31 ≤ (⟨x⟩ : Literal).signedInt ∧ (⟨x⟩ : Literal).signedInt < 2 ^ 31 := by
  simp only [Literal.signedInt]
  norm_num at hx ⊢
  split <;> omega

theorem F32.max_eq (a b : Nat) (hna : F32.isNaN a = false) (hnb : F32.isNaN b = false) :
    F32.max a b = if F32.key a < F32.key b then b else a := by
  simp only [F32.max, F32.lt, hna, hnb, Bool.not_false, Bool.true_and, decide_eq_true_eq]

theorem F32.min_eq (a b : Nat) (hna : F32.isNaN a = false) (hnb : F32.isNaN b = false) :
    F32.min a b = if F32.key b < F32.key a then b else a := by
  simp only [F32.min, F32.lt, hna, hnb, Bool.not_false, Bool.true_and, decide_eq_true_eq]

theorem F32.max_assoc (a b c : Nat) (hna : F32.isNaN a = false) (hnb : F32.isNaN b = false)
    (hnc : F32.isNaN c = false) : F32.max (F32.max a b) c = F32.max a (F32.max b c) := by
  by_cases h1 : F32.key a < F32.key b
  · have hab : F32.max a b = b := by rw [F32.max_eq a b hna hnb, if_pos h1]
    by_cases h2 : F32.key b < F32.key c
    · have hbc : F32.max b c = c := by rw [F32.max_eq b c hnb hnc, if_pos h2]
      rw [hab, hbc, F32.max_eq a c hna hnc, if_pos (lt_trans h1 h2)]
    · have hbc : F32.max b c = b := by rw [F32.max_eq b c hnb hnc, if_neg h2]
      rw [hab, hbc, hab]
  · have hab : F32.max a b = a := by rw [F32.max_eq a b hna hnb, if_neg h1]
    by_cases h2 : F32.key b < F32.key c
    · have hbc : F32.max b c = c := by rw [F32.max_eq b c hnb hnc, if_pos h2]
      rw [hab, hbc]
    · have hbc : F32.max b c = b := by rw [F32.max_eq b c hnb hnc, if_neg h2]
      rw [hab, hbc, hab, F32.max_eq a c hna hnc, if_neg (by omega)]

theorem F32.min_assoc (a b c : Nat) (hna : F32.isNaN a = false) (hnb : F32.isNaN b = false)
    (hnc : F32.isNaN c = false) : F32.min (F32.min a b) c = F32.min a (F32.min b c) := by
  by_cases h1 : F32.key b < F32.key a
  · have hab : F32.min a b = b := by rw [F32.min_eq a b hna hnb, if_pos h1]
    by_cases h2 : F32.key c < F32.key b
    · have hbc : F32.min b c = c := by rw [F32.min_eq b c hnb hnc, if_pos h2]
      rw [hab, hbc, F32.min_eq a c hna hnc, if_pos (lt_trans h2 h1)]
    · have hbc : F32.min b c = b := by rw [F32.min_eq b c hnb hnc, if_neg h2]
      rw [hab, hbc, hab]
  · have hab : F32.min a b = a := by rw [F32.min_eq a b hna hnb, if_neg h1]
    by_cases h2 : F32.key c < F32.key b
    · have hbc : F32.min b c = c := by rw [F32.min_eq b c hnb hnc, if_pos h2]
      rw [hab, hbc]
    · have hbc : F32.min b c = b := by rw [F32.min_eq b c hnb hnc, if_neg h2]
      rw [hab, hbc, hab, F32.min_eq a c hna hnc, if_neg (by omega)]

theorem F32.max_cases (a b : Nat) : F32.max a b = a ∨ F32.max a b = b := by
  unfold F32.max
  split
  · exact Or.inr rfl
  · exact Or.inl rfl

theorem F32.min_cases (a b : Nat) : F32.min a b = a ∨ F32.min a b = b := by
  unfold F32.min
  split
  · exact Or.inr rfl
  · exact Or.inl rfl

theorem F32.fabs_fabs (a : Nat) : F32.fabs (F32.fabs a) = F32.fabs a := by
  simp only [F32.fabs, F32.mag]
  omega

theorem isAssociative_cases : ∀ o ∈ opCodes.map Prod.snd, o.isAssociative = true →
    (o = OP_ADD ∨ o = OP_AND ∨ o = OP_OR ∨ o = OP_XOR ∨ o = OP_MAX ∨ o = OP_MIN ∨
      o = OP_V8MAX ∨ o = OP_V8MIN) ∨ o = OP_MUL24 ∨
    (o = OP_FMAX ∨ o = OP_FMIN ∨ o = OP_FMAXABS ∨ o = OP_FMINABS) ∨ o = OP_FADD ∨
      o = OP_FMUL := by decide

theorem v8_assoc (F : FloatOps) (op : OpCode) (f : Nat → Nat → Nat)
    (hop : op = OP_V8ADDS ∨ op = OP_V8MAX ∨ op = OP_V8MIN ∨ op = OP_V8MULD ∨ op = OP_V8SUBS)
    (hl : ∀ x y, OpCode.v8Lane op x y = .ok (f x y))
    (hf : ∀ x y z, x < 256 → y < 256 → z < 256 →
      f (f x y % 256) z % 256 = f x (f y z % 256) % 256)
    (a b c : Nat) (t : DataType) :
    OpCode.applyLeftFirst F op (Value.ofLiteral ⟨a⟩ t) (Value.ofLiteral ⟨b⟩ t)
        (Value.ofLiteral ⟨c⟩ t)
      = OpCode.applyRightFirst F op (Value.ofLiteral ⟨a⟩ t) (Value.ofLiteral ⟨b⟩ t)
        (Value.ofLiteral ⟨c⟩ t) ∧
    ∃ r, OpCode.applyLeftFirst F op (Value.ofLiteral ⟨a⟩ t) (Value.ofLiteral ⟨b⟩ t)
      (Value.ofLiteral ⟨c⟩ t) = .ok (some r) := by
  obtain ⟨rab, hab, _, bab⟩ := apply_v8 F op f hop hl a b t
  obtain ⟨rbc, hbc, _, bbc⟩ := apply_v8 F op f hop hl b c t
  obtain ⟨rl, hrl, hll, bl⟩ := apply_v8 F op f hop hl rab c t
  obtain ⟨rr, hrr, hrl', br⟩ := apply_v8 F op f hop hl a rbc t
  have heq : rl = rr := by
    apply eq_of_bytes rl rr hll hrl'
    intro k hk
    rw [bl k hk, br k hk, bab k hk, bbc k hk]
    exact hf _ _ _ (byteOf_lt a k) (byteOf_lt b k) (byteOf_lt c k)
  have hL : OpCode.applyLeftFirst F op (Value.ofLiteral ⟨a⟩ t) (Value.ofLiteral ⟨b⟩ t)
      (Value.ofLiteral ⟨c⟩ t) = .ok (some (Value.ofLiteral ⟨rl⟩ t)) := by
    rw [OpCode.applyLeftFirst, hab]
    exact hrl
  have hR : OpCode.applyRightFirst F op (Value.ofLiteral ⟨a⟩ t) (Value.ofLiteral ⟨b⟩ t)
      (Value.ofLiteral ⟨c⟩ t) = .ok (some (Value.ofLiteral ⟨rr⟩ t)) := by
    rw [OpCode.applyRightFirst, hbc]
    exact hrr
  exact ⟨by rw [hL, hR, heq], _, hL⟩

set_option maxRecDepth 100000 in
/-- C25, as the claim states it, fails: `mul24` is flagged associative, and on the literals
`0x800000`, 2 and 1 the grouping `(a * b) * c` gives 0, since the product `0x1000000` of
the first evaluation loses its bit 24 as an operand of the second, and the grouping
`a * (b * c)` gives `0x1000000`. On IEEE arithmetic the float sum of 16777216.0, 1.0 and
1.0 is 16777216.0 in the first grouping and 16777218.0 in the second. -/
theorem associative_counterexample :
    OP_MUL24.isAssociative = true ∧
    OpCode.applyLeftFirst FloatOps.ieee OP_MUL24 (int32Literal 0x800000) (int32Literal 2)
      (int32Literal 1) = .ok (some (int32Literal 0)) ∧
    OpCode.applyRightFirst FloatOps.ieee OP_MUL24 (int32Literal 0x800000) (int32Literal 2)
      (int32Literal 1) = .ok (some (int32Literal 0x1000000)) ∧
    OpCode.applyLeftFirst FloatOps.ieee OP_MUL24 (int32Literal 0x800000) (int32Literal 2)
        (int32Literal 1)
      ≠ OpCode.applyRightFirst FloatOps.ieee OP_MUL24 (int32Literal 0x800000) (int32Literal 2)
        (int32Literal 1) ∧
    OP_FADD.isAssociative = true ∧
    OpCode.applyLeftFirst FloatOps.ieee OP_FADD (Value.ofLiteral ⟨0x4B800000⟩ TYPE_FLOAT)
      (Value.ofLiteral ⟨0x3F800000⟩ TYPE_FLOAT) (Value.ofLiteral ⟨0x3F800000⟩ TYPE_FLOAT)
      = .ok (some (Value.ofLiteral ⟨0x4B800000⟩ TYPE_FLOAT)) ∧
    OpCode.applyRightFirst FloatOps.ieee OP_FADD (Value.ofLiteral ⟨0x4B800000⟩ TYPE_FLOAT)
      (Value.ofLiteral ⟨0x3F800000⟩ TYPE_FLOAT) (Value.ofLiteral ⟨0x3F800000⟩ TYPE_FLOAT)
      = .ok (some (Value.ofLiteral ⟨0x4B800001⟩ TYPE_FLOAT)) := by
  decide

/-- C25, amended: for a registered operation that `isAssociative` flags and literals `a`,
`b`, `c` below `2 ^ 32` of one type, both groupings return a value. The two values are
equal for `add`, `and`, `or`, `xor`, `max`, `min`, `v8max` and `v8min`; for `mul24` when
the products of the low 24 bits of `a` and `b` and of `b` and `c` are below `2 ^ 24`; for
`fmax`, `fmin`, `fmaxabs` and `fminabs` when no operand is a NaN; for `fadd` and `fmul`
when the host's float sum and product of the three operands do not depend on the
grouping. -/
theorem associative_eval (F : FloatOps) (op : OpCode) (a b c : Nat) (t : DataType)
    (hop : op ∈ opCodes.map Prod.snd) (hassoc : op.isAssociative = true)
    (ha : a < 2 ^ 32) (hb : b < 2 ^ 32) (hc : c < 2 ^ 32) :
    ((op = OP_ADD ∨ op = OP_AND ∨ op = OP_OR ∨ op = OP_XOR ∨ op = OP_MAX ∨ op = OP_MIN ∨
        op = OP_V8MAX ∨ op = OP_V8MIN) ∨ op = OP_MUL24 ∨
      (op = OP_FMAX ∨ op = OP_FMIN ∨ op = OP_FMAXABS ∨ op = OP_FMINABS) ∨ op = OP_FADD ∨
        op = OP_FMUL) ∧
    (∃ r, OpCode.applyLeftFirst F op (Value.ofLiteral ⟨a⟩ t) (Value.ofLiteral ⟨b⟩ t)
      (Value.ofLiteral ⟨c⟩ t) = .ok (some r)) ∧
    (∃ r, OpCode.applyRightFirst F op (Value.ofLiteral ⟨a⟩ t) (Value.ofLiteral ⟨b⟩ t)
      (Value.ofLiteral ⟨c⟩ t) = .ok (some r)) ∧
    (op = OP_ADD ∨ op = OP_AND ∨ op = OP_OR ∨ op = OP_XOR ∨ op = OP_MAX ∨ op = OP_MIN ∨
        op = OP_V8MAX ∨ op = OP_V8MIN →
      OpCode.applyLeftFirst F op (Value.ofLiteral ⟨a⟩ t) (Value.ofLiteral ⟨b⟩ t)
          (Value.ofLiteral ⟨c⟩ t)
        = OpCode.applyRightFirst F op (Value.ofLiteral ⟨a⟩ t) (Value.ofLiteral ⟨b⟩ t)
          (Value.ofLiteral ⟨c⟩ t)) ∧
    (op = OP_MUL24 → a % 2 ^ 24 * (b % 2 ^ 24) < 2 ^ 24 → b % 2 ^ 24 * (c % 2 ^ 24) < 2 ^ 24 →
      OpCode.applyLeftFirst F op (Value.ofLiteral ⟨a⟩ t) (Value.ofLiteral ⟨b⟩ t)
          (Value.ofLiteral ⟨c⟩ t)
        = OpCode.applyRightFirst F op (Value.ofLiteral ⟨a⟩ t) (Value.ofLiteral ⟨b⟩ t)
          (Value.ofLiteral ⟨c⟩ t)) ∧
    (op = OP_FMAX ∨ op = OP_FMIN ∨ op = OP_FMAXABS ∨ op = OP_FMINABS →
      F32.isNaN a = false → F32.isNaN b = false → F32.isNaN c = false →
      OpCode.applyLeftFirst F op (Value.ofLiteral ⟨a⟩ t) (Value.ofLiteral ⟨b⟩ t)
          (Value.ofLiteral ⟨c⟩ t)
        = OpCode.applyRightFirst F op (Value.ofLiteral ⟨a⟩ t) (Value.ofLiteral ⟨b⟩ t)
          (Value.ofLiteral ⟨c⟩ t)) ∧
    (op = OP_FADD → F.add (F.add a b % 2 ^ 32) c = F.add a (F.add b c % 2 ^ 32) →
      OpCode.applyLeftFirst F op (Value.ofLiteral ⟨a⟩ t) (Value.ofLiteral ⟨b⟩ t)
          (Value.ofLiteral ⟨c⟩ t)
        = OpCode.applyRightFirst F op (Value.ofLiteral ⟨a⟩ t) (Value.ofLiteral ⟨b⟩ t)
          (Value.ofLiteral ⟨c⟩ t)) ∧
    (op = OP_FMUL → F.mul (F.mul a b % 2 ^ 32) c = F.mul a (F.mul b c % 2 ^ 32) →
      OpCode.applyLeftFirst F op (Value.ofLiteral ⟨a⟩ t) (Value.ofLiteral ⟨b⟩ t)
          (Value.ofLiteral ⟨c⟩ t)
        = OpCode.applyRightFirst F op (Value.ofLiteral ⟨a⟩ t) (Value.ofLiteral ⟨b⟩ t)
          (Value.ofLiteral ⟨c⟩ t)) := by
  have hcases := isAssociative_cases op hop hassoc
  -- the literal that each operation computes
  have nAdd := nested_literals F OP_ADD
    (fun l1 l2 => Literal.ofInt (l1.signedInt + l2.signedInt)) rfl (fun _ _ _ => rfl) ⟨a⟩ ⟨b⟩ ⟨c⟩ t
  have nAnd := nested_literals F OP_AND
    (fun l1 l2 => Literal.ofUInt (l1.unsignedInt &&& l2.unsignedInt)) rfl (fun _ _ _ => rfl)
    ⟨a⟩ ⟨b⟩ ⟨c⟩ t
  have nOr := nested_literals F OP_OR
    (fun l1 l2 => Literal.ofUInt (l1.unsignedInt ||| l2.unsignedInt)) rfl (fun _ _ _ => rfl)
    ⟨a⟩ ⟨b⟩ ⟨c⟩ t
  have nXor := nested_literals F OP_XOR
    (fun l1 l2 => Literal.ofUInt (l1.unsignedInt ^^^ l2.unsignedInt)) rfl (fun _ _ _ => rfl)
    ⟨a⟩ ⟨b⟩ ⟨c⟩ t
  have nMax := nested_literals F OP_MAX
    (fun l1 l2 => Literal.ofInt (max l1.signedInt l2.signedInt)) rfl (fun _ _ _ => rfl)
    ⟨a⟩ ⟨b⟩ ⟨c⟩ t
  have nMin := nested_literals F OP_MIN
    (fun l1 l2 => Literal.ofInt (min l1.signedInt l2.signedInt)) rfl (fun _ _ _ => rfl)
    ⟨a⟩ ⟨b⟩ ⟨c⟩ t
  have nMul := nested_literals F OP_MUL24
    (fun l1 l2 => Literal.ofUInt ((l1.unsignedInt &&& 0xFFFFFF) * (l2.unsignedInt &&& 0xFFFFFF)))
    rfl (fun _ _ _ => rfl) ⟨a⟩ ⟨b⟩ ⟨c⟩ t
  have nFmax := nested_literals F OP_FMAX
    (fun l1 l2 => Literal.ofReal (F32.max l1.real l2.real)) rfl (fun _ _ _ => rfl) ⟨a⟩ ⟨b⟩ ⟨c⟩ t
  have nFmin := nested_literals F OP_FMIN
    (fun l1 l2 => Literal.ofReal (F32.min l1.real l2.real)) rfl (fun _ _ _ => rfl) ⟨a⟩ ⟨b⟩ ⟨c⟩ t
  have nFmaxabs := nested_literals F OP_FMAXABS
    (fun l1 l2 => Literal.ofReal (F32.max (F32.fabs l1.real) (F32.fabs l2.real))) rfl
    (fun _ _ _ => rfl) ⟨a⟩ ⟨b⟩ ⟨c⟩ t
  have nFminabs := nested_literals F OP_FMINABS
    (fun l1 l2 => Literal.ofReal (F32.min (F32.fabs l1.real) (F32.fabs l2.real))) rfl
    (fun _ _ _ => rfl) ⟨a⟩ ⟨b⟩ ⟨c⟩ t
  have nFadd := nested_literals F OP_FADD
    (fun l1 l2 => Literal.ofReal (F.add l1.real l2.real)) rfl (fun _ _ _ => rfl) ⟨a⟩ ⟨b⟩ ⟨c⟩ t
  have nFmul := nested_literals F OP_FMUL
    (fun l1 l2 => Literal.ofReal (F.mul l1.real l2.real)) rfl (fun _ _ _ => rfl) ⟨a⟩ ⟨b⟩ ⟨c⟩ t
  have vMax := v8_assoc F OP_V8MAX (fun x y => max x y) (Or.inr (Or.inl rfl)) (fun _ _ => rfl)
    (fun x y z hx hy hz => by
      show max (max x y % 256) z % 256 = max x (max y z % 256) % 256
      omega) a b c t
  have vMin := v8_assoc F OP_V8MIN (fun x y => min x y) (Or.inr (Or.inr (Or.inl rfl)))
    (fun _ _ => rfl)
    (fun x y z hx hy hz => by
      show min (min x y % 256) z % 256 = min x (min y z % 256) % 256
      omega) a b c t
  have vMaxR : ∃ r, OpCode.applyRightFirst F OP_V8MAX (Value.ofLiteral ⟨a⟩ t)
      (Value.ofLiteral ⟨b⟩ t) (Value.ofLiteral ⟨c⟩ t) = .ok (some r) := by
    obtain ⟨r, hr⟩ := vMax.2
    exact ⟨r, by rw [← vMax.1, hr]⟩
  have vMinR : ∃ r, OpCode.applyRightFirst F OP_V8MIN (Value.ofLiteral ⟨a⟩ t)
      (Value.ofLiteral ⟨b⟩ t) (Value.ofLiteral ⟨c⟩ t) = .ok (some r) := by
    obtain ⟨r, hr⟩ := vMin.2
    exact ⟨r, by rw [← vMin.1, hr]⟩
  refine ⟨hcases, ?_, ?_, ?_, ?_, ?_, ?_, ?_⟩
  · rcases hcases with (rfl | rfl | rfl | rfl | rfl | rfl | rfl | rfl) | rfl |
      (rfl | rfl | rfl | rfl) | rfl | rfl
    · exact ⟨_, nAdd.1⟩
    · exact ⟨_, nAnd.1⟩
    · exact ⟨_, nOr.1⟩
    · exact ⟨_, nXor.1⟩
    · exact ⟨_, nMax.1⟩
    · exact ⟨_, nMin.1⟩
    · exact vMax.2
    · exact vMin.2
    · exact ⟨_, nMul.1⟩
    · exact ⟨_, nFmax.1⟩
    · exact ⟨_, nFmin.1⟩
    · exact ⟨_, nFmaxabs.1⟩
    · exact ⟨_, nFminabs.1⟩
    · exact ⟨_, nFadd.1⟩
    · exact ⟨_, nFmul.1⟩
  · rcases hcases with (rfl | rfl | rfl | rfl | rfl | rfl | rfl | rfl) | rfl |
      (rfl | rfl | rfl | rfl) | rfl | rfl
    · exact ⟨_, nAdd.2⟩
    · exact ⟨_, nAnd.2⟩
    · exact ⟨_, nOr.2⟩
    · exact ⟨_, nXor.2⟩
    · exact ⟨_, nMax.2⟩
    · exact ⟨_, nMin.2⟩
    · exact vMaxR
    · exact vMinR
    · exact ⟨_, nMul.2⟩
    · exact ⟨_, nFmax.2⟩
    · exact ⟨_, nFmin.2⟩
    · exact ⟨_, nFmaxabs.2⟩
    · exact ⟨_, nFminabs.2⟩
    · exact ⟨_, nFadd.2⟩
    · exact ⟨_, nFmul.2⟩
  · rintro (rfl | rfl | rfl | rfl | rfl | rfl | rfl | rfl)
    · rw [nAdd.1, nAdd.2]
      show Except.ok (some (Value.ofLiteral (Literal.ofInt
          ((Literal.ofInt ((⟨a⟩ : Literal).signedInt + (⟨b⟩ : Literal).signedInt)).signedInt
            + (⟨c⟩ : Literal).signedInt)) t))
        = Except.ok (some (Value.ofLiteral (Literal.ofInt ((⟨a⟩ : Literal).signedInt
            + (Literal.ofInt ((⟨b⟩ : Literal).signedInt
              + (⟨c⟩ : Literal).signedInt)).signedInt)) t))
      have e2 : Literal.ofInt ((⟨a⟩ : Literal).signedInt
          + (Literal.ofInt ((⟨b⟩ : Literal).signedInt + (⟨c⟩ : Literal).signedInt)).signedInt)
          = Literal.ofInt ((⟨a⟩ : Literal).signedInt + (⟨b⟩ : Literal).signedInt
            + (⟨c⟩ : Literal).signedInt) := by
        rw [Int.add_comm, ofInt_signedInt_add]
        congr 1
        omega
      rw [ofInt_signedInt_add, e2]
    · rw [nAnd.1, nAnd.2]
      show Except.ok (some (Value.ofLiteral (Literal.ofUInt ((a &&& b) % 2 ^ 32 &&& c)) t))
        = Except.ok (some (Value.ofLiteral (Literal.ofUInt (a &&& (b &&& c) % 2 ^ 32)) t))
      rw [Nat.mod_eq_of_lt (Nat.and_lt_two_pow a hb), Nat.mod_eq_of_lt (Nat.and_lt_two_pow b hc),
        Nat.and_assoc]
    · rw [nOr.1, nOr.2]
      show Except.ok (some (Value.ofLiteral (Literal.ofUInt ((a ||| b) % 2 ^ 32 ||| c)) t))
        = Except.ok (some (Value.ofLiteral (Literal.ofUInt (a ||| (b ||| c) % 2 ^ 32)) t))
      rw [Nat.mod_eq_of_lt (Nat.or_lt_two_pow ha hb), Nat.mod_eq_of_lt (Nat.or_lt_two_pow hb hc),
        Nat.or_assoc]
    · rw [nXor.1, nXor.2]
      show Except.ok (some (Value.ofLiteral (Literal.ofUInt ((a ^^^ b) % 2 ^ 32 ^^^ c)) t))
        = Except.ok (some (Value.ofLiteral (Literal.ofUInt (a ^^^ (b ^^^ c) % 2 ^ 32)) t))
      rw [Nat.mod_eq_of_lt (Nat.xor_lt_two_pow ha hb),
        Nat.mod_eq_of_lt (Nat.xor_lt_two_pow hb hc), Nat.xor_assoc]
    · rw [nMax.1, nMax.2]
      have ra := signedInt_range a ha
      have rb := signedInt_range b hb
      have rc := signedInt_range c hc
      show Except.ok (some (Value.ofLiteral (Literal.ofInt (max
          (Literal.ofInt (max (⟨a⟩ : Literal).signedInt (⟨b⟩ : Literal).signedInt)).signedInt
          (⟨c⟩ : Literal).signedInt)) t))
        = Except.ok (some (Value.ofLiteral (Literal.ofInt (max (⟨a⟩ : Literal).signedInt
          (Literal.ofInt (max (⟨b⟩ : Literal).signedInt
            (⟨c⟩ : Literal).signedInt)).signedInt)) t))
      rw [signedInt_ofInt _ (by omega) (by omega), signedInt_ofInt _ (by omega) (by omega),
        max_assoc]
    · rw [nMin.1, nMin.2]
      have ra := signedInt_range a ha
      have rb := signedInt_range b hb
      have rc := signedInt_range c hc
      show Except.ok (some (Value.ofLiteral (Literal.ofInt (min
          (Literal.ofInt (min (⟨a⟩ : Literal).signedInt (⟨b⟩ : Literal).signedInt)).signedInt
          (⟨c⟩ : Literal).signedInt)) t))
        = Except.ok (some (Value.ofLiteral (Literal.ofInt (min (⟨a⟩ : Literal).signedInt
          (Literal.ofInt (min (⟨b⟩ : Literal).signedInt
            (⟨c⟩ : Literal).signedInt)).signedInt)) t))
      rw [signedInt_ofInt _ (by omega) (by omega), signedInt_ofInt _ (by omega) (by omega),
        min_assoc]
    · exact vMax.1
    · exact vMin.1
  · rintro rfl h1 h2
    rw [nMul.1, nMul.2]
    show Except.ok (some (Value.ofLiteral (Literal.ofUInt
        ((((a &&& 0xFFFFFF) * (b &&& 0xFFFFFF)) % 2 ^ 32 &&& 0xFFFFFF) * (c &&& 0xFFFFFF))) t))
      = Except.ok (some (Value.ofLiteral (Literal.ofUInt
        ((a &&& 0xFFFFFF) * (((b &&& 0xFFFFFF) * (c &&& 0xFFFFFF)) % 2 ^ 32 &&& 0xFFFFFF))) t))
    simp only [and_low24]
    rw [Nat.mod_eq_of_lt (a := a % 2 ^ 24 * (b % 2 ^ 24)) (by omega), Nat.mod_eq_of_lt h1,
      Nat.mod_eq_of_lt (a := b % 2 ^ 24 * (c % 2 ^ 24)) (by omega), Nat.mod_eq_of_lt h2,
      Nat.mul_assoc]
  · rintro (rfl | rfl | rfl | rfl) hna hnb hnc
    · rw [nFmax.1, nFmax.2]
      show Except.ok (some (Value.ofLiteral (Literal.ofReal
          (F32.max (F32.max a b % 2 ^ 32) c)) t))
        = Except.ok (some (Value.ofLiteral (Literal.ofReal
          (F32.max a (F32.max b c % 2 ^ 32))) t))
      have h1 : F32.max a b < 2 ^ 32 := by
        rcases F32.max_cases a b with h | h <;> rw [h] <;> assumption
      have h2 : F32.max b c < 2 ^ 32 := by
        rcases F32.max_cases b c with h | h <;> rw [h] <;> assumption
      rw [Nat.mod_eq_of_lt h1, Nat.mod_eq_of_lt h2, F32.max_assoc a b c hna hnb hnc]
    · rw [nFmin.1, nFmin.2]
      show Except.ok (some (Value.ofLiteral (Literal.ofReal
          (F32.min (F32.min a b % 2 ^ 32) c)) t))
        = Except.ok (some (Value.ofLiteral (Literal.ofReal
          (F32.min a (F32.min b c % 2 ^ 32))) t))
      have h1 : F32.min a b < 2 ^ 32 := by
        rcases F32.min_cases a b with h | h <;> rw [h] <;> assumption
      have h2 : F32.min b c < 2 ^ 32 := by
        rcases F32.min_cases b c with h | h <;> rw [h] <;> assumption
      rw [Nat.mod_eq_of_lt h1, Nat.mod_eq_of_lt h2, F32.min_assoc a b c hna hnb hnc]
    · rw [nFmaxabs.1, nFmaxabs.2]
      show Except.ok (some (Value.ofLiteral (Literal.ofReal
          (F32.max (F32.fabs (F32.max (F32.fabs a) (F32.fabs b) % 2 ^ 32)) (F32.fabs c))) t))
        = Except.ok (some (Value.ofLiteral (Literal.ofReal
          (F32.max (F32.fabs a) (F32.fabs (F32.max (F32.fabs b) (F32.fabs c) % 2 ^ 32)))) t))
      have h1 : F32.max (F32.fabs a) (F32.fabs b) < 2 ^ 32 := by
        rcases F32.max_cases (F32.fabs a) (F32.fabs b) with h | h <;> rw [h] <;>
          exact F32.fabs_lt _
      have h2 : F32.max (F32.fabs b) (F32.fabs c) < 2 ^ 32 := by
        rcases F32.max_cases (F32.fabs b) (F32.fabs c) with h | h <;> rw [h] <;>
          exact F32.fabs_lt _
      have f1 : F32.fabs (F32.max (F32.fabs a) (F32.fabs b)) = F32.max (F32.fabs a) (F32.fabs b) := by
        rcases F32.max_cases (F32.fabs a) (F32.fabs b) with h | h <;> rw [h] <;>
          exact F32.fabs_fabs _
      have f2 : F32.fabs (F32.max (F32.fabs b) (F32.fabs c)) = F32.max (F32.fabs b) (F32.fabs c) := by
        rcases F32.max_cases (F32.fabs b) (F32.fabs c) with h | h <;> rw [h] <;>
          exact F32.fabs_fabs _
      rw [Nat.mod_eq_of_lt h1, Nat.mod_eq_of_lt h2, f1, f2,
        F32.max_assoc _ _ _ (by rw [F32.isNaN_fabs, hna]) (by rw [F32.isNaN_fabs, hnb])
          (by rw [F32.isNaN_fabs, hnc])]
    · rw [nFminabs.1, nFminabs.2]
      show Except.ok (some (Value.ofLiteral (Literal.ofReal
          (F32.min (F32.fabs (F32.min (F32.fabs a) (F32.fabs b) % 2 ^ 32)) (F32.fabs c))) t))
        = Except.ok (some (Value.ofLiteral (Literal.ofReal
          (F32.min (F32.fabs a) (F32.fabs (F32.min (F32.fabs b) (F32.fabs c) % 2 ^ 32)))) t))
      have h1 : F32.min (F32.fabs a) (F32.fabs b) < 2 ^ 32 := by
        rcases F32.min_cases (F32.fabs a) (F32.fabs b) with h | h <;> rw [h] <;>
          exact F32.fabs_lt _
      have h2 : F32.min (F32.fabs b) (F32.fabs c) < 2 ^ 32 := by
        rcases F32.min_cases (F32.fabs b) (F32.fabs c) with h | h <;> rw [h] <;>
          exact F32.fabs_lt _
      have f1 : F32.fabs (F32.min (F32.fabs a) (F32.fabs b)) = F32.min (F32.fabs a) (F32.fabs b) := by
        rcases F32.min_cases (F32.fabs a) (F32.fabs b) with h | h <;> rw [h] <;>
          exact F32.fabs_fabs _
      have f2 : F32.fabs (F32.min (F32.fabs b) (F32.fabs c)) = F32.min (F32.fabs b) (F32.fabs c) := by
        rcases F32.min_cases (F32.fabs b) (F32.fabs c) with h | h <;> rw [h] <;>
          exact F32.fabs_fabs _
      rw [Nat.mod_eq_of_lt h1, Nat.mod_eq_of_lt h2, f1, f2,
        F32.min_assoc _ _ _ (by rw [F32.isNaN_fabs, hna]) (by rw [F32.isNaN_fabs, hnb])
          (by rw [F32.isNaN_fabs, hnc])]
  · rintro rfl h
    rw [nFadd.1, nFadd.2]
    show Except.ok (some (Value.ofLiteral (Literal.ofReal (F.add (F.add a b % 2 ^ 32) c)) t))
      = Except.ok (some (Value.ofLiteral (Literal.ofReal (F.add a (F.add b c % 2 ^ 32))) t))
    rw [h]
  · rintro rfl h
    rw [nFmul.1, nFmul.2]
    show Except.ok (some (Value.ofLiteral (Literal.ofReal (F.mul (F.mul a b % 2 ^ 32) c)) t))
      = Except.ok (some (Value.ofLiteral (Literal.ofReal (F.mul a (F.mul b c % 2 ^ 32))) t))
    rw [h]

/-- C25, amended, at `add` on the words `0xFFFFFFFF`, 1 and 2. -/
theorem associative_eval_witness :
    OpCode.applyLeftFirst FloatOps.ieee OP_ADD (int32Literal 0xFFFFFFFF) (int32Literal 1)
        (int32Literal 2)
      = OpCode.applyRightFirst FloatOps.ieee OP_ADD (int32Literal 0xFFFFFFFF) (int32Literal 1)
        (int32Literal 2) :=
  (associative_eval FloatOps.ieee OP_ADD 0xFFFFFFFF 1 2 TYPE_INT32 (by decide) (by decide)
    (by decide) (by decide) (by decide)).2.2.2.1 (Or.inl rfl)

/-! ### Right identities -/

/-- On IEEE arithmetic adding the negative zero gives the float back, for every float that
is no NaN. -/
theorem F32.add_negZero (x : Nat) (hx : x < 2 ^ 32) (hnan : F32.isNaN x = false) :
    F32.add x (2 ^ 31) = x := by
  have h0 : F32.isNaN (2 ^ 31) = false := by decide
  have h0' : F32.isInf (2 ^ 31) = false := by decide
  have hs0 : F32.signedUnits (2 ^ 31) = 0 := by decide
  have hsg0 : F32.sign (2 ^ 31) = true := by decide
  simp only [F32.add, h0, h0', hnan, Bool.false_eq_true, false_or, or_false, if_false, hs0,
    Int.add_zero, hsg0, Bool.and_true, false_and]
  by_cases hinf : F32.isInf x = true
  · rw [if_pos hinf]
  · rw [if_neg hinf]
    have hfin := F32.expo_of_finite x hnan (by simpa using hinf)
    have hround := F32.roundMag_units x 0 hfin (by omega)
    simp only [pow_zero, Nat.mul_one] at hround
    have hws := F32.withSign_mag x hx
    by_cases hu : F32.units x = 0
    · have hmag : F32.mag x = 0 := by
        rw [← hround, hu]
        decide
      have hsu : F32.signedUnits x = 0 := by
        simp only [F32.signedUnits, hu]
        split <;> rfl
      rw [F32.ofScaled, if_pos hsu, ← hmag]
      exact hws
    · simp only [F32.ofScaled, F32.signedUnits]
      by_cases hsg : F32.sign x = true
      · have hneg : -(F32.units x : Int) ≠ 0 := by omega
        have hlt : -(F32.units x : Int) < 0 := by omega
        simp only [hsg, if_true, hneg, if_false, hlt, decide_True, Int.natAbs_neg,
          Int.natAbs_ofNat, hround]
        rw [← hsg]
        exact hws
      · have hsg' : F32.sign x = false := by simpa using hsg
        have hne : (F32.units x : Int) ≠ 0 := by omega
        have hlt : ¬ ((F32.units x : Int) < 0) := by omega
        simp only [hsg', Bool.false_eq_true, if_false, hne, hlt, decide_False,
          Int.natAbs_ofNat, hround]
        rw [← hsg']
        exact hws

/-- On IEEE arithmetic subtracting 0.0 gives the float back, for every float that is no
NaN. -/
theorem F32.sub_zero (x : Nat) (hx : x < 2 ^ 32) (hnan : F32.isNaN x = false) :
    F32.sub x 0 = x := by
  have h0 : F32.isNaN 0 = false := by decide
  have hneg : F32.neg 0 = 2 ^ 31 := by decide
  rw [F32.sub, h0, hneg]
  simp only [Bool.false_eq_true, if_false]
  exact F32.add_negZero x hx hnan

theorem F32.add_zero (x : Nat) (hx : x < 2 ^ 32) (hnan : F32.isNaN x = false)
    (hz : x ≠ 2 ^ 31) : F32.add x 0 = x := by
  rw [F32.add_comm x 0 hx (by decide)]
  exact F32.zero_add x hx hnan hz

theorem F32.mul_one (x : Nat) (hx : x < 2 ^ 32) (hnan : F32.isNaN x = false) :
    F32.mul x 0x3F800000 = x := by
  rw [F32.mul_comm]
  exact F32.one_mul x hx hnan

theorem getRightIdentity_cases : ∀ o ∈ opCodes.map Prod.snd,
    (OpCode.getRightIdentity o).isSome = true →
    ((o = OP_ADD ∧ OpCode.getRightIdentity o = some INT_ZERO) ∨
      (o = OP_AND ∧ OpCode.getRightIdentity o = some VALUE_ALL_BITS_SET) ∨
      (o = OP_ASR ∧ OpCode.getRightIdentity o = some INT_ZERO) ∨
      (o = OP_OR ∧ OpCode.getRightIdentity o = some INT_ZERO) ∨
      (o = OP_ROR ∧ OpCode.getRightIdentity o = some INT_ZERO) ∨
      (o = OP_SHL ∧ OpCode.getRightIdentity o = some INT_ZERO) ∨
      (o = OP_SHR ∧ OpCode.getRightIdentity o = some INT_ZERO) ∨
      (o = OP_SUB ∧ OpCode.getRightIdentity o = some INT_ZERO) ∨
      (o = OP_XOR ∧ OpCode.getRightIdentity o = some INT_ZERO)) ∨
    (o = OP_MUL24 ∧ OpCode.getRightIdentity o = some INT_ONE) ∨
    (o = OP_FADD ∧ OpCode.getRightIdentity o = some FLOAT_ZERO) ∨
    (o = OP_FMUL ∧ OpCode.getRightIdentity o = some FLOAT_ONE) ∨
    (o = OP_FSUB ∧ OpCode.getRightIdentity o = some FLOAT_ZERO) := by decide

theorem or_allBits (x : Nat) (hx : x < 2 ^ 32) : x ||| 4294967295 = 4294967295 := by
  apply Nat.eq_of_testBit_eq
  intro i
  have h : Nat.testBit 4294967295 i = decide (i < 32) := Nat.testBit_two_pow_sub_one 32 i
  rw [Nat.testBit_or, h]
  by_cases hi : i < 32
  · simp [hi]
  · simp [hi, testBit_of_lt_word x i hx (by omega)]

/-- C26, as the claim states it, fails: the right identity of `mul24` is 1, and on the
literal `0x01000000`, which has a bit set above bit 23, `mul24` gives 0. On IEEE
arithmetic `fadd` with its right identity 0.0 gives +0.0 on the literal -0.0. -/
theorem right_identity_counterexample :
    OpCode.getRightIdentity OP_MUL24 = some INT_ONE ∧
    OpCode.apply FloatOps.ieee OP_MUL24 (some (int32Literal 0x01000000)) (some INT_ONE)
      = .ok (some (int32Literal 0)) ∧
    int32Literal 0 ≠ int32Literal 0x01000000 ∧
    OpCode.getRightIdentity OP_FADD = some FLOAT_ZERO ∧
    OpCode.apply FloatOps.ieee OP_FADD
      (some (Value.ofLiteral (Literal.ofReal 0x80000000) TYPE_FLOAT)) (some FLOAT_ZERO)
      = .ok (some (Value.ofLiteral (Literal.ofReal 0) TYPE_FLOAT)) := by
  decide

/-- C26, amended: the registered operations with a right identity are `add`, `and`, `asr`,
`or`, `ror`, `shl`, `shr`, `sub`, `xor`, `mul24`, `fadd`, `fmul` and `fsub`. With a literal
`x` below `2 ^ 32` as first operand and the right identity as second, the first nine
return the literal `x`; `mul24` returns the literal `x mod 2 ^ 24`, which is `x` when `x`
is below `2 ^ 24`; `fadd`, `fmul` and `fsub` return the float sum `x + 0.0`, product
`x * 1.0` and difference `x - 0.0`, which on IEEE arithmetic are `x` for every `x` that is
no NaN, but for `fadd` on the negative zero. -/
theorem right_identity_eval (F : FloatOps) (op : OpCode) (e : Value) (x : Nat) (t : DataType)
    (hop : op ∈ opCodes.map Prod.snd) (he : OpCode.getRightIdentity op = some e)
    (hx : x < 2 ^ 32) :
    ((op = OP_ADD ∨ op = OP_AND ∨ op = OP_ASR ∨ op = OP_OR ∨ op = OP_ROR ∨ op = OP_SHL ∨
        op = OP_SHR ∨ op = OP_SUB ∨ op = OP_XOR) ∨
      op = OP_MUL24 ∨ op = OP_FADD ∨ op = OP_FMUL ∨ op = OP_FSUB) ∧
    (op = OP_ADD ∨ op = OP_AND ∨ op = OP_ASR ∨ op = OP_OR ∨ op = OP_ROR ∨ op = OP_SHL ∨
        op = OP_SHR ∨ op = OP_SUB ∨ op = OP_XOR →
      OpCode.apply F op (some (Value.ofLiteral ⟨x⟩ t)) (some e)
        = .ok (some (Value.ofLiteral ⟨x⟩ (OpCode.resultType (Value.ofLiteral ⟨x⟩ t) e)))) ∧
    (op = OP_MUL24 →
      OpCode.apply F op (some (Value.ofLiteral ⟨x⟩ t)) (some e)
        = .ok (some (Value.ofLiteral ⟨x % 2 ^ 24⟩
            (OpCode.resultType (Value.ofLiteral ⟨x⟩ t) e)))) ∧
    (op = OP_MUL24 → x < 2 ^ 24 →
      OpCode.apply F op (some (Value.ofLiteral ⟨x⟩ t)) (some e)
        = .ok (some (Value.ofLiteral ⟨x⟩ (OpCode.resultType (Value.ofLiteral ⟨x⟩ t) e)))) ∧
    (op = OP_FADD →
      OpCode.apply F op (some (Value.ofLiteral ⟨x⟩ t)) (some e)
        = .ok (some (Value.ofLiteral (Literal.ofReal (F.add x 0))
            (OpCode.resultType (Value.ofLiteral ⟨x⟩ t) e)))) ∧
    (op = OP_FMUL →
      OpCode.apply F op (some (Value.ofLiteral ⟨x⟩ t)) (some e)
        = .ok (some (Value.ofLiteral (Literal.ofReal (F.mul x 0x3F800000))
            (OpCode.resultType (Value.ofLiteral ⟨x⟩ t) e)))) ∧
    (op = OP_FSUB →
      OpCode.apply F op (some (Value.ofLiteral ⟨x⟩ t)) (some e)
        = .ok (some (Value.ofLiteral (Literal.ofReal (F.sub x 0))
            (OpCode.resultType (Value.ofLiteral ⟨x⟩ t) e)))) ∧
    (op = OP_FADD ∨ op = OP_FMUL ∨ op = OP_FSUB → F32.isNaN x = false →
      ¬ (op = OP_FADD ∧ x = 2 ^ 31) →
      OpCode.apply FloatOps.ieee op (some (Value.ofLiteral ⟨x⟩ t)) (some e)
        = .ok (some (Value.ofLiteral ⟨x⟩ (OpCode.resultType (Value.ofLiteral ⟨x⟩ t) e)))) := by
  have hmod : x % 2 ^ 32 = x := Nat.mod_eq_of_lt hx
  have hU : Literal.ofUInt x = ⟨x⟩ := by rw [Literal.ofUInt, hmod]
  have hR : Literal.ofReal x = ⟨x⟩ := by rw [Literal.ofReal, hmod]
  have hI := ofInt_signedInt_self x hx
  have h0 : Literal.ofInt 0 = ⟨0⟩ := by decide
  have hs0 : (⟨0⟩ : Literal).signedInt = 0 := by decide
  have hcases := getRightIdentity_cases op hop (by rw [he]; rfl)
  have hfadd : ∀ G : FloatOps,
      OpCode.apply G OP_FADD (some (Value.ofLiteral ⟨x⟩ t)) (some FLOAT_ZERO)
        = .ok (some (Value.ofLiteral (Literal.ofReal (G.add x 0))
            (OpCode.resultType (Value.ofLiteral ⟨x⟩ t) FLOAT_ZERO))) := by
    intro G
    rw [FLOAT_ZERO, apply_literals G OP_FADD _ _ _ _ rfl]
    rfl
  have hfmul : ∀ G : FloatOps,
      OpCode.apply G OP_FMUL (some (Value.ofLiteral ⟨x⟩ t)) (some FLOAT_ONE)
        = .ok (some (Value.ofLiteral (Literal.ofReal (G.mul x 0x3F800000))
            (OpCode.resultType (Value.ofLiteral ⟨x⟩ t) FLOAT_ONE))) := by
    intro G
    rw [FLOAT_ONE, apply_literals G OP_FMUL _ _ _ _ rfl]
    rfl
  have hfsub : ∀ G : FloatOps,
      OpCode.apply G OP_FSUB (some (Value.ofLiteral ⟨x⟩ t)) (some FLOAT_ZERO)
        = .ok (some (Value.ofLiteral (Literal.ofReal (G.sub x 0))
            (OpCode.resultType (Value.ofLiteral ⟨x⟩ t) FLOAT_ZERO))) := by
    intro G
    rw [FLOAT_ZERO, apply_literals G OP_FSUB _ _ _ _ rfl]
    rfl
  have hm24 : OpCode.apply F OP_MUL24 (some (Value.ofLiteral ⟨x⟩ t)) (some INT_ONE)
      = .ok (some (Value.ofLiteral ⟨x % 2 ^ 24⟩
          (OpCode.resultType (Value.ofLiteral ⟨x⟩ t) INT_ONE))) := by
    rw [INT_ONE, apply_literals F OP_MUL24 _ _ _ _ rfl]
    show Except.ok (some (Value.ofLiteral (Literal.ofUInt
      ((x &&& 0xFFFFFF) * ((Literal.ofInt 1).unsignedInt &&& 0xFFFFFF))) _)) = _
    have h1 : (Literal.ofInt 1).unsignedInt &&& 0xFFFFFF = 1 := by decide
    rw [h1, Nat.mul_one, and_low24, Literal.ofUInt, Nat.mod_eq_of_lt (by omega)]
  have key : ∀ o, o ∈ opCodes.map Prod.snd → ∀ v, OpCode.getRightIdentity o = some v →
      OpCode.getRightIdentity op = some v → o = op → v = e := by
    intro o _ v _ h2 _
    rw [he] at h2
    exact (Option.some.inj h2).symm
  refine ⟨?_, ?_, ?_, ?_, ?_, ?_, ?_, ?_⟩
  · rcases hcases with (h | h | h | h | h | h | h | h | h) | h | h | h | h
    · exact Or.inl (Or.inl h.1)
    · exact Or.inl (Or.inr (Or.inl h.1))
    · exact Or.inl (Or.inr (Or.inr (Or.inl h.1)))
    · exact Or.inl (Or.inr (Or.inr (Or.inr (Or.inl h.1))))
    · exact Or.inl (Or.inr (Or.inr (Or.inr (Or.inr (Or.inl h.1)))))
    · exact Or.inl (Or.inr (Or.inr (Or.inr (Or.inr (Or.inr (Or.inl h.1))))))
    · exact Or.inl (Or.inr (Or.inr (Or.inr (Or.inr (Or.inr (Or.inr (Or.inl h.1)))))))
    · exact Or.inl (Or.inr (Or.inr (Or.inr (Or.inr (Or.inr (Or.inr (Or.inr (Or.inl h.1))))))))
    · exact Or.inl (Or.inr (Or.inr (Or.inr (Or.inr (Or.inr (Or.inr (Or.inr (Or.inr h.1))))))))
    · exact Or.inr (Or.inl h.1)
    · exact Or.inr (Or.inr (Or.inl h.1))
    · exact Or.inr (Or.inr (Or.inr (Or.inl h.1)))
    · exact Or.inr (Or.inr (Or.inr (Or.inr h.1)))
  · rintro (rfl | rfl | rfl | rfl | rfl | rfl | rfl | rfl | rfl)
    · have he' : e = INT_ZERO := by
        have : OpCode.getRightIdentity OP_ADD = some INT_ZERO := by decide
        rw [this] at he; exact (Option.some.inj he).symm
      subst he'
      rw [INT_ZERO, apply_literals F OP_ADD _ _ _ _ rfl]
      show Except.ok (some (Value.ofLiteral (Literal.ofInt
        ((⟨x⟩ : Literal).signedInt + (Literal.ofInt 0).signedInt)) _)) = _
      rw [h0, hs0, Int.add_zero, hI]
    · have he' : e = VALUE_ALL_BITS_SET := by
        have : OpCode.getRightIdentity OP_AND = some VALUE_ALL_BITS_SET := by decide
        rw [this] at he; exact (Option.some.inj he).symm
      subst he'
      rw [VALUE_ALL_BITS_SET, apply_literals F OP_AND _ _ _ _ rfl]
      show Except.ok (some (Value.ofLiteral (Literal.ofUInt
        (x &&& (Literal.ofUInt 0xFFFFFFFF).unsignedInt)) _)) = _
      have h1 : (Literal.ofUInt 0xFFFFFFFF).unsignedInt = 4294967295 := by decide
      rw [h1, Nat.and_comm, Literal.ofUInt]
      have := and_allBits x hx
      norm_num at this ⊢
      rw [this]
    · have he' : e = INT_ZERO := by
        have : OpCode.getRightIdentity OP_ASR = some INT_ZERO := by decide
        rw [this] at he; exact (Option.some.inj he).symm
      subst he'
      rw [INT_ZERO, apply_literals F OP_ASR _ _ _ _ rfl]
      show Except.ok (some (Value.ofLiteral (Literal.ofInt (Int.fdiv (⟨x⟩ : Literal).signedInt
        (2 ^ ((Literal.ofInt 0).signedInt % 32).toNat))) _)) = _
      have h1 : (2 : Int) ^ ((Literal.ofInt 0).signedInt % 32).toNat = 1 := by decide
      rw [h1, Int.fdiv_one, hI]
    · have he' : e = INT_ZERO := by
        have : OpCode.getRightIdentity OP_OR = some INT_ZERO := by decide
        rw [this] at he; exact (Option.some.inj he).symm
      subst he'
      rw [INT_ZERO, apply_literals F OP_OR _ _ _ _ rfl]
      show Except.ok (some (Value.ofLiteral (Literal.ofUInt
        (x ||| (Literal.ofInt 0).unsignedInt)) _)) = _
      have h1 : (Literal.ofInt 0).unsignedInt = 0 := by decide
      rw [h1, Nat.or_zero, hU]
    · have he' : e = INT_ZERO := by
        have : OpCode.getRightIdentity OP_ROR = some INT_ZERO := by decide
        rw [this] at he; exact (Option.some.inj he).symm
      subst he'
      rw [INT_ZERO, apply_literals F OP_ROR _ _ _ _ rfl]
      show Except.ok (some (Value.ofLiteral (Literal.ofUInt
        (rotate_right x (Literal.ofInt 0).signedInt)) _)) = _
      have h1 : rotate_right x (Literal.ofInt 0).signedInt = x := by
        rw [h0, hs0]
        rfl
      rw [h1, hU]
    · have he' : e = INT_ZERO := by
        have : OpCode.getRightIdentity OP_SHL = some INT_ZERO := by decide
        rw [this] at he; exact (Option.some.inj he).symm
      subst he'
      rw [INT_ZERO, apply_literals F OP_SHL _ _ _ _ rfl]
      show Except.ok (some (Value.ofLiteral (Literal.ofUInt
        (x <<< ((Literal.ofInt 0).signedInt % 32).toNat)) _)) = _
      have h1 : ((Literal.ofInt 0).signedInt % 32).toNat = 0 := by decide
      rw [h1, Nat.shiftLeft_zero, hU]
    · have he' : e = INT_ZERO := by
        have : OpCode.getRightIdentity OP_SHR = some INT_ZERO := by decide
        rw [this] at he; exact (Option.some.inj he).symm
      subst he'
      rw [INT_ZERO, apply_literals F OP_SHR _ _ _ _ rfl]
      show Except.ok (some (Value.ofLiteral (Literal.ofUInt
        (x >>> ((Literal.ofInt 0).signedInt % 32).toNat)) _)) = _
      have h1 : ((Literal.ofInt 0).signedInt % 32).toNat = 0 := by decide
      rw [h1, Nat.shiftRight_zero, hU]
    · have he' : e = INT_ZERO := by
        have : OpCode.getRightIdentity OP_SUB = some INT_ZERO := by decide
        rw [this] at he; exact (Option.some.inj he).symm
      subst he'
      rw [INT_ZERO, apply_literals F OP_SUB _ _ _ _ rfl]
      show Except.ok (some (Value.ofLiteral (Literal.ofInt
        ((⟨x⟩ : Literal).signedInt - (Literal.ofInt 0).signedInt)) _)) = _
      rw [h0, hs0, Int.sub_zero, hI]
    · have he' : e = INT_ZERO := by
        have : OpCode.getRightIdentity OP_XOR = some INT_ZERO := by decide
        rw [this] at he; exact (Option.some.inj he).symm
      subst he'
      rw [INT_ZERO, apply_literals F OP_XOR _ _ _ _ rfl]
      show Except.ok (some (Value.ofLiteral (Literal.ofUInt
        (x ^^^ (Literal.ofInt 0).unsignedInt)) _)) = _
      have h1 : (Literal.ofInt 0).unsignedInt = 0 := by decide
      rw [h1, Nat.xor_zero, hU]
  · rintro rfl
    have he' : e = INT_ONE := by
      have : OpCode.getRightIdentity OP_MUL24 = some INT_ONE := by decide
      rw [this] at he; exact (Option.some.inj he).symm
    subst he'
    exact hm24
  · rintro rfl hlt
    have he' : e = INT_ONE := by
      have : OpCode.getRightIdentity OP_MUL24 = some INT_ONE := by decide
      rw [this] at he; exact (Option.some.inj he).symm
    subst he'
    rw [hm24, Nat.mod_eq_of_lt hlt]
  · rintro rfl
    have he' : e = FLOAT_ZERO := by
      have : OpCode.getRightIdentity OP_FADD = some FLOAT_ZERO := by decide
      rw [this] at he; exact (Option.some.inj he).symm
    subst he'
    exact hfadd F
  · rintro rfl
    have he' : e = FLOAT_ONE := by
      have : OpCode.getRightIdentity OP_FMUL = some FLOAT_ONE := by decide
      rw [this] at he; exact (Option.some.inj he).symm
    subst he'
    exact hfmul F
  · rintro rfl
    have he' : e = FLOAT_ZERO := by
      have : OpCode.getRightIdentity OP_FSUB = some FLOAT_ZERO := by decide
      rw [this] at he; exact (Option.some.inj he).symm
    subst he'
    exact hfsub F
  · rintro (rfl | rfl | rfl) hnan hz
    · have he' : e = FLOAT_ZERO := by
        have : OpCode.getRightIdentity OP_FADD = some FLOAT_ZERO := by decide
        rw [this] at he; exact (Option.some.inj he).symm
      subst he'
      have hz' : x ≠ 2 ^ 31 := fun h => hz ⟨rfl, h⟩
      have hadd : FloatOps.ieee.add x 0 = x := F32.add_zero x hx hnan hz'
      rw [hfadd FloatOps.ieee, hadd, hR]
    · have he' : e = FLOAT_ONE := by
        have : OpCode.getRightIdentity OP_FMUL = some FLOAT_ONE := by decide
        rw [this] at he; exact (Option.some.inj he).symm
      subst he'
      have hmul : FloatOps.ieee.mul x 0x3F800000 = x := F32.mul_one x hx hnan
      rw [hfmul FloatOps.ieee, hmul, hR]
    · have he' : e = FLOAT_ZERO := by
        have : OpCode.getRightIdentity OP_FSUB = some FLOAT_ZERO := by decide
        rw [this] at he; exact (Option.some.inj he).symm
      subst he'
      have hsub : FloatOps.ieee.sub x 0 = x := F32.sub_zero x hx hnan
      rw [hfsub FloatOps.ieee, hsub, hR]

/-- C26, amended, at `sub` with its right identity and the literal `0x12345678`. -/
theorem right_identity_eval_witness :
    OpCode.apply FloatOps.ieee OP_SUB (some (int32Literal 0x12345678)) (some INT_ZERO)
      = .ok (some (int32Literal 0x12345678)) :=
  (right_identity_eval FloatOps.ieee OP_SUB INT_ZERO 0x12345678 TYPE_INT32 (by decide)
    (by decide) (by decide)).2.1
    (Or.inr (Or.inr (Or.inr (Or.inr (Or.inr (Or.inr (Or.inr (Or.inl rfl))))))))

/-! ### Absorbing elements -/

theorem F32.key_le_inf (x : Nat) (hnan : F32.isNaN x = false) :
    F32.key x ≤ F32.key 0x7F800000 := by
  have hk : F32.key 0x7F800000 = 2139095040 := by decide
  rw [hk]
  simp only [F32.isNaN, F32.expo, F32.frac, Bool.decide_and, Bool.and_eq_false_imp,
    decide_eq_true_eq, decide_eq_false_iff_not, ne_eq, not_not] at hnan
  simp only [F32.key, F32.sign, F32.mag, decide_eq_true_eq]
  norm_num at hnan ⊢
  split <;> omega

theorem F32.max_inf_left (x : Nat) : F32.max 0x7F800000 x = 0x7F800000 := by
  unfold F32.max
  by_cases hnan : F32.isNaN x = true
  · have : F32.lt 0x7F800000 x = false := by simp [F32.lt, hnan]
    rw [this]
    rfl
  · have hnan' : F32.isNaN x = false := by simpa using hnan
    have hle := F32.key_le_inf x hnan'
    have : F32.lt 0x7F800000 x = false := by
      simp only [F32.lt, hnan', Bool.not_false, Bool.and_true, Bool.and_eq_false_imp,
        decide_eq_false_iff_not, not_lt]
      exact fun _ => hle
    rw [this]
    rfl

theorem F32.max_inf_right (x : Nat) (hx : x < 2 ^ 32) (hnan : F32.isNaN x = false) :
    F32.max x 0x7F800000 = 0x7F800000 := by
  have hi : F32.isNaN 0x7F800000 = false := by decide
  have hle := F32.key_le_inf x hnan
  simp only [F32.max, F32.lt, hnan, hi, Bool.not_false, Bool.true_and, decide_eq_true_eq]
  by_cases hlt : F32.key x < F32.key 0x7F800000
  · rw [if_pos hlt]
  · rw [if_neg hlt]
    have heq : F32.key x = F32.key 0x7F800000 := le_antisymm hle (not_lt.mp hlt)
    rcases F32.eq_of_key_eq x 0x7F800000 hx (by decide) heq with ⟨_, h2⟩ | h
    · exact absurd h2 (by decide)
    · exact h

theorem F32.min_zero_left (x : Nat) : F32.min 0 (F32.fabs x) = 0 := by
  have hk : F32.key (F32.fabs x) = (F32.mag x : Int) := by
    simp only [F32.key, F32.sign, F32.fabs, F32.mag, decide_eq_true_eq]
    norm_num
  have hk0 : F32.key 0 = 0 := by decide
  have : F32.lt (F32.fabs x) 0 = false := by
    simp only [F32.lt, hk, hk0, Bool.and_eq_false_imp, decide_eq_false_iff_not, not_lt]
    intro _
    exact Int.natCast_nonneg _
  rw [F32.min, this]
  rfl

theorem F32.min_zero_right (x : Nat) (hnan : F32.isNaN x = false) :
    F32.min (F32.fabs x) 0 = 0 := by
  have hk : F32.key (F32.fabs x) = (F32.mag x : Int) := by
    simp only [F32.key, F32.sign, F32.fabs, F32.mag, decide_eq_true_eq]
    norm_num
  have hk0 : F32.key 0 = 0 := by decide
  have h0 : F32.isNaN 0 = false := by decide
  have hn : F32.isNaN (F32.fabs x) = false := by rw [F32.isNaN_fabs, hnan]
  simp only [F32.min, F32.lt, hn, h0, hk, hk0, Bool.not_false, Bool.true_and, decide_eq_true_eq]
  by_cases hpos : (0 : Int) < (F32.mag x : Int)
  · rw [if_pos hpos]
  · rw [if_neg hpos]
    have : F32.mag x = 0 := by omega
    rw [F32.fabs, this]

/-- On IEEE arithmetic the product of 0.0 and a finite float that is not negative is
0.0. -/
theorem F32.zero_mul (x : Nat) (hnan : F32.isNaN x = false) (hinf : F32.isInf x = false)
    (hs : F32.sign x = false) : F32.mul 0 x = 0 := by
  have h0 : F32.isNaN 0 = false := by decide
  have h0' : F32.isInf 0 = false := by decide
  have hs0 : F32.sign 0 = false := by decide
  have hu0 : F32.units 0 = 0 := by decide
  have hr : F32.roundMag 0 149 = 0 := by decide
  simp only [F32.mul, h0, h0', hnan, hinf, hs, hs0, hu0, Bool.false_eq_true, false_or,
    if_false, Nat.zero_mul, hr]
  rfl

theorem byteOf_zero (k : Nat) : byteOf 0 k = 0 := by
  rw [byteOf_eq]
  simp

theorem byteOf_allBits (k : Nat) (hk : k < 4) : byteOf 4294967295 k = 255 := by
  have hk' : k = 0 ∨ k = 1 ∨ k = 2 ∨ k = 3 := by omega
  rcases hk' with rfl | rfl | rfl | rfl <;> decide

theorem getLeftAbsorbingElement_cases : ∀ o ∈ opCodes.map Prod.snd,
    (OpCode.getLeftAbsorbingElement o).isSome = true →
    ((o = OP_AND ∨ o = OP_ASR ∨ o = OP_MUL24 ∨ o = OP_ROR ∨ o = OP_SHL ∨ o = OP_SHR ∨
        o = OP_V8MIN ∨ o = OP_V8MULD) ∧ OpCode.getLeftAbsorbingElement o = some INT_ZERO) ∨
    ((o = OP_OR ∨ o = OP_V8MAX) ∧ OpCode.getLeftAbsorbingElement o = some VALUE_ALL_BITS_SET) ∨
    ((o = OP_FMAX ∨ o = OP_FMAXABS) ∧ OpCode.getLeftAbsorbingElement o = some OpCode.floatInfinity) ∨
    (o = OP_FMINABS ∧ OpCode.getLeftAbsorbingElement o = some FLOAT_ZERO) ∨
    (o = OP_FMUL ∧ OpCode.getLeftAbsorbingElement o = some FLOAT_ZERO) := by decide

theorem getRightAbsorbingElement_cases : ∀ o ∈ opCodes.map Prod.snd,
    (OpCode.getRightAbsorbingElement o).isSome = true →
    ((o = OP_AND ∨ o = OP_MUL24 ∨ o = OP_V8MIN ∨ o = OP_V8MULD) ∧
      OpCode.getRightAbsorbingElement o = some INT_ZERO) ∨
    ((o = OP_OR ∨ o = OP_V8MAX) ∧ OpCode.getRightAbsorbingElement o = some VALUE_ALL_BITS_SET) ∨
    ((o = OP_FMAX ∨ o = OP_FMAXABS) ∧ OpCode.getRightAbsorbingElement o = some OpCode.floatInfinity) ∨
    (o = OP_FMINABS ∧ OpCode.getRightAbsorbingElement o = some FLOAT_ZERO) ∨
    (o = OP_FMUL ∧ OpCode.getRightAbsorbingElement o = some FLOAT_ZERO) := by decide

/-- C27, as the claim states it, fails: infinity is the registered right absorbing element of
`fmax`, and `fmax` on NaN and infinity returns the NaN; 0.0 is the registered left absorbing
element of `fmul`, and on IEEE arithmetic the product of 0.0 and infinity is a NaN and the
product of 0.0 and -1.0 is the negative zero. -/
theorem absorbing_counterexample :
    OpCode.getRightAbsorbingElement OP_FMAX = some OpCode.floatInfinity ∧
    OpCode.apply FloatOps.ieee OP_FMAX (some (Value.ofLiteral ⟨0x7FC00000⟩ TYPE_FLOAT))
      (some OpCode.floatInfinity) = .ok (some (Value.ofLiteral ⟨0x7FC00000⟩ TYPE_FLOAT)) ∧
    OpCode.floatInfinity ≠ Value.ofLiteral ⟨0x7FC00000⟩ TYPE_FLOAT ∧
    OpCode.getLeftAbsorbingElement OP_FMUL = some FLOAT_ZERO ∧
    OpCode.apply FloatOps.ieee OP_FMUL (some FLOAT_ZERO)
      (some (Value.ofLiteral ⟨0x7F800000⟩ TYPE_FLOAT))
      = .ok (some (Value.ofLiteral ⟨0x7FC00000⟩ TYPE_FLOAT)) ∧
    OpCode.apply FloatOps.ieee OP_FMUL (some FLOAT_ZERO)
      (some (Value.ofLiteral ⟨0xBF800000⟩ TYPE_FLOAT))
      = .ok (some (Value.ofLiteral ⟨0x80000000⟩ TYPE_FLOAT)) ∧
    FLOAT_ZERO ≠ Value.ofLiteral ⟨0x80000000⟩ TYPE_FLOAT := by
  decide

theorem absorbing_left_int (F : FloatOps) (op : OpCode) (x : Nat) (t : DataType)
    (h : op = OP_AND ∨ op = OP_ASR ∨ op = OP_MUL24 ∨ op = OP_ROR ∨ op = OP_SHL ∨ op = OP_SHR ∨
      op = OP_V8MIN ∨ op = OP_V8MULD) :
    OpCode.apply F op (some INT_ZERO) (some (Value.ofLiteral ⟨x⟩ t))
      = .ok (some ⟨INT_ZERO.data, OpCode.resultType INT_ZERO (Value.ofLiteral ⟨x⟩ t)⟩) := by
  have h0 : Literal.ofInt 0 = ⟨0⟩ := by decide
  have hd : INT_ZERO.data = .scalar (.literal ⟨0⟩) := by decide
  have hz : Literal.ofUInt 0 = ⟨0⟩ := by decide
  have hv8 : ∀ (o : OpCode) (f : Nat → Nat → Nat), (o = OP_V8ADDS ∨ o = OP_V8MAX ∨ o = OP_V8MIN ∨ o = OP_V8MULD ∨
      o = OP_V8SUBS) → (∀ a b, OpCode.v8Lane o a b = .ok (f a b)) →
      (∀ b, b < 256 → f 0 b % 256 = 0) →
      OpCode.apply F o (some (Value.ofLiteral ⟨0⟩ TYPE_INT8)) (some (Value.ofLiteral ⟨x⟩ t))
        = .ok (some (Value.ofLiteral ⟨0⟩
            (OpCode.resultType (Value.ofLiteral ⟨0⟩ TYPE_INT8) (Value.ofLiteral ⟨x⟩ t)))) := by
    intro o f ho hl hf
    obtain ⟨r, hr, hlt, hb⟩ := apply_v8_types F o f ho hl 0 x TYPE_INT8 t
    have : r = 0 := by
      apply eq_of_bytes r 0 hlt (by decide)
      intro k hk
      rw [hb k hk, byteOf_zero, hf _ (byteOf_lt x k)]
    rw [hr, this]
  rw [hd, INT_ZERO, h0]
  rcases h with rfl | rfl | rfl | rfl | rfl | rfl | rfl | rfl
  · rw [apply_literals F OP_AND _ _ _ _ rfl]
    show Except.ok (some (Value.ofLiteral (Literal.ofUInt (0 &&& x)) _)) = _
    rw [Nat.zero_and, hz]
    rfl
  · rw [apply_literals F OP_ASR _ _ _ _ rfl]
    show Except.ok (some (Value.ofLiteral (Literal.ofInt (Int.fdiv (⟨0⟩ : Literal).signedInt
      (2 ^ ((⟨x⟩ : Literal).signedInt % 32).toNat))) _)) = _
    have hs : (⟨0⟩ : Literal).signedInt = 0 := by decide
    rw [hs, Int.zero_fdiv, h0]
    rfl
  · rw [apply_literals F OP_MUL24 _ _ _ _ rfl]
    show Except.ok (some (Value.ofLiteral (Literal.ofUInt
      ((0 &&& 0xFFFFFF) * (x &&& 0xFFFFFF))) _)) = _
    rw [Nat.zero_and, Nat.zero_mul, hz]
    rfl
  · rw [apply_literals F OP_ROR _ _ _ _ rfl]
    show Except.ok (some (Value.ofLiteral (Literal.ofUInt
      (rotate_right 0 (⟨x⟩ : Literal).signedInt)) _)) = _
    have hr : ∀ s : Int, rotate_right 0 s = 0 := by
      intro s
      simp [rotate_right]
    rw [hr, hz]
    rfl
  · rw [apply_literals F OP_SHL _ _ _ _ rfl]
    show Except.ok (some (Value.ofLiteral (Literal.ofUInt
      (0 <<< ((⟨x⟩ : Literal).signedInt % 32).toNat)) _)) = _
    rw [Nat.zero_shiftLeft, hz]
    rfl
  · rw [apply_literals F OP_SHR _ _ _ _ rfl]
    show Except.ok (some (Value.ofLiteral (Literal.ofUInt
      (0 >>> ((⟨x⟩ : Literal).signedInt % 32).toNat)) _)) = _
    rw [Nat.zero_shiftRight, hz]
    rfl
  · exact hv8 OP_V8MIN (fun a b => min a b) (Or.inr (Or.inr (Or.inl rfl))) (fun _ _ => rfl)
      (fun b _ => by simp)
  · exact hv8 OP_V8MULD (fun a b => (a * b + 127) % 2 ^ 32 / 255)
      (Or.inr (Or.inr (Or.inr (Or.inl rfl)))) (fun _ _ => rfl) (fun b _ => by simp)

theorem absorbing_right_int (F : FloatOps) (op : OpCode) (x : Nat) (t : DataType)
    (h : op = OP_AND ∨ op = OP_MUL24 ∨ op = OP_V8MIN ∨ op = OP_V8MULD) :
    OpCode.apply F op (some (Value.ofLiteral ⟨x⟩ t)) (some INT_ZERO)
      = .ok (some ⟨INT_ZERO.data, OpCode.resultType (Value.ofLiteral ⟨x⟩ t) INT_ZERO⟩) := by
  have h0 : Literal.ofInt 0 = ⟨0⟩ := by decide
  have hd : INT_ZERO.data = .scalar (.literal ⟨0⟩) := by decide
  have hz : Literal.ofUInt 0 = ⟨0⟩ := by decide
  have hv8 : ∀ (o : OpCode) (f : Nat → Nat → Nat), (o = OP_V8ADDS ∨ o = OP_V8MAX ∨ o = OP_V8MIN ∨ o = OP_V8MULD ∨
      o = OP_V8SUBS) → (∀ a b, OpCode.v8Lane o a b = .ok (f a b)) →
      (∀ b, b < 256 → f b 0 % 256 = 0) →
      OpCode.apply F o (some (Value.ofLiteral ⟨x⟩ t)) (some (Value.ofLiteral ⟨0⟩ TYPE_INT8))
        = .ok (some (Value.ofLiteral ⟨0⟩
            (OpCode.resultType (Value.ofLiteral ⟨x⟩ t) (Value.ofLiteral ⟨0⟩ TYPE_INT8)))) := by
    intro o f ho hl hf
    obtain ⟨r, hr, hlt, hb⟩ := apply_v8_types F o f ho hl x 0 t TYPE_INT8
    have : r = 0 := by
      apply eq_of_bytes r 0 hlt (by decide)
      intro k hk
      rw [hb k hk, byteOf_zero, hf _ (byteOf_lt x k)]
    rw [hr, this]
  rw [hd, INT_ZERO, h0]
  rcases h with rfl | rfl | rfl | rfl
  · rw [apply_literals F OP_AND _ _ _ _ rfl]
    show Except.ok (some (Value.ofLiteral (Literal.ofUInt (x &&& 0)) _)) = _
    rw [Nat.and_zero, hz]
    rfl
  · rw [apply_literals F OP_MUL24 _ _ _ _ rfl]
    show Except.ok (some (Value.ofLiteral (Literal.ofUInt
      ((x &&& 0xFFFFFF) * (0 &&& 0xFFFFFF))) _)) = _
    rw [Nat.zero_and, Nat.mul_zero, hz]
    rfl
  · exact hv8 OP_V8MIN (fun a b => min a b) (Or.inr (Or.inr (Or.inl rfl))) (fun _ _ => rfl)
      (fun b _ => by simp)
  · exact hv8 OP_V8MULD (fun a b => (a * b + 127) % 2 ^ 32 / 255)
      (Or.inr (Or.inr (Or.inr (Or.inl rfl)))) (fun _ _ => rfl) (fun b _ => by simp)

theorem absorbing_allBits (F : FloatOps) (op : OpCode) (x : Nat) (t : DataType)
    (hx : x < 2 ^ 32) (h : op = OP_OR ∨ op = OP_V8MAX) :
    OpCode.apply F op (some VALUE_ALL_BITS_SET) (some (Value.ofLiteral ⟨x⟩ t))
      = .ok (some ⟨VALUE_ALL_BITS_SET.data,
          OpCode.resultType VALUE_ALL_BITS_SET (Value.ofLiteral ⟨x⟩ t)⟩) ∧
    OpCode.apply F op (some (Value.ofLiteral ⟨x⟩ t)) (some VALUE_ALL_BITS_SET)
      = .ok (some ⟨VALUE_ALL_BITS_SET.data,
          OpCode.resultType (Value.ofLiteral ⟨x⟩ t) VALUE_ALL_BITS_SET⟩) := by
  have h1 : Literal.ofUInt 0xFFFFFFFF = ⟨4294967295⟩ := by decide
  have hd : VALUE_ALL_BITS_SET.data = .scalar (.literal ⟨4294967295⟩) := by decide
  have hor := or_allBits x hx
  rw [hd, VALUE_ALL_BITS_SET, h1]
  rcases h with rfl | rfl
  · constructor
    · rw [apply_literals F OP_OR _ _ _ _ rfl]
      show Except.ok (some (Value.ofLiteral (Literal.ofUInt (4294967295 ||| x)) _)) = _
      rw [Nat.or_comm, hor, h1]
      rfl
    · rw [apply_literals F OP_OR _ _ _ _ rfl]
      show Except.ok (some (Value.ofLiteral (Literal.ofUInt (x ||| 4294967295)) _)) = _
      rw [hor, h1]
      rfl
  · constructor
    · obtain ⟨r, hr, hlt, hb⟩ := apply_v8_types F OP_V8MAX (fun a b => max a b)
        (Or.inr (Or.inl rfl)) (fun _ _ => rfl) 4294967295 x TYPE_INT32 t
      have : r = 4294967295 := by
        apply eq_of_bytes r 4294967295 hlt (by decide)
        intro k hk
        have := byteOf_lt x k
        rw [hb k hk, byteOf_allBits k hk]
        omega
      rw [hr, this]
      rfl
    · obtain ⟨r, hr, hlt, hb⟩ := apply_v8_types F OP_V8MAX (fun a b => max a b)
        (Or.inr (Or.inl rfl)) (fun _ _ => rfl) x 4294967295 t TYPE_INT32
      have : r = 4294967295 := by
        apply eq_of_bytes r 4294967295 hlt (by decide)
        intro k hk
        have := byteOf_lt x k
        rw [hb k hk, byteOf_allBits k hk]
        omega
      rw [hr, this]
      rfl

theorem absorbing_float (F : FloatOps) (x : Nat) (t : DataType) (hx : x < 2 ^ 32) :
    (∀ op, op = OP_FMAX ∨ op = OP_FMAXABS →
      OpCode.apply F op (some OpCode.floatInfinity) (some (Value.ofLiteral ⟨x⟩ t))
        = .ok (some ⟨OpCode.floatInfinity.data,
            OpCode.resultType OpCode.floatInfinity (Value.ofLiteral ⟨x⟩ t)⟩) ∧
      (F32.isNaN x = false →
        OpCode.apply F op (some (Value.ofLiteral ⟨x⟩ t)) (some OpCode.floatInfinity)
          = .ok (some ⟨OpCode.floatInfinity.data,
              OpCode.resultType (Value.ofLiteral ⟨x⟩ t) OpCode.floatInfinity⟩))) ∧
    OpCode.apply F OP_FMINABS (some FLOAT_ZERO) (some (Value.ofLiteral ⟨x⟩ t))
      = .ok (some ⟨FLOAT_ZERO.data, OpCode.resultType FLOAT_ZERO (Value.ofLiteral ⟨x⟩ t)⟩) ∧
    (F32.isNaN x = false →
      OpCode.apply F OP_FMINABS (some (Value.ofLiteral ⟨x⟩ t)) (some FLOAT_ZERO)
        = .ok (some ⟨FLOAT_ZERO.data, OpCode.resultType (Value.ofLiteral ⟨x⟩ t) FLOAT_ZERO⟩)) ∧
    OpCode.apply F OP_FMUL (some FLOAT_ZERO) (some (Value.ofLiteral ⟨x⟩ t))
      = .ok (some (Value.ofLiteral (Literal.ofReal (F.mul 0 x))
          (OpCode.resultType FLOAT_ZERO (Value.ofLiteral ⟨x⟩ t)))) ∧
    OpCode.apply F OP_FMUL (some (Value.ofLiteral ⟨x⟩ t)) (some FLOAT_ZERO)
      = .ok (some (Value.ofLiteral (Literal.ofReal (F.mul x 0))
          (OpCode.resultType (Value.ofLiteral ⟨x⟩ t) FLOAT_ZERO))) := by
  have hI : Literal.ofReal 0x7F800000 = ⟨0x7F800000⟩ := by decide
  have hZ : Literal.ofReal 0 = ⟨0⟩ := by decide
  have hdI : OpCode.floatInfinity.data = .scalar (.literal ⟨0x7F800000⟩) := by decide
  have hdZ : FLOAT_ZERO.data = .scalar (.literal ⟨0⟩) := by decide
  have hfI : F32.fabs 0x7F800000 = 0x7F800000 := by decide
  have hf0 : F32.fabs 0 = 0 := by decide
  refine ⟨?_, ?_, ?_, ?_, ?_⟩
  · rintro op (rfl | rfl)
    · constructor
      · rw [hdI, OpCode.floatInfinity, hI, apply_literals F OP_FMAX _ _ _ _ rfl]
        show Except.ok (some (Value.ofLiteral (Literal.ofReal (F32.max 0x7F800000 x)) _)) = _
        rw [F32.max_inf_left, hI]
        rfl
      · intro hnan
        rw [hdI, OpCode.floatInfinity, hI, apply_literals F OP_FMAX _ _ _ _ rfl]
        show Except.ok (some (Value.ofLiteral (Literal.ofReal (F32.max x 0x7F800000)) _)) = _
        rw [F32.max_inf_right x hx hnan, hI]
        rfl
    · constructor
      · rw [hdI, OpCode.floatInfinity, hI, apply_literals F OP_FMAXABS _ _ _ _ rfl]
        show Except.ok (some (Value.ofLiteral
          (Literal.ofReal (F32.max (F32.fabs 0x7F800000) (F32.fabs x))) _)) = _
        rw [hfI, F32.max_inf_left, hI]
        rfl
      · intro hnan
        rw [hdI, OpCode.floatInfinity, hI, apply_literals F OP_FMAXABS _ _ _ _ rfl]
        show Except.ok (some (Value.ofLiteral
          (Literal.ofReal (F32.max (F32.fabs x) (F32.fabs 0x7F800000))) _)) = _
        rw [hfI, F32.max_inf_right _ (F32.fabs_lt x) (by rw [F32.isNaN_fabs, hnan]), hI]
        rfl
  · rw [hdZ, FLOAT_ZERO, hZ, apply_literals F OP_FMINABS _ _ _ _ rfl]
    show Except.ok (some (Value.ofLiteral
      (Literal.ofReal (F32.min (F32.fabs 0) (F32.fabs x))) _)) = _
    rw [hf0, F32.min_zero_left, hZ]
    rfl
  · intro hnan
    rw [hdZ, FLOAT_ZERO, hZ, apply_literals F OP_FMINABS _ _ _ _ rfl]
    show Except.ok (some (Value.ofLiteral
      (Literal.ofReal (F32.min (F32.fabs x) (F32.fabs 0))) _)) = _
    rw [hf0, F32.min_zero_right x hnan, hZ]
    rfl
  · rw [FLOAT_ZERO, hZ, apply_literals F OP_FMUL _ _ _ _ rfl]
    rfl
  · rw [FLOAT_ZERO, hZ, apply_literals F OP_FMUL _ _ _ _ rfl]
    rfl

/-- C27, amended: for a registered operation with a left absorbing element `a` and a
literal `x` below `2 ^ 32`, the evaluation on `a` and `x` returns a value that holds what
`a` holds, for `and`, `asr`, `mul24`, `or`, `ror`, `shl`, `shr`, `v8min`, `v8max`,
`v8muld`, `fmax`, `fmaxabs` and `fminabs`; for `fmul` it returns the product of 0.0 and
`x`, which on IEEE arithmetic is 0.0 when `x` is finite and not negative. With a right
absorbing element `a`, the evaluation on `x` and `a` returns a value that holds what `a`
holds for `and`, `mul24`, `or`, `v8min`, `v8max` and `v8muld`, and for `fmax`, `fmaxabs`
and `fminabs` when `x` is no NaN; for `fmul` it returns the product of `x` and 0.0. -/
theorem absorbing_eval (F : FloatOps) (op : OpCode) (x : Nat) (t : DataType)
    (hop : op ∈ opCodes.map Prod.snd) (hx : x < 2 ^ 32) :
    (∀ a, OpCode.getLeftAbsorbingElement op = some a →
      (op ≠ OP_FMUL →
        OpCode.apply F op (some a) (some (Value.ofLiteral ⟨x⟩ t))
          = .ok (some ⟨a.data, OpCode.resultType a (Value.ofLiteral ⟨x⟩ t)⟩)) ∧
      (op = OP_FMUL →
        OpCode.apply F op (some a) (some (Value.ofLiteral ⟨x⟩ t))
          = .ok (some (Value.ofLiteral (Literal.ofReal (F.mul 0 x))
              (OpCode.resultType a (Value.ofLiteral ⟨x⟩ t))))) ∧
      (op = OP_FMUL → F32.isNaN x = false → F32.isInf x = false → F32.sign x = false →
        OpCode.apply FloatOps.ieee op (some a) (some (Value.ofLiteral ⟨x⟩ t))
          = .ok (some ⟨a.data, OpCode.resultType a (Value.ofLiteral ⟨x⟩ t)⟩))) ∧
    (∀ a, OpCode.getRightAbsorbingElement op = some a →
      (op = OP_AND ∨ op = OP_MUL24 ∨ op = OP_OR ∨ op = OP_V8MIN ∨ op = OP_V8MAX ∨
          op = OP_V8MULD →
        OpCode.apply F op (some (Value.ofLiteral ⟨x⟩ t)) (some a)
          = .ok (some ⟨a.data, OpCode.resultType (Value.ofLiteral ⟨x⟩ t) a⟩)) ∧
      (op = OP_FMAX ∨ op = OP_FMAXABS ∨ op = OP_FMINABS → F32.isNaN x = false →
        OpCode.apply F op (some (Value.ofLiteral ⟨x⟩ t)) (some a)
          = .ok (some ⟨a.data, OpCode.resultType (Value.ofLiteral ⟨x⟩ t) a⟩)) ∧
      (op = OP_FMUL →
        OpCode.apply F op (some (Value.ofLiteral ⟨x⟩ t)) (some a)
          = .ok (some (Value.ofLiteral (Literal.ofReal (F.mul x 0))
              (OpCode.resultType (Value.ofLiteral ⟨x⟩ t) a)))) ∧
      (op = OP_FMUL → F32.isNaN x = false → F32.isInf x = false → F32.sign x = false →
        OpCode.apply FloatOps.ieee op (some (Value.ofLiteral ⟨x⟩ t)) (some a)
          = .ok (some ⟨a.data, OpCode.resultType (Value.ofLiteral ⟨x⟩ t) a⟩))) ∧
    ((OpCode.getLeftAbsorbingElement op).isSome = true →
      op = OP_AND ∨ op = OP_ASR ∨ op = OP_MUL24 ∨ op = OP_ROR ∨ op = OP_SHL ∨ op = OP_SHR ∨
        op = OP_V8MIN ∨ op = OP_V8MULD ∨ op = OP_OR ∨ op = OP_V8MAX ∨ op = OP_FMAX ∨
        op = OP_FMAXABS ∨ op = OP_FMINABS ∨ op = OP_FMUL) ∧
    ((OpCode.getRightAbsorbingElement op).isSome = true →
      op = OP_AND ∨ op = OP_MUL24 ∨ op = OP_V8MIN ∨ op = OP_V8MULD ∨ op = OP_OR ∨
        op = OP_V8MAX ∨ op = OP_FMAX ∨ op = OP_FMAXABS ∨ op = OP_FMINABS ∨ op = OP_FMUL) := by
  have hdZ : FLOAT_ZERO.data = .scalar (.literal ⟨0⟩) := by decide
  have hZ : Literal.ofReal 0 = ⟨0⟩ := by decide
  obtain ⟨fInf, fMinL, fMinR, fMulL, fMulR⟩ := absorbing_float F x t hx
  obtain ⟨-, -, -, iMulL, iMulR⟩ := absorbing_float FloatOps.ieee x t hx
  have hfm : OP_FMUL ≠ OP_AND ∧ OP_FMUL ≠ OP_ASR ∧ OP_FMUL ≠ OP_MUL24 ∧ OP_FMUL ≠ OP_ROR ∧
      OP_FMUL ≠ OP_SHL ∧ OP_FMUL ≠ OP_SHR ∧ OP_FMUL ≠ OP_V8MIN ∧ OP_FMUL ≠ OP_V8MULD ∧
      OP_FMUL ≠ OP_OR ∧ OP_FMUL ≠ OP_V8MAX ∧ OP_FMUL ≠ OP_FMAX ∧ OP_FMUL ≠ OP_FMAXABS ∧
      OP_FMUL ≠ OP_FMINABS := by decide
  refine ⟨?_, ?_, ?_, ?_⟩
  · intro a ha
    rcases getLeftAbsorbingElement_cases op hop (by rw [ha]; rfl) with
      ⟨h, he⟩ | ⟨h, he⟩ | ⟨h, he⟩ | ⟨h, he⟩ | ⟨h, he⟩
    · have hae : a = INT_ZERO := by rw [ha] at he; exact Option.some.inj he
      subst hae
      refine ⟨fun _ => absorbing_left_int F op x t h, ?_, ?_⟩
      · rintro rfl
        rcases h with h | h | h | h | h | h | h | h
        · exact absurd h hfm.1
        · exact absurd h hfm.2.1
        · exact absurd h hfm.2.2.1
        · exact absurd h hfm.2.2.2.1
        · exact absurd h hfm.2.2.2.2.1
        · exact absurd h hfm.2.2.2.2.2.1
        · exact absurd h hfm.2.2.2.2.2.2.1
        · exact absurd h hfm.2.2.2.2.2.2.2.1
      · rintro rfl
        rcases h with h | h | h | h | h | h | h | h
        · exact absurd h hfm.1
        · exact absurd h hfm.2.1
        · exact absurd h hfm.2.2.1
        · exact absurd h hfm.2.2.2.1
        · exact absurd h hfm.2.2.2.2.1
        · exact absurd h hfm.2.2.2.2.2.1
        · exact absurd h hfm.2.2.2.2.2.2.1
        · exact absurd h hfm.2.2.2.2.2.2.2.1
    · have hae : a = VALUE_ALL_BITS_SET := by rw [ha] at he; exact Option.some.inj he
      subst hae
      refine ⟨fun _ => (absorbing_allBits F op x t hx h).1, ?_, ?_⟩
      · rintro rfl
        rcases h with h | h
        · exact absurd h hfm.2.2.2.2.2.2.2.2.1
        · exact absurd h hfm.2.2.2.2.2.2.2.2.2.1
      · rintro rfl
        rcases h with h | h
        · exact absurd h hfm.2.2.2.2.2.2.2.2.1
        · exact absurd h hfm.2.2.2.2.2.2.2.2.2.1
    · have hae : a = OpCode.floatInfinity := by rw [ha] at he; exact Option.some.inj he
      subst hae
      refine ⟨fun _ => (fInf op h).1, ?_, ?_⟩
      · rintro rfl
        rcases h with h | h
        · exact absurd h hfm.2.2.2.2.2.2.2.2.2.2.1
        · exact absurd h hfm.2.2.2.2.2.2.2.2.2.2.2.1
      · rintro rfl
        rcases h with h | h
        · exact absurd h hfm.2.2.2.2.2.2.2.2.2.2.1
        · exact absurd h hfm.2.2.2.2.2.2.2.2.2.2.2.1
    · have hae : a = FLOAT_ZERO := by rw [ha] at he; exact Option.some.inj he
      subst hae
      subst h
      exact ⟨fun _ => fMinL, fun h => absurd h.symm hfm.2.2.2.2.2.2.2.2.2.2.2.2,
        fun h => absurd h.symm hfm.2.2.2.2.2.2.2.2.2.2.2.2⟩
    · have hae : a = FLOAT_ZERO := by rw [ha] at he; exact Option.some.inj he
      subst hae
      subst h
      refine ⟨fun h => absurd rfl h, fun _ => fMulL, fun _ hnan hinf hs => ?_⟩
      rw [iMulL]
      have : FloatOps.ieee.mul 0 x = 0 := F32.zero_mul x hnan hinf hs
      rw [this, hdZ, hZ]
      rfl
  · intro a ha
    rcases getRightAbsorbingElement_cases op hop (by rw [ha]; rfl) with
      ⟨h, he⟩ | ⟨h, he⟩ | ⟨h, he⟩ | ⟨h, he⟩ | ⟨h, he⟩
    · have hae : a = INT_ZERO := by rw [ha] at he; exact Option.some.inj he
      subst hae
      refine ⟨fun _ => absorbing_right_int F op x t h, ?_, ?_, ?_⟩
      · rintro (rfl | rfl | rfl) <;> rcases h with h | h | h | h <;> exact absurd h (by decide)
      · rintro rfl
        rcases h with h | h | h | h <;> exact absurd h (by decide)
      · rintro rfl
        rcases h with h | h | h | h <;> exact absurd h (by decide)
    · have hae : a = VALUE_ALL_BITS_SET := by rw [ha] at he; exact Option.some.inj he
      subst hae
      refine ⟨fun _ => (absorbing_allBits F op x t hx h).2, ?_, ?_, ?_⟩
      · rintro (rfl | rfl | rfl) <;> rcases h with h | h <;> exact absurd h (by decide)
      · rintro rfl
        rcases h with h | h <;> exact absurd h (by decide)
      · rintro rfl
        rcases h with h | h <;> exact absurd h (by decide)
    · have hae : a = OpCode.floatInfinity := by rw [ha] at he; exact Option.some.inj he
      subst hae
      refine ⟨?_, fun _ hnan => (fInf op h).2 hnan, ?_, ?_⟩
      · rintro (rfl | rfl | rfl | rfl | rfl | rfl) <;> rcases h with h | h <;>
          exact absurd h (by decide)
      · rintro rfl
        rcases h with h | h <;> exact absurd h (by decide)
      · rintro rfl
        rcases h with h | h <;> exact absurd h (by decide)
    · have hae : a = FLOAT_ZERO := by rw [ha] at he; exact Option.some.inj he
      subst hae
      subst h
      refine ⟨?_, fun _ hnan => fMinR hnan, fun h => absurd h (by decide),
        fun h => absurd h (by decide)⟩
      rintro (h | h | h | h | h | h) <;> exact absurd h (by decide)
    · have hae : a = FLOAT_ZERO := by rw [ha] at he; exact Option.some.inj he
      subst hae
      subst h
      refine ⟨?_, ?_, fun _ => fMulR, fun _ hnan hinf hs => ?_⟩
      · rintro (h | h | h | h | h | h) <;> exact absurd h (by decide)
      · rintro (h | h | h) <;> exact absurd h (by decide)
      · rw [iMulR]
        have : FloatOps.ieee.mul x 0 = 0 := by
          show F32.mul x 0 = 0
          rw [F32.mul_comm]
          exact F32.zero_mul x hnan hinf hs
        rw [this, hdZ, hZ]
        rfl
  · intro h
    rcases getLeftAbsorbingElement_cases op hop h with
      ⟨h, -⟩ | ⟨h, -⟩ | ⟨h, -⟩ | ⟨h, -⟩ | ⟨h, -⟩
    · rcases h with h | h | h | h | h | h | h | h <;> simp [h]
    · rcases h with h | h <;> simp [h]
    · rcases h with h | h <;> simp [h]
    · simp [h]
    · simp [h]
  · intro h
    rcases getRightAbsorbingElement_cases op hop h with
      ⟨h, -⟩ | ⟨h, -⟩ | ⟨h, -⟩ | ⟨h, -⟩ | ⟨h, -⟩
    · rcases h with h | h | h | h <;> simp [h]
    · rcases h with h | h <;> simp [h]
    · rcases h with h | h <;> simp [h]
    · simp [h]
    · simp [h]

/-- C27, amended, at `v8max` with its left absorbing element and the word `0x12345678`. -/
theorem absorbing_eval_witness :
    OpCode.apply FloatOps.ieee OP_V8MAX (some VALUE_ALL_BITS_SET)
        (some (int32Literal 0x12345678))
      = .ok (some VALUE_ALL_BITS_SET) :=
  ((absorbing_eval FloatOps.ieee OP_V8MAX 0x12345678 TYPE_INT32 (by decide) (by decide)).1
    VALUE_ALL_BITS_SET (by decide)).1 (by decide)

theorem unpack_apply_integer (F : FloatOps) (l : Literal) (t : DataType)
    (ht : t.isSimpleType = true) (hf : t.isFloatingType = false) :
    Unpack.apply F UNPACK_16A_32 (Value.ofLiteral l t)
      = .ok (some (Value.ofLiteral (Literal.ofInt
          (if l.unsignedInt % 2 ^ 16 < 2 ^ 15 then ((l.unsignedInt % 2 ^ 16 : Nat) : Int)
            else ((l.unsignedInt % 2 ^ 16 : Nat) : Int) - 2 ^ 16)) t)) ∧
    Unpack.apply F UNPACK_16B_32 (Value.ofLiteral l t)
      = .ok (some (Value.ofLiteral (Literal.ofInt
          (if (l.unsignedInt >>> 16) % 2 ^ 16 < 2 ^ 15
            then (((l.unsignedInt >>> 16) % 2 ^ 16 : Nat) : Int)
            else (((l.unsignedInt >>> 16) % 2 ^ 16 : Nat) : Int) - 2 ^ 16)) t)) ∧
    Unpack.apply F UNPACK_8888_32 (Value.ofLiteral l t)
      = .ok (some (Value.ofLiteral (Literal.ofUInt
          (((l.unsignedInt % 2 ^ 8) <<< 24) ||| ((l.unsignedInt % 2 ^ 8) <<< 16) |||
            ((l.unsignedInt % 2 ^ 8) <<< 8) ||| (l.unsignedInt % 2 ^ 8))) t)) ∧
    Unpack.apply F UNPACK_8A_32 (Value.ofLiteral l t)
      = .ok (some (Value.ofLiteral (Literal.ofUInt (l.unsignedInt % 2 ^ 8)) t)) ∧
    Unpack.apply F UNPACK_8B_32 (Value.ofLiteral l t)
      = .ok (some (Value.ofLiteral (Literal.ofUInt ((l.unsignedInt >>> 8) % 2 ^ 8)) t)) ∧
    Unpack.apply F UNPACK_8C_32 (Value.ofLiteral l t)
      = .ok (some (Value.ofLiteral (Literal.ofUInt ((l.unsignedInt >>> 16) % 2 ^ 8)) t)) ∧
    Unpack.apply F UNPACK_8D_32 (Value.ofLiteral l t)
      = .ok (some (Value.ofLiteral (Literal.ofUInt ((l.unsignedInt >>> 24) % 2 ^ 8)) t)) := by
  obtain ⟨k, bits, w⟩ := t
  cases k
  · exact ⟨rfl, rfl, rfl, rfl, rfl, rfl, rfl⟩
  · exact ⟨rfl, rfl, rfl, rfl, rfl, rfl, rfl⟩
  · simp [DataType.isFloatingType] at hf
  · simp [DataType.isSimpleType] at ht

theorem unpack_apply_floating (F : FloatOps) (l : Literal) (t : DataType)
    (hf : t.isFloatingType = true) :
    Unpack.apply F UNPACK_16A_32 (Value.ofLiteral l t) = .ok none ∧
    Unpack.apply F UNPACK_16B_32 (Value.ofLiteral l t) = .ok none ∧
    (∃ v, Unpack.apply F UNPACK_8888_32 (Value.ofLiteral l t) = .ok (some v)) ∧
    (∃ v, Unpack.apply F UNPACK_8A_32 (Value.ofLiteral l t) = .ok (some v)) ∧
    (∃ v, Unpack.apply F UNPACK_8B_32 (Value.ofLiteral l t) = .ok (some v)) ∧
    (∃ v, Unpack.apply F UNPACK_8C_32 (Value.ofLiteral l t) = .ok (some v)) ∧
    (∃ v, Unpack.apply F UNPACK_8D_32 (Value.ofLiteral l t) = .ok (some v)) := by
  obtain ⟨k, bits, w⟩ := t
  cases k
  · simp [DataType.isFloatingType] at hf
  · simp [DataType.isFloatingType] at hf
  · exact ⟨rfl, rfl, ⟨_, rfl⟩, ⟨_, rfl⟩, ⟨_, rfl⟩, ⟨_, rfl⟩, ⟨_, rfl⟩⟩
  · simp [DataType.isFloatingType] at hf

theorem unpack_apply_r4 (F : FloatOps) (l : Literal) (t : DataType)
    (ht : t.isSimpleType = true) :
    Unpack.apply F UNPACK_R4_16A_32 (Value.ofLiteral l t) = .error .unsupportedUnpackMode ∧
    Unpack.apply F UNPACK_R4_16B_32 (Value.ofLiteral l t) = .error .unsupportedUnpackMode ∧
    (∃ v, Unpack.apply F UNPACK_R4_ALPHA_REPLICATE (Value.ofLiteral l t) = .ok (some v)) ∧
    (∃ v, Unpack.apply F UNPACK_R4_COLOR0 (Value.ofLiteral l t) = .ok (some v)) ∧
    (∃ v, Unpack.apply F UNPACK_R4_COLOR1 (Value.ofLiteral l t) = .ok (some v)) ∧
    (∃ v, Unpack.apply F UNPACK_R4_COLOR2 (Value.ofLiteral l t) = .ok (some v)) ∧
    (∃ v, Unpack.apply F UNPACK_R4_COLOR3 (Value.ofLiteral l t) = .ok (some v)) := by
  obtain ⟨k, bits, w⟩ := t
  cases k
  · exact ⟨rfl, rfl, ⟨_, rfl⟩, ⟨_, rfl⟩, ⟨_, rfl⟩, ⟨_, rfl⟩, ⟨_, rfl⟩⟩
  · exact ⟨rfl, rfl, ⟨_, rfl⟩, ⟨_, rfl⟩, ⟨_, rfl⟩, ⟨_, rfl⟩, ⟨_, rfl⟩⟩
  · exact ⟨rfl, rfl, ⟨_, rfl⟩, ⟨_, rfl⟩, ⟨_, rfl⟩, ⟨_, rfl⟩, ⟨_, rfl⟩⟩
  · simp [DataType.isSimpleType] at ht

theorem ofInt_signExtend16 (h : Nat) (hh : h < 2 ^ 16) :
    Literal.ofInt (if h < 2 ^ 15 then (h : Int) else (h : Int) - 2 ^ 16) = ⟨signExtend16 h⟩ := by
  simp only [Literal.ofInt, signExtend16]
  congr 1
  norm_num at hh ⊢
  split <;> omega

/-- C28: on a literal `x` below `2 ^ 32` of a simple type that is not floating, the mode
`UNPACK_16A_32` returns the sign extension to 32 bits of bits 0 to 15 of `x` and
`UNPACK_16B_32` that of bits 16 to 31; `UNPACK_8A_32` to `UNPACK_8D_32` return byte 0 to 3 of
`x`, a number below 256; `UNPACK_8888_32` returns the word whose four bytes are the low
byte of `x`. Each result has the type of the argument. On a literal of a floating type the
two 16-bit modes return `NO_VALUE`. -/
theorem unpack_integer_modes (F : FloatOps) (x : Nat) (t : DataType) (hx : x < 2 ^ 32)
    (ht : t.isSimpleType = true) (hf : t.isFloatingType = false) :
    Unpack.apply F UNPACK_16A_32 (Value.ofLiteral ⟨x⟩ t)
      = .ok (some (Value.ofLiteral ⟨signExtend16 (x % 2 ^ 16)⟩ t)) ∧
    Unpack.apply F UNPACK_16B_32 (Value.ofLiteral ⟨x⟩ t)
      = .ok (some (Value.ofLiteral ⟨signExtend16 (x / 2 ^ 16)⟩ t)) ∧
    Unpack.apply F UNPACK_8A_32 (Value.ofLiteral ⟨x⟩ t)
      = .ok (some (Value.ofLiteral ⟨byteOf x 0⟩ t)) ∧
    Unpack.apply F UNPACK_8B_32 (Value.ofLiteral ⟨x⟩ t)
      = .ok (some (Value.ofLiteral ⟨byteOf x 1⟩ t)) ∧
    Unpack.apply F UNPACK_8C_32 (Value.ofLiteral ⟨x⟩ t)
      = .ok (some (Value.ofLiteral ⟨byteOf x 2⟩ t)) ∧
    Unpack.apply F UNPACK_8D_32 (Value.ofLiteral ⟨x⟩ t)
      = .ok (some (Value.ofLiteral ⟨byteOf x 3⟩ t)) ∧
    (∀ k, byteOf x k ≤ 255) ∧
    (∃ r, Unpack.apply F UNPACK_8888_32 (Value.ofLiteral ⟨x⟩ t)
        = .ok (some (Value.ofLiteral ⟨r⟩ t)) ∧ r < 2 ^ 32 ∧
      ∀ k, k < 4 → byteOf r k = byteOf x 0) ∧
    (∀ tf : DataType, tf.isFloatingType = true →
      Unpack.apply F UNPACK_16A_32 (Value.ofLiteral ⟨x⟩ tf) = .ok none ∧
      Unpack.apply F UNPACK_16B_32 (Value.ofLiteral ⟨x⟩ tf) = .ok none) := by
  obtain ⟨h1, h2, h3, h4, h5, h6, h7⟩ := unpack_apply_integer F ⟨x⟩ t ht hf
  have hU : ∀ n, n < 256 → Literal.ofUInt n = ⟨n⟩ := by
    intro n hn
    rw [Literal.ofUInt, Nat.mod_eq_of_lt (by omega)]
  have hb : ∀ k, byteOf x k < 256 := fun k => byteOf_lt x k
  refine ⟨?_, ?_, ?_, ?_, ?_, ?_, fun k => Nat.le_of_lt_succ (hb k), ?_, ?_⟩
  · rw [h1]
    show Except.ok (some (Value.ofLiteral (Literal.ofInt
      (if x % 2 ^ 16 < 2 ^ 15 then ((x % 2 ^ 16 : Nat) : Int)
        else ((x % 2 ^ 16 : Nat) : Int) - 2 ^ 16)) t)) = _
    rw [ofInt_signExtend16 _ (Nat.mod_lt _ (by decide))]
  · rw [h2]
    show Except.ok (some (Value.ofLiteral (Literal.ofInt
      (if (x >>> 16) % 2 ^ 16 < 2 ^ 15 then (((x >>> 16) % 2 ^ 16 : Nat) : Int)
        else (((x >>> 16) % 2 ^ 16 : Nat) : Int) - 2 ^ 16)) t)) = _
    rw [ofInt_signExtend16 _ (Nat.mod_lt _ (by decide)), Nat.shiftRight_eq_div_pow,
      Nat.mod_eq_of_lt (by omega)]
  · rw [h4]
    show Except.ok (some (Value.ofLiteral (Literal.ofUInt (x % 2 ^ 8)) t)) = _
    have e : x % 2 ^ 8 = byteOf x 0 := by rw [byteOf_eq]; norm_num
    rw [e, hU _ (hb 0)]
  · rw [h5]
    show Except.ok (some (Value.ofLiteral (Literal.ofUInt ((x >>> 8) % 2 ^ 8)) t)) = _
    have e : (x >>> 8) % 2 ^ 8 = byteOf x 1 := by
      rw [byteOf_eq, Nat.shiftRight_eq_div_pow]
      norm_num
    rw [e, hU _ (hb 1)]
  · rw [h6]
    show Except.ok (some (Value.ofLiteral (Literal.ofUInt ((x >>> 16) % 2 ^ 8)) t)) = _
    have e : (x >>> 16) % 2 ^ 8 = byteOf x 2 := by
      rw [byteOf_eq, Nat.shiftRight_eq_div_pow]
      norm_num
    rw [e, hU _ (hb 2)]
  · rw [h7]
    show Except.ok (some (Value.ofLiteral (Literal.ofUInt ((x >>> 24) % 2 ^ 8)) t)) = _
    have e : (x >>> 24) % 2 ^ 8 = byteOf x 3 := by
      rw [byteOf_eq, Nat.shiftRight_eq_div_pow]
      norm_num
    rw [e, hU _ (hb 3)]
  · have e : x % 2 ^ 8 = byteOf x 0 := by rw [byteOf_eq]; norm_num
    have hs := byteOf_sum (byteOf x 0) (byteOf x 0) (byteOf x 0) (byteOf x 0) (hb 0) (hb 0)
      (hb 0) (hb 0)
    refine ⟨byteOf x 0 * 2 ^ 24 + byteOf x 0 * 2 ^ 16 + byteOf x 0 * 2 ^ 8 + byteOf x 0, ?_,
      hs.2.2.2.2, ?_⟩
    · rw [h3]
      show Except.ok (some (Value.ofLiteral (Literal.ofUInt
        (((x % 2 ^ 8) <<< 24) ||| ((x % 2 ^ 8) <<< 16) ||| ((x % 2 ^ 8) <<< 8) |||
          (x % 2 ^ 8))) t)) = _
      rw [e, or_eq_add_bytes _ _ _ _ (hb 0) (hb 0) (hb 0), Literal.ofUInt,
        Nat.mod_eq_of_lt hs.2.2.2.2]
    · intro k hk
      have hk' : k = 0 ∨ k = 1 ∨ k = 2 ∨ k = 3 := by omega
      rcases hk' with rfl | rfl | rfl | rfl
      · exact hs.1
      · exact hs.2.1
      · exact hs.2.2.1
      · exact hs.2.2.2.1
  · intro tf htf
    exact ⟨(unpack_apply_floating F ⟨x⟩ tf htf).1, (unpack_apply_floating F ⟨x⟩ tf htf).2.1⟩

/-- C28 at the word `0x8001FF80` of type `TYPE_INT32`: the low half `0xFF80` is extended to
`0xFFFFFF80`. -/
theorem unpack_integer_modes_witness :
    Unpack.apply FloatOps.ieee UNPACK_16A_32 (Value.ofLiteral ⟨0x8001FF80⟩ TYPE_INT32)
      = .ok (some (Value.ofLiteral ⟨signExtend16 (0x8001FF80 % 2 ^ 16)⟩ TYPE_INT32)) ∧
    signExtend16 (0x8001FF80 % 2 ^ 16) = 0xFFFFFF80 :=
  ⟨(unpack_integer_modes FloatOps.ieee 0x8001FF80 TYPE_INT32 (by decide) (by decide)
    (by decide)).1, by decide⟩

/-- C30, on the code: of the sixteen unpack modes that `to_string` names, applied to a
scalar literal of a simple type, the two modes `UNPACK_R4_16A_32` and `UNPACK_R4_16B_32`
raise "Unsupported unpack-mode", since the `switch` has no case for them; each of the
other fourteen returns a value or `NO_VALUE`. -/
theorem unpack_r4_half_modes_raise (F : FloatOps) (l : Literal) (t : DataType)
    (ht : t.isSimpleType = true) :
    namedUnpackModes.length = 16 ∧ namedUnpackModes.Nodup ∧
    Unpack.apply F UNPACK_R4_16A_32 (Value.ofLiteral l t) = .error .unsupportedUnpackMode ∧
    Unpack.apply F UNPACK_R4_16B_32 (Value.ofLiteral l t) = .error .unsupportedUnpackMode ∧
    (∀ u ∈ namedUnpackModes, u ≠ UNPACK_R4_16A_32 → u ≠ UNPACK_R4_16B_32 →
      ∃ r, Unpack.apply F u (Value.ofLiteral l t) = .ok r) := by
  obtain ⟨r1, r2, r3, r4, r5, r6, r7⟩ := unpack_apply_r4 F l t ht
  refine ⟨rfl, by decide, r1, r2, ?_⟩
  intro u hu hA hB
  have hnop : ∀ u : Unpack, u.hasEffect = false →
      ∃ r, Unpack.apply F u (Value.ofLiteral l t) = .ok r :=
    fun u h => ⟨_, unpack_apply_of_no_effect F u _ h⟩
  simp only [namedUnpackModes, List.mem_cons, List.mem_singleton, List.mem_nil_iff,
    or_false] at hu
  by_cases hf : t.isFloatingType = true
  · obtain ⟨f1, f2, f3, f4, f5, f6, f7⟩ := unpack_apply_floating F l t hf
    rcases hu with rfl | rfl | rfl | rfl | rfl | rfl | rfl | rfl | rfl | rfl | rfl | rfl | rfl |
      rfl | rfl | rfl
    · exact hnop _ rfl
    · exact hnop _ rfl
    · exact ⟨_, f1⟩
    · exact ⟨_, f2⟩
    · exact ⟨_, f3.choose_spec⟩
    · exact ⟨_, f4.choose_spec⟩
    · exact ⟨_, f5.choose_spec⟩
    · exact ⟨_, f6.choose_spec⟩
    · exact ⟨_, f7.choose_spec⟩
    · exact absurd rfl hA
    · exact absurd rfl hB
    · exact ⟨_, r3.choose_spec⟩
    · exact ⟨_, r4.choose_spec⟩
    · exact ⟨_, r5.choose_spec⟩
    · exact ⟨_, r6.choose_spec⟩
    · exact ⟨_, r7.choose_spec⟩
  · have hf' : t.isFloatingType = false := by simpa using hf
    obtain ⟨i1, i2, i3, i4, i5, i6, i7⟩ := unpack_apply_integer F l t ht hf'
    rcases hu with rfl | rfl | rfl | rfl | rfl | rfl | rfl | rfl | rfl | rfl | rfl | rfl | rfl |
      rfl | rfl | rfl
    · exact hnop _ rfl
    · exact hnop _ rfl
    · exact ⟨_, i1⟩
    · exact ⟨_, i2⟩
    · exact ⟨_, i3⟩
    · exact ⟨_, i4⟩
    · exact ⟨_, i5⟩
    · exact ⟨_, i6⟩
    · exact ⟨_, i7⟩
    · exact absurd rfl hA
    · exact absurd rfl hB
    · exact ⟨_, r3.choose_spec⟩
    · exact ⟨_, r4.choose_spec⟩
    · exact ⟨_, r5.choose_spec⟩
    · exact ⟨_, r6.choose_spec⟩
    · exact ⟨_, r7.choose_spec⟩

/-- C30, on the code, at the literal 0 of type `TYPE_INT32`. -/
theorem unpack_r4_half_modes_raise_witness :
    Unpack.apply FloatOps.ieee UNPACK_R4_16A_32 (int32Literal 0)
      = .error .unsupportedUnpackMode :=
  (unpack_r4_half_modes_raise FloatOps.ieee (Literal.ofUInt 0) TYPE_INT32 (by decide)).2.2.1

/-! ### Exceptions of the evaluator -/

/-- C29, on the code: the evaluator raises on two containers of 3 and 2 lanes whose lanes
differ, where lane 2 of the shorter one is read with `elements.at(2)`; and it raises on a
container of one lane that has no literal, where the value of an empty `Optional` is read
for the representative literal. -/
theorem evaluator_raises :
    OP_ADD ∈ opCodes.map Prod.snd ∧
    OpCode.apply FloatOps.ieee OP_ADD (some (int32Container [1, 2, 3]))
      (some (int32Container [1, 2])) = .error .outOfRange ∧
    OpCode.apply FloatOps.ieee OP_ADD
      (some (Value.ofContainer [⟨.nonConstant 0, TYPE_INT32⟩] TYPE_INT32))
      (some (int32Literal 1)) = .error .emptyOptional := by
  decide

/-! ### Pack and unpack in sequence -/

theorem pack_apply_integer (F : FloatOps) (l : Literal) (t : DataType)
    (ht : t.isSimpleType = true) (hf : t.isFloatingType = false) :
    Pack.apply F PACK_32_8A (Value.ofLiteral l t)
      = .ok (some (Value.ofLiteral (Literal.ofUInt (l.unsignedInt &&& 0xFF)) t)) ∧
    Pack.apply F PACK_32_8B (Value.ofLiteral l t)
      = .ok (some (Value.ofLiteral (Literal.ofUInt ((l.unsignedInt &&& 0xFF) <<< 8)) t)) ∧
    Pack.apply F PACK_32_8C (Value.ofLiteral l t)
      = .ok (some (Value.ofLiteral (Literal.ofUInt ((l.unsignedInt &&& 0xFF) <<< 16)) t)) ∧
    Pack.apply F PACK_32_8D (Value.ofLiteral l t)
      = .ok (some (Value.ofLiteral (Literal.ofUInt ((l.unsignedInt &&& 0xFF) <<< 24)) t)) ∧
    Pack.apply F PACK_32_16A (Value.ofLiteral l t)
      = .ok (some (Value.ofLiteral (Literal.ofUInt (l.unsignedInt &&& 0xFFFF)) t)) ∧
    Pack.apply F PACK_32_16B (Value.ofLiteral l t)
      = .ok (some (Value.ofLiteral (Literal.ofUInt ((l.unsignedInt &&& 0xFFFF) <<< 16)) t)) ∧
    Pack.apply F PACK_32_16A_S (Value.ofLiteral l t)
      = .ok (some (Value.ofLiteral (Literal.ofInt (Pack.sat16 l % 2 ^ 16)) t)) ∧
    Pack.apply F PACK_32_16B_S (Value.ofLiteral l t)
      = .ok (some (Value.ofLiteral (Literal.ofInt (Pack.sat16 l * 2 ^ 16)) t)) := by
  obtain ⟨k, bits, w⟩ := t
  cases k
  · exact ⟨rfl, rfl, rfl, rfl, rfl, rfl, rfl, rfl⟩
  · exact ⟨rfl, rfl, rfl, rfl, rfl, rfl, rfl, rfl⟩
  · simp [DataType.isFloatingType] at hf
  · simp [DataType.isSimpleType] at ht

theorem and_65535 (x : Nat) : x &&& 65535 = x % 65536 := by
  have h : (65535 : Nat) = 2 ^ 16 - 1 := by norm_num
  rw [h, Nat.and_pow_two_sub_one_eq_mod]

theorem ofUInt_lt (n : Nat) : (Literal.ofUInt n).unsignedInt < 2 ^ 32 :=
  Nat.mod_lt _ (by decide)

theorem ofInt_lt (i : Int) : (Literal.ofInt i).unsignedInt < 2 ^ 32 := by
  simp only [Literal.ofInt, Literal.unsignedInt]
  norm_num
  omega

theorem packThenUnpack_eq (F : FloatOps) (p : Pack) (u : Unpack) (val packed : Value)
    (r : Except Error (Option Value)) (hp : Pack.apply F p val = .ok (some packed))
    (hu : Unpack.apply F u packed = r) : packThenUnpack F p u val = r := by
  rw [packThenUnpack, hp]
  exact hu

theorem sat16_eq (x : Nat) :
    Pack.sat16 ⟨x⟩ = max (-32768) (min 32767 (Literal.signedInt ⟨x⟩)) := by
  rw [Pack.sat16, saturate, max_comm, min_comm]

/-- C31: on a literal `x` below `2 ^ 32` of a simple type that is not floating, each of the
four modes `PACK_32_8A` to `PACK_32_8D` followed by the unpack mode of the same byte
returns `x mod 256`; `PACK_32_16A` and `PACK_32_16B` followed by the unpack mode of the
same half return the sign extension of `x mod 2 ^ 16`; the saturating modes
`PACK_32_16A_S` and `PACK_32_16B_S` followed by the unpack mode of the same half return
`x`, as a signed number, clamped to the range from -32768 to 32767. Hence the byte round
trips return `x` when `x` is below 256 and the four 16-bit round trips return `x` when
`x` as a signed number lies between -32768 and 32767. -/
theorem pack_unpack_roundtrip (F : FloatOps) (x : Nat) (t : DataType) (hx : x < 2 ^ 32)
    (ht : t.isSimpleType = true) (hf : t.isFloatingType = false) :
    (packThenUnpack F PACK_32_8A UNPACK_8A_32 (Value.ofLiteral ⟨x⟩ t)
        = .ok (some (Value.ofLiteral ⟨x % 256⟩ t)) ∧
      packThenUnpack F PACK_32_8B UNPACK_8B_32 (Value.ofLiteral ⟨x⟩ t)
        = .ok (some (Value.ofLiteral ⟨x % 256⟩ t)) ∧
      packThenUnpack F PACK_32_8C UNPACK_8C_32 (Value.ofLiteral ⟨x⟩ t)
        = .ok (some (Value.ofLiteral ⟨x % 256⟩ t)) ∧
      packThenUnpack F PACK_32_8D UNPACK_8D_32 (Value.ofLiteral ⟨x⟩ t)
        = .ok (some (Value.ofLiteral ⟨x % 256⟩ t))) ∧
    (packThenUnpack F PACK_32_16A UNPACK_16A_32 (Value.ofLiteral ⟨x⟩ t)
        = .ok (some (Value.ofLiteral ⟨signExtend16 (x % 2 ^ 16)⟩ t)) ∧
      packThenUnpack F PACK_32_16B UNPACK_16B_32 (Value.ofLiteral ⟨x⟩ t)
        = .ok (some (Value.ofLiteral ⟨signExtend16 (x % 2 ^ 16)⟩ t))) ∧
    (packThenUnpack F PACK_32_16A_S UNPACK_16A_32 (Value.ofLiteral ⟨x⟩ t)
        = .ok (some (Value.ofLiteral (clamp16 x) t)) ∧
      packThenUnpack F PACK_32_16B_S UNPACK_16B_32 (Value.ofLiteral ⟨x⟩ t)
        = .ok (some (Value.ofLiteral (clamp16 x) t))) ∧
    (x < 256 → (⟨x % 256⟩ : Literal) = ⟨x⟩) ∧
    (-32768 ≤ Literal.signedInt ⟨x⟩ → Literal.signedInt ⟨x⟩ ≤ 32767 →
      (⟨signExtend16 (x % 2 ^ 16)⟩ : Literal) = ⟨x⟩ ∧ clamp16 x = ⟨x⟩) := by
  obtain ⟨p8a, p8b, p8c, p8d, p16a, p16b, p16as, p16bs⟩ := pack_apply_integer F ⟨x⟩ t ht hf
  have hU : ∀ l, Unpack.apply F UNPACK_8A_32 (Value.ofLiteral l t)
        = .ok (some (Value.ofLiteral (Literal.ofUInt (l.unsignedInt % 2 ^ 8)) t)) ∧
      Unpack.apply F UNPACK_8B_32 (Value.ofLiteral l t)
        = .ok (some (Value.ofLiteral (Literal.ofUInt ((l.unsignedInt >>> 8) % 2 ^ 8)) t)) ∧
      Unpack.apply F UNPACK_8C_32 (Value.ofLiteral l t)
        = .ok (some (Value.ofLiteral (Literal.ofUInt ((l.unsignedInt >>> 16) % 2 ^ 8)) t)) ∧
      Unpack.apply F UNPACK_8D_32 (Value.ofLiteral l t)
        = .ok (some (Value.ofLiteral (Literal.ofUInt ((l.unsignedInt >>> 24) % 2 ^ 8)) t)) :=
    fun l => (unpack_apply_integer F l t ht hf).2.2.2
  have h16 : ∀ l : Literal, l.unsignedInt < 2 ^ 32 →
      Unpack.apply F UNPACK_16A_32 (Value.ofLiteral l t)
        = .ok (some (Value.ofLiteral ⟨signExtend16 (l.unsignedInt % 2 ^ 16)⟩ t)) ∧
      Unpack.apply F UNPACK_16B_32 (Value.ofLiteral l t)
        = .ok (some (Value.ofLiteral ⟨signExtend16 (l.unsignedInt / 2 ^ 16)⟩ t)) := by
    intro l hl
    obtain ⟨h1, h2, _⟩ := unpack_apply_integer F l t ht hf
    constructor
    · rw [h1, ofInt_signExtend16 _ (Nat.mod_lt _ (by decide))]
    · rw [h2]
      have e : (l.unsignedInt >>> 16) % 2 ^ 16 = l.unsignedInt / 2 ^ 16 := by
        rw [Nat.shiftRight_eq_div_pow]
        norm_num at hl ⊢
        omega
      rw [e, ofInt_signExtend16 _ (by norm_num at hl ⊢; omega)]
  have hs := signedInt_range x hx
  have hsat := sat16_eq x
  refine ⟨⟨?_, ?_, ?_, ?_⟩, ⟨?_, ?_⟩, ⟨?_, ?_⟩, ?_, ?_⟩
  · refine packThenUnpack_eq F _ _ _ _ _ p8a ?_
    rw [(hU _).1]
    simp only [Literal.ofUInt, Literal.unsignedInt, and_255]
    congr 4
    norm_num
    omega
  · refine packThenUnpack_eq F _ _ _ _ _ p8b ?_
    rw [(hU _).2.1]
    simp only [Literal.ofUInt, Literal.unsignedInt, and_255, Nat.shiftLeft_eq,
      Nat.shiftRight_eq_div_pow]
    congr 4
    norm_num
    omega
  · refine packThenUnpack_eq F _ _ _ _ _ p8c ?_
    rw [(hU _).2.2.1]
    simp only [Literal.ofUInt, Literal.unsignedInt, and_255, Nat.shiftLeft_eq,
      Nat.shiftRight_eq_div_pow]
    congr 4
    norm_num
    omega
  · refine packThenUnpack_eq F _ _ _ _ _ p8d ?_
    rw [(hU _).2.2.2]
    simp only [Literal.ofUInt, Literal.unsignedInt, and_255, Nat.shiftLeft_eq,
      Nat.shiftRight_eq_div_pow]
    congr 4
    norm_num
    omega
  · refine packThenUnpack_eq F _ _ _ _ _ p16a ?_
    rw [(h16 _ (ofUInt_lt _)).1]
    simp only [Literal.ofUInt, Literal.unsignedInt, and_65535]
    congr 5
    norm_num
  · refine packThenUnpack_eq F _ _ _ _ _ p16b ?_
    rw [(h16 _ (ofUInt_lt _)).2]
    simp only [Literal.ofUInt, Literal.unsignedInt, and_65535, Nat.shiftLeft_eq]
    congr 5
    norm_num
    omega
  · refine packThenUnpack_eq F _ _ _ _ _ p16as ?_
    rw [(h16 _ (ofInt_lt _)).1, clamp16, ← hsat]
    generalize Pack.sat16 ⟨x⟩ = s at hsat ⊢
    have hr : -32768 ≤ s ∧ s ≤ 32767 := by
      rw [hsat]
      omega
    simp only [Literal.ofInt, Literal.unsignedInt, signExtend16]
    congr 4
    norm_num
    split <;> omega
  · refine packThenUnpack_eq F _ _ _ _ _ p16bs ?_
    rw [(h16 _ (ofInt_lt _)).2, clamp16, ← hsat]
    generalize Pack.sat16 ⟨x⟩ = s at hsat ⊢
    have hr : -32768 ≤ s ∧ s ≤ 32767 := by
      rw [hsat]
      omega
    simp only [Literal.ofInt, Literal.unsignedInt, signExtend16]
    congr 4
    norm_num
    split <;> omega
  · intro h
    rw [Nat.mod_eq_of_lt h]
  · intro h1 h2
    simp only [Literal.signedInt] at h1 h2
    simp only [clamp16, Literal.signedInt, Literal.ofInt, signExtend16]
    norm_num at hx h1 h2 ⊢
    constructor
    · split at h1 <;> split <;> omega
    · split at h1 <;> omega

theorem pack_unpack_roundtrip_witness :
    (packThenUnpack FloatOps.ieee PACK_32_8B UNPACK_8B_32 (Value.ofLiteral ⟨0x12345678⟩ TYPE_INT32)
        = .ok (some (Value.ofLiteral ⟨0x78⟩ TYPE_INT32))) ∧
    (packThenUnpack FloatOps.ieee PACK_32_16B UNPACK_16B_32
        (Value.ofLiteral ⟨0x12349678⟩ TYPE_INT32)
        = .ok (some (Value.ofLiteral ⟨0xFFFF9678⟩ TYPE_INT32))) ∧
    (packThenUnpack FloatOps.ieee PACK_32_16B_S UNPACK_16B_32
        (Value.ofLiteral ⟨0x12349678⟩ TYPE_INT32)
        = .ok (some (Value.ofLiteral ⟨0x7FFF⟩ TYPE_INT32))) := by
  have h := pack_unpack_roundtrip FloatOps.ieee 0x12349678 TYPE_INT32 (by decide) (by decide)
    (by decide)
  have h2 := pack_unpack_roundtrip FloatOps.ieee 0x12345678 TYPE_INT32 (by decide) (by decide)
    (by decide)
  exact ⟨h2.1.2.1, h.2.1.2, h.2.2.1.2⟩

/-! ### Comparison of operations -/

theorem opCode_eq_iff (l r : OpCode) :
    OpCode.eq l r = true ↔
      (0 < l.opAdd ∧ l.opAdd = r.opAdd) ∨ (0 < l.opMul ∧ l.opMul = r.opMul) ∨
        (l.opAdd = 0 ∧ l.opMul = 0 ∧ r.opAdd = 0 ∧ r.opMul = 0) := by
  unfold OpCode.eq
  split_ifs with h1 h2 h3
  · simp only [true_iff]
    exact Or.inl h1
  · simp only [true_iff]
    exact Or.inr (Or.inl h2)
  · simp only [true_iff]
    exact Or.inr (Or.inr h3)
  · simp only [Bool.false_eq_true, false_iff]
    rintro (h | h | h)
    · exact h1 h
    · exact h2 h
    · exact h3 h

theorem opCode_lt_iff (l r : OpCode) :
    OpCode.lt l r = true ↔ l.opAdd < r.opAdd ∨ l.opMul < r.opMul := by
  simp only [OpCode.lt, decide_eq_true_eq]

theorem eq_registered : ∀ a ∈ opCodes.map Prod.snd, ∀ b ∈ opCodes.map Prod.snd,
    OpCode.eq a b = true → a = b := by decide

/-- C32, as the claim states it, fails: the operation value with the add encoding of
`fadd` and the mul encoding of `mul24` equals `fadd` and equals `mul24`, and `fadd` does
not equal `mul24`. -/
theorem equality_counterexample :
    OpCode.eq OP_FADD ⟨"fadd", 1, 2, 2, true, true⟩ = true ∧
    OpCode.eq ⟨"fadd", 1, 2, 2, true, true⟩ OP_MUL24 = true ∧
    OpCode.eq OP_FADD OP_MUL24 = false := by decide

/-- C32, amended: for all operation values `a == a` holds, `a == b` and `b == a` are the
same, and `a != b` is the negation of `a == b`. From `a == b` and `b == c` follows
`a == c` when `b` has an encoding on at most one pipeline, and for registered operations,
which are equal exactly when they are the same operation. -/
theorem equality_relation (a b c : OpCode) :
    OpCode.eq a a = true ∧
    OpCode.eq a b = OpCode.eq b a ∧
    OpCode.ne a b = !OpCode.eq a b ∧
    (b.opAdd = 0 ∨ b.opMul = 0 → OpCode.eq a b = true → OpCode.eq b c = true →
      OpCode.eq a c = true) ∧
    (a ∈ opCodes.map Prod.snd → b ∈ opCodes.map Prod.snd →
      (OpCode.eq a b = true ↔ a = b)) ∧
    (a ∈ opCodes.map Prod.snd → b ∈ opCodes.map Prod.snd → c ∈ opCodes.map Prod.snd →
      OpCode.eq a b = true → OpCode.eq b c = true → OpCode.eq a c = true) := by
  have hrefl : ∀ x : OpCode, OpCode.eq x x = true := by
    intro x
    rw [opCode_eq_iff]
    omega
  refine ⟨hrefl a, ?_, rfl, ?_, ?_, ?_⟩
  · rw [Bool.eq_iff_iff, opCode_eq_iff, opCode_eq_iff]
    omega
  · intro hb hab hbc
    rw [opCode_eq_iff] at hab hbc ⊢
    omega
  · intro ha hb
    constructor
    · exact eq_registered a ha b hb
    · intro h
      rw [h]
      exact hrefl b
  · intro ha hb hc hab hbc
    rw [eq_registered a ha b hb hab]
    exact hbc

theorem equality_relation_witness :
    OpCode.eq OP_V8ADDS OP_V8ADDS = true ∧
    (OpCode.eq OP_V8ADDS ⟨"v8adds", 30, 0, 2, false, false⟩ = true →
      OpCode.eq ⟨"v8adds", 30, 0, 2, false, false⟩ ⟨"", 30, 7, 2, false, false⟩ = true →
      OpCode.eq OP_V8ADDS ⟨"", 30, 7, 2, false, false⟩ = true) ∧
    OpCode.eq OP_V8ADDS ⟨"", 30, 7, 2, false, false⟩ = true :=
  ⟨(equality_relation OP_V8ADDS OP_V8ADDS OP_V8ADDS).1,
    (equality_relation OP_V8ADDS ⟨"v8adds", 30, 0, 2, false, false⟩
      ⟨"", 30, 7, 2, false, false⟩).2.2.2.1 (Or.inr rfl),
    (equality_relation OP_V8ADDS ⟨"v8adds", 30, 0, 2, false, false⟩
      ⟨"", 30, 7, 2, false, false⟩).2.2.2.1 (Or.inr rfl) (by decide) (by decide)⟩

/-- C33, as the claim states it, fails: each of the registered operations `fadd` and
`fmul` is less than the other. -/
theorem ordering_counterexample :
    OP_FADD ∈ opCodes.map Prod.snd ∧ OP_FMUL ∈ opCodes.map Prod.snd ∧
    OpCode.lt OP_FADD OP_FMUL = true ∧ OpCode.lt OP_FMUL OP_FADD = true := by decide

/-- C33, amended: for all operation values `a < a` is false, and `a < b` and `b < a` hold
together exactly when the add encodings order the two one way and the mul encodings the
other way; so never both hold for operations with the same add encoding or the same mul
encoding. For registered operations `a == b` implies neither `a < b` nor `b < a`. -/
theorem ordering_properties (a b : OpCode) :
    OpCode.lt a a = false ∧
    ((OpCode.lt a b = true ∧ OpCode.lt b a = true) ↔
      (a.opAdd < b.opAdd ∧ b.opMul < a.opMul) ∨ (b.opAdd < a.opAdd ∧ a.opMul < b.opMul)) ∧
    (a.opAdd = b.opAdd ∨ a.opMul = b.opMul →
      ¬ (OpCode.lt a b = true ∧ OpCode.lt b a = true)) ∧
    (a ∈ opCodes.map Prod.snd → b ∈ opCodes.map Prod.snd → OpCode.eq a b = true →
      OpCode.lt a b = false ∧ OpCode.lt b a = false) := by
  have hirr : ∀ x : OpCode, OpCode.lt x x = false := by
    intro x
    rw [← Bool.not_eq_true, opCode_lt_iff]
    omega
  refine ⟨hirr a, ?_, ?_, ?_⟩
  · rw [opCode_lt_iff, opCode_lt_iff]
    omega
  · intro h
    rw [opCode_lt_iff, opCode_lt_iff]
    omega
  · intro ha hb hab
    rw [eq_registered a ha b hb hab]
    exact ⟨hirr b, hirr b⟩

theorem ordering_properties_witness :
    ¬ (OpCode.lt OP_ADD OP_SUB = true ∧ OpCode.lt OP_SUB OP_ADD = true) ∧
    (OpCode.lt OP_MAX OP_MAX = false ∧ OpCode.lt OP_MAX OP_MAX = false) :=
  ⟨(ordering_properties OP_ADD OP_SUB).2.2.1 (Or.inr rfl),
    (ordering_properties OP_MAX OP_MAX).2.2.2 (by decide) (by decide) (by decide)⟩

/-! ### Consistency of the tables -/

/-- C34: for a registered operation that `isCommutative` flags, `getLeftIdentity` and
`getRightIdentity` return the same result and `getLeftAbsorbingElement` and
`getRightAbsorbingElement` return the same result; a registered operation that
`isIdempotent` flags is flagged by `isAssociative` and by `isCommutative`. -/
theorem tables_consistent (op : OpCode) (hop : op ∈ opCodes.map Prod.snd) :
    (op.isCommutative = true →
      OpCode.getLeftIdentity op = OpCode.getRightIdentity op ∧
      OpCode.getLeftAbsorbingElement op = OpCode.getRightAbsorbingElement op) ∧
    (op.isIdempotent = true → op.isAssociative = true ∧ op.isCommutative = true) := by
  have h : ∀ o ∈ opCodes.map Prod.snd,
      (o.isCommutative = true →
        OpCode.getLeftIdentity o = OpCode.getRightIdentity o ∧
        OpCode.getLeftAbsorbingElement o = OpCode.getRightAbsorbingElement o) ∧
      (o.isIdempotent = true → o.isAssociative = true ∧ o.isCommutative = true) := by
    decide
  exact h op hop

theorem tables_consistent_witness :
    (OpCode.getLeftIdentity OP_AND = OpCode.getRightIdentity OP_AND ∧
      OpCode.getLeftAbsorbingElement OP_AND = OpCode.getRightAbsorbingElement OP_AND) ∧
    (OP_AND.isAssociative = true ∧ OP_AND.isCommutative = true) :=
  ⟨(tables_consistent OP_AND (by decide)).1 (by decide),
    (tables_consistent OP_AND (by decide)).2 (by decide)⟩

/-! ### Units -/

/-- C35: for a byte count `v` and an alignment `n` above 0, both 64-bit numbers,
`getPaddingTo` returns a number `p` below `n` for which `v + p`, as an integer, is a
multiple of `n`; `p` is 0 exactly when `v` is a multiple of `n`, and no smaller number
makes `v + p` a multiple of `n`. -/
theorem getPaddingTo_minimal (v n : Nat) (hv : v < 2 ^ 64) (hn0 : 0 < n) (hn : n < 2 ^ 64) :
    ∃ p, Byte.getPaddingTo (Byte.ofUInt64 v) n = some p ∧ p < n ∧ (v + p) % n = 0 ∧
      (p = 0 ↔ v % n = 0) ∧ ∀ q, (v + q) % n = 0 → p ≤ q := by
  have hval : (Byte.ofUInt64 v).value = v := Nat.mod_eq_of_lt hv
  have hr : v % n < n := Nat.mod_lt v hn0
  unfold Byte.getPaddingTo
  rw [hval, if_neg (Nat.pos_iff_ne_zero.mp hn0)]
  by_cases h0 : v % n = 0
  · rw [if_pos h0]
    exact ⟨0, rfl, hn0, by rw [Nat.add_zero]; exact h0, by simp [h0], fun q _ => Nat.zero_le q⟩
  · rw [if_neg h0]
    have hp : (n + 2 ^ 64 - v % n) % 2 ^ 64 = n - v % n := by
      have e : n + 2 ^ 64 - v % n = (n - v % n) + 2 ^ 64 := by omega
      rw [e, Nat.add_mod_right, Nat.mod_eq_of_lt (by omega)]
    rw [hp]
    refine ⟨n - v % n, rfl, by omega, ?_, ?_, ?_⟩
    · rw [Nat.add_mod, Nat.mod_eq_of_lt (show n - v % n < n by omega)]
      have e : v % n + (n - v % n) = n := by omega
      rw [e, Nat.mod_self]
    · constructor
      · intro h
        omega
      · intro h
        exact absurd h h0
    · intro q hq
      by_contra hlt
      have hq1 : q < n - v % n := by omega
      rw [Nat.add_mod, Nat.mod_eq_of_lt (show q < n by omega),
        Nat.mod_eq_of_lt (show v % n + q < n by omega)] at hq
      omega

theorem getPaddingTo_minimal_witness :
    Byte.getPaddingTo (Byte.ofUInt64 13) 8 = some 3 := by
  obtain ⟨p, hp, hlt, hmod, _, _⟩ :=
    getPaddingTo_minimal 13 8 (by decide) (by decide) (by decide)
  have h3 : p = 3 := by omega
  rw [hp, h3]

/-- C36: for a word count `w` below `2 ^ 61`, the words of the bytes of `w` words are `w`
words. For a 64-bit byte count `b`, the bytes of the words of `b` bytes are eight times
the quotient of `b` by 8: at most `b`, less than 8 below `b`, and `b` exactly when `b` is a
multiple of 8. -/
theorem word_byte_roundtrip (w b : Nat) (hw : w < 2 ^ 61) (hb : b < 2 ^ 64) :
    (Word.ofBytes (Word.ofUInt64 w).toBytes).getValue = w ∧
    (Word.ofBytes (Byte.ofUInt64 b)).toBytes.getValue = 8 * (b / 8) ∧
    (Word.ofBytes (Byte.ofUInt64 b)).toBytes.getValue ≤ b ∧
    b - (Word.ofBytes (Byte.ofUInt64 b)).toBytes.getValue < 8 ∧
    ((Word.ofBytes (Byte.ofUInt64 b)).toBytes.getValue = b ↔ b % 8 = 0) := by
  simp only [Word.ofBytes, Word.ofUInt64, Word.toBytes, Word.getValue, Byte.ofUInt64,
    Byte.getValue]
  norm_num at hw hb ⊢
  omega

theorem word_byte_roundtrip_witness :
    (Word.ofBytes (Word.ofUInt64 5).toBytes).getValue = 5 ∧
    (Word.ofBytes (Byte.ofUInt64 13)).toBytes.getValue = 8 * (13 / 8) ∧
    (Word.ofBytes (Byte.ofUInt64 13)).toBytes.getValue ≤ 13 ∧
    13 - (Word.ofBytes (Byte.ofUInt64 13)).toBytes.getValue < 8 ∧
    ((Word.ofBytes (Byte.ofUInt64 13)).toBytes.getValue = 13 ↔ 13 % 8 = 0) :=
  word_byte_roundtrip 5 13 (by decide) (by decide)

/-! ### Texture setup -/

theorem and_mask_of_cover (m s : Nat) (hcov : m % 2 ^ 20 = 2 ^ 20 - 1) (hs : s < 2 ^ 18) :
    s &&& m = s ∧ m &&& s = s := by
  have hbit : ∀ i, i < 20 → m.testBit i = true := by
    intro i hi
    have h := congrArg (fun z => Nat.testBit z i) hcov
    simp only [Nat.testBit_mod_two_pow, Nat.testBit_two_pow_sub_one, hi, decide_True,
      Bool.true_and] at h
    exact h
  have h1 : s &&& m = s := by
    apply Nat.eq_of_testBit_eq
    intro i
    rw [Nat.testBit_and]
    by_cases hi : i < 18
    · rw [hbit i (by omega), Bool.and_true]
    · have : s.testBit i = false :=
        Nat.testBit_lt_two_pow (lt_of_lt_of_le hs (Nat.pow_le_pow_right (by decide) (by omega)))
      rw [this, Bool.false_and]
  exact ⟨h1, by rw [Nat.and_comm]; exact h1⟩

theorem type_bits_cleared (m : Nat) (hcov : m % 2 ^ 20 = 2 ^ 20 - 1) :
    2 ^ 30 &&& (0xFFFFFFFF ^^^ ((m <<< 12) % 2 ^ 32)) = 0 := by
  have hbit : m.testBit 18 = true := by
    have h := congrArg (fun z => Nat.testBit z 18) hcov
    simp only [Nat.testBit_mod_two_pow, Nat.testBit_two_pow_sub_one] at h
    simpa using h
  apply Nat.eq_of_testBit_eq
  intro i
  rw [Nat.testBit_and, Nat.zero_testBit, Nat.testBit_two_pow]
  by_cases hi : 30 = i
  · subst hi
    have h32 : Nat.testBit 0xFFFFFFFF 30 = true := by decide
    rw [Nat.testBit_xor, h32, Nat.testBit_mod_two_pow, Nat.testBit_shiftLeft]
    simp [hbit]
  · simp [hi]

theorem stride_word (s f : Nat) (hs : s < 2 ^ 18) (hf : f < 2) :
    ((s <<< 12) % 2 ^ 32 &&& (0xFFFFFFFF ^^^ ((1 <<< 0) % 2 ^ 32))) |||
      (((f &&& 1) <<< 0) % 2 ^ 32) = s * 2 ^ 12 + f := by
  have e1 : (s <<< 12) % 2 ^ 32 = 2 ^ 12 * s := by
    rw [Nat.shiftLeft_eq]
    norm_num at hs ⊢
    omega
  have e2 : (0xFFFFFFFF ^^^ ((1 <<< 0) % 2 ^ 32)) = (2 ^ 32 - 1) ^^^ 1 := by decide
  have e3 : ((f &&& 1) <<< 0) % 2 ^ 32 = f := by
    have : f = 0 ∨ f = 1 := by omega
    rcases this with rfl | rfl <;> rfl
  have e4 : 2 ^ 12 * s % 2 ^ 32 = 2 ^ 12 * s := by
    norm_num at hs ⊢
    omega
  have e5 : 2 ^ 12 * s % 2 = 0 := by omega
  rw [e1, e2, e3, Nat.and_xor_distrib_left, Nat.and_pow_two_sub_one_eq_mod, Nat.and_one_is_mod,
    e4, e5, Nat.xor_zero, ← Nat.mul_add_lt_is_or (by omega), Nat.mul_comm]

theorem stride_reads_type_bit (m v : Nat) (hcov : m % 2 ^ 20 = 2 ^ 20 - 1)
    (ht : Bitfield.getEntry v 30 Bitfield.MASK_Tuple = 1) :
    2 ^ 18 ≤ Bitfield.getEntry v 12 m := by
  have hbit : m.testBit 18 = true := by
    have h := congrArg (fun z => Nat.testBit z 18) hcov
    simp only [Nat.testBit_mod_two_pow, Nat.testBit_two_pow_sub_one] at h
    simpa using h
  have h30 : v.testBit 30 = true := by
    have h := congrArg (fun z => Nat.testBit z 0) ht
    simp only [Bitfield.getEntry, Nat.testBit_and, Nat.testBit_shiftRight] at h
    have h3 : Nat.testBit Bitfield.MASK_Tuple 0 = true := by decide
    have h1 : Nat.testBit 1 0 = true := by decide
    rw [h3, h1, Bool.true_and] at h
    exact h
  apply Nat.testBit_implies_ge
  rw [Bitfield.getEntry, Nat.testBit_and, Nat.testBit_shiftRight, hbit, Bool.true_and]
  exact h30

/-- C37, on the code: for every mask of the length `Int` that covers the 20 bits of the
texture base pointer at position 12, every cube-map stride below `2 ^ 18` and either
value of the flag, the word that the constructor builds is `stride * 2 ^ 12` plus the
flag: it reads back the stride and the flag, and its parameter type is `NONE`, not
`CUBE_MAP`, because the setter of the stride clears the bits 30 and 31. The two fields
overlap: a word whose parameter type reads `CUBE_MAP` has a stride of `2 ^ 18` or more. -/
theorem cubeMapStride_clears_type (lenInt stride : Nat) (flag : Bool)
    (hcov : lenInt % 2 ^ 20 = 2 ^ 20 - 1) (hs : stride < 2 ^ 18) :
    (periphery.ExtendedTextureSetup.ofCubeMapStride lenInt stride flag).value
      = stride * 2 ^ 12 + (if flag then 1 else 0) ∧
    (periphery.ExtendedTextureSetup.ofCubeMapStride lenInt stride flag).getParameterType
      = periphery.ParameterType.NONE ∧
    periphery.ParameterType.NONE ≠ periphery.ParameterType.CUBE_MAP ∧
    periphery.ExtendedTextureSetup.getCubeMapStride lenInt
      (periphery.ExtendedTextureSetup.ofCubeMapStride lenInt stride flag) = stride ∧
    (periphery.ExtendedTextureSetup.ofCubeMapStride lenInt stride flag).getDisableAutomaticLOD
      = flag ∧
    (∀ s : periphery.ExtendedTextureSetup,
      s.getParameterType = periphery.ParameterType.CUBE_MAP →
        2 ^ 18 ≤ periphery.ExtendedTextureSetup.getCubeMapStride lenInt s) := by
  have hf : (if flag then 1 else 0 : Nat) < 2 := by
    cases flag <;> decide
  have hval : (periphery.ExtendedTextureSetup.ofCubeMapStride lenInt stride flag).value
      = stride * 2 ^ 12 + (if flag then 1 else 0) := by
    show ((((0 &&& (0xFFFFFFFF ^^^ ((Bitfield.MASK_Tuple <<< 30) % 2 ^ 32))) |||
        (((1 &&& Bitfield.MASK_Tuple) <<< 30) % 2 ^ 32)) &&&
          (0xFFFFFFFF ^^^ ((lenInt <<< 12) % 2 ^ 32))) |||
        (((stride &&& lenInt) <<< 12) % 2 ^ 32)) &&&
          (0xFFFFFFFF ^^^ ((Bitfield.MASK_Bit <<< 0) % 2 ^ 32)) |||
        ((((if flag then 1 else 0) &&& Bitfield.MASK_Bit) <<< 0) % 2 ^ 32) = _
    have e0 : ((0 &&& (0xFFFFFFFF ^^^ ((Bitfield.MASK_Tuple <<< 30) % 2 ^ 32))) |||
        (((1 &&& Bitfield.MASK_Tuple) <<< 30) % 2 ^ 32)) = 2 ^ 30 := by decide
    rw [e0, type_bits_cleared lenInt hcov, (and_mask_of_cover lenInt stride hcov hs).1,
      Nat.zero_or]
    exact stride_word stride _ hs hf
  have hdiv : (stride * 2 ^ 12 + (if flag then 1 else 0)) >>> 12 = stride := by
    rw [Nat.shiftRight_eq_div_pow]
    omega
  refine ⟨hval, ?_, by decide, ?_, ?_, ?_⟩
  · show periphery.ParameterType.mk (Bitfield.MASK_Tuple &&& (_ >>> 30)) = ⟨0⟩
    rw [hval]
    have e : (stride * 2 ^ 12 + (if flag then 1 else 0)) >>> 30 = 0 := by
      rw [Nat.shiftRight_eq_div_pow]
      norm_num at hs ⊢
      omega
    rw [e]
    rfl
  · show lenInt &&& (_ >>> 12) = stride
    rw [hval, hdiv]
    exact (and_mask_of_cover lenInt stride hcov hs).2
  · show (Bitfield.MASK_Bit &&& (_ >>> 0) != 0) = flag
    rw [hval, Nat.shiftRight_zero, Bitfield.MASK_Bit, Nat.and_comm, Nat.and_one_is_mod]
    cases flag
    · have : (stride * 2 ^ 12 + (if false then 1 else 0)) % 2 = 0 := by
        simp only [Bool.false_eq_true, if_false]
        omega
      rw [this]
      rfl
    · have : (stride * 2 ^ 12 + (if true then 1 else 0)) % 2 = 1 := by
        simp only [if_true]
        omega
      rw [this]
      rfl
  · intro s h
    exact stride_reads_type_bit lenInt s.value hcov (congrArg periphery.ParameterType.value h)

theorem cubeMapStride_clears_type_witness :
    (periphery.ExtendedTextureSetup.ofCubeMapStride Bitfield.MASK_Int 1 false).value = 0x1000 ∧
    (periphery.ExtendedTextureSetup.ofCubeMapStride Bitfield.MASK_Int 1 false).getParameterType
      = periphery.ParameterType.NONE ∧
    periphery.ExtendedTextureSetup.getCubeMapStride Bitfield.MASK_Int
      (periphery.ExtendedTextureSetup.ofCubeMapStride Bitfield.MASK_Int 1 false) = 1 ∧
    (periphery.ExtendedTextureSetup.ofCubeMapStride Bitfield.MASK_Int 1 false).getDisableAutomaticLOD
      = false :=
  ⟨(cubeMapStride_clears_type Bitfield.MASK_Int 1 false (by decide) (by decide)).1,
    (cubeMapStride_clears_type Bitfield.MASK_Int 1 false (by decide) (by decide)).2.1,
    (cubeMapStride_clears_type Bitfield.MASK_Int 1 false (by decide) (by decide)).2.2.2.1,
    (cubeMapStride_clears_type Bitfield.MASK_Int 1 false (by decide) (by decide)).2.2.2.2.1⟩

end vc4c
